import Mathlib

/-!
# The AMR dual grid helper (`Servers/Filters/vtkAMRDualGridHelper.cxx`)

A shallow embedding of the block registry, the shared-region ownership
resolver and the degenerate-region copy of `vtkAMRDualGridHelper`, followed by
theorems about them.

Conventions of the embedding.

* C++ `int` is `Int` (no wrap-around is modelled; the indices involved are
  small), `unsigned char` is `Nat`.
* A `vtkAMRDualGridHelperBlock*` that points into `Levels[l]->Blocks` is the
  position of the block in that vector; the null pointer is `none`.
* A heap array is a `List`; the null array pointer is `none`.  Reading or
  writing outside the allocated array is undefined behaviour in the source; the
  embedding reads null there and drops the write (`readAt`, `writeAt`), and the
  linear index itself is always computed exactly as the source computes it.
* `a >> d` on `int` is the arithmetic shift `Int.shiftRight` (floor division by
  `2^d`), `a << d` is multiplication by `2^d`.
-/

/-! ## Constants -/

/-- Modelled from the spec: the owner bit of a `RegionBits` entry, declared in
`vtkAMRDualGridHelper.h` (not among the sources).  The low seven bits store the
level difference, so the owner bit is the eighth one. -/
def vtkAMRRegionBitOwner : Nat := 128

/-- Modelled from the spec: the mask of the level difference inside a
`RegionBits` entry, declared in `vtkAMRDualGridHelper.h` (not among the
sources): "a mask reserving bits for level differences up to 127". -/
def vtkAMRRegionBitsDegenerateMask : Nat := 127

/-! ## Arrays addressed by an `int` -/

/-- Read `g[i]` of an array of pointers; null outside the allocation. -/
def readAt (g : List (Option Nat)) (i : Int) : Option Nat :=
  if i < 0 then none else g.getD i.toNat none

/-- Write `g[i] = v`; dropped outside the allocation. -/
def writeAt {α : Type} (g : List α) (i : Int) (v : α) : List α :=
  if i < 0 then g else g.set i.toNat v

/-- The values `a, a+1, ..., b` of a loop `for (i = a; i <= b; ++i)`. -/
def intRange (a b : Int) : List Int :=
  (List.range (b + 1 - a).toNat).map (fun (i : Nat) => a + (i : Int))

/-! ## Data model -/

/-- The six integers of an extent `int ext[6]`. -/
structure Ext6 where
  e0 : Int
  e1 : Int
  e2 : Int
  e3 : Int
  e4 : Int
  e5 : Int
  deriving DecidableEq, Repr

/-- The part of a `vtkImageData` the helper reads: the cell array named
`ArrayName` (`none` when the image has no such array), with its data type.
The array holds the cells of the ghost-padded block, x fastest. -/
structure vtkImageData where
  DataType : Nat
  Scalars : Option (List Int)
  deriving DecidableEq, Repr

/-- A block of the registry (`vtkAMRDualGridHelperBlock`).  `RegionBits` is the
`unsigned char [3][3][3]` array laid out as C does: entry `[x][y][z]` is at
position `9*x + 3*y + z`. -/
structure vtkAMRDualGridHelperBlock where
  Level : Int
  GridIndex : Int × Int × Int
  OriginIndex : Int × Int × Int
  ProcessId : Int
  Image : Option vtkImageData
  CopyFlag : Bool
  RegionBits : List Nat
  BoundaryBits : Nat
  deriving DecidableEq, Repr

/-- The constructor `vtkAMRDualGridHelperBlock::vtkAMRDualGridHelperBlock`:
every region defaults to "own", every face to "boundary".  `localProcessId` is
what `GetGlobalController()->GetLocalProcessId()` returns. -/
def vtkAMRDualGridHelperBlock.new (localProcessId : Int) : vtkAMRDualGridHelperBlock :=
  { Level := 0
    GridIndex := (0, 0, 0)
    OriginIndex := (0, 0, 0)
    ProcessId := localProcessId
    Image := none
    CopyFlag := false
    RegionBits := List.replicate 27 vtkAMRRegionBitOwner
    BoundaryBits := 63 }

/-- A level of the registry (`vtkAMRDualGridHelperLevel`). -/
structure vtkAMRDualGridHelperLevel where
  Level : Int
  Blocks : List vtkAMRDualGridHelperBlock
  GridExtent : Ext6
  GridIncY : Int
  GridIncZ : Int
  Grid : Option (List (Option Nat))
  deriving DecidableEq, Repr

/-- The constructor `vtkAMRDualGridHelperLevel::vtkAMRDualGridHelperLevel`: no
grid, empty extent.  The constructor leaves `GridIncY` and `GridIncZ`
uninitialised; they are not read before `AddGridBlock` sets them. -/
def vtkAMRDualGridHelperLevel.new : vtkAMRDualGridHelperLevel :=
  { Level := 0
    Blocks := []
    GridExtent := ⟨0, -1, 0, -1, 0, -1⟩
    GridIncY := 0
    GridIncZ := 0
    Grid := none }

/-- A level as `Initialize` creates it: constructed, then `Level` set to its
position. -/
def vtkAMRDualGridHelperLevel.newAt (level : Int) : vtkAMRDualGridHelperLevel :=
  { Level := level
    Blocks := []
    GridExtent := ⟨0, -1, 0, -1, 0, -1⟩
    GridIncY := 0
    GridIncZ := 0
    Grid := none }

/-- The linear index `x + y*GridIncY + z*GridIncZ` that `GetGridBlock` and
`AddGridBlock` use. -/
def vtkAMRDualGridHelperLevel.gridIndex (self : vtkAMRDualGridHelperLevel)
    (x y z : Int) : Int :=
  x + y * self.GridIncY + z * self.GridIncZ

/-- `vtkAMRDualGridHelperLevel::GetGridBlock`. -/
def vtkAMRDualGridHelperLevel.GetGridBlock (self : vtkAMRDualGridHelperLevel)
    (x y z : Int) : Option Nat :=
  if x < self.GridExtent.e0 ∨ x > self.GridExtent.e1 then none
  else if y < self.GridExtent.e2 ∨ y > self.GridExtent.e3 then none
  else if z < self.GridExtent.e4 ∨ z > self.GridExtent.e5 then none
  else readAt (self.Grid.getD []) (self.gridIndex x y z)

/-- The coordinates visited by the three nested loops over an extent, z
outermost and x innermost, in the order of the visit. -/
def extentCoords (e : Ext6) : List (Int × Int × Int) :=
  (intRange e.e4 e.e5).flatMap fun kk =>
    (intRange e.e2 e.e3).flatMap fun jj =>
      (intRange e.e0 e.e1).map fun ii => (ii, jj, kk)

/-- The copy loop of `AddGridBlock`: the old array is read front to back
(`*ptr++`) while the old extent is traversed, and each entry is stored at its
position in the new array. -/
def copyGrid (old : List (Option Nat)) (oldExt : Ext6) (yInc zInc : Int)
    (newGrid : List (Option Nat)) : List (Option Nat) :=
  ((extentCoords oldExt).zip old).foldl
    (fun g p => writeAt g (p.1.1 + p.1.2.1 * yInc + p.1.2.2 * zInc) p.2) newGrid

/-- The reallocation branch of `AddGridBlock`. -/
def vtkAMRDualGridHelperLevel.grow (self : vtkAMRDualGridHelperLevel)
    (x y z : Int) : vtkAMRDualGridHelperLevel :=
  let e := self.GridExtent
  let newExt : Ext6 :=
    ⟨if e.e0 < x then e.e0 else x, if e.e1 > x then e.e1 else x,
     if e.e2 < y then e.e2 else y, if e.e3 > y then e.e3 else y,
     if e.e4 < z then e.e4 else z, if e.e5 > z then e.e5 else z⟩
  let yInc := newExt.e1 - newExt.e0 + 1
  let zInc := (newExt.e3 - newExt.e2 + 1) * yInc
  let newSize := zInc * (newExt.e5 - newExt.e4 + 1)
  let newGrid := List.replicate newSize.toNat (none : Option Nat)
  { self with
    GridExtent := newExt
    GridIncY := yInc
    GridIncZ := zInc
    Grid := some (copyGrid (self.Grid.getD []) e yInc zInc newGrid) }

/-- `vtkAMRDualGridHelperLevel::AddGridBlock`: returns the level after the call
and the new block (its position in `Blocks`). -/
def vtkAMRDualGridHelperLevel.AddGridBlock (self : vtkAMRDualGridHelperLevel)
    (x y z : Int) (volume : Option vtkImageData) (localProcessId : Int) :
    vtkAMRDualGridHelperLevel × Nat :=
  let e := self.GridExtent
  let g : vtkAMRDualGridHelperLevel :=
    if self.Grid = none ∨ x < e.e0 ∨ x > e.e1 ∨ y < e.e2 ∨ y > e.e3 ∨ z < e.e4 ∨ z > e.e5
    then self.grow x y z else self
  let newBlock : vtkAMRDualGridHelperBlock :=
    { vtkAMRDualGridHelperBlock.new localProcessId with
      Image := volume
      Level := g.Level
      GridIndex := (x, y, z) }
  let idx := g.Blocks.length
  ({ g with
     Grid := g.Grid.map fun a => writeAt a (g.gridIndex x y z) (some idx)
     Blocks := g.Blocks ++ [newBlock] }, idx)

/-- The level obtained from a level by a sequence of `AddGridBlock` calls. -/
def addGridBlocks (l : vtkAMRDualGridHelperLevel) (localProcessId : Int) :
    List ((Int × Int × Int) × Option vtkImageData) → vtkAMRDualGridHelperLevel
  | [] => l
  | c :: cs => addGridBlocks (l.AddGridBlock c.1.1 c.1.2.1 c.1.2.2 c.2 localProcessId).1
      localProcessId cs


/-! ## The helper -/

/-- A pointer to a block of the registry: the position of its level in
`Levels` and its position in that level's `Blocks`. -/
abbrev BlockPtr := Nat × Nat

/-- A queue item (`vtkAMRDualGridHelperDegenerateRegion`). -/
structure vtkAMRDualGridHelperDegenerateRegion where
  ReceivingBlock : BlockPtr
  ReceivingRegion : Int × Int × Int
  SourceBlock : BlockPtr
  deriving DecidableEq, Repr

/-- The state of a `vtkAMRDualGridHelper` that the registry, the resolver and
the data mover read and write. -/
structure vtkAMRDualGridHelper where
  Levels : List vtkAMRDualGridHelperLevel
  EnableDegenerateCells : Bool
  SkipGhostCopy : Bool
  StandardBlockDimensions : Int × Int × Int
  DataTypeSize : Int
  DegenerateRegionQueue : List vtkAMRDualGridHelperDegenerateRegion
  deriving DecidableEq, Repr

/-- The level `this->Levels[level]`. -/
def vtkAMRDualGridHelper.levelAt (self : vtkAMRDualGridHelper) (level : Nat) :
    vtkAMRDualGridHelperLevel :=
  self.Levels.getD level vtkAMRDualGridHelperLevel.new

/-- Dereference a block pointer. -/
def vtkAMRDualGridHelper.blockAt (self : vtkAMRDualGridHelper) (p : BlockPtr) :
    vtkAMRDualGridHelperBlock :=
  (self.levelAt p.1).Blocks.getD p.2 (vtkAMRDualGridHelperBlock.new 0)

/-- Assign through a block pointer: `*p = f (*p)`. -/
def vtkAMRDualGridHelper.modifyBlock (self : vtkAMRDualGridHelper) (p : BlockPtr)
    (f : vtkAMRDualGridHelperBlock → vtkAMRDualGridHelperBlock) : vtkAMRDualGridHelper :=
  { self with
    Levels := self.Levels.modify (fun l => { l with Blocks := l.Blocks.modify f p.2 }) p.1 }

/-- `vtkAMRDualGridHelper::GetNumberOfLevels`. -/
def vtkAMRDualGridHelper.GetNumberOfLevels (self : vtkAMRDualGridHelper) : Int :=
  (self.Levels.length : Int)

/-- `vtkAMRDualGridHelper::GetBlock(int level, int xGrid, int yGrid, int zGrid)`. -/
def vtkAMRDualGridHelper.GetBlock (self : vtkAMRDualGridHelper)
    (level xGrid yGrid zGrid : Int) : Option BlockPtr :=
  if level < 0 ∨ level ≥ (self.Levels.length : Int) then none
  else ((self.levelAt level.toNat).GetGridBlock xGrid yGrid zGrid).map
    fun i => (level.toNat, i)

/-! ## The same-process degenerate copy -/

/-- Read `a[i]` of a cell array; `0` outside the allocation. -/
def readCell (a : List Int) (i : Int) : Int :=
  if i < 0 then 0 else a.getD i.toNat 0

/-- The template `vtkDualGridHelperCopyBlockToBlock`: returns the array `ptr`
after the copy.  The running pointers `zPtr`, `yPtr`, `xPtr` of the source start
at `ptr + ext[0] + yInc*ext[2] + zInc*ext[4]` and advance by `zInc`, `yInc` and
`1`, so `xPtr` is `ptr + x + yInc*y + zInc*z` when it is written. -/
def vtkDualGridHelperCopyBlockToBlock (ptr lowerPtr : List Int) (ext : Ext6)
    (levelDiff : Nat) (yInc zInc : Int)
    (highResBlockOriginIndex lowResBlockOriginIndex : Int × Int × Int) : List Int :=
  (intRange ext.e4 ext.e5).foldl (fun pz z =>
    let lz := ((z + highResBlockOriginIndex.2.2) >>> levelDiff) - lowResBlockOriginIndex.2.2
    (intRange ext.e2 ext.e3).foldl (fun py y =>
      let ly := ((y + highResBlockOriginIndex.2.1) >>> levelDiff) - lowResBlockOriginIndex.2.1
      (intRange ext.e0 ext.e1).foldl (fun px x =>
        let lx := ((x + highResBlockOriginIndex.1) >>> levelDiff) - lowResBlockOriginIndex.1
        let val := readCell lowerPtr (lx + ly * yInc + lz * zInc)
        writeAt px (x + yInc * y + zInc * z) val) py) pz) ptr

/-- One `switch (region)` of the copy routines, applied to the pair
`(ext[2a], ext[2a+1])` of an axis. -/
def regionAxisExt (lo hi region : Int) : Int × Int :=
  if region = -1 then (lo, lo)
  else if region = 0 then (lo + 1, hi - 1)
  else if region = 1 then (hi, hi)
  else (lo, hi)

/-- The extent of the high-resolution region that the copy routines replace:
the ghost-padded block `[0, dim+1]` cut down by the three switches. -/
def degenerateRegionExt (dims : Int × Int × Int) (regionX regionY regionZ : Int) : Ext6 :=
  let ex := regionAxisExt 0 (dims.1 + 1) regionX
  let ey := regionAxisExt 0 (dims.2.1 + 1) regionY
  let ez := regionAxisExt 0 (dims.2.2 + 1) regionZ
  ⟨ex.1, ex.2, ey.1, ey.2, ez.1, ez.2⟩

/-- `vtkAMRDualGridHelper::CopyDegenerateRegionBlockToBlock`.  The deep copy
made when `CopyFlag` is 0 has the values of the image it replaces, so only the
flag changes there.  Every data type is taken to be one the template macro
dispatches on. -/
def vtkAMRDualGridHelper.CopyDegenerateRegionBlockToBlock (self : vtkAMRDualGridHelper)
    (regionX regionY regionZ : Int) (lowResBlock highResBlock : BlockPtr) :
    vtkAMRDualGridHelper :=
  let low := self.blockAt lowResBlock
  let high := self.blockAt highResBlock
  let levelDiff := high.Level - low.Level
  if levelDiff = 0 then self
  else if levelDiff < 0 then self
  else
    let self1 := self.modifyBlock highResBlock fun b => { b with CopyFlag := true }
    match high.Image, low.Image with
    | some hImg, some lImg =>
      match hImg.Scalars, lImg.Scalars with
      | some ptr, some lowerPtr =>
        if lImg.DataType ≠ hImg.DataType then self1
        else
          let ext1 := self.StandardBlockDimensions.1 + 1
          let ext5 := self.StandardBlockDimensions.2.2 + 1
          let yInc := ext1 - 0 + 1
          let zInc := yInc * (ext5 - 0 + 1)
          let ext := degenerateRegionExt self.StandardBlockDimensions regionX regionY regionZ
          let out := vtkDualGridHelperCopyBlockToBlock ptr lowerPtr ext levelDiff.toNat
            yInc zInc high.OriginIndex low.OriginIndex
          self1.modifyBlock highResBlock fun b =>
            { b with Image := some { hImg with Scalars := some out } }
      | _, _ => self1
    | _, _ => self1

/-! ## The shared-region ownership resolver -/

/-- Position of `RegionBits[x][y][z]` in the flattened array. -/
def regionBitsIndex (x y z : Int) : Int := 9 * x + 3 * y + z

/-- Read `RegionBits[x][y][z]`. -/
def vtkAMRDualGridHelperBlock.regionBits (b : vtkAMRDualGridHelperBlock) (x y z : Int) : Nat :=
  if regionBitsIndex x y z < 0 then 0 else b.RegionBits.getD (regionBitsIndex x y z).toNat 0

/-- Assign `RegionBits[x][y][z] = v`. -/
def vtkAMRDualGridHelperBlock.setRegionBits (b : vtkAMRDualGridHelperBlock) (x y z : Int)
    (v : Nat) : vtkAMRDualGridHelperBlock :=
  { b with RegionBits := writeAt b.RegionBits (regionBitsIndex x y z) v }

/-- The two masks applied to `block->BoundaryBits` and
`neighborBlock->BoundaryBits` by the six tests of `ClaimBlockSharedRegion` on
the offset `(ix,iy,iz)`; `none` when no test fires. -/
def boundaryMasks (ix iy iz : Int) : Option (Nat × Nat) :=
  if ix = -1 ∧ iy = 0 ∧ iz = 0 then some (62, 61)
  else if ix = 1 ∧ iy = 0 ∧ iz = 0 then some (61, 62)
  else if ix = 0 ∧ iy = -1 ∧ iz = 0 then some (59, 55)
  else if ix = 0 ∧ iy = 1 ∧ iz = 0 then some (55, 59)
  else if ix = 0 ∧ iy = 0 ∧ iz = -1 then some (47, 31)
  else if ix = 0 ∧ iy = 0 ∧ iz = 1 then some (31, 47)
  else none

/-- The local variables of `ClaimBlockSharedRegion` that survive an iteration,
together with the helper. -/
structure ClaimState where
  helper : vtkAMRDualGridHelper
  bestLevel : Int
  bestDist : Int
  bestBlock : BlockPtr
  deriving DecidableEq, Repr

/-- The six tests of `ClaimBlockSharedRegion` that turn off a boundary bit of
`block` and the opposite one of `neighborBlock` when the offset is a face
direction. -/
def clearBoundaryBits (h : vtkAMRDualGridHelper) (block neighborBlock : BlockPtr)
    (ix iy iz : Int) : vtkAMRDualGridHelper :=
  match boundaryMasks ix iy iz with
  | none => h
  | some m =>
    (h.modifyBlock block fun b =>
      { b with BoundaryBits := b.BoundaryBits &&& m.1 }).modifyBlock neighborBlock
        fun b => { b with BoundaryBits := b.BoundaryBits &&& m.2 }

/-- The branch `if (neighborBlock)` of the innermost loop of
`ClaimBlockSharedRegion`: `nb` is the block found at the offset `(ix,iy,iz)` in
the grid of `lowerLevel`. -/
def claimFound (block : BlockPtr) (regionX regionY regionZ : Int)
    (lowerLevel : Int) (st : ClaimState) (ix iy iz : Int) (nb : Nat) : ClaimState :=
  let neighborBlock : BlockPtr := (lowerLevel.toNat, nb)
  let h1 := clearBoundaryBits st.helper block neighborBlock ix iy iz
  if h1.EnableDegenerateCells then
    let h2 := h1.modifyBlock neighborBlock fun b =>
      b.setRegionBits (regionX - ix - ix + 1) (regionY - iy - iy + 1)
        (regionZ - iz - iz + 1) 0
    let tx := regionX - ix
    let ty := regionY - iy
    let tz := regionZ - iz
    let dist := tx * tx + ty * ty + tz * tz
    if dist < st.bestDist then
      { helper := h2, bestLevel := lowerLevel, bestDist := dist, bestBlock := neighborBlock }
    else { st with helper := h2 }
  else { st with helper := h1 }

/-- The body of the innermost loop of `ClaimBlockSharedRegion` for the offset
`(ix,iy,iz)` at level `lowerLevel`. -/
def claimNeighbor (block : BlockPtr) (blockX blockY blockZ regionX regionY regionZ : Int)
    (lowerLevel : Int) (levelDifference : Nat) (st : ClaimState) (ix iy iz : Int) :
    ClaimState :=
  if ix ≠ 0 ∨ iy ≠ 0 ∨ iz ≠ 0 then
    let lowerX := (blockX + ix) >>> levelDifference
    let lowerY := (blockY + iy) >>> levelDifference
    let lowerZ := (blockZ + iz) >>> levelDifference
    match (st.helper.levelAt lowerLevel.toNat).GetGridBlock lowerX lowerY lowerZ with
    | none => st
    | some nb => claimFound block regionX regionY regionZ lowerLevel st ix iy iz nb
  else st

/-- The test of `ClaimBlockSharedRegion` that the region lies on a grid
boundary of the level `levelDifference` levels down: `ext3 = (ext1 >> d) << d`
compared with `ext1` on the side the region points to. -/
def onLowerGridBoundary (blockX blockY blockZ regionX regionY regionZ : Int)
    (levelDifference : Nat) : Prop :=
  (regionX = -1 ∧ (blockX >>> levelDifference) * 2 ^ levelDifference = blockX) ∨
  (regionX = 1 ∧ ((blockX + 1) >>> levelDifference) * 2 ^ levelDifference = blockX + 1) ∨
  (regionY = -1 ∧ (blockY >>> levelDifference) * 2 ^ levelDifference = blockY) ∨
  (regionY = 1 ∧ ((blockY + 1) >>> levelDifference) * 2 ^ levelDifference = blockY + 1) ∨
  (regionZ = -1 ∧ (blockZ >>> levelDifference) * 2 ^ levelDifference = blockZ) ∨
  (regionZ = 1 ∧ ((blockZ + 1) >>> levelDifference) * 2 ^ levelDifference = blockZ + 1)

instance (blockX blockY blockZ regionX regionY regionZ : Int) (d : Nat) :
    Decidable (onLowerGridBoundary blockX blockY blockZ regionX regionY regionZ d) := by
  unfold onLowerGridBoundary; infer_instance

/-- The offsets `(ix,iy,iz)` of the three nested neighbour loops of
`ClaimBlockSharedRegion`, in the order of the visit (`iz` outermost). -/
def neighborOffsets (regionX regionY regionZ : Int) : List (Int × Int × Int) :=
  let startX := if regionX < 0 then regionX else 0
  let endX := if regionX < 0 then 0 else regionX
  let startY := if regionY < 0 then regionY else 0
  let endY := if regionY < 0 then 0 else regionY
  let startZ := if regionZ < 0 then regionZ else 0
  let endZ := if regionZ < 0 then 0 else regionZ
  (intRange startZ endZ).flatMap fun iz =>
    (intRange startY endY).flatMap fun iy =>
      (intRange startX endX).map fun ix => (ix, iy, iz)

/-- One iteration of the loop over `lowerLevel` of `ClaimBlockSharedRegion`. -/
def claimLevel (block : BlockPtr) (blockLevel : Int)
    (blockX blockY blockZ regionX regionY regionZ : Int)
    (st : ClaimState) (lowerLevel : Int) : ClaimState :=
  let levelDifference := (blockLevel - lowerLevel).toNat
  if onLowerGridBoundary blockX blockY blockZ regionX regionY regionZ levelDifference then
    (neighborOffsets regionX regionY regionZ).foldl
      (fun s o => claimNeighbor block blockX blockY blockZ regionX regionY regionZ
        lowerLevel levelDifference s o.1 o.2.1 o.2.2) st
  else st

/-- The loop over `lowerLevel` of `ClaimBlockSharedRegion`, from `blockLevel`
down to 0. -/
def claimLevels (self : vtkAMRDualGridHelper) (block : BlockPtr)
    (blockX blockY blockZ regionX regionY regionZ : Int) : ClaimState :=
  let blockLevel := (self.blockAt block).Level
  (intRange 0 blockLevel).reverse.foldl
    (claimLevel block blockLevel blockX blockY blockZ regionX regionY regionZ)
    { helper := self
      bestLevel := blockLevel
      bestDist := regionX * regionX + regionY * regionY + regionZ * regionZ
      bestBlock := block }

/-- `vtkAMRDualGridHelper::ClaimBlockSharedRegion`: the helper after the call
and the returned level. -/
def vtkAMRDualGridHelper.ClaimBlockSharedRegion (self : vtkAMRDualGridHelper)
    (block : BlockPtr) (blockX blockY blockZ regionX regionY regionZ : Int) :
    vtkAMRDualGridHelper × Int :=
  let blockLevel := (self.blockAt block).Level
  let st := claimLevels self block blockX blockY blockZ regionX regionY regionZ
  let h := st.helper
  if h.EnableDegenerateCells ∧ st.bestLevel < blockLevel then
    if (h.blockAt block).Image = none ∨ (h.blockAt st.bestBlock).Image = none then
      let dreg : vtkAMRDualGridHelperDegenerateRegion :=
        { ReceivingBlock := block
          ReceivingRegion := (regionX, regionY, regionZ)
          SourceBlock := st.bestBlock }
      if ¬ h.SkipGhostCopy then
        ({ h with DegenerateRegionQueue := h.DegenerateRegionQueue ++ [dreg] }, st.bestLevel)
      else (h, st.bestLevel)
    else
      (h.CopyDegenerateRegionBlockToBlock regionX regionY regionZ st.bestBlock block,
        st.bestLevel)
  else (h, st.bestLevel)

/-- The regions `(rx,ry,rz)` of the three nested loops of
`AssignBlockSharedRegions`, in the order of the visit (`rz` outermost). -/
def regionDirections : List (Int × Int × Int) :=
  (intRange (-1) 1).flatMap fun rz =>
    (intRange (-1) 1).flatMap fun ry =>
      (intRange (-1) 1).map fun rx => (rx, ry, rz)

/-- The body of the innermost loop of `AssignBlockSharedRegions`. -/
def assignRegion (block : BlockPtr) (blockLevel blockX blockY blockZ : Int)
    (self : vtkAMRDualGridHelper) (r : Int × Int × Int) : vtkAMRDualGridHelper :=
  let rx := r.1
  let ry := r.2.1
  let rz := r.2.2
  if (rx ≠ 0 ∨ ry ≠ 0 ∨ rz ≠ 0) ∧
      ((self.blockAt block).regionBits (rx + 1) (ry + 1) (rz + 1) &&& vtkAMRRegionBitOwner) ≠ 0
  then
    let res := self.ClaimBlockSharedRegion block blockX blockY blockZ rx ry rz
    let degeneracyLevel := res.2
    if res.1.EnableDegenerateCells ∧ degeneracyLevel < blockLevel then
      let levelDiff : Nat := ((blockLevel - degeneracyLevel) % 256).toNat
      res.1.modifyBlock block fun b =>
        b.setRegionBits (rx + 1) (ry + 1) (rz + 1)
          (vtkAMRRegionBitOwner + (vtkAMRRegionBitsDegenerateMask &&& levelDiff))
    else res.1
  else self

/-- `vtkAMRDualGridHelper::AssignBlockSharedRegions`. -/
def vtkAMRDualGridHelper.AssignBlockSharedRegions (self : vtkAMRDualGridHelper)
    (block : BlockPtr) (blockLevel blockX blockY blockZ : Int) : vtkAMRDualGridHelper :=
  regionDirections.foldl (assignRegion block blockLevel blockX blockY blockZ) self

/-- The body of the grid loop of `AssignSharedRegions`: `slot` is the value
`*blockPtr` read at the grid coordinate `c`. -/
def assignSlot (level : Nat) (self : vtkAMRDualGridHelper)
    (p : (Int × Int × Int) × Option Nat) : vtkAMRDualGridHelper :=
  match p.2 with
  | none => self
  | some b => self.AssignBlockSharedRegions (level, b) level p.1.1 p.1.2.1 p.1.2.2

/-- One iteration of the loop over the levels of `AssignSharedRegions`: the
grid of the level is read front to back (`blockPtr++`) while its extent is
traversed. -/
def assignLevel (self : vtkAMRDualGridHelper) (level : Nat) : vtkAMRDualGridHelper :=
  let l := self.levelAt level
  ((extentCoords l.GridExtent).zip (l.Grid.getD [])).foldl (assignSlot level) self

/-- `vtkAMRDualGridHelper::AssignSharedRegions`: the levels are visited from the
highest down to 0. -/
def vtkAMRDualGridHelper.AssignSharedRegions (self : vtkAMRDualGridHelper) :
    vtkAMRDualGridHelper :=
  (List.range self.Levels.length).reverse.foldl assignLevel self

/-! ## Building a registry -/

/-- What `Initialize` does before any block is added: `numLevels` levels with
`Level` set to their position, the defaults of the constructor of the helper
(degenerate cells enabled, ghost copy not skipped, data type size 8) and the
standard block dimensions computed by `ComputeGlobalMetaData`. -/
def vtkAMRDualGridHelper.init (numLevels : Nat) (dims : Int × Int × Int) :
    vtkAMRDualGridHelper :=
  { Levels := (List.range numLevels).map fun (i : Nat) =>
      (vtkAMRDualGridHelperLevel.newAt (i : Int))
    EnableDegenerateCells := true
    SkipGhostCopy := false
    StandardBlockDimensions := dims
    DataTypeSize := 8
    DegenerateRegionQueue := [] }

/-- A block put into the registry as `ReceiveBlocks` and `AddBlock` do:
`Levels[level]->AddGridBlock(x,y,z,volume)` followed by the assignment of
`ProcessId` and `OriginIndex` through the returned pointer. -/
def vtkAMRDualGridHelper.addBlockAt (self : vtkAMRDualGridHelper) (level : Nat)
    (x y z : Int) (volume : Option vtkImageData) (processId : Int)
    (originIndex : Int × Int × Int) : vtkAMRDualGridHelper :=
  let r := (self.levelAt level).AddGridBlock x y z volume processId
  let h : vtkAMRDualGridHelper := { self with Levels := self.Levels.set level r.1 }
  h.modifyBlock (level, r.2) fun b => { b with ProcessId := processId, OriginIndex := originIndex }


/-! ## Well-formed level grids -/

/-- The grid of a level whose blocks all have non-negative coordinates: the
extent starts at 0 on every axis and, once allocated, the increments and the
size of the array are those of the extent. -/
def vtkAMRDualGridHelperLevel.GridWF (l : vtkAMRDualGridHelperLevel) : Prop :=
  l.GridExtent.e0 = 0 ∧ l.GridExtent.e2 = 0 ∧ l.GridExtent.e4 = 0 ∧
  ((l.Grid = none ∧ l.GridExtent.e1 = -1 ∧ l.GridExtent.e3 = -1 ∧ l.GridExtent.e5 = -1) ∨
   (l.Grid ≠ none ∧ 0 ≤ l.GridExtent.e1 ∧ 0 ≤ l.GridExtent.e3 ∧ 0 ≤ l.GridExtent.e5 ∧
    l.GridIncY = l.GridExtent.e1 + 1 ∧
    l.GridIncZ = (l.GridExtent.e3 + 1) * (l.GridExtent.e1 + 1) ∧
    ((l.Grid.getD []).length : Int) =
      (l.GridExtent.e3 + 1) * (l.GridExtent.e1 + 1) * (l.GridExtent.e5 + 1)))

instance (l : vtkAMRDualGridHelperLevel) : Decidable l.GridWF := by
  unfold vtkAMRDualGridHelperLevel.GridWF; infer_instance

/-! ## Concrete registries -/

/-- A payload for a block of standard dimensions `dims`: the cell array of the
ghost-padded block, filled with `v`. -/
def constImage (dims : Int × Int × Int) (v : Int) : vtkImageData :=
  { DataType := 11
    Scalars := some (List.replicate ((dims.1 + 2) * (dims.2.1 + 2) * (dims.2.2 + 2)).toNat v) }

/-- The two-level scenario as the process `rank` sees it: standard block
dimensions 4x4x4, one coarse block at level 0, grid index (0,0,0), owned by
rank 0, and four fine blocks at level 1 at (2,0,0), (2,1,0), (2,0,1), (2,1,1)
owned by rank 1; a block has its payload on its owner only. -/
def twoLevelScenario (rank : Int) : vtkAMRDualGridHelper :=
  let im (p : Int) : Option vtkImageData := if p = rank then some (constImage (4, 4, 4) 0) else none
  (((((vtkAMRDualGridHelper.init 2 (4, 4, 4)).addBlockAt 0 0 0 0 (im 0) 0 (-1, -1, -1)).addBlockAt
    1 2 0 0 (im 1) 1 (7, -1, -1)).addBlockAt 1 2 1 0 (im 1) 1 (7, 3, -1)).addBlockAt
    1 2 0 1 (im 1) 1 (7, -1, 3)).addBlockAt 1 2 1 1 (im 1) 1 (7, 3, 3)

/-- A registry of four skeleton blocks: two coarse blocks at level 0, grid
indices (0,0,0) and (0,1,0), and two fine blocks at level 1, grid indices
(2,0,0) and (2,3,0).  In units of fine blocks the coarse blocks cover
`[0,2] x [0,2]` and `[0,2] x [2,4]`, the fine ones `[2,3] x [0,1]` and
`[2,3] x [3,4]`: only the two coarse blocks touch the edge `x = 2, y = 2`. -/
def sharedEdgeScenario : vtkAMRDualGridHelper :=
  ((((vtkAMRDualGridHelper.init 2 (4, 4, 4)).addBlockAt 0 0 0 0 none 0 (-1, -1, -1)).addBlockAt
    0 0 1 0 none 0 (-1, 3, -1)).addBlockAt 1 2 0 0 none 0 (7, -1, -1)).addBlockAt
    1 2 3 0 none 0 (7, 11, -1)

/-- A coarse block at level 0, grid index (0,0,0), and a fine block at level 1,
grid index (2,0,0), both owned by rank 0, with standard block dimensions 2x2x2,
as the process `rank` sees them: the payloads are present on rank 0 only. -/
def sameOwnerScenario (rank : Int) : vtkAMRDualGridHelper :=
  let im (p : Int) : Option vtkImageData := if p = rank then some (constImage (2, 2, 2) 0) else none
  ((vtkAMRDualGridHelper.init 2 (2, 2, 2)).addBlockAt 0 0 0 0 (im 0) 0 (-1, -1, -1)).addBlockAt
    1 2 0 0 (im 0) 0 (3, -1, -1)

/-- Position of the cell `(x,y,z)` in the cell array of a ghost-padded block of
standard dimensions `dims`: x runs fastest over `dims.1 + 2` cells, then y over
`dims.2.1 + 2` cells, then z (the layout `vtkAMRDualGridHelperAddBackGhostValues`
writes and reads). -/
def cellIndex (dims : Int × Int × Int) (x y z : Int) : Int :=
  x + y * (dims.1 + 2) + z * ((dims.1 + 2) * (dims.2.1 + 2))

/-- Two blocks with payload and standard block dimensions 1x2x1: a coarse block
at level 0, grid index (0,0,0), whose cell `i` holds `100 + i`, and a fine block
at level 1, grid index (2,0,0), whose cells hold 0. -/
def unequalDimsScenario : vtkAMRDualGridHelper :=
  ((vtkAMRDualGridHelper.init 2 (1, 2, 1)).addBlockAt 0 0 0 0
    (some { DataType := 11, Scalars := some ((List.range 36).map fun (i : Nat) => (100 + i : Int)) })
    0 (-1, -1, -1)).addBlockAt 1 2 0 0 (some (constImage (1, 2, 1) 0)) 0 (1, -1, -1)

/-- The cell array of a block (empty when it has none). -/
def vtkAMRDualGridHelperBlock.cells (b : vtkAMRDualGridHelperBlock) : List Int :=
  match b.Image with
  | some img => img.Scalars.getD []
  | none => []

/-- A registry that holds exactly one block: `numLevels` levels, the two flags
of the helper set to `enable` and `skip`, and one block added at the level
`level` and the grid index `(x,y,z)`. -/
def singleBlockRegistry (numLevels level : Nat) (dims : Int × Int × Int) (enable skip : Bool)
    (x y z : Int) (volume : Option vtkImageData) (processId : Int)
    (originIndex : Int × Int × Int) : vtkAMRDualGridHelper :=
  vtkAMRDualGridHelper.addBlockAt
    { vtkAMRDualGridHelper.init numLevels dims with
      EnableDegenerateCells := enable, SkipGhostCopy := skip }
    level x y z volume processId originIndex

/-- What the two-level scenario expects of the coarse block after the
resolution: the grid of level 0 holds it at (0,0,0), its +x face entry
`RegionBits[2][1][1]` has no owner bit and its +x boundary bit (value 2) is
cleared. -/
def coarseBlockResolved (h : vtkAMRDualGridHelper) : Prop :=
  h.GetBlock 0 0 0 0 = some (0, 0) ∧
  ((h.blockAt (0, 0)).regionBits 2 1 1 &&& vtkAMRRegionBitOwner) = 0 ∧
  ((h.blockAt (0, 0)).BoundaryBits &&& 2) = 0

instance (h : vtkAMRDualGridHelper) : Decidable (coarseBlockResolved h) := by
  unfold coarseBlockResolved; infer_instance

/-- What the two-level scenario expects of the fine block `fine` at the grid
index `(x,y,z)` of level 1 after the resolution: its -x face entry
`RegionBits[0][1][1]` encodes level difference 1 and the queue holds an entry
with it as `ReceivingBlock`, region `(-1,0,0)` and the coarse block as
`SourceBlock`. -/
def fineBlockResolved (h : vtkAMRDualGridHelper) (x y z : Int) (fine : Nat) : Prop :=
  h.GetBlock 1 x y z = some (1, fine) ∧
  ((h.blockAt (1, fine)).regionBits 0 1 1 &&& vtkAMRRegionBitsDegenerateMask) = 1 ∧
  ({ ReceivingBlock := (1, fine), ReceivingRegion := (-1, 0, 0), SourceBlock := (0, 0) } :
      vtkAMRDualGridHelperDegenerateRegion) ∈ h.DegenerateRegionQueue

instance (h : vtkAMRDualGridHelper) (x y z : Int) (fine : Nat) :
    Decidable (fineBlockResolved h x y z fine) := by
  unfold fineBlockResolved; infer_instance

/-! ## Consistent registries -/

/-- The levels of a registry as `Initialize`, `AddBlock` and `ReceiveBlocks`
leave them: the level at position `i` has `Level` `i`, so has each of its
blocks, and every pointer stored in its grid points into its `Blocks`. -/
def vtkAMRDualGridHelper.LevelsConsistent (self : vtkAMRDualGridHelper) : Prop :=
  ∀ i ∈ List.range self.Levels.length,
    (self.levelAt i).Level = (i : Int) ∧
    (∀ b ∈ (self.levelAt i).Blocks, b.Level = (i : Int)) ∧
    (∀ s ∈ (self.levelAt i).Grid.getD [], ∀ k ∈ s, k < (self.levelAt i).Blocks.length)

instance (self : vtkAMRDualGridHelper) : Decidable self.LevelsConsistent := by
  unfold vtkAMRDualGridHelper.LevelsConsistent; infer_instance

/-- A pointer to a block that exists. -/
def vtkAMRDualGridHelper.validPtr (self : vtkAMRDualGridHelper) (p : BlockPtr) : Prop :=
  p.1 < self.Levels.length ∧ p.2 < (self.levelAt p.1).Blocks.length

instance (self : vtkAMRDualGridHelper) (p : BlockPtr) : Decidable (self.validPtr p) := by
  unfold vtkAMRDualGridHelper.validPtr; infer_instance

/-- Two states of the helper with the same levels, grids, flags and queue,
whose blocks have the same `Level`, payload and owner: what the loops of
`ClaimBlockSharedRegion` never change. -/
def SameGrids (h h' : vtkAMRDualGridHelper) : Prop :=
  h'.Levels.length = h.Levels.length ∧
  h'.EnableDegenerateCells = h.EnableDegenerateCells ∧
  h'.SkipGhostCopy = h.SkipGhostCopy ∧
  h'.StandardBlockDimensions = h.StandardBlockDimensions ∧
  (∀ n, (h'.levelAt n).Grid = (h.levelAt n).Grid ∧
    (h'.levelAt n).GridExtent = (h.levelAt n).GridExtent ∧
    (h'.levelAt n).GridIncY = (h.levelAt n).GridIncY ∧
    (h'.levelAt n).GridIncZ = (h.levelAt n).GridIncZ ∧
    (h'.levelAt n).Level = (h.levelAt n).Level ∧
    (h'.levelAt n).Blocks.length = (h.levelAt n).Blocks.length) ∧
  (∀ q, (h'.blockAt q).Level = (h.blockAt q).Level) ∧
  (∀ q, (h'.blockAt q).Image = (h.blockAt q).Image ∧
    (h'.blockAt q).ProcessId = (h.blockAt q).ProcessId) ∧
  h'.DegenerateRegionQueue = h.DegenerateRegionQueue

/-! ## What the ownership decisions read -/

/-- A block without its payload, its copy flag, its owner and its origin
index. -/
def vtkAMRDualGridHelperBlock.skeleton (b : vtkAMRDualGridHelperBlock) :
    vtkAMRDualGridHelperBlock :=
  { b with OriginIndex := (0, 0, 0), ProcessId := 0, Image := none, CopyFlag := false }

/-- A level whose blocks are reduced to their skeleton. -/
def vtkAMRDualGridHelperLevel.skeleton (l : vtkAMRDualGridHelperLevel) :
    vtkAMRDualGridHelperLevel :=
  { l with Blocks := l.Blocks.map vtkAMRDualGridHelperBlock.skeleton }

/-- The part of the helper that two registries with the same blocks and the
same `EnableDegenerateCells` have in common: the levels with their grids, and
of each block its `Level`, `GridIndex`, `RegionBits` and `BoundaryBits`. -/
def vtkAMRDualGridHelper.skeleton (h : vtkAMRDualGridHelper) : vtkAMRDualGridHelper :=
  { Levels := h.Levels.map vtkAMRDualGridHelperLevel.skeleton
    EnableDegenerateCells := h.EnableDegenerateCells
    SkipGhostCopy := false
    StandardBlockDimensions := (0, 0, 0)
    DataTypeSize := 0
    DegenerateRegionQueue := [] }

/-- The local state of `ClaimBlockSharedRegion` with the helper reduced to its
skeleton. -/
def ClaimState.skeleton (st : ClaimState) : ClaimState :=
  { st with helper := st.helper.skeleton }

/-! ## The queue as a function of the skeleton and of the payloads -/

/-- The test of `ClaimBlockSharedRegion` that sends a degenerate region to the
queue: the payload of the receiving block or of the source block is missing. -/
def vtkAMRDualGridHelper.pushed (h : vtkAMRDualGridHelper)
    (d : vtkAMRDualGridHelperDegenerateRegion) : Bool :=
  decide ((h.blockAt d.ReceivingBlock).Image = none ∨ (h.blockAt d.SourceBlock).Image = none)

/-- A queue entry whose receiving block and source block have different
owners. -/
def vtkAMRDualGridHelper.crossOwner (h : vtkAMRDualGridHelper)
    (d : vtkAMRDualGridHelperDegenerateRegion) : Bool :=
  decide ((h.blockAt d.ReceivingBlock).ProcessId ≠ (h.blockAt d.SourceBlock).ProcessId)

/-- The registry with every payload removed: what a process that owns none of
the blocks holds. -/
def vtkAMRDualGridHelper.withoutPayload (h : vtkAMRDualGridHelper) : vtkAMRDualGridHelper :=
  { h with
    Levels := h.Levels.map fun l =>
      { l with Blocks := l.Blocks.map fun b => { b with Image := none } } }

/-- Two states of the helper whose blocks carry a payload at the same places
and have the same owners. -/
def SamePayloads (h h' : vtkAMRDualGridHelper) : Prop :=
  ∀ q, ((h'.blockAt q).Image = none ↔ (h.blockAt q).Image = none) ∧
    (h'.blockAt q).ProcessId = (h.blockAt q).ProcessId

/-- The relation between the helper `h` of a process and the helper `g` of a
process that holds no payload, run side by side: same skeleton, same
`SkipGhostCopy`, and the queue of `h` is the queue of `g` without the entries
that `h` copied at once. -/
def QueueSim (h g : vtkAMRDualGridHelper) : Prop :=
  h.skeleton = g.skeleton ∧ h.SkipGhostCopy = g.SkipGhostCopy ∧
  (∀ p, (g.blockAt p).Image = none) ∧
  h.DegenerateRegionQueue = g.DegenerateRegionQueue.filter h.pushed

/-- The owners of the blocks of the registry, level by level. -/
def vtkAMRDualGridHelper.owners (h : vtkAMRDualGridHelper) : List (List Int) :=
  h.Levels.map fun l => l.Blocks.map fun b => b.ProcessId

/-- The registry of the process `rank`: it holds the payload of blocks it owns
only. -/
def vtkAMRDualGridHelper.payloadsOwnedBy (h : vtkAMRDualGridHelper) (rank : Int) : Prop :=
  ∀ l ∈ h.Levels, ∀ b ∈ l.Blocks, b.Image ≠ none → b.ProcessId = rank

instance (h : vtkAMRDualGridHelper) (rank : Int) : Decidable (h.payloadsOwnedBy rank) := by
  unfold vtkAMRDualGridHelper.payloadsOwnedBy; infer_instance
/-! ## The exchange schedule of the data mover -/

/-- A call of the controller made while the queue is processed:
`Controller->Send(..., remoteProc, 879015)` or
`Controller->Receive(..., remoteProc, 879015)`. -/
inductive ControllerCall where
  | Send (remoteProc : Int)
  | Receive (remoteProc : Int)
  deriving DecidableEq, Repr

/-- The process a call of the controller is addressed to. -/
def ControllerCall.remoteProc : ControllerCall → Int
  | ControllerCall.Send r => r
  | ControllerCall.Receive r => r

/-- The body of the loop of `ProcessDegenerateRegionQueue` for `procIdx`:
`SendDegenerateRegionsFromQueue` makes one call `Controller->Send` and
`ReceiveDegenerateRegionsFromQueue` one call `Controller->Receive`, both to
`procIdx`. -/
def processQueueStep (myProc : Int) (calls : List ControllerCall) (procIdx : Int) :
    List ControllerCall :=
  if procIdx < myProc then
    calls ++ [ControllerCall.Send procIdx, ControllerCall.Receive procIdx]
  else if procIdx > myProc then
    calls ++ [ControllerCall.Receive procIdx, ControllerCall.Send procIdx]
  else calls

/-- The calls of the controller that `ProcessDegenerateRegionQueue` makes, in
order.  `controller` is `none` when `this->Controller` is null and otherwise
holds what `GetNumberOfProcesses()` and `GetLocalProcessId()` return. -/
def vtkAMRDualGridHelper.ProcessDegenerateRegionQueue (self : vtkAMRDualGridHelper)
    (controller : Option (Int × Int)) : List ControllerCall :=
  match controller with
  | none => []
  | some (numProcs, myProc) =>
    if self.SkipGhostCopy then []
    else (intRange 0 (numProcs - 1)).foldl (processQueueStep myProc) []

/-- The calls addressed to the process `r`, in order. -/
def callsWith (calls : List ControllerCall) (r : Int) : List ControllerCall :=
  calls.filter fun c => decide (c.remoteProc = r)

/-- The opposite call: a send is matched by a receive and a receive by a
send. -/
def ControllerCall.matching : ControllerCall → Int → ControllerCall
  | ControllerCall.Send _, r => ControllerCall.Receive r
  | ControllerCall.Receive _, r => ControllerCall.Send r

/-- The schedule of the specification for one remote process `r`: send then
receive when `r < myProc`, receive then send otherwise. -/
def exchangeWith (myProc r : Int) : List ControllerCall :=
  if r < myProc then [ControllerCall.Send r, ControllerCall.Receive r]
  else [ControllerCall.Receive r, ControllerCall.Send r]
/-! ## The degenerate copy through a message -/

/-- The message buffer and the running pointer `messagePtr` into it, as a
position counted in elements from the start of the buffer.  The elements of the
buffer have the data type of the cell arrays that are packed into it. -/
abbrev MessagePtr := List Int × Int

/-- The template `vtkDualGridHelperCopyBlockToMessage`: the loops visit the
extent with z outermost and x innermost and store each value with
`*messagePtr++ = ...`; returns the buffer and the pointer after the loops. -/
def vtkDualGridHelperCopyBlockToMessage (messagePtr : MessagePtr) (lowerPtr : List Int)
    (ext : Ext6) (yInc zInc : Int) : MessagePtr :=
  (extentCoords ext).foldl
    (fun m c =>
      (writeAt m.1 m.2 (readCell lowerPtr (c.1 + c.2.1 * yInc + c.2.2 * zInc)), m.2 + 1))
    messagePtr

/-- The six assignments "convert to the extent of the low resolution source
block" of `CopyDegenerateRegionBlockToMessage` and
`CopyDegenerateRegionMessageToBlock`. -/
def lowResExtent (ext : Ext6) (levelDiff : Nat)
    (highResOriginIndex lowResOriginIndex : Int × Int × Int) : Ext6 :=
  ⟨((ext.e0 + highResOriginIndex.1) >>> levelDiff) - lowResOriginIndex.1,
   ((ext.e1 + highResOriginIndex.1) >>> levelDiff) - lowResOriginIndex.1,
   ((ext.e2 + highResOriginIndex.2.1) >>> levelDiff) - lowResOriginIndex.2.1,
   ((ext.e3 + highResOriginIndex.2.1) >>> levelDiff) - lowResOriginIndex.2.1,
   ((ext.e4 + highResOriginIndex.2.2) >>> levelDiff) - lowResOriginIndex.2.2,
   ((ext.e5 + highResOriginIndex.2.2) >>> levelDiff) - lowResOriginIndex.2.2⟩

/-- `vtkAMRDualGridHelper::CopyDegenerateRegionBlockToMessage`: packs the
values of the low-resolution block that the region of the high-resolution block
needs.  Every data type is taken to be one the template macro dispatches on. -/
def vtkAMRDualGridHelper.CopyDegenerateRegionBlockToMessage (self : vtkAMRDualGridHelper)
    (regionX regionY regionZ : Int) (lowResBlock highResBlock : BlockPtr)
    (messagePtr : MessagePtr) : MessagePtr :=
  let low := self.blockAt lowResBlock
  let high := self.blockAt highResBlock
  let levelDiff := high.Level - low.Level
  if levelDiff = 0 then messagePtr
  else if levelDiff < 0 then messagePtr
  else
    match low.Image with
    | none => messagePtr
    | some lImg =>
      match lImg.Scalars with
      | none => messagePtr
      | some lowerPtr =>
        let ext1 := self.StandardBlockDimensions.1 + 1
        let ext5 := self.StandardBlockDimensions.2.2 + 1
        let yInc := ext1 - 0 + 1
        let zInc := yInc * (ext5 - 0 + 1)
        let ext := degenerateRegionExt self.StandardBlockDimensions regionX regionY regionZ
        vtkDualGridHelperCopyBlockToMessage messagePtr lowerPtr
          (lowResExtent ext levelDiff.toNat high.OriginIndex low.OriginIndex) yInc zInc

/-- The position `lx + ly*messageIncY + lz*messageIncZ`, relative to
`messagePtr`, at which `vtkDualGridHelperCopyMessageToBlock` reads the value
for the cell `(x,y,z)` of the high-resolution block. -/
def messageOffset (messageExt : Ext6) (levelDiff : Nat)
    (highResBlockOriginIndex lowResBlockOriginIndex : Int × Int × Int) (x y z : Int) : Int :=
  let messageIncY := messageExt.e1 - messageExt.e0 + 1
  let messageIncZ := messageIncY * (messageExt.e3 - messageExt.e2 + 1)
  let lz := ((z + highResBlockOriginIndex.2.2) >>> levelDiff) - lowResBlockOriginIndex.2.2 -
    messageExt.e4
  let ly := ((y + highResBlockOriginIndex.2.1) >>> levelDiff) - lowResBlockOriginIndex.2.1 -
    messageExt.e2
  let lx := ((x + highResBlockOriginIndex.1) >>> levelDiff) - lowResBlockOriginIndex.1 -
    messageExt.e0
  lx + ly * messageIncY + lz * messageIncZ

/-- The template `vtkDualGridHelperCopyMessageToBlock`: returns the array `ptr`
after the copy and the pointer `messagePtr + messageIncZ*(messageExt[5] -
messageExt[4] + 1)`.  As in `vtkDualGridHelperCopyBlockToBlock`, `xPtr` is
`ptr + x + yInc*y + zInc*z` when it is written. -/
def vtkDualGridHelperCopyMessageToBlock (ptr : List Int) (messagePtr : MessagePtr)
    (ext messageExt : Ext6) (levelDiff : Nat) (yInc zInc : Int)
    (highResBlockOriginIndex lowResBlockOriginIndex : Int × Int × Int) : List Int × Int :=
  let messageIncY := messageExt.e1 - messageExt.e0 + 1
  let messageIncZ := messageIncY * (messageExt.e3 - messageExt.e2 + 1)
  let out := (intRange ext.e4 ext.e5).foldl (fun pz z =>
    (intRange ext.e2 ext.e3).foldl (fun py y =>
      (intRange ext.e0 ext.e1).foldl (fun px x =>
        writeAt px (x + yInc * y + zInc * z)
          (readCell messagePtr.1 (messagePtr.2 + messageOffset messageExt levelDiff
            highResBlockOriginIndex lowResBlockOriginIndex x y z))) py) pz) ptr
  (out, messagePtr.2 + messageIncZ * (messageExt.e5 - messageExt.e4 + 1))

/-- `vtkAMRDualGridHelper::CopyDegenerateRegionMessageToBlock`: returns the
helper after the copy and the message pointer after the region.  As in
`CopyDegenerateRegionBlockToBlock`, only the flag changes when the deep copy is
made. -/
def vtkAMRDualGridHelper.CopyDegenerateRegionMessageToBlock (self : vtkAMRDualGridHelper)
    (regionX regionY regionZ : Int) (lowResBlock highResBlock : BlockPtr)
    (messagePtr : MessagePtr) : vtkAMRDualGridHelper × Int :=
  let low := self.blockAt lowResBlock
  let high := self.blockAt highResBlock
  let levelDiff := high.Level - low.Level
  if levelDiff = 0 then (self, messagePtr.2)
  else if levelDiff < 0 then (self, messagePtr.2)
  else
    let self1 := self.modifyBlock highResBlock fun b => { b with CopyFlag := true }
    match high.Image with
    | none => (self1, messagePtr.2)
    | some hImg =>
      match hImg.Scalars with
      | none => (self1, messagePtr.2)
      | some ptr =>
        let ext1 := self.StandardBlockDimensions.1 + 1
        let ext5 := self.StandardBlockDimensions.2.2 + 1
        let yInc := ext1 - 0 + 1
        let zInc := yInc * (ext5 - 0 + 1)
        let ext := degenerateRegionExt self.StandardBlockDimensions regionX regionY regionZ
        let messageExt := lowResExtent ext levelDiff.toNat high.OriginIndex low.OriginIndex
        let res := vtkDualGridHelperCopyMessageToBlock ptr messagePtr ext messageExt
          levelDiff.toNat yInc zInc high.OriginIndex low.OriginIndex
        (self1.modifyBlock highResBlock fun b =>
          { b with Image := some { hImg with Scalars := some res.1 } }, res.2)

/-- A coarse block at level 0, grid index (0,0,0), owned by rank 0, and a fine
block at level 1, grid index (2,0,0), owned by rank 1, with standard block
dimensions 2x2x2.  Cell `i` of the coarse payload holds `100 + i`, the cells of
the fine payload hold 0; `withLow` and `withHigh` tell which of the two
payloads the process holds. -/
def copyScenario (withLow withHigh : Bool) : vtkAMRDualGridHelper :=
  ((vtkAMRDualGridHelper.init 2 (2, 2, 2)).addBlockAt 0 0 0 0
    (if withLow then
      some { DataType := 11, Scalars := some ((List.range 64).map fun (i : Nat) => (100 + i : Int)) }
     else none)
    0 (-1, -1, -1)).addBlockAt 1 2 0 0
    (if withHigh then some (constImage (2, 2, 2) 0) else none) 1 (3, -1, -1)
/-! ## The same-process copy on the two blocks -/

/-- The high-resolution block as `CopyDegenerateRegionBlockToBlock` leaves it
when the level difference is positive, as a function of the standard block
dimensions, the region and the two blocks the pointers point to: the part of
`vtkAMRDualGridHelper.CopyDegenerateRegionBlockToBlock` after the two tests of
the level difference. -/
def copiedBlock (dims : Int × Int × Int) (regionX regionY regionZ : Int)
    (low high : vtkAMRDualGridHelperBlock) : vtkAMRDualGridHelperBlock :=
  match high.Image, low.Image with
  | some hImg, some lImg =>
    match hImg.Scalars, lImg.Scalars with
    | some ptr, some lowerPtr =>
      if lImg.DataType ≠ hImg.DataType then { high with CopyFlag := true }
      else
        let ext1 := dims.1 + 1
        let ext5 := dims.2.2 + 1
        let yInc := ext1 - 0 + 1
        let zInc := yInc * (ext5 - 0 + 1)
        let ext := degenerateRegionExt dims regionX regionY regionZ
        let out := vtkDualGridHelperCopyBlockToBlock ptr lowerPtr ext
          (high.Level - low.Level).toNat yInc zInc high.OriginIndex low.OriginIndex
        { high with CopyFlag := true, Image := some { hImg with Scalars := some out } }
    | _, _ => { high with CopyFlag := true }
  | _, _ => { high with CopyFlag := true }
/-! ## The message lengths of the cross-process exchange -/

/-- The `regionSize` that the first loop of `SendDegenerateRegionsFromQueue` and
of `ReceiveDegenerateRegionsFromQueue` computes for a queue entry with the
receiving region `r`: half the standard dimension on each axis on which the
region direction is 0. -/
def regionSize (dims : Int × Int × Int) (r : Int × Int × Int) : Int :=
  let s0 : Int := 1
  let s1 := if r.1 = 0 then s0 * (dims.1 >>> 1) else s0
  let s2 := if r.2.1 = 0 then s1 * (dims.2.1 >>> 1) else s1
  if r.2.2 = 0 then s2 * (dims.2.2 >>> 1) else s2

/-- The test of both loops of `SendDegenerateRegionsFromQueue`:
`region->ReceivingBlock->ProcessId == remoteProc &&
region->SourceBlock->ProcessId == localProc`. -/
def vtkAMRDualGridHelper.sendsRegion (self : vtkAMRDualGridHelper) (remoteProc localProc : Int)
    (region : vtkAMRDualGridHelperDegenerateRegion) : Bool :=
  decide ((self.blockAt region.ReceivingBlock).ProcessId = remoteProc ∧
    (self.blockAt region.SourceBlock).ProcessId = localProc)

/-- The test of both loops of `ReceiveDegenerateRegionsFromQueue`:
`region->ReceivingBlock->ProcessId == localProc &&
region->SourceBlock->ProcessId == remoteProc`. -/
def vtkAMRDualGridHelper.receivesRegion (self : vtkAMRDualGridHelper)
    (remoteProc localProc : Int) (region : vtkAMRDualGridHelperDegenerateRegion) : Bool :=
  decide ((self.blockAt region.ReceivingBlock).ProcessId = localProc ∧
    (self.blockAt region.SourceBlock).ProcessId = remoteProc)

/-- The first loop of `SendDegenerateRegionsFromQueue`: the `messageLength`
passed to `Controller->Send`. -/
def vtkAMRDualGridHelper.sendMessageLength (self : vtkAMRDualGridHelper)
    (remoteProc localProc : Int) : Int :=
  self.DegenerateRegionQueue.foldl
    (fun messageLength region =>
      if self.sendsRegion remoteProc localProc region then
        messageLength +
          regionSize self.StandardBlockDimensions region.ReceivingRegion * self.DataTypeSize
      else messageLength) 0

/-- The first loop of `ReceiveDegenerateRegionsFromQueue`: the `messageLength`
passed to `Controller->Receive`. -/
def vtkAMRDualGridHelper.receiveMessageLength (self : vtkAMRDualGridHelper)
    (remoteProc localProc : Int) : Int :=
  self.DegenerateRegionQueue.foldl
    (fun messageLength region =>
      if self.receivesRegion remoteProc localProc region then
        messageLength +
          regionSize self.StandardBlockDimensions region.ReceivingRegion * self.DataTypeSize
      else messageLength) 0

/-- The queue entries that the second loop of `SendDegenerateRegionsFromQueue`
packs with `CopyDegenerateRegionBlockToMessage`, in the order of the loop. -/
def vtkAMRDualGridHelper.sentRegions (self : vtkAMRDualGridHelper)
    (remoteProc localProc : Int) : List vtkAMRDualGridHelperDegenerateRegion :=
  self.DegenerateRegionQueue.filter (self.sendsRegion remoteProc localProc)

/-- The queue entries that the second loop of
`ReceiveDegenerateRegionsFromQueue` unpacks with
`CopyDegenerateRegionMessageToBlock`, in the order of the loop. -/
def vtkAMRDualGridHelper.receivedRegions (self : vtkAMRDualGridHelper)
    (remoteProc localProc : Int) : List vtkAMRDualGridHelperDegenerateRegion :=
  self.DegenerateRegionQueue.filter (self.receivesRegion remoteProc localProc)
/-! ## The global metadata

`double` values are taken exactly, as rationals. -/

/-- Six doubles `double bounds[6]`: `(xmin, xmax, ymin, ymax, zmin, zmax)`. -/
structure Bounds6 where
  b0 : ℚ
  b1 : ℚ
  b2 : ℚ
  b3 : ℚ
  b4 : ℚ
  b5 : ℚ
  deriving DecidableEq

/-- The part of a `vtkImageData` of the input that `ComputeGlobalMetaData`
reads: what `GetBounds`, `GetExtent` (the point extent), `GetOrigin` and
`GetSpacing` return. -/
structure vtkImageGeometry where
  Bounds : Bounds6
  Extent : Ext6
  Origin : ℚ × ℚ × ℚ
  Spacing : ℚ × ℚ × ℚ
  deriving DecidableEq

/-- The local variables of `ComputeGlobalMetaData` that hold the result of the
scan of the blocks, with the counter `NumberOfBlocksInThisProcess`. -/
structure MetaDataLocals where
  lowestLevel : Int
  lowestSpacing : ℚ × ℚ × ℚ
  lowestOrigin : ℚ × ℚ × ℚ
  lowestDims : Int × Int × Int
  largestLevel : Int
  largestOrigin : ℚ × ℚ × ℚ
  largestSpacing : ℚ × ℚ × ℚ
  largestDims : Int × Int × Int
  largestNumCells : Int
  globalBounds : Bounds6
  NumberOfBlocksInThisProcess : Int
  deriving DecidableEq

/-- The locals before the scan.  `uninit` holds the values of the locals the
source leaves uninitialised (`lowestOrigin`, `lowestDims`, `largestOrigin`,
`largestSpacing`, `largestDims`) and `large` is `VTK_LARGE_FLOAT`, a macro that
is not among the sources. -/
def scanStart (uninit : MetaDataLocals) (large : ℚ) : MetaDataLocals :=
  { uninit with
    lowestLevel := 0
    largestLevel := 0
    largestNumCells := 0
    globalBounds := ⟨large, -large, large, -large, large, -large⟩
    lowestSpacing := (0, 0, 0)
    NumberOfBlocksInThisProcess := 0 }

/-- The body `if (image)` of the scan loop of `ComputeGlobalMetaData`. -/
def scanImage (level : Int) (st : MetaDataLocals) (image : vtkImageGeometry) :
    MetaDataLocals :=
  let bounds := image.Bounds
  let g := st.globalBounds
  let globalBounds : Bounds6 :=
    ⟨if g.b0 > bounds.b0 then bounds.b0 else g.b0, if g.b1 < bounds.b1 then bounds.b1 else g.b1,
     if g.b2 > bounds.b2 then bounds.b2 else g.b2, if g.b3 < bounds.b3 then bounds.b3 else g.b3,
     if g.b4 > bounds.b4 then bounds.b4 else g.b4, if g.b5 < bounds.b5 then bounds.b5 else g.b5⟩
  let ext := image.Extent
  let cellDims : Int × Int × Int := (ext.e1 - ext.e0, ext.e3 - ext.e2, ext.e5 - ext.e4)
  let numCells := cellDims.1 * cellDims.2.1 * cellDims.2.2
  let st1 : MetaDataLocals :=
    { st with
      NumberOfBlocksInThisProcess := st.NumberOfBlocksInThisProcess + 1
      globalBounds := globalBounds }
  let st2 : MetaDataLocals :=
    if numCells > st1.largestNumCells then
      { st1 with
        largestDims := cellDims
        largestNumCells := numCells
        largestOrigin := image.Origin
        largestSpacing := image.Spacing
        largestLevel := level }
    else st1
  if image.Spacing.1 > st2.lowestSpacing.1 then
    { st2 with
      lowestSpacing := image.Spacing
      lowestLevel := level
      lowestOrigin := image.Origin
      lowestDims := cellDims }
  else st2

/-- The input of one process: for each level the data sets of the level, a null
image being `none`. -/
abbrev MetaDataInput := List (List (Option vtkImageGeometry))

/-- The scan of the blocks of this process in `ComputeGlobalMetaData`. -/
def localScan (uninit : MetaDataLocals) (large : ℚ) (input : MetaDataInput) : MetaDataLocals :=
  input.enum.foldl
    (fun st lv => lv.2.foldl
      (fun st image =>
        match image with
        | none => st
        | some im => scanImage (lv.1 : Int) st im) st)
    (scanStart uninit large)

/-- The array `iMsg` as a process of rank above 0 fills it. -/
def packIMsg (st : MetaDataLocals) : List Int :=
  [st.lowestLevel, st.largestLevel, st.largestNumCells,
   st.lowestDims.1, st.lowestDims.2.1, st.lowestDims.2.2,
   st.largestDims.1, st.largestDims.2.1, st.largestDims.2.2]

/-- The array `dMsg` as a process of rank above 0 fills it: `dMsg[12+ii] =
globalBounds[ii]` and `dMsg[15+ii] = globalBounds[ii+3]` put the six bounds at
the positions 12 to 17. -/
def packDMsg (st : MetaDataLocals) : List ℚ :=
  [st.lowestSpacing.1, st.lowestSpacing.2.1, st.lowestSpacing.2.2,
   st.lowestOrigin.1, st.lowestOrigin.2.1, st.lowestOrigin.2.2,
   st.largestOrigin.1, st.largestOrigin.2.1, st.largestOrigin.2.2,
   st.largestSpacing.1, st.largestSpacing.2.1, st.largestSpacing.2.2,
   st.globalBounds.b0, st.globalBounds.b1, st.globalBounds.b2,
   st.globalBounds.b3, st.globalBounds.b4, st.globalBounds.b5]

/-- The length given to `controller->Send(dMsg, 15, 0, 8973432)`. -/
def dMsgSendLength : Nat := 15

/-- The length given to `controller->Receive(dMsg, 18, id, 8973432)`. -/
def dMsgReceiveLength : Nat := 18

/-- The elements of `dMsg` that reach process 0: the first `dMsgSendLength`
ones. -/
def sentDMsg (st : MetaDataLocals) : List ℚ := (packDMsg st).take dMsgSendLength

/-- The body of the loop of process 0 over the other processes in
`ComputeGlobalMetaData`, after the two calls of `Receive`: `iMsg` and `dMsg`
hold what was received.  The elements of `dMsg` from 15 on, which the message
does not fill, are not read. -/
def rootReceive (st : MetaDataLocals) (iMsg : List Int) (dMsg : List ℚ) : MetaDataLocals :=
  let numCells := iMsg.getD 2 0
  let cellDims : Int × Int × Int := (iMsg.getD 6 0, iMsg.getD 7 0, iMsg.getD 8 0)
  let st1 : MetaDataLocals :=
    if numCells > st.largestNumCells then
      { st with
        largestDims := cellDims
        largestNumCells := numCells
        largestOrigin := (dMsg.getD 6 0, dMsg.getD 7 0, dMsg.getD 8 0)
        largestSpacing := (dMsg.getD 9 0, dMsg.getD 10 0, dMsg.getD 11 0)
        largestLevel := iMsg.getD 1 0 }
    else st
  let spacing : ℚ × ℚ × ℚ := (dMsg.getD 0 0, dMsg.getD 1 0, dMsg.getD 2 0)
  let st2 : MetaDataLocals :=
    if spacing.1 > st1.lowestSpacing.1 then
      { st1 with
        lowestSpacing := spacing
        lowestLevel := iMsg.getD 0 0
        lowestOrigin := (dMsg.getD 3 0, dMsg.getD 4 0, dMsg.getD 5 0)
        lowestDims := (iMsg.getD 6 0, iMsg.getD 7 0, iMsg.getD 8 0) }
    else st1
  let g := st2.globalBounds
  { st2 with
    globalBounds :=
      ⟨if g.b0 > dMsg.getD 9 0 then dMsg.getD 9 0 else g.b0,
       if g.b1 < dMsg.getD 10 0 then dMsg.getD 10 0 else g.b1,
       if g.b2 > dMsg.getD 11 0 then dMsg.getD 11 0 else g.b2,
       if g.b3 < dMsg.getD 12 0 then dMsg.getD 12 0 else g.b3,
       if g.b4 > dMsg.getD 13 0 then dMsg.getD 13 0 else g.b4,
       if g.b5 < dMsg.getD 14 0 then dMsg.getD 14 0 else g.b5⟩ }

/-- The input of a process together with the values of its uninitialised
locals. -/
abbrev RankInput := MetaDataLocals × MetaDataInput

/-- The locals of process 0 after the reduction: its own scan, then the
messages of the processes 1, 2, ... in this order.  `root` is the input of
process 0 and `others` lists the inputs of the other processes by rank; with a
single process `others` is empty and no message is received. -/
def reduceToRoot (large : ℚ) (root : RankInput) (others : List RankInput) : MetaDataLocals :=
  others.foldl
    (fun st r => rootReceive st (packIMsg (localScan r.1 large r.2))
      (sentDMsg (localScan r.1 large r.2)))
    (localScan root.1 large root.2)

/-- What `ComputeGlobalMetaData` leaves in `GlobalOrigin`, `RootSpacing` and
`StandardBlockDimensions`. -/
structure GlobalMetaData where
  GlobalOrigin : ℚ × ℚ × ℚ
  RootSpacing : ℚ × ℚ × ℚ
  StandardBlockDimensions : Int × Int × Int
  deriving DecidableEq

/-- The computation of one component of `GlobalOrigin` by process 0 (the
source repeats it for the three axes): the grid of the largest block, the
point of it closest to the origin of the lowest level block, and the step down
to the global bounds.  `(int)(floor(x))` is `⌊x⌋`. -/
def originOnAxis (largestOrigin largestSpacing lowestOrigin lowestSpacing : ℚ)
    (standardBlockDimension : Int) (globalBoundsMin : ℚ) : ℚ :=
  let largestOrigin1 := largestOrigin + largestSpacing
  let largestSpacing1 := largestSpacing * (standardBlockDimension : ℚ)
  let idx : Int := ⌊1 / 2 + (lowestOrigin - largestOrigin1) / largestSpacing1⌋
  let lowestOrigin1 := largestOrigin1 + (idx : ℚ) * largestSpacing1
  let lowestSpacing1 := lowestSpacing * (standardBlockDimension : ℚ)
  let idx2 : Int := ⌊(globalBoundsMin - lowestOrigin1) / lowestSpacing1⌋
  lowestOrigin1 + (idx2 : ℚ) * lowestSpacing1

/-- The branch `if (myId == 0)` at the end of `ComputeGlobalMetaData`. -/
def resolveMetaData (st : MetaDataLocals) : GlobalMetaData :=
  let d2 := st.largestDims.2.2 - 2
  let dims : Int × Int × Int :=
    (st.largestDims.1 - 2, st.largestDims.2.1 - 2, if d2 < 1 then 1 else d2)
  let scale : ℚ := ((2 ^ st.lowestLevel.toNat : Int) : ℚ)
  { StandardBlockDimensions := dims
    RootSpacing :=
      (st.lowestSpacing.1 * scale, st.lowestSpacing.2.1 * scale, st.lowestSpacing.2.2 * scale)
    GlobalOrigin :=
      (originOnAxis st.largestOrigin.1 st.largestSpacing.1 st.lowestOrigin.1
          st.lowestSpacing.1 dims.1 st.globalBounds.b0,
       originOnAxis st.largestOrigin.2.1 st.largestSpacing.2.1 st.lowestOrigin.2.1
          st.lowestSpacing.2.1 dims.2.1 st.globalBounds.b2,
       originOnAxis st.largestOrigin.2.2 st.largestSpacing.2.2 st.lowestOrigin.2.2
          st.lowestSpacing.2.2 dims.2.2 st.globalBounds.b4) }

/-- `vtkAMRDualGridHelper::ComputeGlobalMetaData` on a group of processes: the
metadata process 0 computes and sends to the others. -/
def ComputeGlobalMetaData (large : ℚ) (root : RankInput) (others : List RankInput) :
    GlobalMetaData :=
  resolveMetaData (reduceToRoot large root others)

/-! ### Concrete inputs -/

/-- Values for the locals that the source leaves uninitialised. -/
def zeroLocals : MetaDataLocals :=
  { lowestLevel := 0
    lowestSpacing := (0, 0, 0)
    lowestOrigin := (0, 0, 0)
    lowestDims := (0, 0, 0)
    largestLevel := 0
    largestOrigin := (0, 0, 0)
    largestSpacing := (0, 0, 0)
    largestDims := (0, 0, 0)
    largestNumCells := 0
    globalBounds := ⟨0, 0, 0, 0, 0, 0⟩
    NumberOfBlocksInThisProcess := 0 }

/-- A block of 10x10x10 cells (8x8x8 and a ghost layer) of spacing 1 whose
bounding box starts at `x0` on the x axis and at -1 on the other two. -/
def paddedBlock (x0 : ℚ) : vtkImageGeometry :=
  { Bounds := ⟨x0, x0 + 10, -1, 9, -1, 9⟩
    Extent := ⟨0, 10, 0, 10, 0, 10⟩
    Origin := (x0, -1, -1)
    Spacing := (1, 1, 1) }

/-- A block of 5x5x5 cells of spacing 2 whose bounding box starts at `x0` on
the x axis and at -1 on the other two. -/
def coarseBlock (x0 : ℚ) : vtkImageGeometry :=
  { Bounds := ⟨x0, x0 + 10, -1, 9, -1, 9⟩
    Extent := ⟨0, 5, 0, 5, 0, 5⟩
    Origin := (x0, -1, -1)
    Spacing := (2, 2, 2) }

/-- A block of 9x10x10 cells of spacing 1 whose ghost layer on the -x side has
been stripped: its bounding box starts at `x0` on the x axis, where its first
cell that is not a ghost cell starts. -/
def strippedBlock (x0 : ℚ) : vtkImageGeometry :=
  { Bounds := ⟨x0, x0 + 9, -1, 9, -1, 9⟩
    Extent := ⟨0, 9, 0, 10, 0, 10⟩
    Origin := (x0, -1, -1)
    Spacing := (1, 1, 1) }

/-- A block with the spacing `s` that has at least three cells on the x and y
axes and at least one on the z axis. -/
def vtkImageGeometry.uniform (s : ℚ × ℚ × ℚ) (im : vtkImageGeometry) : Prop :=
  im.Spacing = s ∧ 3 ≤ im.Extent.e1 - im.Extent.e0 ∧ 3 ≤ im.Extent.e3 - im.Extent.e2 ∧
    1 ≤ im.Extent.e5 - im.Extent.e4

instance (s : ℚ × ℚ × ℚ) (im : vtkImageGeometry) : Decidable (im.uniform s) := by
  unfold vtkImageGeometry.uniform; infer_instance

/-- The blocks of an input. -/
def inputBlocks (input : MetaDataInput) : List vtkImageGeometry :=
  input.flatMap fun lv => lv.filterMap id

/-- The locals of a process whose blocks all lie on level 0 and are uniform of
spacing `s`: the lowest level is 0, the lowest spacing is `s` once a block has
been seen, and the largest block, once there is one, is one of the blocks for
which `seen` holds. -/
def uniformLocals (s : ℚ × ℚ × ℚ) (seen : vtkImageGeometry → Prop) (st : MetaDataLocals) :
    Prop :=
  st.lowestLevel = 0 ∧ (st.lowestSpacing = s ∨ st.lowestSpacing = (0, 0, 0)) ∧
    0 ≤ st.largestNumCells ∧
    (0 < st.largestNumCells → st.largestSpacing = s ∧ 3 ≤ st.largestDims.1 ∧
      3 ≤ st.largestDims.2.1 ∧ 1 ≤ st.largestDims.2.2 ∧
      ∃ im, seen im ∧ st.largestOrigin = im.Origin)
/-! ## The block distribution exchange -/

/-- The body of the loop over the blocks of a level in `SendBlocks`: `st.1`
holds the integers written from `message` up to `messagePtr` and `st.2` is
`numBlocksSending`. -/
def sendBlock (remoteProc localProc : Int) (st : List Int × Int)
    (block : vtkAMRDualGridHelperBlock) : List Int × Int :=
  if block.ProcessId ≠ remoteProc then
    let m := st.1 ++ [block.GridIndex.1, block.GridIndex.2.1, block.GridIndex.2.2]
    (if localProc = 0 then m ++ [block.ProcessId] else m, st.2 + 1)
  else st

/-- The body of the loop over the levels in the second part of `SendBlocks`:
`numBlocksPtr = messagePtr++` keeps the place of the count, which is filled in
after the blocks of the level are written. -/
def sendLevel (remoteProc localProc : Int) (message : List Int)
    (level : vtkAMRDualGridHelperLevel) : List Int :=
  let numBlocksPtr : Int := message.length
  let st := level.Blocks.foldl (sendBlock remoteProc localProc) (message ++ [0], 0)
  writeAt st.1 numBlocksPtr st.2

/-- The first loop of `SendBlocks`: the `messageLength` (in integers) for which
the message buffer is allocated. -/
def vtkAMRDualGridHelper.sendBlocksAllocation (self : vtkAMRDualGridHelper)
    (localProc : Int) : Int :=
  self.Levels.foldl
    (fun messageLength level =>
      if localProc = 0 then messageLength + 1 + 4 * (level.Blocks.length : Int)
      else messageLength + 1 + 3 * (level.Blocks.length : Int)) 1

/-- `vtkAMRDualGridHelper::SendBlocks`: the `messageLength` that is sent first
(`messagePtr - message`) and the message, the integers written from `message`
up to `messagePtr`. -/
def vtkAMRDualGridHelper.SendBlocks (self : vtkAMRDualGridHelper)
    (remoteProc localProc : Int) : Int × List Int :=
  let message := self.Levels.foldl (sendLevel remoteProc localProc) [self.GetNumberOfLevels]
  ((message.length : Int), message)

/-- The local variables of `ReceiveBlocks` that survive an iteration, with the
helper: `messagePtr` as a position in `message`, and `blockProc`. -/
structure ReceiveState where
  helper : vtkAMRDualGridHelper
  messagePtr : Int
  blockProc : Int

/-- The body of the loop over the blocks of a level in `ReceiveBlocks`. -/
def receiveBlock (remoteProc : Int) (message : List Int) (levelIdx : Nat)
    (st : ReceiveState) (_blockIdx : Nat) : ReceiveState :=
  let x := readCell message st.messagePtr
  let y := readCell message (st.messagePtr + 1)
  let z := readCell message (st.messagePtr + 2)
  let ptr := st.messagePtr + 3
  let blockProc := if remoteProc = 0 then readCell message ptr else st.blockProc
  let ptr1 := if remoteProc = 0 then ptr + 1 else ptr
  let dims := st.helper.StandardBlockDimensions
  { helper := st.helper.addBlockAt levelIdx x y z none blockProc
      (dims.1 * x - 1, dims.2.1 * y - 1, dims.2.2 * z - 1)
    messagePtr := ptr1
    blockProc := blockProc }

/-- The body of the loop over the levels in `ReceiveBlocks`. -/
def receiveLevel (remoteProc : Int) (message : List Int) (st : ReceiveState)
    (levelIdx : Nat) : ReceiveState :=
  let numBlocks := readCell message st.messagePtr
  (List.range numBlocks.toNat).foldl (receiveBlock remoteProc message levelIdx)
    { st with messagePtr := st.messagePtr + 1 }

/-- The part of `ReceiveBlocks` after the two calls of `Receive`: `message`
holds the integers that were received. -/
def receiveBlocksState (self : vtkAMRDualGridHelper) (remoteProc : Int)
    (message : List Int) : ReceiveState :=
  let numLevels := readCell message 0
  (List.range numLevels.toNat).foldl (receiveLevel remoteProc message)
    { helper := self, messagePtr := 1, blockProc := remoteProc }

/-- `vtkAMRDualGridHelper::ReceiveBlocks`: the helper after the call. -/
def vtkAMRDualGridHelper.ReceiveBlocks (self : vtkAMRDualGridHelper) (remoteProc : Int)
    (message : List Int) : vtkAMRDualGridHelper :=
  (receiveBlocksState self remoteProc message).helper

/-- `vtkAMRDualGridHelper::ShareBlocks` on a group of processes: `root` is the
helper of process 0 and `others` lists the helpers of the processes 1, 2, ...
by rank.  Process 0 receives the blocks of the processes 1, 2, ... in this
order, each sent with `SendBlocks(0, myProc)`, and then sends its registry to
each of them with `SendBlocks(procIdx, 0)`.  With a single process nothing
happens. -/
def ShareBlocks (root : vtkAMRDualGridHelper) (others : List vtkAMRDualGridHelper) :
    vtkAMRDualGridHelper × List vtkAMRDualGridHelper :=
  let root1 := others.enum.foldl
    (fun h o => h.ReceiveBlocks ((o.1 : Int) + 1) (o.2.SendBlocks 0 ((o.1 : Int) + 1)).2) root
  (root1, others.enum.map fun o =>
    o.2.ReceiveBlocks 0 (root1.SendBlocks ((o.1 : Int) + 1) 0).2)

/-- The grid index and the owner of the blocks of the registry, level by
level. -/
def vtkAMRDualGridHelper.blockKeys (h : vtkAMRDualGridHelper) :
    List (List ((Int × Int × Int) × Int)) :=
  h.Levels.map fun l => l.Blocks.map fun b => (b.GridIndex, b.ProcessId)

/-- Every block of the registry is owned by the process `rank`: the state of
the registry of that process before the exchange. -/
def vtkAMRDualGridHelper.ownedBy (h : vtkAMRDualGridHelper) (rank : Int) : Prop :=
  ∀ l ∈ h.Levels, ∀ b ∈ l.Blocks, b.ProcessId = rank

instance (h : vtkAMRDualGridHelper) (rank : Int) : Decidable (h.ownedBy rank) := by
  unfold vtkAMRDualGridHelper.ownedBy; infer_instance

/-- The message as the comment of `SendBlocks` describes it, for one block:
`gridx, gridy, gridz` and, from process 0, `proc`. -/
def encodeBlock (localProc : Int) (b : vtkAMRDualGridHelperBlock) : List Int :=
  [b.GridIndex.1, b.GridIndex.2.1, b.GridIndex.2.2] ++
    (if localProc = 0 then [b.ProcessId] else [])

/-- The message as the comment of `SendBlocks` describes it, for one level: the
number of blocks sent, then the blocks whose owner is not `remoteProc`. -/
def encodeLevel (remoteProc localProc : Int) (l : vtkAMRDualGridHelperLevel) : List Int :=
  (((l.Blocks.filter fun b => decide (b.ProcessId ≠ remoteProc)).length : Nat) : Int) ::
    (l.Blocks.filter fun b => decide (b.ProcessId ≠ remoteProc)).flatMap (encodeBlock localProc)

/-- The grid index and the owner of the blocks of a level. -/
def vtkAMRDualGridHelperLevel.levelKeys (l : vtkAMRDualGridHelperLevel) :
    List ((Int × Int × Int) × Int) :=
  l.Blocks.map fun b => (b.GridIndex, b.ProcessId)

/-- The owner `ReceiveBlocks` gives to a block received from `remoteProc`: the
integer `proc` of the message when it comes from process 0, else the sender. -/
def receivedOwner (remoteProc : Int) (b : vtkAMRDualGridHelperBlock) : Int :=
  if remoteProc = 0 then b.ProcessId else remoteProc

/-- The blocks of a list put into the level `levelIdx` of the registry as
`ReceiveBlocks` does for a message from `remoteProc`: skeleton blocks with the
grid index of the block, its received owner, and the origin index
`StandardBlockDimensions * gridIndex - 1`. -/
def addSkeletons (remoteProc : Int) (levelIdx : Nat) (h : vtkAMRDualGridHelper)
    (bs : List vtkAMRDualGridHelperBlock) : vtkAMRDualGridHelper :=
  bs.foldl
    (fun g b => g.addBlockAt levelIdx b.GridIndex.1 b.GridIndex.2.1 b.GridIndex.2.2 none
      (receivedOwner remoteProc b)
      (g.StandardBlockDimensions.1 * b.GridIndex.1 - 1,
        g.StandardBlockDimensions.2.1 * b.GridIndex.2.1 - 1,
        g.StandardBlockDimensions.2.2 * b.GridIndex.2.2 - 1)) h

/-- The registry of process 0 of three before the exchange: two levels, one
block at level 0, grid index (0,0,0). -/
def shareRank0 : vtkAMRDualGridHelper :=
  (vtkAMRDualGridHelper.init 2 (4, 4, 4)).addBlockAt 0 0 0 0 none 0 (-1, -1, -1)

/-- The registry of process 1 of three before the exchange: two blocks at level
1, grid indices (2,0,0) and (2,1,0). -/
def shareRank1 : vtkAMRDualGridHelper :=
  ((vtkAMRDualGridHelper.init 2 (4, 4, 4)).addBlockAt 1 2 0 0 none 1 (7, -1, -1)).addBlockAt
    1 2 1 0 none 1 (7, 3, -1)

/-- The registry of process 2 of three before the exchange: a block at level 1,
grid index (2,0,1), and a block at level 0, grid index (1,0,0). -/
def shareRank2 : vtkAMRDualGridHelper :=
  ((vtkAMRDualGridHelper.init 2 (4, 4, 4)).addBlockAt 1 2 0 1 none 2 (7, -1, 3)).addBlockAt
    0 1 0 0 none 2 (3, -1, -1)
/-! ## The boundary mask on a registry with one level -/

/-- The six face directions, in the order of the bits of `BoundaryBits`. -/
def faceDirections : List (Int × Int × Int) :=
  [(-1, 0, 0), (1, 0, 0), (0, -1, 0), (0, 1, 0), (0, 0, -1), (0, 0, 1)]

/-- The bit of `BoundaryBits` that stands for a face: -x = 1, +x = 2, -y = 4,
+y = 8, -z = 16, +z = 32 (the complements of the masks 62, 61, 59, 55, 47 and
31 that `ClaimBlockSharedRegion` applies). -/
def faceBit (f : Int × Int × Int) : Nat :=
  if f = (-1, 0, 0) then 1
  else if f = (1, 0, 0) then 2
  else if f = (0, -1, 0) then 4
  else if f = (0, 1, 0) then 8
  else if f = (0, 0, -1) then 16
  else if f = (0, 0, 1) then 32
  else 0

/-- The opposite direction. -/
def oppositeDirection (f : Int × Int × Int) : Int × Int × Int := (-f.1, -f.2.1, -f.2.2)

/-- What the grid of the level `L` holds at the grid index of the block `k` of
that level offset by the direction `f`. -/
def vtkAMRDualGridHelper.faceNeighbor (h : vtkAMRDualGridHelper) (L k : Nat)
    (f : Int × Int × Int) : Option Nat :=
  (h.levelAt L).GetGridBlock ((h.blockAt (L, k)).GridIndex.1 + f.1)
    ((h.blockAt (L, k)).GridIndex.2.1 + f.2.1) ((h.blockAt (L, k)).GridIndex.2.2 + f.2.2)

/-- A registry whose blocks all lie on the level `L`, with non-negative grid
indices and one block per grid cell: the registry is consistent, the other
levels hold no block, the grid of `L` is well formed, every pointer that
`GetGridBlock` returns points to a block that has the grid index asked for, and
every block is in the grid at its grid index. -/
def vtkAMRDualGridHelper.OneLevel (h : vtkAMRDualGridHelper) (L : Nat) : Prop :=
  h.LevelsConsistent ∧ L < h.Levels.length ∧
  (∀ n ∈ List.range h.Levels.length, n ≠ L → (h.levelAt n).Blocks = []) ∧
  (h.levelAt L).GridWF ∧
  (∀ c ∈ extentCoords (h.levelAt L).GridExtent,
    ∀ k ∈ (h.levelAt L).GetGridBlock c.1 c.2.1 c.2.2, (h.blockAt (L, k)).GridIndex = c) ∧
  (∀ k ∈ List.range (h.levelAt L).Blocks.length,
    (h.levelAt L).GetGridBlock (h.blockAt (L, k)).GridIndex.1
      (h.blockAt (L, k)).GridIndex.2.1 (h.blockAt (L, k)).GridIndex.2.2 = some k)

instance (h : vtkAMRDualGridHelper) (L : Nat) : Decidable (h.OneLevel L) := by
  unfold vtkAMRDualGridHelper.OneLevel; infer_instance

/-- The blocks of the level `L` as the constructor leaves them: every face a
boundary, every region owned. -/
def vtkAMRDualGridHelper.Fresh (h : vtkAMRDualGridHelper) (L : Nat) : Prop :=
  ∀ b ∈ (h.levelAt L).Blocks,
    b.BoundaryBits = 63 ∧ b.RegionBits = List.replicate 27 vtkAMRRegionBitOwner

instance (h : vtkAMRDualGridHelper) (L : Nat) : Decidable (h.Fresh L) := by
  unfold vtkAMRDualGridHelper.Fresh; infer_instance

/-- The bit of the face `f` is cleared in `BoundaryBits` of the block `k` of the
level `L`. -/
def vtkAMRDualGridHelper.faceCleared (s : vtkAMRDualGridHelper) (L k : Nat)
    (f : Int × Int × Int) : Prop :=
  (s.blockAt (L, k)).BoundaryBits &&& faceBit f = 0

/-- The block `k` of the level `L` has the owner bit in its `RegionBits` entry
for the direction `f`. -/
def vtkAMRDualGridHelper.ownsRegion (s : vtkAMRDualGridHelper) (L k : Nat)
    (f : Int × Int × Int) : Prop :=
  ((s.blockAt (L, k)).regionBits (f.1 + 1) (f.2.1 + 1) (f.2.2 + 1) &&&
    vtkAMRRegionBitOwner) ≠ 0

/-- Every bit of `BoundaryBits` that is set in the state `s` is set in the
state `h`: no bit that is cleared in `h` is set in `s`. -/
def BitsOnlyCleared (h s : vtkAMRDualGridHelper) : Prop :=
  ∀ q, (s.blockAt q).BoundaryBits &&& (h.blockAt q).BoundaryBits = (s.blockAt q).BoundaryBits

/-- A later state of the same registry: same grids and blocks, every block with
the grid index it had. -/
def Evolved (h s : vtkAMRDualGridHelper) : Prop :=
  SameGrids h s ∧ ∀ q, (s.blockAt q).GridIndex = (h.blockAt q).GridIndex

/-- The state of the boundary bits and of the face regions in the course of
`AssignSharedRegions` on a registry `h` with one level `L`: a cleared bit has a
neighbour behind it, and of two blocks that share a face either both have the
bit of that face cleared or both still own their region of the face. -/
def FacesTracked (h s : vtkAMRDualGridHelper) (L : Nat) : Prop :=
  (∀ k f, f ∈ faceDirections → s.faceCleared L k f → h.faceNeighbor L k f ≠ none) ∧
  (∀ k f j, f ∈ faceDirections → k < (h.levelAt L).Blocks.length →
    h.faceNeighbor L k f = some j →
    (s.faceCleared L k f ∧ s.faceCleared L j (oppositeDirection f)) ∨
      (s.ownsRegion L k f ∧ s.ownsRegion L j (oppositeDirection f)))

/-- Three blocks in a row on level 1 of two levels, grid indices (0,0,0),
(1,0,0) and (2,0,0), and a block at (0,1,0). -/
def rowScenario : vtkAMRDualGridHelper :=
  ((((vtkAMRDualGridHelper.init 2 (4, 4, 4)).addBlockAt 1 0 0 0 none 0 (-1, -1, -1)).addBlockAt
    1 1 0 0 none 0 (3, -1, -1)).addBlockAt 1 2 0 0 none 0 (7, -1, -1)).addBlockAt
    1 0 1 0 none 0 (-1, 3, -1)
/-! ## The packed entry and the warning of `AssignBlockSharedRegions` -/

/-- The cast `(unsigned char)(blockLevel - degeneracyLevel)` of
`AssignBlockSharedRegions`. -/
def levelDiffByte (blockLevel degeneracyLevel : Int) : Nat :=
  ((blockLevel - degeneracyLevel) % 256).toNat

/-- The value `vtkAMRRegionBitOwner + (vtkAMRRegionBitsDegenerateMask & levelDiff)`
that `AssignBlockSharedRegions` stores in the `RegionBits` entry of a
degenerate region. -/
def regionBitsEntry (blockLevel degeneracyLevel : Int) : Nat :=
  vtkAMRRegionBitOwner +
    (vtkAMRRegionBitsDegenerateMask &&& levelDiffByte blockLevel degeneracyLevel)

/-- The test `(vtkAMRRegionBitsDegenerateMask & levelDiff) != levelDiff` of
`AssignBlockSharedRegions`, which guards the warning "Could not encode level
difference.". -/
def cannotEncode (levelDiff : Nat) : Bool :=
  decide ((vtkAMRRegionBitsDegenerateMask &&& levelDiff) ≠ levelDiff)

/-- Whether the iteration of the region loop of `AssignBlockSharedRegions` for
the region `r` issues the warning "Could not encode level difference.": the
same tests as `assignRegion`, with the warning as the result. -/
def assignRegionWarns (block : BlockPtr) (blockLevel blockX blockY blockZ : Int)
    (self : vtkAMRDualGridHelper) (r : Int × Int × Int) : Bool :=
  let rx := r.1
  let ry := r.2.1
  let rz := r.2.2
  if (rx ≠ 0 ∨ ry ≠ 0 ∨ rz ≠ 0) ∧
      ((self.blockAt block).regionBits (rx + 1) (ry + 1) (rz + 1) &&& vtkAMRRegionBitOwner) ≠ 0
  then
    let res := self.ClaimBlockSharedRegion block blockX blockY blockZ rx ry rz
    let degeneracyLevel := res.2
    if res.1.EnableDegenerateCells ∧ degeneracyLevel < blockLevel then
      cannotEncode (levelDiffByte blockLevel degeneracyLevel)
    else false
  else false

/-- Two states of the helper with the same number of levels and of blocks in
each level, whose blocks have `RegionBits` arrays of the same length. -/
def SameShape (h s : vtkAMRDualGridHelper) : Prop :=
  s.Levels.length = h.Levels.length ∧
  (∀ n, (s.levelAt n).Blocks.length = (h.levelAt n).Blocks.length) ∧
  ∀ q, (s.blockAt q).RegionBits.length = (h.blockAt q).RegionBits.length

/-- A registry of 130 levels with one block at level 129 and one block at
level 0, both at the grid index (0,0,0) and without payload: the coarse block
covers the fine one. -/
def deepScenario : vtkAMRDualGridHelper :=
  ((vtkAMRDualGridHelper.init 130 (2, 2, 2)).addBlockAt 129 0 0 0 none 0 (-1, -1, -1)).addBlockAt
    0 0 0 0 none 0 (-1, -1, -1)

/-! ## The neighbour cells looked up by `ClaimBlockSharedRegion` -/

/-- The number of axes on which a region direction is not 0. -/
def nonZeroAxes (r : Int × Int × Int) : Nat :=
  (if r.1 ≠ 0 then 1 else 0) + (if r.2.1 ≠ 0 then 1 else 0) + (if r.2.2 ≠ 0 then 1 else 0)

/-- The offsets of the neighbour loops of `ClaimBlockSharedRegion` that pass
the test `if (ix || iy || iz)`: the offsets for which `GetGridBlock` is
called. -/
def lookedUpOffsets (regionX regionY regionZ : Int) : List (Int × Int × Int) :=
  (neighborOffsets regionX regionY regionZ).filter
    fun o => decide (o.1 ≠ 0 ∨ o.2.1 ≠ 0 ∨ o.2.2 ≠ 0)

/-- The grid coordinates `(lowerX, lowerY, lowerZ)` that one iteration of the
level loop of `ClaimBlockSharedRegion` passes to `GetGridBlock`, in the order
of the calls. -/
def claimLevelLookups (blockX blockY blockZ regionX regionY regionZ : Int)
    (levelDifference : Nat) : List (Int × Int × Int) :=
  if onLowerGridBoundary blockX blockY blockZ regionX regionY regionZ levelDifference then
    (lookedUpOffsets regionX regionY regionZ).map fun o =>
      ((blockX + o.1) >>> levelDifference, (blockY + o.2.1) >>> levelDifference,
        (blockZ + o.2.2) >>> levelDifference)
  else []
/-! ## The accessor by position in the block list -/

/-- The result of `GetBlock(int level, int blockIdx)`: a null pointer, a
pointer to a block of the registry, or whatever `Blocks[index]` reads when
`index` is not a position of the vector (the behaviour of `operator[]` is
undefined there). -/
inductive BlockRead where
  | null : BlockRead
  | block (p : BlockPtr) : BlockRead
  | outsideList (index : Int) : BlockRead
  deriving DecidableEq, Repr

/-- The read `this->Levels[level]->Blocks[index]` of a vector of block
pointers. -/
def vtkAMRDualGridHelper.readBlocks (self : vtkAMRDualGridHelper) (level : Nat)
    (index : Int) : BlockRead :=
  if 0 ≤ index ∧ index < ((self.levelAt level).Blocks.length : Int) then
    BlockRead.block (level, index.toNat)
  else BlockRead.outsideList index

/-- `vtkAMRDualGridHelper::GetNumberOfBlocksInLevel`. -/
def vtkAMRDualGridHelper.GetNumberOfBlocksInLevel (self : vtkAMRDualGridHelper)
    (level : Int) : Int :=
  if level < 0 ∨ level ≥ (self.Levels.length : Int) then 0
  else ((self.levelAt level.toNat).Blocks.length : Int)

/-- The overload `vtkAMRDualGridHelper::GetBlock(int level, int blockIdx)`. -/
def vtkAMRDualGridHelper.GetBlockIdx (self : vtkAMRDualGridHelper)
    (level blockIdx : Int) : BlockRead :=
  if level < 0 ∨ level ≥ (self.Levels.length : Int) then BlockRead.null
  else if ((self.levelAt level.toNat).Blocks.length : Int) ≤ blockIdx then BlockRead.null
  else self.readBlocks level.toNat blockIdx

/-! ## The strides of the degenerate copies -/

/-- The strides `(yInc, zInc)` that `CopyDegenerateRegionBlockToBlock`,
`CopyDegenerateRegionBlockToMessage` and `CopyDegenerateRegionMessageToBlock`
compute: `ext[0] = ext[2] = ext[4] = 0`, `ext[1] = StandardBlockDimensions[0] + 1`,
`ext[5] = StandardBlockDimensions[2] + 1`, then `yInc = ext[1]-ext[0]+1` and
`zInc = yInc*(ext[5]-ext[4]+1)`. -/
def degenerateCopyStrides (dims : Int × Int × Int) : Int × Int :=
  let ext1 := dims.1 + 1
  let ext5 := dims.2.2 + 1
  let yInc := ext1 - 0 + 1
  let zInc := yInc * (ext5 - 0 + 1)
  (yInc, zInc)

/-- The offset `x + y*yInc + z*zInc` at which the degenerate copies address the
voxel `(x,y,z)` of a ghost-padded block. -/
def voxelOffset (dims : Int × Int × Int) (x y z : Int) : Int :=
  x + y * (degenerateCopyStrides dims).1 + z * (degenerateCopyStrides dims).2

/-- The assignment `highResBlock->CopyFlag = 1` of the degenerate copies. -/
def markCopied (b : vtkAMRDualGridHelperBlock) : vtkAMRDualGridHelperBlock :=
  { b with CopyFlag := true }

/-- The block whose cell array holds `out` after a degenerate copy wrote
through the pointer `ptr` into the array of the image `hImg`. -/
def storeScalars (hImg : vtkImageData) (out : List Int) (b : vtkAMRDualGridHelperBlock) :
    vtkAMRDualGridHelperBlock :=
  { b with Image := some { hImg with Scalars := some out } }
/-! ## Restoring the ghost layers

`a % b` on `int` is `Int.tmod` (the remainder of the division that truncates
toward zero); it is undefined for `b = 0`. -/

/-- What `AddBackGhostLevels` reads from `this->Image` besides the cell array,
and sets on the copy: the result of `GetDimensions` (the number of points on
each axis), of `GetOrigin` and of `GetSpacing`. -/
structure ImageGrid where
  Dimensions : Int × Int × Int
  Origin : ℚ × ℚ × ℚ
  Spacing : ℚ × ℚ × ℚ
  deriving DecidableEq

/-- The value of `lo, lo+1, ..., hi` nearest to `x`. -/
def clampTo (lo hi x : Int) : Int :=
  if x < lo then lo else if x > hi then hi else x

/-- The template `vtkAMRDualGridHelperAddBackGhostValues`: returns the array
`outPtr` points to after the loops.  The state of each loop is the output array
with the position of `outPtr` in it, and the position of the running input
pointer of the loop (`inPtrZ`, `inPtrY`, `inPtrX`) in `inPtr`. -/
def vtkAMRDualGridHelperAddBackGhostValues (inPtr : List Int) (inDim : Int × Int × Int)
    (outPtr : List Int) (outDim offset : Int × Int × Int) : List Int :=
  let inIncZ := inDim.1 * inDim.2.1
  let outExt0 : Int := -1
  let outExt2 : Int := -1
  let outExt4 : Int := -1
  let outExt1 := outExt0 + outDim.1 - 1
  let outExt3 := outExt2 + outDim.2.1 - 1
  let outExt5 := outExt4 + outDim.2.2 - 1
  let inExt0 := -1 + offset.1
  let inExt2 := -1 + offset.2.1
  let inExt4 := -1 + offset.2.2
  let inExt1 := inExt0 + inDim.1 - 1
  let inExt3 := inExt2 + inDim.2.1 - 1
  let inExt5 := inExt4 + inDim.2.2 - 1
  ((intRange outExt4 outExt5).foldl (fun (sz : MessagePtr × Int) zz =>
      let ry := (intRange outExt2 outExt3).foldl (fun (sy : MessagePtr × Int) yy =>
          let rx := (intRange outExt0 outExt1).foldl (fun (sx : MessagePtr × Int) xx =>
              ((writeAt sx.1.1 sx.1.2 (readCell inPtr sx.2), sx.1.2 + 1),
                if xx ≥ inExt0 ∧ xx < inExt1 then sx.2 + 1 else sx.2))
            (sy.1, sy.2)
          (rx.1, if yy ≥ inExt2 ∧ yy < inExt3 then sy.2 + inDim.1 else sy.2))
        (sz.1, sz.2)
      (ry.1, if zz ≥ inExt4 ∧ zz < inExt5 then sz.2 + inIncZ else sz.2))
    ((outPtr, 0), 0)).1.1

/-- The values one iteration of the loop over the axes of `AddBackGhostLevels`
leaves for its axis. -/
structure GhostAxis where
  OriginIndex : Int
  origin : ℚ
  offset : Int
  inDim : Int
  outDim : Int
  needToCopy : Bool
  deriving DecidableEq

/-- One iteration of the loop over the axes of `AddBackGhostLevels`, for an
axis with `this->OriginIndex[ii] = originIndex` and `pointDim` points.
`needToCopy` tells whether the iteration sets the flag. -/
def ghostAxis (originIndex pointDim : Int) (origin spacing : ℚ)
    (standardBlockDimension : Int) : GhostAxis :=
  let inDim := pointDim - 1
  let outDim := pointDim - 1
  let nCheck := Int.tmod originIndex standardBlockDimension
  let pCheck := Int.tmod (originIndex + inDim) standardBlockDimension
  let a : GhostAxis :=
    if nCheck = 0 then
      { OriginIndex := originIndex - 1, origin := origin - spacing, offset := 1, inDim := inDim,
        outDim := outDim + 1, needToCopy := true }
    else
      { OriginIndex := originIndex, origin := origin, offset := 0, inDim := inDim,
        outDim := outDim, needToCopy := false }
  if pCheck = 0 then { a with outDim := a.outDim + 1, needToCopy := true } else a

/-- `vtkAMRDualGridHelperBlock::AddBackGhostLevels`: the block and the grid of
its image after the call; `none` when a standard block dimension is 0 and the
remainder is undefined.  `grid` is the grid of `this->Image`.  The cell array
of the model is one of the arrays the loop over the arrays copies; every data
type is taken to be one the template macro dispatches on.  The flag
`needToCopy` of the source is set when an iteration of the loop over the axes
sets it. -/
def vtkAMRDualGridHelperBlock.AddBackGhostLevels (self : vtkAMRDualGridHelperBlock)
    (grid : ImageGrid) (standardBlockDimensions : Int × Int × Int) :
    Option (vtkAMRDualGridHelperBlock × ImageGrid) :=
  match self.Image with
  | none => some (self, grid)
  | some image =>
    if standardBlockDimensions.1 = 0 ∨ standardBlockDimensions.2.1 = 0 ∨
        standardBlockDimensions.2.2 = 0 then none
    else
      let ax := ghostAxis self.OriginIndex.1 grid.Dimensions.1 grid.Origin.1 grid.Spacing.1
        standardBlockDimensions.1
      let ay := ghostAxis self.OriginIndex.2.1 grid.Dimensions.2.1 grid.Origin.2.1
        grid.Spacing.2.1 standardBlockDimensions.2.1
      let az := ghostAxis self.OriginIndex.2.2 grid.Dimensions.2.2 grid.Origin.2.2
        grid.Spacing.2.2 standardBlockDimensions.2.2
      if ¬ (ax.needToCopy ∨ ay.needToCopy ∨ az.needToCopy) then some (self, grid)
      else
        let inDim := (ax.inDim, ay.inDim, az.inDim)
        let outDim := (ax.outDim, ay.outDim, az.outDim)
        let offset := (ax.offset, ay.offset, az.offset)
        let newSize := ax.outDim * ay.outDim * az.outDim
        some
          ({ self with
              OriginIndex := (ax.OriginIndex, ay.OriginIndex, az.OriginIndex)
              Image := some
                { image with
                  Scalars := image.Scalars.map fun inPtr =>
                    vtkAMRDualGridHelperAddBackGhostValues inPtr inDim
                      (List.replicate newSize.toNat 0) outDim offset }
              CopyFlag := true },
            { Dimensions := (ax.outDim + 1, ay.outDim + 1, az.outDim + 1)
              Origin := (ax.origin, ay.origin, az.origin)
              Spacing := grid.Spacing })

/-- The `OriginIndex` that `ReceiveBlocks` assigns to the skeleton of a block
with the grid index `(x,y,z)`: `StandardBlockDimensions * gridIndex - 1`. -/
def skeletonOriginIndex (dims : Int × Int × Int) (x y z : Int) : Int × Int × Int :=
  (dims.1 * x - 1, dims.2.1 * y - 1, dims.2.2 * z - 1)

/-- A block of the standard size at the grid index `g`, as the reader leaves
it when it has stripped the ghost layer on the sides `lowStripped` (negative
side of each axis) and `highStripped` (positive side): the index of its first
cell and the number of its points on one axis. -/
def strippedAxis (standardBlockDimension g : Int) (lowStripped highStripped : Bool) :
    Int × Int :=
  (standardBlockDimension * g - 1 + (if lowStripped then 1 else 0),
   standardBlockDimension + 2 - (if lowStripped then 1 else 0) -
     (if highStripped then 1 else 0) + 1)

/-- The cell `(x,y,z)` of a cell array with `dimX` by `dimY` cells in x and y
whose first cell has the coordinates `lo`, x fastest. -/
def cellAt (cells : List Int) (dimX dimY : Int) (lo : Int × Int × Int) (x y z : Int) : Int :=
  readCell cells ((x - lo.1) + (y - lo.2.1) * dimX + (z - lo.2.2) * (dimX * dimY))

/-- The coordinate of the first cell present on an axis of a block whose ghost
layer on the negative side was stripped or not; the ghost cell has the
coordinate -1. -/
def presentLo (lowStripped : Bool) : Int := -1 + (if lowStripped then 1 else 0)

/-- The coordinate of the last cell present on an axis of a block of
`standardBlockDimension` cells whose ghost layer on the positive side was
stripped or not; the ghost cell has the coordinate `standardBlockDimension`. -/
def presentHi (standardBlockDimension : Int) (highStripped : Bool) : Int :=
  standardBlockDimension - (if highStripped then 1 else 0)

/-- A block of 2x2x2 cells at the grid index (1,0,0) whose ghost layer was
stripped on the negative x side and on the positive z side: 3x4x3 cells, the
first of them at the index (2,-1,-1); cell `i` holds `100 + i`. -/
def ghostStrippedBlock : vtkAMRDualGridHelperBlock :=
  { vtkAMRDualGridHelperBlock.new 0 with
    GridIndex := (1, 0, 0)
    OriginIndex := (2, -1, -1)
    Image := some
      { DataType := 11, Scalars := some ((List.range 36).map fun (i : Nat) => (100 + i : Int)) } }

/-- The grid of the image of `ghostStrippedBlock`: 4x5x4 points. -/
def ghostStrippedGrid : ImageGrid :=
  { Dimensions := (4, 5, 4), Origin := (2, -1, -1), Spacing := (1, 1, 1) }
/-! ## Adding a block -/

/-- The conversion `(int)` of a `double`: the fraction is discarded. -/
def truncInt (q : ℚ) : Int := if 0 ≤ q then ⌊q⌋ else ⌈q⌉

/-- What a call of `AddBlock` leaves when it returns: the helper, the new
block and the grid of the image of the new block. -/
structure AddBlockState where
  helper : vtkAMRDualGridHelper
  block : BlockPtr
  grid : ImageGrid

/-- `vtkAMRDualGridHelper::AddBlock`.  The first component tells whether
`vtkErrorMacro("Could not find the data type size.")` was issued; the second is
the state after the call, `none` when the behaviour of the call is undefined:
`Levels[level]` outside the vector, or a block size of 0, where the quotient is
not a number that `(int)` can convert (a standard block dimension of 0 also
makes the remainder in `AddBackGhostLevels` undefined).

`RootSpacing` and `GlobalOrigin` are the members of the helper of this name,
`geometry` is what `GetBounds`, `GetExtent`, `GetOrigin` and `GetSpacing` of
the volume return, `volume.Scalars` is its cell array named `ArrayName` and
`dataTypeSize` what `GetDataTypeSize` returns for it.  `GetDimensions` of an
image returns the number of points of its extent on each axis. -/
def vtkAMRDualGridHelper.AddBlock (self : vtkAMRDualGridHelper)
    (RootSpacing GlobalOrigin : ℚ × ℚ × ℚ) (localProcessId : Int) (level : Int)
    (volume : vtkImageData) (geometry : vtkImageGeometry) (dataTypeSize : Int) :
    Bool × Option AddBlockState :=
  let error : Bool := decide (volume.Scalars = none)
  let self1 : vtkAMRDualGridHelper :=
    if volume.Scalars = none then self else { self with DataTypeSize := dataTypeSize }
  (error,
    if level < 0 ∨ level ≥ (self.Levels.length : Int) then none
    else
      let scale : ℚ := ((2 ^ level.toNat : Int) : ℚ)
      let blockSize : ℚ × ℚ × ℚ :=
        (RootSpacing.1 * (self.StandardBlockDimensions.1 : ℚ) / scale,
         RootSpacing.2.1 * (self.StandardBlockDimensions.2.1 : ℚ) / scale,
         RootSpacing.2.2 * (self.StandardBlockDimensions.2.2 : ℚ) / scale)
      if blockSize.1 = 0 ∨ blockSize.2.1 = 0 ∨ blockSize.2.2 = 0 then none
      else
        let bounds := geometry.Bounds
        let center : ℚ × ℚ × ℚ :=
          ((bounds.b0 + bounds.b1) * (1 / 2), (bounds.b2 + bounds.b3) * (1 / 2),
           (bounds.b4 + bounds.b5) * (1 / 2))
        let x := truncInt ((center.1 - GlobalOrigin.1) / blockSize.1)
        let y := truncInt ((center.2.1 - GlobalOrigin.2.1) / blockSize.2.1)
        let z := truncInt ((center.2.2 - GlobalOrigin.2.2) / blockSize.2.2)
        let ext := geometry.Extent
        let origin : ℚ × ℚ × ℚ :=
          (geometry.Origin.1 + geometry.Spacing.1 * (ext.e0 : ℚ) - GlobalOrigin.1,
           geometry.Origin.2.1 + geometry.Spacing.2.1 * (ext.e2 : ℚ) - GlobalOrigin.2.1,
           geometry.Origin.2.2 + geometry.Spacing.2.2 * (ext.e4 : ℚ) - GlobalOrigin.2.2)
        let originIndex : Int × Int × Int :=
          (truncInt (1 / 2 + origin.1 * scale / RootSpacing.1),
           truncInt (1 / 2 + origin.2.1 * scale / RootSpacing.2.1),
           truncInt (1 / 2 + origin.2.2 * scale / RootSpacing.2.2))
        let block : BlockPtr := (level.toNat, (self1.levelAt level.toNat).Blocks.length)
        let self2 := self1.addBlockAt level.toNat x y z (some volume) localProcessId originIndex
        let grid : ImageGrid :=
          { Dimensions := (ext.e1 - ext.e0 + 1, ext.e3 - ext.e2 + 1, ext.e5 - ext.e4 + 1)
            Origin := geometry.Origin
            Spacing := geometry.Spacing }
        match (self2.blockAt block).AddBackGhostLevels grid self.StandardBlockDimensions with
        | none => none
        | some r =>
          some { helper := self2.modifyBlock block (fun _ => r.1), block := block, grid := r.2 })

/-- The geometry of the ghost-padded block of 2x2x2 cells at the grid index
(1,1,1) of level 0, for a root spacing of 1 and the global origin 0: 4 cells
(5 points) on each axis, from 1 to 5. -/
def paddedGeometry : vtkImageGeometry :=
  { Bounds := ⟨1, 5, 1, 5, 1, 5⟩
    Extent := ⟨0, 4, 0, 4, 0, 4⟩
    Origin := (1, 1, 1)
    Spacing := (1, 1, 1) }
/-! ## Packing the message of the cross-process exchange -/

/-- The second loop of `SendDegenerateRegionsFromQueue`: the message buffer and
the pointer `messagePtr` after the regions of the queue that pass the test were
packed with `CopyDegenerateRegionBlockToMessage`. -/
def vtkAMRDualGridHelper.packSentRegions (self : vtkAMRDualGridHelper)
    (remoteProc localProc : Int) (messagePtr : MessagePtr) : MessagePtr :=
  self.DegenerateRegionQueue.foldl
    (fun m region =>
      if self.sendsRegion remoteProc localProc region then
        self.CopyDegenerateRegionBlockToMessage region.ReceivingRegion.1
          region.ReceivingRegion.2.1 region.ReceivingRegion.2.2 region.SourceBlock
          region.ReceivingBlock m
      else m) messagePtr

/-- A coarse block at level 0, grid index (0,0,0), owned by rank 0 with its
payload, and a fine block at level 1, grid index (2,0,0), owned by rank 1, with
standard block dimensions 3x3x3, after `AssignSharedRegions`.  Cell `i` of the
coarse payload holds `100 + i`; `OriginIndex` is
`StandardBlockDimensions * gridIndex - 1`. -/
def oddDimsScenario : vtkAMRDualGridHelper :=
  (((vtkAMRDualGridHelper.init 2 (3, 3, 3)).addBlockAt 0 0 0 0
    (some { DataType := 11, Scalars := some ((List.range 125).map fun (i : Nat) => (100 + i : Int)) })
    0 (-1, -1, -1)).addBlockAt 1 2 0 0 none 1 (5, -1, -1)).AssignSharedRegions
/-! ## The candidate owners of a region -/

/-- A block that `ClaimBlockSharedRegion` compares with the best one so far:
its level, the block and its distance `dist` to the region. -/
structure Candidate where
  Level : Int
  Block : BlockPtr
  dist : Int
  deriving DecidableEq, Repr

/-- The values of `bestLevel`, `bestBlock` and `bestDist` in a state of
`ClaimBlockSharedRegion`. -/
def ClaimState.best (st : ClaimState) : Candidate :=
  { Level := st.bestLevel, Block := st.bestBlock, dist := st.bestDist }

/-- The test `if (dist < bestDist)` of `ClaimBlockSharedRegion` with its three
assignments. -/
def replaceBest (best c : Candidate) : Candidate :=
  if c.dist < best.dist then c else best

/-- The candidate that the innermost loop body of `ClaimBlockSharedRegion`
meets at the offset `o` in the level `lowerLevel`: the block that
`GetGridBlock` finds there, if any, with
`dist = tx*tx + ty*ty + tz*tz` for `t = region - o`. -/
def offsetCandidate (self : vtkAMRDualGridHelper)
    (blockX blockY blockZ regionX regionY regionZ : Int) (lowerLevel : Int)
    (levelDifference : Nat) (o : Int × Int × Int) : Option Candidate :=
  if o.1 ≠ 0 ∨ o.2.1 ≠ 0 ∨ o.2.2 ≠ 0 then
    ((self.levelAt lowerLevel.toNat).GetGridBlock ((blockX + o.1) >>> levelDifference)
      ((blockY + o.2.1) >>> levelDifference) ((blockZ + o.2.2) >>> levelDifference)).map
      fun nb =>
        { Level := lowerLevel
          Block := (lowerLevel.toNat, nb)
          dist := (regionX - o.1) * (regionX - o.1) + (regionY - o.2.1) * (regionY - o.2.1) +
            (regionZ - o.2.2) * (regionZ - o.2.2) }
  else none

/-- The candidates that one iteration of the level loop of
`ClaimBlockSharedRegion` meets, in the order of the neighbour loops (`iz`
outermost, `ix` innermost). -/
def levelCandidates (self : vtkAMRDualGridHelper) (blockLevel : Int)
    (blockX blockY blockZ regionX regionY regionZ : Int) (lowerLevel : Int) :
    List Candidate :=
  let levelDifference := (blockLevel - lowerLevel).toNat
  if onLowerGridBoundary blockX blockY blockZ regionX regionY regionZ levelDifference then
    (neighborOffsets regionX regionY regionZ).filterMap
      (offsetCandidate self blockX blockY blockZ regionX regionY regionZ lowerLevel
        levelDifference)
  else []

/-- The candidates of `ClaimBlockSharedRegion` in the order in which it meets
them: the block itself, with which `bestLevel`, `bestBlock` and `bestDist`
start, then the candidates of the levels from the level of the block down
to 0. -/
def claimCandidates (self : vtkAMRDualGridHelper) (block : BlockPtr)
    (blockX blockY blockZ regionX regionY regionZ : Int) : List Candidate :=
  let blockLevel := (self.blockAt block).Level
  { Level := blockLevel
    Block := block
    dist := regionX * regionX + regionY * regionY + regionZ * regionZ } ::
    (intRange 0 blockLevel).reverse.flatMap
      (levelCandidates self blockLevel blockX blockY blockZ regionX regionY regionZ)

/-- A registry of one level with three blocks, at the grid indices (0,0,0),
(1,0,0) and (0,1,0), none with a payload: for the edge region (1,1,0) of the
first block the two others are at the same distance 1. -/
def tieScenario : vtkAMRDualGridHelper :=
  (((vtkAMRDualGridHelper.init 1 (2, 2, 2)).addBlockAt 0 0 0 0 none 0 (-1, -1, -1)).addBlockAt
    0 1 0 0 none 0 (1, -1, -1)).addBlockAt 0 0 1 0 none 0 (-1, 1, -1)
/-! ## Registries that hold the same blocks in a different order

A block pointer of the model is the position of the block in the list `Blocks`
of its level, which is the order of the `AddGridBlock` calls.  Two registries
built from the same blocks in a different order hold the same blocks at
different positions; `π n i` is the position in the second registry of the
block at the position `i` of level `n` of the first. -/

/-- The pointer of the second registry to the block `p` of the first. -/
def relabelPtr (π : Nat → Nat → Nat) (p : BlockPtr) : BlockPtr := (p.1, π p.1 p.2)

/-- The queue entry of the second registry for the entry `r` of the first. -/
def relabelRegion (π : Nat → Nat → Nat) (r : vtkAMRDualGridHelperDegenerateRegion) :
    vtkAMRDualGridHelperDegenerateRegion :=
  { ReceivingBlock := relabelPtr π r.ReceivingBlock
    ReceivingRegion := r.ReceivingRegion
    SourceBlock := relabelPtr π r.SourceBlock }

/-- The registry `h'` holds the blocks of `h` at the positions given by `π`:
same flags and dimensions, well-formed grids with the same extents, the same
block (with all its fields) behind corresponding pointers and in corresponding
grid slots, and corresponding queue entries in the same order; the pointers in
the grids and in the queue point to blocks. -/
def Relabel (π : Nat → Nat → Nat) (h h' : vtkAMRDualGridHelper) : Prop :=
  h'.Levels.length = h.Levels.length ∧
  h'.EnableDegenerateCells = h.EnableDegenerateCells ∧
  h'.SkipGhostCopy = h.SkipGhostCopy ∧
  h'.StandardBlockDimensions = h.StandardBlockDimensions ∧
  h'.DataTypeSize = h.DataTypeSize ∧
  (∀ n, (h.levelAt n).GridWF ∧ (h'.levelAt n).GridWF ∧
    (h'.levelAt n).GridExtent = (h.levelAt n).GridExtent ∧
    (h'.levelAt n).Blocks.length = (h.levelAt n).Blocks.length ∧
    (h'.levelAt n).Level = (h.levelAt n).Level) ∧
  (∀ n x y z, (h'.levelAt n).GetGridBlock x y z =
    ((h.levelAt n).GetGridBlock x y z).map (π n)) ∧
  (∀ n x y z i, (h.levelAt n).GetGridBlock x y z = some i →
    i < (h.levelAt n).Blocks.length) ∧
  (∀ n i, i < (h.levelAt n).Blocks.length →
    π n i < (h.levelAt n).Blocks.length ∧ h'.blockAt (n, π n i) = h.blockAt (n, i)) ∧
  (∀ n i j, i < (h.levelAt n).Blocks.length → j < (h.levelAt n).Blocks.length →
    π n i = π n j → i = j) ∧
  h'.DegenerateRegionQueue = h.DegenerateRegionQueue.map (relabelRegion π) ∧
  (∀ e ∈ h.DegenerateRegionQueue,
    e.ReceivingBlock.2 < (h.levelAt e.ReceivingBlock.1).Blocks.length ∧
    e.SourceBlock.2 < (h.levelAt e.SourceBlock.1).Blocks.length)

/-- Corresponding states of `ClaimBlockSharedRegion` on two such registries. -/
def RelabelState (π : Nat → Nat → Nat) (st st' : ClaimState) : Prop :=
  Relabel π st.helper st'.helper ∧
  st'.bestLevel = st.bestLevel ∧ st'.bestDist = st.bestDist ∧
  st'.bestBlock = relabelPtr π st.bestBlock ∧
  st.bestBlock.2 < (st.helper.levelAt st.bestBlock.1).Blocks.length

/-- A block to add to a registry: what `AddBlock` and `ReceiveBlocks` pass to
`AddGridBlock` and assign to the new block. -/
structure BlockSpec where
  level : Nat
  x : Int
  y : Int
  z : Int
  volume : Option vtkImageData
  processId : Int
  originIndex : Int × Int × Int
  deriving DecidableEq

/-- The registry obtained from the initialised helper by adding the blocks of
the list in the order of the list. -/
def buildRegistry (numLevels : Nat) (dims : Int × Int × Int) (blocks : List BlockSpec) :
    vtkAMRDualGridHelper :=
  blocks.foldl
    (fun h b => h.addBlockAt b.level b.x b.y b.z b.volume b.processId b.originIndex)
    (vtkAMRDualGridHelper.init numLevels dims)

/-- The block in the grid slot `(x,y,z)` of the level `n`, with all its
fields; `none` for a null slot. -/
def vtkAMRDualGridHelper.blockInSlot (self : vtkAMRDualGridHelper) (n : Nat) (x y z : Int) :
    Option vtkAMRDualGridHelperBlock :=
  ((self.levelAt n).GetGridBlock x y z).map fun i => self.blockAt (n, i)

/-- The entries of the queue with each block pointer replaced by the position
of its level and the `GridIndex` of the block it points to. -/
def vtkAMRDualGridHelper.queueBlocks (self : vtkAMRDualGridHelper) :
    List ((Nat × (Int × Int × Int)) × (Int × Int × Int) × (Nat × (Int × Int × Int))) :=
  self.DegenerateRegionQueue.map fun r =>
    ((r.ReceivingBlock.1, (self.blockAt r.ReceivingBlock).GridIndex), r.ReceivingRegion,
      (r.SourceBlock.1, (self.blockAt r.SourceBlock).GridIndex))

/-- The grid slots that hold a block, in the order in which the loops of
`AssignSharedRegions` meet them: the levels from the highest down to 0 and, in
a level, the coordinates of the grid extent with z outermost and x
innermost. -/
def vtkAMRDualGridHelper.visitedSlots (self : vtkAMRDualGridHelper) :
    List (Nat × (Int × Int × Int)) :=
  (List.range self.Levels.length).reverse.flatMap fun n =>
    ((extentCoords (self.levelAt n).GridExtent).filter fun c =>
      ((self.levelAt n).GetGridBlock c.1 c.2.1 c.2.2).isSome).map fun c => (n, c)

/-- The call of `AssignBlockSharedRegions` that the grid loop of
`AssignSharedRegions` makes for the slot `(n, c)`; nothing for a null slot. -/
def visitSlot (self : vtkAMRDualGridHelper) (v : Nat × (Int × Int × Int)) :
    vtkAMRDualGridHelper :=
  match (self.levelAt v.1).GetGridBlock v.2.1 v.2.2.1 v.2.2.2 with
  | none => self
  | some b => self.AssignBlockSharedRegions (v.1, b) v.1 v.2.1 v.2.2.1 v.2.2.2

/-- A later state of the same registry with the same grids: what
`AssignSharedRegions` never changes. -/
def SameFrame (h s : vtkAMRDualGridHelper) : Prop :=
  s.Levels.length = h.Levels.length ∧
  ∀ n, (s.levelAt n).GridExtent = (h.levelAt n).GridExtent ∧
    ((s.levelAt n).GridWF ↔ (h.levelAt n).GridWF) ∧
    ∀ x y z, (s.levelAt n).GetGridBlock x y z = (h.levelAt n).GetGridBlock x y z

/-- The grid index of a block to add. -/
def BlockSpec.key (b : BlockSpec) : Int × Int × Int := (b.x, b.y, b.z)

/-- The blocks of the list that are added to the level `n`, in the order of
the list. -/
def levelSpecs (blocks : List BlockSpec) (n : Nat) : List BlockSpec :=
  blocks.filter fun b => decide (b.level = n)

/-- The grid indices of the blocks added to the level `n`, in the order of the
`AddGridBlock` calls. -/
def levelKeys (blocks : List BlockSpec) (n : Nat) : List (Int × Int × Int) :=
  (levelSpecs blocks n).map BlockSpec.key

/-- The block that `addBlockAt` leaves in a level whose `Level` is `lev`. -/
def BlockSpec.toBlock (lev : Int) (b : BlockSpec) : vtkAMRDualGridHelperBlock :=
  { vtkAMRDualGridHelperBlock.new b.processId with
    Image := b.volume
    Level := lev
    GridIndex := (b.x, b.y, b.z)
    ProcessId := b.processId
    OriginIndex := b.originIndex }

/-- The position of the first occurrence of the grid index `c` in a list of
grid indices; the length of the list when it does not occur. -/
def indexIn (c : Int × Int × Int) : List (Int × Int × Int) → Nat
  | [] => 0
  | k :: ks => if k = c then 0 else indexIn c ks + 1

/-- The position, among the blocks that the second list adds to the level `n`,
of the block that the first list adds to it in the position `i`. -/
def positionMap (blocks1 blocks2 : List BlockSpec) (n i : Nat) : Nat :=
  match (levelKeys blocks1 n)[i]? with
  | some k => indexIn k (levelKeys blocks2 n)
  | none => i

/-- The upper end `e` of the extent of a grid on one axis, for the coordinates
`ks` of its blocks on this axis: -1 for no block, else the largest
coordinate. -/
def extentOf (e : Int) (ks : List Int) : Prop :=
  (∀ k ∈ ks, k ≤ e) ∧ (e = -1 ∨ e ∈ ks) ∧ -1 ≤ e

/-- The registry `h` as `buildRegistry numLevels dims blocks` leaves it: the
flags of the initialised helper, an empty queue and, in every level, a
well-formed grid whose extent spans the grid indices of its blocks, the blocks
in the order of the list, and each grid slot pointing to the block with its
index. -/
def BuiltFrom (numLevels : Nat) (dims : Int × Int × Int) (blocks : List BlockSpec)
    (h : vtkAMRDualGridHelper) : Prop :=
  h.Levels.length = numLevels ∧ h.EnableDegenerateCells = true ∧ h.SkipGhostCopy = false ∧
  h.StandardBlockDimensions = dims ∧ h.DataTypeSize = 8 ∧ h.DegenerateRegionQueue = [] ∧
  ∀ n, (h.levelAt n).GridWF ∧
    (h.levelAt n).Level = ((vtkAMRDualGridHelper.init numLevels dims).levelAt n).Level ∧
    (h.levelAt n).Blocks = (levelSpecs blocks n).map
      (BlockSpec.toBlock ((vtkAMRDualGridHelper.init numLevels dims).levelAt n).Level) ∧
    (∀ c : Int × Int × Int, (h.levelAt n).GetGridBlock c.1 c.2.1 c.2.2 =
      if c ∈ levelKeys blocks n then some (indexIn c (levelKeys blocks n)) else none) ∧
    extentOf (h.levelAt n).GridExtent.e1 ((levelKeys blocks n).map fun k => k.1) ∧
    extentOf (h.levelAt n).GridExtent.e3 ((levelKeys blocks n).map fun k => k.2.1) ∧
    extentOf (h.levelAt n).GridExtent.e5 ((levelKeys blocks n).map fun k => k.2.2)

/-- A coarse block at level 0, grid index (0,0,0), and two fine blocks at
level 1, grid indices (2,0,0) and (2,1,0), none with a payload, for standard
block dimensions 2x2x2. -/
def orderBlocks : List BlockSpec :=
  [{ level := 0, x := 0, y := 0, z := 0, volume := none, processId := 0,
     originIndex := (-1, -1, -1) },
   { level := 1, x := 2, y := 0, z := 0, volume := none, processId := 1,
     originIndex := (3, -1, -1) },
   { level := 1, x := 2, y := 1, z := 0, volume := none, processId := 1,
     originIndex := (3, 1, -1) }]

/-- The blocks of `orderBlocks` in another order: the second fine block first,
then the coarse block, then the first fine block. -/
def orderBlocksPermuted : List BlockSpec :=
  [{ level := 1, x := 2, y := 1, z := 0, volume := none, processId := 1,
     originIndex := (3, 1, -1) },
   { level := 0, x := 0, y := 0, z := 0, volume := none, processId := 0,
     originIndex := (-1, -1, -1) },
   { level := 1, x := 2, y := 0, z := 0, volume := none, processId := 1,
     originIndex := (3, -1, -1) }]

/-! ## Lemmas on loops and arrays -/

theorem mem_intRange (a b x : Int) : x ∈ intRange a b ↔ a ≤ x ∧ x ≤ b := by
  unfold intRange
  simp only [List.mem_map, List.mem_range]
  constructor
  · rintro ⟨i, hi, rfl⟩
    constructor <;> omega
  · rintro ⟨h1, h2⟩
    refine ⟨(x - a).toNat, by omega, ?_⟩
    rw [Int.toNat_of_nonneg (by omega)]
    omega

theorem mem_extentCoords (e : Ext6) (c : Int × Int × Int) :
    c ∈ extentCoords e ↔
      (e.e0 ≤ c.1 ∧ c.1 ≤ e.e1) ∧ (e.e2 ≤ c.2.1 ∧ c.2.1 ≤ e.e3) ∧
        (e.e4 ≤ c.2.2 ∧ c.2.2 ≤ e.e5) := by
  obtain ⟨x, y, z⟩ := c
  unfold extentCoords
  simp only [List.mem_flatMap, List.mem_map, mem_intRange, Prod.mk.injEq]
  constructor
  · rintro ⟨k, hk, j, hj, i, hi, rfl, rfl, rfl⟩
    exact ⟨hi, hj, hk⟩
  · rintro ⟨hi, hj, hk⟩
    exact ⟨z, hk, y, hj, x, hi, rfl, rfl, rfl⟩

theorem range_flatMap_mul (m n : Nat) :
    (List.range m).flatMap (fun a => (List.range n).map fun b => b + a * n) =
      List.range (m * n) := by
  induction m with
  | zero => simp
  | succ m ih =>
    rw [List.range_succ, List.flatMap_append, ih, Nat.succ_mul, List.range_add]
    simp [Nat.add_comm]

theorem length_writeAt {α : Type} (g : List α) (i : Int) (v : α) :
    (writeAt g i v).length = g.length := by
  unfold writeAt; split <;> simp

theorem readAt_writeAt (g : List (Option Nat)) (i j : Int) (v : Option Nat) :
    readAt (writeAt g i v) j =
      if i = j ∧ 0 ≤ i ∧ i < g.length then v else readAt g j := by
  unfold readAt writeAt
  by_cases hi : i < 0
  · have : ¬ (i = j ∧ 0 ≤ i ∧ i < g.length) := by omega
    simp [hi, this]
  · by_cases hj : j < 0
    · have : ¬ (i = j ∧ 0 ≤ i ∧ i < g.length) := by omega
      simp [hj, this]
    · simp only [hi, hj, if_false, List.getD_eq_getElem?_getD, List.getElem?_set]
      by_cases hij : i = j
      · subst hij
        by_cases hl : i < g.length
        · have h1 : i.toNat < g.length := by omega
          have : (i = i ∧ 0 ≤ i ∧ i < (g.length : Int)) := ⟨rfl, by omega, hl⟩
          simp [h1, this]
        · have h1 : g.length ≤ i.toNat := by omega
          have : ¬ (0 ≤ i ∧ i < (g.length : Int)) := by omega
          have h2 : ¬ i.toNat < g.length := by omega
          simp [this, h2, List.getElem?_eq_none h1]
      · have h1 : i.toNat ≠ j.toNat := by omega
        have : ¬ (i = j ∧ 0 ≤ i ∧ i < (g.length : Int)) := by omega
        simp [h1, this]

theorem readAt_replicate_none (n : Nat) (t : Int) :
    readAt (List.replicate n none) t = none := by
  unfold readAt
  split
  · rfl
  · simp only [List.getD_eq_getElem?_getD, List.getElem?_replicate]
    split <;> rfl

/-- Length of the array after a sequence of writes. -/
theorem length_foldl_writeAt {κ : Type} (f : κ → Int) (L : List (κ × Option Nat))
    (g0 : List (Option Nat)) :
    (L.foldl (fun g p => writeAt g (f p.1) p.2) g0).length = g0.length := by
  induction L generalizing g0 with
  | nil => rfl
  | cons p L ih => simp only [List.foldl_cons, ih, length_writeAt]

/-- A cell that no write addresses keeps its value. -/
theorem readAt_foldl_writeAt_of_not_mem {κ : Type} (f : κ → Int)
    (L : List (κ × Option Nat)) (g0 : List (Option Nat)) (t : Int)
    (h : ∀ p ∈ L, f p.1 ≠ t) :
    readAt (L.foldl (fun g p => writeAt g (f p.1) p.2) g0) t = readAt g0 t := by
  induction L generalizing g0 with
  | nil => rfl
  | cons p L ih =>
    simp only [List.foldl_cons]
    rw [ih _ (fun q hq => h q (List.mem_cons_of_mem _ hq)), readAt_writeAt]
    have := h p (List.mem_cons_self _ _)
    simp [this]

/-- A cell that some write addresses, all writes to it carrying the value `v`,
holds `v` afterwards. -/
theorem readAt_foldl_writeAt_of_mem {κ : Type} (f : κ → Int)
    (L : List (κ × Option Nat)) (g0 : List (Option Nat)) (t : Int) (v : Option Nat)
    (hin : 0 ≤ t ∧ t < g0.length)
    (hex : ∃ p ∈ L, f p.1 = t) (hval : ∀ p ∈ L, f p.1 = t → p.2 = v) :
    readAt (L.foldl (fun g p => writeAt g (f p.1) p.2) g0) t = v := by
  induction L generalizing g0 with
  | nil => simp at hex
  | cons p L ih =>
    simp only [List.foldl_cons]
    by_cases h' : ∃ q ∈ L, f q.1 = t
    · exact ih _ (by rw [length_writeAt]; exact hin) h'
        (fun q hq => hval q (List.mem_cons_of_mem _ hq))
    · have hp : f p.1 = t := by
        obtain ⟨q, hq, hqt⟩ := hex
        rcases List.mem_cons.1 hq with rfl | hq'
        · exact hqt
        · exact absurd ⟨q, hq', hqt⟩ h'
      rw [readAt_foldl_writeAt_of_not_mem f L _ t (fun q hq hqt => h' ⟨q, hq, hqt⟩),
        readAt_writeAt, hval p (List.mem_cons_self _ _) hp]
      simp [hp, hin.1, hin.2]

theorem range_flatMap_map_mul {α : Type} (m n : Nat) (f : Nat → α) :
    (List.range m).flatMap (fun a => (List.range n).map fun b => f (b + a * n)) =
      (List.range (m * n)).map f := by
  rw [← range_flatMap_mul, List.map_flatMap]
  simp only [List.map_map, Function.comp_def]

theorem intRange_zero (X : Nat) :
    intRange 0 ((X : Int) - 1) = (List.range X).map fun (i : Nat) => (i : Int) := by
  unfold intRange
  have : ((X : Int) - 1 + 1 - 0).toNat = X := by omega
  rw [this]
  simp

/-- The nested loops over an extent that starts at 0 meet the linear indices
`0, 1, 2, ...` in this order. -/
theorem extentCoords_index (X Y Z : Nat) :
    (extentCoords ⟨0, (X : Int) - 1, 0, (Y : Int) - 1, 0, (Z : Int) - 1⟩).map
        (fun c => c.1 + c.2.1 * (X : Int) + c.2.2 * ((Y : Int) * X)) =
      (List.range (Z * (Y * X))).map fun (n : Nat) => (n : Int) := by
  unfold extentCoords
  simp only [intRange_zero, List.map_flatMap, List.flatMap_map, List.map_map, Function.comp_def]
  have h1 : ∀ k j i : Nat, (i : Int) + (j : Int) * (X : Int) + (k : Int) * ((Y : Int) * X) =
      ((i + j * X + k * (Y * X) : Nat) : Int) := by
    intro k j i; push_cast; ring
  simp only [h1]
  rw [← range_flatMap_map_mul Z (Y * X) (fun n => (n : Int))]
  congr 1
  funext k
  rw [← range_flatMap_map_mul Y X (fun n => ((n + k * (Y * X) : Nat) : Int))]

theorem length_extentCoords (X Y Z : Nat) :
    (extentCoords ⟨0, (X : Int) - 1, 0, (Y : Int) - 1, 0, (Z : Int) - 1⟩).length =
      Z * (Y * X) := by
  have := congrArg List.length (extentCoords_index X Y Z)
  simpa using this

theorem readAt_natCast (g : List (Option Nat)) (n : Nat) (h : n < g.length) :
    readAt g (n : Int) = g[n] := by
  unfold readAt
  simp [h]

/-- Each entry the copy loop reads is the entry of the old array at the linear
index of the coordinate it is read for. -/
theorem zip_extentCoords_snd (X Y Z : Nat) (old : List (Option Nat))
    (hlen : old.length = Z * (Y * X)) (p : (Int × Int × Int) × Option Nat)
    (hp : p ∈ (extentCoords ⟨0, (X : Int) - 1, 0, (Y : Int) - 1, 0, (Z : Int) - 1⟩).zip old) :
    p.2 = readAt old (p.1.1 + p.1.2.1 * (X : Int) + p.1.2.2 * ((Y : Int) * X)) := by
  obtain ⟨n, hn, rfl⟩ := List.mem_iff_getElem.1 hp
  have hn1 : n < (extentCoords ⟨0, (X : Int) - 1, 0, (Y : Int) - 1, 0, (Z : Int) - 1⟩).length := by
    simp only [List.length_zip] at hn; omega
  have hn2 : n < old.length := by
    simp only [List.length_zip] at hn; omega
  have hidx := congrArg (fun l => l[n]?) (extentCoords_index X Y Z)
  simp only [List.getElem?_map, List.getElem?_eq_getElem hn1, Option.map_some'] at hidx
  have hr : n < (List.range (Z * (Y * X))).length := by simp; omega
  rw [List.getElem?_eq_getElem hr] at hidx
  simp only [Option.map_some', List.getElem_range, Option.some.injEq] at hidx
  simp only [List.getElem_zip]
  rw [hidx, readAt_natCast old n hn2]

/-- Every coordinate of the old extent is read by the copy loop. -/
theorem zip_extentCoords_mem (X Y Z : Nat) (old : List (Option Nat))
    (hlen : old.length = Z * (Y * X)) (c : Int × Int × Int)
    (hc : c ∈ extentCoords ⟨0, (X : Int) - 1, 0, (Y : Int) - 1, 0, (Z : Int) - 1⟩) :
    ∃ v, (c, v) ∈ (extentCoords ⟨0, (X : Int) - 1, 0, (Y : Int) - 1, 0, (Z : Int) - 1⟩).zip old := by
  obtain ⟨n, hn, rfl⟩ := List.mem_iff_getElem.1 hc
  have hn2 : n < old.length := by
    rw [length_extentCoords] at hn; omega
  refine ⟨old[n], ?_⟩
  have hz : n < ((extentCoords ⟨0, (X : Int) - 1, 0, (Y : Int) - 1, 0, (Z : Int) - 1⟩).zip old).length := by
    simp only [List.length_zip]; omega
  have := List.getElem_mem hz
  simpa only [List.getElem_zip] using this

/-- The linear index of a coordinate of a box is inside the array. -/
theorem linearIndex_bounds (X Y Z : Int) (x y z : Int)
    (hx : 0 ≤ x ∧ x < X) (hy : 0 ≤ y ∧ y < Y) (hz : 0 ≤ z ∧ z < Z) :
    0 ≤ x + y * X + z * (Y * X) ∧ x + y * X + z * (Y * X) < Y * X * Z := by
  have hX : 0 < X := by omega
  have hY : 0 < Y := by omega
  constructor
  · have h1 : 0 ≤ y * X := mul_nonneg hy.1 hX.le
    have h2 : 0 ≤ z * (Y * X) := mul_nonneg hz.1 (mul_nonneg hY.le hX.le)
    omega
  · have h1 : y * X ≤ (Y - 1) * X := mul_le_mul_of_nonneg_right (by omega) hX.le
    have h2 : z * (Y * X) ≤ (Z - 1) * (Y * X) :=
      mul_le_mul_of_nonneg_right (by omega) (mul_nonneg hY.le hX.le)
    nlinarith

/-- The linear index is injective on a box. -/
theorem linearIndex_inj (X Y : Int) (x y z x' y' z' : Int)
    (hx : 0 ≤ x ∧ x < X) (hy : 0 ≤ y ∧ y < Y)
    (hx' : 0 ≤ x' ∧ x' < X) (hy' : 0 ≤ y' ∧ y' < Y)
    (h : x + y * X + z * (Y * X) = x' + y' * X + z' * (Y * X)) :
    x = x' ∧ y = y' ∧ z = z' := by
  have hX : 0 < X := by omega
  have e1 : x + (y + z * Y) * X = x' + (y' + z' * Y) * X := by linarith
  have hxx : x = x' := by
    have h1 := congrArg (· % X) e1
    simp only [Int.add_mul_emod_self] at h1
    rwa [Int.emod_eq_of_lt hx.1 hx.2, Int.emod_eq_of_lt hx'.1 hx'.2] at h1
  subst hxx
  have e2 : y + z * Y = y' + z' * Y := by
    have : (y + z * Y) * X = (y' + z' * Y) * X := by linarith
    exact mul_right_cancel₀ (ne_of_gt hX) this
  have hyy : y = y' := by
    have h1 := congrArg (· % Y) e2
    simp only [Int.add_mul_emod_self] at h1
    rwa [Int.emod_eq_of_lt hy.1 hy.2, Int.emod_eq_of_lt hy'.1 hy'.2] at h1
  subst hyy
  have hY : 0 < Y := by omega
  have : z * Y = z' * Y := by linarith
  exact ⟨rfl, rfl, mul_right_cancel₀ (ne_of_gt hY) this⟩

/-- What the copy loop of `AddGridBlock` leaves in the new array: the old entry
at every coordinate of the old extent, null elsewhere. -/
theorem readAt_copyGrid (X Y Z : Nat) (X' Y' Z' : Int) (old : List (Option Nat))
    (hlen : old.length = Z * (Y * X)) (hX : (X : Int) ≤ X') (hY : (Y : Int) ≤ Y')
    (x y z : Int)
    (hx : 0 ≤ x ∧ x < X') (hy : 0 ≤ y ∧ y < Y') (hz : 0 ≤ z ∧ z < Z') :
    readAt (copyGrid old ⟨0, (X : Int) - 1, 0, (Y : Int) - 1, 0, (Z : Int) - 1⟩ X' (Y' * X')
        (List.replicate (Y' * X' * Z').toNat none)) (x + y * X' + z * (Y' * X')) =
      if x < X ∧ y < Y ∧ z < Z then readAt old (x + y * (X : Int) + z * ((Y : Int) * X))
      else none := by
  unfold copyGrid
  have hb := linearIndex_bounds X' Y' Z' x y z hx hy hz
  have hbox : ∀ p ∈ (extentCoords ⟨0, (X : Int) - 1, 0, (Y : Int) - 1, 0, (Z : Int) - 1⟩).zip old,
      (0 ≤ p.1.1 ∧ p.1.1 < X) ∧ (0 ≤ p.1.2.1 ∧ p.1.2.1 < Y) ∧ (0 ≤ p.1.2.2 ∧ p.1.2.2 < Z) := by
    intro p hp
    have hm := (mem_extentCoords _ p.1).1 (List.of_mem_zip (by
      have : (p.1, p.2) ∈ (extentCoords ⟨0, (X : Int) - 1, 0, (Y : Int) - 1, 0, (Z : Int) - 1⟩).zip old := hp
      exact this)).1
    simp only at hm
    omega
  have hinj : ∀ p ∈ (extentCoords ⟨0, (X : Int) - 1, 0, (Y : Int) - 1, 0, (Z : Int) - 1⟩).zip old,
      p.1.1 + p.1.2.1 * X' + p.1.2.2 * (Y' * X') = x + y * X' + z * (Y' * X') →
      p.1 = (x, y, z) := by
    intro p hp he
    have hq := hbox p hp
    have := linearIndex_inj X' Y' p.1.1 p.1.2.1 p.1.2.2 x y z (by omega) (by omega) hx hy he
    exact Prod.ext this.1 (Prod.ext this.2.1 this.2.2)
  by_cases hin : x < X ∧ y < Y ∧ z < Z
  · rw [if_pos hin]
    apply readAt_foldl_writeAt_of_mem
        (fun c : Int × Int × Int => c.1 + c.2.1 * X' + c.2.2 * (Y' * X'))
    · rw [List.length_replicate, Int.toNat_of_nonneg (by omega)]
      exact hb
    · obtain ⟨v, hv⟩ := zip_extentCoords_mem X Y Z old hlen (x, y, z)
        ((mem_extentCoords _ _).2 (by simp only; omega))
      exact ⟨_, hv, rfl⟩
    · intro p hp he
      have h1 := hinj p hp he
      have h2 := zip_extentCoords_snd X Y Z old hlen p hp
      rw [h2, h1]
  · rw [if_neg hin]
    rw [readAt_foldl_writeAt_of_not_mem
        (fun c : Int × Int × Int => c.1 + c.2.1 * X' + c.2.2 * (Y' * X'))]
    · exact readAt_replicate_none _ _
    · intro p hp he
      have h1 := hinj p hp he
      have hq := hbox p hp
      rw [h1] at hq
      simp only at hq
      omega

theorem length_copyGrid (old : List (Option Nat)) (e : Ext6) (yInc zInc : Int)
    (newGrid : List (Option Nat)) :
    (copyGrid old e yInc zInc newGrid).length = newGrid.length := by
  unfold copyGrid
  exact length_foldl_writeAt (fun c : Int × Int × Int => c.1 + c.2.1 * yInc + c.2.2 * zInc) _ _

/-- The old array of a well-formed level has the size of its extent. -/
theorem GridWF_length (l : vtkAMRDualGridHelperLevel) (hwf : l.GridWF) :
    l.GridExtent = ⟨0, ((l.GridExtent.e1 + 1).toNat : Int) - 1, 0,
        ((l.GridExtent.e3 + 1).toNat : Int) - 1, 0, ((l.GridExtent.e5 + 1).toNat : Int) - 1⟩ ∧
      (l.Grid.getD []).length =
        (l.GridExtent.e5 + 1).toNat * ((l.GridExtent.e3 + 1).toNat * (l.GridExtent.e1 + 1).toNat) ∧
      -1 ≤ l.GridExtent.e1 ∧ -1 ≤ l.GridExtent.e3 ∧ -1 ≤ l.GridExtent.e5 := by
  obtain ⟨h0, h2, h4, hc⟩ := hwf
  have hge : -1 ≤ l.GridExtent.e1 ∧ -1 ≤ l.GridExtent.e3 ∧ -1 ≤ l.GridExtent.e5 := by
    rcases hc with ⟨_, a, b, c⟩ | ⟨_, a, b, c, _⟩ <;> omega
  refine ⟨?_, ?_, hge⟩
  · cases he : l.GridExtent with
    | mk a0 a1 a2 a3 a4 a5 =>
      rw [he] at h0 h2 h4 hge
      simp only at h0 h2 h4 hge
      simp only [Ext6.mk.injEq]
      refine ⟨h0, ?_, h2, ?_, h4, ?_⟩ <;> omega
  · rcases hc with ⟨hn, a, b, c⟩ | ⟨_, a, b, c, _, _, hl⟩
    · rw [hn, a]; simp
    · have e1 : ((l.GridExtent.e1 + 1).toNat : Int) = l.GridExtent.e1 + 1 :=
        Int.toNat_of_nonneg (by omega)
      have e3 : ((l.GridExtent.e3 + 1).toNat : Int) = l.GridExtent.e3 + 1 :=
        Int.toNat_of_nonneg (by omega)
      have e5 : ((l.GridExtent.e5 + 1).toNat : Int) = l.GridExtent.e5 + 1 :=
        Int.toNat_of_nonneg (by omega)
      have : (((l.Grid.getD []).length : Nat) : Int) =
          (((l.GridExtent.e5 + 1).toNat * ((l.GridExtent.e3 + 1).toNat *
            (l.GridExtent.e1 + 1).toNat) : Nat) : Int) := by
        push_cast
        rw [hl, e1, e3, e5]
        ring
      exact_mod_cast this

/-- On a well-formed level `GetGridBlock` reads the old array at the linear
index of the extent, and returns null outside the extent. -/
theorem GetGridBlock_of_GridWF (l : vtkAMRDualGridHelperLevel) (hwf : l.GridWF)
    (a b c : Int) :
    l.GetGridBlock a b c =
      if (0 ≤ a ∧ a < l.GridExtent.e1 + 1) ∧ (0 ≤ b ∧ b < l.GridExtent.e3 + 1) ∧
          (0 ≤ c ∧ c < l.GridExtent.e5 + 1)
      then readAt (l.Grid.getD [])
        (a + b * (l.GridExtent.e1 + 1) + c * ((l.GridExtent.e3 + 1) * (l.GridExtent.e1 + 1)))
      else none := by
  obtain ⟨h0, h2, h4, hc⟩ := hwf
  unfold vtkAMRDualGridHelperLevel.GetGridBlock
  rw [h0, h2, h4]
  by_cases ha : a < 0 ∨ a > l.GridExtent.e1
  · rw [if_pos ha, if_neg (by omega)]
  rw [if_neg ha]
  by_cases hb : b < 0 ∨ b > l.GridExtent.e3
  · rw [if_pos hb, if_neg (by omega)]
  rw [if_neg hb]
  by_cases hcc : c < 0 ∨ c > l.GridExtent.e5
  · rw [if_pos hcc, if_neg (by omega)]
  rw [if_neg hcc, if_pos (by omega)]
  rcases hc with ⟨_, e1, _⟩ | ⟨_, _, _, _, hy, hz, _⟩
  · omega
  · unfold vtkAMRDualGridHelperLevel.gridIndex
    rw [hy, hz]

/-- The reallocation branch of `AddGridBlock` with a non-negative coordinate:
the new extent starts at 0 and contains the coordinate, the grid stays
well-formed and every lookup returns what it returned before. -/
theorem grow_spec (l : vtkAMRDualGridHelperLevel) (hwf : l.GridWF) (x y z : Int)
    (hx : 0 ≤ x) (hy : 0 ≤ y) (hz : 0 ≤ z) :
    (l.grow x y z).GridWF ∧ (l.grow x y z).Grid ≠ none ∧
      (l.grow x y z).Blocks = l.Blocks ∧ (l.grow x y z).Level = l.Level ∧
      (x ≤ (l.grow x y z).GridExtent.e1 ∧ y ≤ (l.grow x y z).GridExtent.e3 ∧
        z ≤ (l.grow x y z).GridExtent.e5) ∧
      ∀ a b c, (l.grow x y z).GetGridBlock a b c = l.GetGridBlock a b c := by
  obtain ⟨hext, hlen, hge1, hge3, hge5⟩ := GridWF_length l hwf
  have h0 := hwf.1
  have h2 := hwf.2.1
  have h4 := hwf.2.2.1
  -- the new extent
  have m1 : ∃ m, (if l.GridExtent.e1 > x then l.GridExtent.e1 else x) = m ∧
      x ≤ m ∧ l.GridExtent.e1 ≤ m := ⟨_, rfl, by split <;> omega, by split <;> omega⟩
  have m3 : ∃ m, (if l.GridExtent.e3 > y then l.GridExtent.e3 else y) = m ∧
      y ≤ m ∧ l.GridExtent.e3 ≤ m := ⟨_, rfl, by split <;> omega, by split <;> omega⟩
  have m5 : ∃ m, (if l.GridExtent.e5 > z then l.GridExtent.e5 else z) = m ∧
      z ≤ m ∧ l.GridExtent.e5 ≤ m := ⟨_, rfl, by split <;> omega, by split <;> omega⟩
  obtain ⟨M1, hM1, hxM, hM1e⟩ := m1
  obtain ⟨M3, hM3, hyM, hM3e⟩ := m3
  obtain ⟨M5, hM5, hzM, hM5e⟩ := m5
  have n0 : (if l.GridExtent.e0 < x then l.GridExtent.e0 else x) = 0 := by
    rw [h0]; split <;> omega
  have n2 : (if l.GridExtent.e2 < y then l.GridExtent.e2 else y) = 0 := by
    rw [h2]; split <;> omega
  have n4 : (if l.GridExtent.e4 < z then l.GridExtent.e4 else z) = 0 := by
    rw [h4]; split <;> omega
  have hg : l.grow x y z =
      { l with
        GridExtent := ⟨0, M1, 0, M3, 0, M5⟩
        GridIncY := M1 + 1
        GridIncZ := (M3 + 1) * (M1 + 1)
        Grid := some (copyGrid (l.Grid.getD []) l.GridExtent (M1 + 1) ((M3 + 1) * (M1 + 1))
          (List.replicate ((M3 + 1) * (M1 + 1) * (M5 + 1)).toNat none)) } := by
    unfold vtkAMRDualGridHelperLevel.grow
    simp only [n0, n2, n4, hM1, hM3, hM5, sub_zero]
  have hlen' : (copyGrid (l.Grid.getD []) l.GridExtent (M1 + 1) ((M3 + 1) * (M1 + 1))
      (List.replicate ((M3 + 1) * (M1 + 1) * (M5 + 1)).toNat none)).length =
      ((M3 + 1) * (M1 + 1) * (M5 + 1)).toNat := by
    rw [length_copyGrid, List.length_replicate]
  have hpos : 0 ≤ (M3 + 1) * (M1 + 1) * (M5 + 1) :=
    mul_nonneg (mul_nonneg (by omega) (by omega)) (by omega)
  rw [hg]
  refine ⟨?_, ?_, rfl, rfl, ⟨hxM, hyM, hzM⟩, ?_⟩
  · refine ⟨rfl, rfl, rfl, Or.inr ⟨by simp, ?_, ?_, ?_, rfl, rfl, ?_⟩⟩
    · show 0 ≤ M1; omega
    · show 0 ≤ M3; omega
    · show 0 ≤ M5; omega
    · simp only [Option.getD_some, hlen']
      rw [Int.toNat_of_nonneg hpos]
  · simp
  · intro a b c
    have hwf' : vtkAMRDualGridHelperLevel.GridWF
        { l with
          GridExtent := ⟨0, M1, 0, M3, 0, M5⟩
          GridIncY := M1 + 1
          GridIncZ := (M3 + 1) * (M1 + 1)
          Grid := some (copyGrid (l.Grid.getD []) l.GridExtent (M1 + 1) ((M3 + 1) * (M1 + 1))
            (List.replicate ((M3 + 1) * (M1 + 1) * (M5 + 1)).toNat none)) } := by
      refine ⟨rfl, rfl, rfl, Or.inr ⟨by simp, ?_, ?_, ?_, rfl, rfl, ?_⟩⟩
      · show 0 ≤ M1; omega
      · show 0 ≤ M3; omega
      · show 0 ≤ M5; omega
      · simp only [Option.getD_some, hlen']
        rw [Int.toNat_of_nonneg hpos]
    rw [GetGridBlock_of_GridWF _ hwf', GetGridBlock_of_GridWF l hwf]
    simp only [Option.getD_some]
    by_cases hin : (0 ≤ a ∧ a < M1 + 1) ∧ (0 ≤ b ∧ b < M3 + 1) ∧ (0 ≤ c ∧ c < M5 + 1)
    · rw [if_pos hin]
      have e1 : ((l.GridExtent.e1 + 1).toNat : Int) = l.GridExtent.e1 + 1 :=
        Int.toNat_of_nonneg (by omega)
      have e3 : ((l.GridExtent.e3 + 1).toNat : Int) = l.GridExtent.e3 + 1 :=
        Int.toNat_of_nonneg (by omega)
      have e5 : ((l.GridExtent.e5 + 1).toNat : Int) = l.GridExtent.e5 + 1 :=
        Int.toNat_of_nonneg (by omega)
      have key := readAt_copyGrid (l.GridExtent.e1 + 1).toNat (l.GridExtent.e3 + 1).toNat
        (l.GridExtent.e5 + 1).toNat (M1 + 1) (M3 + 1) (M5 + 1) (l.Grid.getD []) hlen
        (by omega) (by omega) a b c hin.1 hin.2.1 hin.2.2
      rw [← hext] at key
      rw [key, e1, e3, e5]
      by_cases hold : a < l.GridExtent.e1 + 1 ∧ b < l.GridExtent.e3 + 1 ∧ c < l.GridExtent.e5 + 1
      · rw [if_pos hold, if_pos (by omega)]
      · rw [if_neg hold, if_neg (by omega)]
    · rw [if_neg hin, if_neg (by omega)]

/-- The state in which `AddGridBlock` stores the new block: the level itself
when the coordinate is inside the allocated grid, the reallocated level
otherwise. -/
theorem AddGridBlock_pre (l : vtkAMRDualGridHelperLevel) (hwf : l.GridWF) (x y z : Int)
    (hx : 0 ≤ x) (hy : 0 ≤ y) (hz : 0 ≤ z) :
    ∃ g : vtkAMRDualGridHelperLevel,
      (if l.Grid = none ∨ x < l.GridExtent.e0 ∨ x > l.GridExtent.e1 ∨ y < l.GridExtent.e2 ∨
          y > l.GridExtent.e3 ∨ z < l.GridExtent.e4 ∨ z > l.GridExtent.e5
        then l.grow x y z else l) = g ∧
      g.GridWF ∧ g.Grid ≠ none ∧ g.Blocks = l.Blocks ∧ g.Level = l.Level ∧
      (x ≤ g.GridExtent.e1 ∧ y ≤ g.GridExtent.e3 ∧ z ≤ g.GridExtent.e5) ∧
      ∀ a b c, g.GetGridBlock a b c = l.GetGridBlock a b c := by
  by_cases hc : l.Grid = none ∨ x < l.GridExtent.e0 ∨ x > l.GridExtent.e1 ∨
      y < l.GridExtent.e2 ∨ y > l.GridExtent.e3 ∨ z < l.GridExtent.e4 ∨ z > l.GridExtent.e5
  · rw [if_pos hc]
    exact ⟨_, rfl, grow_spec l hwf x y z hx hy hz⟩
  · rw [if_neg hc]
    refine ⟨l, rfl, hwf, ?_, rfl, rfl, ?_, fun _ _ _ => rfl⟩
    · exact fun h => hc (Or.inl h)
    · omega

/-- `AddGridBlock` with a non-negative coordinate on a well-formed level. -/
theorem AddGridBlock_spec (l : vtkAMRDualGridHelperLevel) (hwf : l.GridWF) (x y z : Int)
    (volume : Option vtkImageData) (localProcessId : Int)
    (hx : 0 ≤ x) (hy : 0 ≤ y) (hz : 0 ≤ z) :
    (l.AddGridBlock x y z volume localProcessId).1.GridWF ∧
      (l.AddGridBlock x y z volume localProcessId).2 = l.Blocks.length ∧
      (l.AddGridBlock x y z volume localProcessId).1.Blocks = l.Blocks ++
        [{ vtkAMRDualGridHelperBlock.new localProcessId with
            Image := volume, Level := l.Level, GridIndex := (x, y, z) }] ∧
      (l.AddGridBlock x y z volume localProcessId).1.Level = l.Level ∧
      (l.AddGridBlock x y z volume localProcessId).1.GetGridBlock x y z =
        some l.Blocks.length ∧
      ∀ a b c, (a, b, c) ≠ (x, y, z) →
        (l.AddGridBlock x y z volume localProcessId).1.GetGridBlock a b c =
          l.GetGridBlock a b c := by
  obtain ⟨g, hg, gwf, gne, gB, gL, ⟨gx, gy, gz⟩, gget⟩ := AddGridBlock_pre l hwf x y z hx hy hz
  have hr : l.AddGridBlock x y z volume localProcessId =
      ({ g with
         Grid := g.Grid.map fun a =>
           writeAt a (g.gridIndex x y z) (some g.Blocks.length)
         Blocks := g.Blocks ++ [{ vtkAMRDualGridHelperBlock.new localProcessId with
            Image := volume, Level := g.Level, GridIndex := (x, y, z) }] }, g.Blocks.length) := by
    unfold vtkAMRDualGridHelperLevel.AddGridBlock
    simp only [hg]
  obtain ⟨arr, harr⟩ := Option.ne_none_iff_exists'.1 gne
  have hcase := gwf.2.2.2
  rcases hcase with ⟨hn, _⟩ | ⟨_, p1, p3, p5, iy, iz, hl⟩
  · exact absurd hn gne
  have hwf' : vtkAMRDualGridHelperLevel.GridWF
      { g with
         Grid := g.Grid.map fun a =>
           writeAt a (g.gridIndex x y z) (some g.Blocks.length)
         Blocks := g.Blocks ++ [{ vtkAMRDualGridHelperBlock.new localProcessId with
            Image := volume, Level := g.Level, GridIndex := (x, y, z) }] } := by
    refine ⟨gwf.1, gwf.2.1, gwf.2.2.1, Or.inr ⟨?_, p1, p3, p5, iy, iz, ?_⟩⟩
    · simp [harr]
    · simp only [harr, Option.map_some', Option.getD_some, length_writeAt]
      rw [harr] at hl
      simpa using hl
  rw [hr]
  refine ⟨hwf', by rw [gB], by simp only [gB, gL], gL, ?_, ?_⟩
  · rw [GetGridBlock_of_GridWF _ hwf', if_pos (by simp only; omega)]
    simp only [harr, Option.map_some', Option.getD_some, iy, iz,
      vtkAMRDualGridHelperLevel.gridIndex]
    rw [readAt_writeAt, if_pos, gB]
    have hb := linearIndex_bounds (g.GridExtent.e1 + 1) (g.GridExtent.e3 + 1)
      (g.GridExtent.e5 + 1) x y z (by omega) (by omega) (by omega)
    rw [harr] at hl
    simp only [Option.getD_some] at hl
    exact ⟨rfl, hb.1, by rw [hl]; exact hb.2⟩
  · intro a b c hne
    rw [← gget a b c, GetGridBlock_of_GridWF _ hwf', GetGridBlock_of_GridWF g gwf]
    by_cases hin : (0 ≤ a ∧ a < g.GridExtent.e1 + 1) ∧ (0 ≤ b ∧ b < g.GridExtent.e3 + 1) ∧
        (0 ≤ c ∧ c < g.GridExtent.e5 + 1)
    · rw [if_pos hin, if_pos hin]
      simp only [harr, Option.map_some', Option.getD_some, iy, iz,
        vtkAMRDualGridHelperLevel.gridIndex]
      rw [readAt_writeAt, if_neg]
      rintro ⟨he, _⟩
      have := linearIndex_inj (g.GridExtent.e1 + 1) (g.GridExtent.e3 + 1) x y z a b c
        (by omega) (by omega) hin.1 hin.2.1 he
      exact hne (by rw [this.1, this.2.1, this.2.2])
    · rw [if_neg hin, if_neg hin]

/-- A sequence of `AddGridBlock` calls with non-negative coordinates on a newly
constructed level keeps the grid well-formed and the `Level` of the level. -/
theorem addGridBlocks_GridWF (l : vtkAMRDualGridHelperLevel) (hwf : l.GridWF)
    (localProcessId : Int) (calls : List ((Int × Int × Int) × Option vtkImageData))
    (hcalls : ∀ c ∈ calls, 0 ≤ c.1.1 ∧ 0 ≤ c.1.2.1 ∧ 0 ≤ c.1.2.2) :
    (addGridBlocks l localProcessId calls).GridWF ∧
      (addGridBlocks l localProcessId calls).Level = l.Level := by
  induction calls generalizing l with
  | nil => exact ⟨hwf, rfl⟩
  | cons c cs ih =>
    have hc := hcalls c (List.mem_cons_self _ _)
    have hs := AddGridBlock_spec l hwf c.1.1 c.1.2.1 c.1.2.2 c.2 localProcessId hc.1 hc.2.1 hc.2.2
    have := ih _ hs.1 (fun q hq => hcalls q (List.mem_cons_of_mem _ hq))
    exact ⟨this.1, this.2.trans hs.2.2.2.1⟩

/-- A coordinate that no `AddGridBlock` call named holds no block. -/
theorem addGridBlocks_GetGridBlock_none (l : vtkAMRDualGridHelperLevel) (hwf : l.GridWF)
    (localProcessId : Int) (calls : List ((Int × Int × Int) × Option vtkImageData))
    (hcalls : ∀ c ∈ calls, 0 ≤ c.1.1 ∧ 0 ≤ c.1.2.1 ∧ 0 ≤ c.1.2.2) (x y z : Int)
    (hnone : l.GetGridBlock x y z = none) (hxyz : ∀ c ∈ calls, c.1 ≠ (x, y, z)) :
    (addGridBlocks l localProcessId calls).GetGridBlock x y z = none := by
  induction calls generalizing l with
  | nil => exact hnone
  | cons c cs ih =>
    have hc := hcalls c (List.mem_cons_self _ _)
    have hs := AddGridBlock_spec l hwf c.1.1 c.1.2.1 c.1.2.2 c.2 localProcessId hc.1 hc.2.1 hc.2.2
    refine ih _ hs.1 (fun q hq => hcalls q (List.mem_cons_of_mem _ hq)) ?_
      (fun q hq => hxyz q (List.mem_cons_of_mem _ hq))
    rw [hs.2.2.2.2.2 x y z (fun h => hxyz c (List.mem_cons_self _ _) h.symm)]
    exact hnone

theorem GridWF_new (n : Int) :
    vtkAMRDualGridHelperLevel.GridWF (vtkAMRDualGridHelperLevel.newAt n) := by
  unfold vtkAMRDualGridHelperLevel.GridWF vtkAMRDualGridHelperLevel.newAt
  simp

/-! ## Claims on the block registry -/

/-- C1. On a level built by `AddGridBlock` calls with non-negative coordinates,
`AddGridBlock(x,y,z,volume)` with a non-negative coordinate makes
`GetGridBlock(x,y,z)` return the newly created block, which is appended to the
untouched list of the older blocks and has `GridIndex` `(x,y,z)`, the `Level` of
the level and the given image; at every other coordinate `GetGridBlock` returns
what it returned before the call, whether or not the grid was reallocated. -/
theorem C1_AddGridBlock_frame (n localProcessId : Int)
    (calls : List ((Int × Int × Int) × Option vtkImageData))
    (hcalls : ∀ c ∈ calls, 0 ≤ c.1.1 ∧ 0 ≤ c.1.2.1 ∧ 0 ≤ c.1.2.2)
    (x y z : Int) (volume : Option vtkImageData) (hx : 0 ≤ x) (hy : 0 ≤ y) (hz : 0 ≤ z) :
    ((addGridBlocks (vtkAMRDualGridHelperLevel.newAt n) localProcessId
        calls).AddGridBlock x y z volume localProcessId).1.GetGridBlock x y z =
      some ((addGridBlocks (vtkAMRDualGridHelperLevel.newAt n) localProcessId
        calls).AddGridBlock x y z volume localProcessId).2 ∧
    ((addGridBlocks (vtkAMRDualGridHelperLevel.newAt n) localProcessId
        calls).AddGridBlock x y z volume localProcessId).1.Blocks =
      (addGridBlocks (vtkAMRDualGridHelperLevel.newAt n) localProcessId
        calls).Blocks ++
        [{ vtkAMRDualGridHelperBlock.new localProcessId with
            Image := volume, Level := n, GridIndex := (x, y, z) }] ∧
    ((addGridBlocks (vtkAMRDualGridHelperLevel.newAt n) localProcessId
        calls).AddGridBlock x y z volume localProcessId).2 =
      (addGridBlocks (vtkAMRDualGridHelperLevel.newAt n) localProcessId
        calls).Blocks.length ∧
    ((addGridBlocks (vtkAMRDualGridHelperLevel.newAt n) localProcessId
        calls).AddGridBlock x y z volume localProcessId).1.Level = n ∧
    ∀ a b c : Int, (a, b, c) ≠ (x, y, z) →
      ((addGridBlocks (vtkAMRDualGridHelperLevel.newAt n) localProcessId
          calls).AddGridBlock x y z volume localProcessId).1.GetGridBlock a b c =
        (addGridBlocks (vtkAMRDualGridHelperLevel.newAt n) localProcessId
          calls).GetGridBlock a b c := by
  have hw := addGridBlocks_GridWF _ (GridWF_new n) localProcessId calls hcalls
  have hs := AddGridBlock_spec _ hw.1 x y z volume localProcessId hx hy hz
  have hl : (addGridBlocks (vtkAMRDualGridHelperLevel.newAt n) localProcessId
      calls).Level = n := hw.2
  refine ⟨?_, ?_, hs.2.1, ?_, hs.2.2.2.2.2⟩
  · rw [hs.2.2.2.2.1, hs.2.1]
  · rw [hs.2.2.1, hl]
  · rw [hs.2.2.2.1, hl]

/-- C1, at a call that makes the grid grow on all three axes: the level holds
blocks at (2,0,0) and (0,1,0) and the block is added at (1,2,1). -/
theorem C1_AddGridBlock_frame_witness :
    ((addGridBlocks (vtkAMRDualGridHelperLevel.newAt 3) 0
        [((2, 0, 0), none), ((0, 1, 0), none)]).AddGridBlock 1 2 1 none 0).1.GetGridBlock
          1 2 1 = some 2 ∧
      ((addGridBlocks (vtkAMRDualGridHelperLevel.newAt 3) 0
        [((2, 0, 0), none), ((0, 1, 0), none)]).AddGridBlock 1 2 1 none 0).1.GetGridBlock
          2 0 0 = some 0 :=
  have h := C1_AddGridBlock_frame 3 0 [((2, 0, 0), none), ((0, 1, 0), none)]
    (by decide) 1 2 1 none (by decide) (by decide) (by decide)
  ⟨h.1.trans (by decide), (h.2.2.2.2 2 0 0 (by decide)).trans (by decide)⟩

/-- `GetGridBlock` reads only the grid, its extent and its increments. -/
theorem GetGridBlock_congr (l l' : vtkAMRDualGridHelperLevel)
    (h : l.Grid = l'.Grid ∧ l.GridExtent = l'.GridExtent ∧ l.GridIncY = l'.GridIncY ∧
      l.GridIncZ = l'.GridIncZ) (x y z : Int) :
    l.GetGridBlock x y z = l'.GetGridBlock x y z := by
  unfold vtkAMRDualGridHelperLevel.GetGridBlock vtkAMRDualGridHelperLevel.gridIndex
  rw [h.1, h.2.1, h.2.2.1, h.2.2.2]

theorem GetGridBlock_new (n x y z : Int) :
    vtkAMRDualGridHelperLevel.GetGridBlock
      (vtkAMRDualGridHelperLevel.newAt n) x y z = none := by
  unfold vtkAMRDualGridHelperLevel.GetGridBlock vtkAMRDualGridHelperLevel.newAt
  simp only
  by_cases h1 : x < 0 ∨ x > -1
  · rw [if_pos h1]
  · omega

/-- C2. `GetBlock(level,x,y,z)` is a read-only lookup (the embedding returns a
pointer and nothing else: no state is written and no error is raised) that
returns null when `level` is outside `[0, number of levels)`, when `(x,y,z)` is
outside the `GridExtent` of the level on some axis, when the addressed slot of
the grid holds null, and, on a level whose grid was built by `AddGridBlock`
calls with non-negative coordinates, at every coordinate that none of the calls
named; with no call at all the last case is a level to which no block has been
added. -/
theorem C2_GetBlock_null (h : vtkAMRDualGridHelper) (level x y z : Int) :
    ((level < 0 ∨ (h.Levels.length : Int) ≤ level) → h.GetBlock level x y z = none) ∧
    ((x < (h.levelAt level.toNat).GridExtent.e0 ∨ x > (h.levelAt level.toNat).GridExtent.e1 ∨
      y < (h.levelAt level.toNat).GridExtent.e2 ∨ y > (h.levelAt level.toNat).GridExtent.e3 ∨
      z < (h.levelAt level.toNat).GridExtent.e4 ∨ z > (h.levelAt level.toNat).GridExtent.e5) →
        h.GetBlock level x y z = none) ∧
    (readAt ((h.levelAt level.toNat).Grid.getD [])
        ((h.levelAt level.toNat).gridIndex x y z) = none → h.GetBlock level x y z = none) ∧
    (∀ (n localProcessId : Int) (calls : List ((Int × Int × Int) × Option vtkImageData)),
      (∀ c ∈ calls, 0 ≤ c.1.1 ∧ 0 ≤ c.1.2.1 ∧ 0 ≤ c.1.2.2) →
      ((h.levelAt level.toNat).Grid = (addGridBlocks
          (vtkAMRDualGridHelperLevel.newAt n) localProcessId calls).Grid ∧
        (h.levelAt level.toNat).GridExtent = (addGridBlocks
          (vtkAMRDualGridHelperLevel.newAt n) localProcessId calls).GridExtent ∧
        (h.levelAt level.toNat).GridIncY = (addGridBlocks
          (vtkAMRDualGridHelperLevel.newAt n) localProcessId calls).GridIncY ∧
        (h.levelAt level.toNat).GridIncZ = (addGridBlocks
          (vtkAMRDualGridHelperLevel.newAt n) localProcessId calls).GridIncZ) →
      (∀ c ∈ calls, c.1 ≠ (x, y, z)) → h.GetBlock level x y z = none) := by
  refine ⟨?_, ?_, ?_, ?_⟩
  · intro hl
    unfold vtkAMRDualGridHelper.GetBlock
    rw [if_pos (by omega)]
  · intro ho
    unfold vtkAMRDualGridHelper.GetBlock
    split
    · rfl
    · have : (h.levelAt level.toNat).GetGridBlock x y z = none := by
        unfold vtkAMRDualGridHelperLevel.GetGridBlock
        by_cases h1 : x < (h.levelAt level.toNat).GridExtent.e0 ∨
            x > (h.levelAt level.toNat).GridExtent.e1
        · rw [if_pos h1]
        rw [if_neg h1]
        by_cases h2 : y < (h.levelAt level.toNat).GridExtent.e2 ∨
            y > (h.levelAt level.toNat).GridExtent.e3
        · rw [if_pos h2]
        rw [if_neg h2, if_pos (by omega)]
      rw [this]; rfl
  · intro hs
    unfold vtkAMRDualGridHelper.GetBlock
    split
    · rfl
    · have : (h.levelAt level.toNat).GetGridBlock x y z = none := by
        unfold vtkAMRDualGridHelperLevel.GetGridBlock
        rw [hs]
        simp
      rw [this]; rfl
  · intro n p calls hcalls hsame hne
    unfold vtkAMRDualGridHelper.GetBlock
    split
    · rfl
    · rw [GetGridBlock_congr _ _ hsame,
        addGridBlocks_GetGridBlock_none _ (GridWF_new n) p calls hcalls x y z
        (GetGridBlock_new n x y z) hne]
      rfl

/-- C3, at the failing input: on a newly constructed level
`AddGridBlock(-1,0,0)` allocates an array of one element for the extent
`[-1,-1] x [0,0] x [0,0]`; the coordinate `(-1,0,0)` is inside that extent and
its linear index is `-1`, outside `[0, 1)`.  (In the embedding the write of the
new block is dropped: the one slot of the array stays null.) -/
theorem C3_negative_coordinate_index :
    (vtkAMRDualGridHelperLevel.new.AddGridBlock (-1) 0 0 none 0).1.GridExtent =
        ⟨-1, -1, 0, 0, 0, 0⟩ ∧
      ((vtkAMRDualGridHelperLevel.new.AddGridBlock (-1) 0 0 none 0).1.Grid.getD []).length = 1 ∧
      (vtkAMRDualGridHelperLevel.new.AddGridBlock (-1) 0 0 none 0).1.gridIndex (-1) 0 0 = -1 ∧
      (vtkAMRDualGridHelperLevel.new.AddGridBlock (-1) 0 0 none 0).1.Grid = some [none] ∧
      ¬ (0 ≤ (vtkAMRDualGridHelperLevel.new.AddGridBlock (-1) 0 0 none 0).1.gridIndex (-1) 0 0 ∧
        (vtkAMRDualGridHelperLevel.new.AddGridBlock (-1) 0 0 none 0).1.gridIndex (-1) 0 0 <
          ((vtkAMRDualGridHelperLevel.new.AddGridBlock (-1) 0 0 none 0).1.Grid.getD []).length) := by
  decide

/-- On a level built with non-negative coordinates, the linear index of every
coordinate inside the extent lies inside the allocated array, and two
coordinates inside the extent with the same linear index are equal. -/
theorem gridIndex_of_GridWF (l : vtkAMRDualGridHelperLevel) (hwf : l.GridWF)
    (hg : l.Grid ≠ none) (x y z x' y' z' : Int)
    (hx : l.GridExtent.e0 ≤ x ∧ x ≤ l.GridExtent.e1)
    (hy : l.GridExtent.e2 ≤ y ∧ y ≤ l.GridExtent.e3)
    (hz : l.GridExtent.e4 ≤ z ∧ z ≤ l.GridExtent.e5)
    (hx' : l.GridExtent.e0 ≤ x' ∧ x' ≤ l.GridExtent.e1)
    (hy' : l.GridExtent.e2 ≤ y' ∧ y' ≤ l.GridExtent.e3) :
    (0 ≤ l.gridIndex x y z ∧ l.gridIndex x y z < ((l.Grid.getD []).length : Int)) ∧
      (l.gridIndex x y z = l.gridIndex x' y' z' → x = x' ∧ y = y' ∧ z = z') := by
  obtain ⟨h0, h2, h4, hc⟩ := hwf
  rcases hc with ⟨hn, _⟩ | ⟨_, _, _, _, iy, iz, hl⟩
  · exact absurd hn hg
  unfold vtkAMRDualGridHelperLevel.gridIndex
  rw [iy, iz, hl]
  rw [h0] at hx hx'
  rw [h2] at hy hy'
  rw [h4] at hz
  exact ⟨linearIndex_bounds _ _ _ x y z (by omega) (by omega) (by omega),
    fun he => linearIndex_inj _ _ x y z x' y' z' (by omega) (by omega) (by omega) (by omega) he⟩

/-! ## The resolver and the copy on concrete registries -/

/-- C5. In the two-level scenario, after `AssignSharedRegions` with degenerate
cells enabled, on rank 0 and on rank 1: the +x face entry `RegionBits[2][1][1]`
of the coarse block has no owner bit, the +x boundary bit (value 2) of the
coarse block is cleared, the -x face entry `RegionBits[0][1][1]` of each fine
block has level difference 1 in its low seven bits, and the queue holds for
each fine block an entry with that block as `ReceivingBlock`, region `(-1,0,0)`
and the coarse block as `SourceBlock`. -/
theorem C5_two_level_scenario :
    ((twoLevelScenario 0).EnableDegenerateCells = true ∧
      coarseBlockResolved (twoLevelScenario 0).AssignSharedRegions ∧
      fineBlockResolved (twoLevelScenario 0).AssignSharedRegions 2 0 0 0 ∧
      fineBlockResolved (twoLevelScenario 0).AssignSharedRegions 2 1 0 1 ∧
      fineBlockResolved (twoLevelScenario 0).AssignSharedRegions 2 0 1 2 ∧
      fineBlockResolved (twoLevelScenario 0).AssignSharedRegions 2 1 1 3) ∧
    ((twoLevelScenario 1).EnableDegenerateCells = true ∧
      coarseBlockResolved (twoLevelScenario 1).AssignSharedRegions ∧
      fineBlockResolved (twoLevelScenario 1).AssignSharedRegions 2 0 0 0 ∧
      fineBlockResolved (twoLevelScenario 1).AssignSharedRegions 2 1 0 1 ∧
      fineBlockResolved (twoLevelScenario 1).AssignSharedRegions 2 0 1 2 ∧
      fineBlockResolved (twoLevelScenario 1).AssignSharedRegions 2 1 1 3) := by
  decide!

/-- C6, at the failing input: in `sharedEdgeScenario` (degenerate cells
enabled, one block per grid cell) the edge `x = 2, y = 2` (units of fine blocks)
is the (+1,+1,0) region of the coarse block at (0,0,0) and the (+1,-1,0) region
of the coarse block at (0,1,0); no other coarse block and no fine block is next
to it; after `AssignSharedRegions` neither of the two entries has the owner
bit. -/
theorem C6_shared_edge_without_owner :
    sharedEdgeScenario.EnableDegenerateCells = true ∧
      sharedEdgeScenario.AssignSharedRegions.GetBlock 0 0 0 0 = some (0, 0) ∧
      sharedEdgeScenario.AssignSharedRegions.GetBlock 0 0 1 0 = some (0, 1) ∧
      sharedEdgeScenario.AssignSharedRegions.GetBlock 0 1 0 0 = none ∧
      sharedEdgeScenario.AssignSharedRegions.GetBlock 0 1 1 0 = none ∧
      sharedEdgeScenario.AssignSharedRegions.GetBlock 1 2 1 0 = none ∧
      sharedEdgeScenario.AssignSharedRegions.GetBlock 1 2 2 0 = none ∧
      sharedEdgeScenario.AssignSharedRegions.GetBlock 1 1 1 0 = none ∧
      sharedEdgeScenario.AssignSharedRegions.GetBlock 1 1 2 0 = none ∧
      ((sharedEdgeScenario.AssignSharedRegions.blockAt (0, 0)).regionBits 2 2 1 &&&
        vtkAMRRegionBitOwner) = 0 ∧
      ((sharedEdgeScenario.AssignSharedRegions.blockAt (0, 1)).regionBits 2 0 1 &&&
        vtkAMRRegionBitOwner) = 0 := by
  decide!

/-- C9, at the failing input: a coarse block and a fine block next to it, both
owned by rank 0, the same skeleton registry on ranks 0 and 1.  Rank 0 holds
both payloads and copies the degenerate regions at once, so its queue stays
empty; rank 1 holds neither payload and queues the nine regions of the fine
block that the coarse block owns.  The queues of the two ranks differ, against
the comments of `SendDegenerateRegionsFromQueue` (`the queue will be the same
on all processes`). -/
theorem C9_queue_differs_between_ranks :
    (sameOwnerScenario 0).AssignSharedRegions.DegenerateRegionQueue = [] ∧
      (sameOwnerScenario 1).AssignSharedRegions.DegenerateRegionQueue.length = 9 ∧
      (sameOwnerScenario 0).AssignSharedRegions.DegenerateRegionQueue ≠
        (sameOwnerScenario 1).AssignSharedRegions.DegenerateRegionQueue := by
  decide!

/-- C10, at the failing input: standard block dimensions 1x2x1, level
difference 1, region `(-1,0,0)`, whose extent in the fine block is
`[0,0] x [1,2] x [1,1]`.  The cell `(0,1,1)` of the fine block should receive
the value 116 of the coarse cell `(1,1,1)`; the copy leaves 113 there, the value
of the coarse cell `(1,0,1)`.  The cell `(0,2,1)` of the extent keeps its old
value 0, and the cell `(0,0,1)` outside the extent is overwritten with 113. -/
theorem C10_unequal_dimensions :
    readCell (unequalDimsScenario.blockAt (0, 0)).cells (cellIndex (1, 2, 1) 1 1 1) = 116 ∧
      readCell (unequalDimsScenario.blockAt (0, 0)).cells (cellIndex (1, 2, 1) 1 0 1) = 113 ∧
      readCell ((unequalDimsScenario.CopyDegenerateRegionBlockToBlock (-1) 0 0 (0, 0)
        (1, 0)).blockAt (1, 0)).cells (cellIndex (1, 2, 1) 0 1 1) = 113 ∧
      readCell ((unequalDimsScenario.CopyDegenerateRegionBlockToBlock (-1) 0 0 (0, 0)
        (1, 0)).blockAt (1, 0)).cells (cellIndex (1, 2, 1) 0 2 1) = 0 ∧
      readCell (unequalDimsScenario.blockAt (1, 0)).cells (cellIndex (1, 2, 1) 0 0 1) = 0 ∧
      readCell ((unequalDimsScenario.CopyDegenerateRegionBlockToBlock (-1) 0 0 (0, 0)
        (1, 0)).blockAt (1, 0)).cells (cellIndex (1, 2, 1) 0 0 1) = 113 := by
  decide!

/-! ## Lemmas on the helper state -/

theorem foldl_invariant {σ α : Type} (P : σ → Prop) (f : σ → α → σ) (l : List α) (s : σ)
    (h0 : P s) (hstep : ∀ t, ∀ a ∈ l, P t → P (f t a)) : P (l.foldl f s) := by
  induction l generalizing s with
  | nil => exact h0
  | cons a l ih =>
    exact ih _ (hstep s a (List.mem_cons_self _ _) h0)
      (fun t b hb ht => hstep t b (List.mem_cons_of_mem _ hb) ht)

theorem levelAt_modifyBlock (h : vtkAMRDualGridHelper) (p : BlockPtr)
    (f : vtkAMRDualGridHelperBlock → vtkAMRDualGridHelperBlock) (n : Nat) :
    (h.modifyBlock p f).levelAt n =
      if p.1 = n then { h.levelAt n with Blocks := (h.levelAt n).Blocks.modify f p.2 }
      else h.levelAt n := by
  unfold vtkAMRDualGridHelper.modifyBlock vtkAMRDualGridHelper.levelAt
  simp only [List.getD_eq_getElem?_getD, List.getElem?_modify]
  cases hl : h.Levels[n]? with
  | none =>
    simp only [Option.map_eq_map, Option.map_none', Option.getD_none]
    split <;> simp [vtkAMRDualGridHelperLevel.new]
  | some l =>
    simp only [Option.map_eq_map, Option.map_some', Option.getD_some]

theorem length_modifyBlock (h : vtkAMRDualGridHelper) (p : BlockPtr)
    (f : vtkAMRDualGridHelperBlock → vtkAMRDualGridHelperBlock) :
    (h.modifyBlock p f).Levels.length = h.Levels.length := by
  unfold vtkAMRDualGridHelper.modifyBlock
  simp

theorem GetGridBlock_modifyBlock (h : vtkAMRDualGridHelper) (p : BlockPtr)
    (f : vtkAMRDualGridHelperBlock → vtkAMRDualGridHelperBlock) (n : Nat) (a b c : Int) :
    ((h.modifyBlock p f).levelAt n).GetGridBlock a b c = (h.levelAt n).GetGridBlock a b c := by
  rw [levelAt_modifyBlock]
  split <;> rfl

theorem length_Blocks_modifyBlock (h : vtkAMRDualGridHelper) (p : BlockPtr)
    (f : vtkAMRDualGridHelperBlock → vtkAMRDualGridHelperBlock) (n : Nat) :
    ((h.modifyBlock p f).levelAt n).Blocks.length = (h.levelAt n).Blocks.length := by
  rw [levelAt_modifyBlock]
  split <;> simp

theorem blockAt_modifyBlock (h : vtkAMRDualGridHelper) (p q : BlockPtr)
    (f : vtkAMRDualGridHelperBlock → vtkAMRDualGridHelperBlock) :
    (h.modifyBlock p f).blockAt q =
      if p = q ∧ q.2 < (h.levelAt q.1).Blocks.length then f (h.blockAt q) else h.blockAt q := by
  unfold vtkAMRDualGridHelper.blockAt
  rw [levelAt_modifyBlock]
  by_cases h1 : p.1 = q.1
  · rw [if_pos h1]
    simp only [List.getD_eq_getElem?_getD, List.getElem?_modify]
    by_cases h2 : p.2 = q.2
    · have hpq : p = q := Prod.ext h1 h2
      by_cases h3 : q.2 < (h.levelAt q.1).Blocks.length
      · rw [if_pos ⟨hpq, h3⟩]
        simp [h2, List.getElem?_eq_getElem h3]
      · rw [if_neg (fun hh => h3 hh.2)]
        simp [h2, List.getElem?_eq_none (Nat.le_of_not_lt h3)]
    · rw [if_neg (fun hh => h2 (congrArg Prod.snd hh.1))]
      simp [h2]
  · rw [if_neg h1, if_neg (fun hh => h1 (congrArg Prod.fst hh.1))]

theorem blockAt_modifyBlock_proj {β : Type} (g : vtkAMRDualGridHelperBlock → β)
    (h : vtkAMRDualGridHelper) (p q : BlockPtr)
    (f : vtkAMRDualGridHelperBlock → vtkAMRDualGridHelperBlock)
    (hf : ∀ b, g (f b) = g b) :
    g ((h.modifyBlock p f).blockAt q) = g (h.blockAt q) := by
  rw [blockAt_modifyBlock]
  split
  · exact hf _
  · rfl

theorem SameGrids.rfl_grids (h : vtkAMRDualGridHelper) : SameGrids h h :=
  ⟨rfl, rfl, rfl, rfl, fun _ => ⟨rfl, rfl, rfl, rfl, rfl, rfl⟩, fun _ => rfl,
    fun _ => ⟨rfl, rfl⟩, rfl⟩

theorem SameGrids.then_grids {h1 h2 h3 : vtkAMRDualGridHelper} (a : SameGrids h1 h2)
    (b : SameGrids h2 h3) : SameGrids h1 h3 := by
  obtain ⟨a1, a2, a3, a4, a5, a6, a7, a8⟩ := a
  obtain ⟨b1, b2, b3, b4, b5, b6, b7, b8⟩ := b
  refine ⟨b1.trans a1, b2.trans a2, b3.trans a3, b4.trans a4, fun n => ?_, fun q =>
    (b6 q).trans (a6 q), fun q => ⟨(b7 q).1.trans (a7 q).1, (b7 q).2.trans (a7 q).2⟩,
    b8.trans a8⟩
  obtain ⟨x1, x2, x3, x4, x5, x6⟩ := a5 n
  obtain ⟨y1, y2, y3, y4, y5, y6⟩ := b5 n
  exact ⟨y1.trans x1, y2.trans x2, y3.trans x3, y4.trans x4, y5.trans x5, y6.trans x6⟩

theorem SameGrids.of_modifyBlock (h : vtkAMRDualGridHelper) (p : BlockPtr)
    (f : vtkAMRDualGridHelperBlock → vtkAMRDualGridHelperBlock)
    (hf : ∀ b, (f b).Level = b.Level ∧ (f b).Image = b.Image ∧ (f b).ProcessId = b.ProcessId) :
    SameGrids h (h.modifyBlock p f) := by
  refine ⟨length_modifyBlock h p f, rfl, rfl, rfl, fun n => ?_, fun q =>
    blockAt_modifyBlock_proj (fun b => b.Level) h p q f (fun b => (hf b).1), fun q =>
    ⟨blockAt_modifyBlock_proj (fun b => b.Image) h p q f (fun b => (hf b).2.1),
      blockAt_modifyBlock_proj (fun b => b.ProcessId) h p q f (fun b => (hf b).2.2)⟩, rfl⟩
  rw [levelAt_modifyBlock]
  split <;> simp

theorem SameGrids.getGridBlock_eq {h h' : vtkAMRDualGridHelper} (s : SameGrids h h')
    (n : Nat) (a b c : Int) :
    (h'.levelAt n).GetGridBlock a b c = (h.levelAt n).GetGridBlock a b c := by
  obtain ⟨x1, x2, x3, x4, _, _⟩ := s.2.2.2.2.1 n
  exact GetGridBlock_congr _ _ ⟨x1, x2, x3, x4⟩ a b c

theorem setRegionBits_Level (b : vtkAMRDualGridHelperBlock) (x y z : Int) (v : Nat) :
    (b.setRegionBits x y z v).Level = b.Level := rfl


theorem clearBoundaryBits_SameGrids (h : vtkAMRDualGridHelper) (block nb : BlockPtr)
    (ix iy iz : Int) : SameGrids h (clearBoundaryBits h block nb ix iy iz) := by
  unfold clearBoundaryBits
  split
  · exact SameGrids.rfl_grids _
  · rename_i m _
    exact (SameGrids.of_modifyBlock h block
      (fun b => { b with BoundaryBits := b.BoundaryBits &&& m.1 }) (fun _ => ⟨rfl, rfl, rfl⟩)).then_grids
      (SameGrids.of_modifyBlock _ nb
        (fun b => { b with BoundaryBits := b.BoundaryBits &&& m.2 }) (fun _ => ⟨rfl, rfl, rfl⟩))

theorem claimFound_SameGrids (block : BlockPtr) (rx ry rz lowerLevel : Int)
    (st : ClaimState) (ix iy iz : Int) (nb : Nat) :
    SameGrids st.helper (claimFound block rx ry rz lowerLevel st ix iy iz nb).helper := by
  unfold claimFound
  have h1 := clearBoundaryBits_SameGrids st.helper block (lowerLevel.toNat, nb) ix iy iz
  simp only
  split
  · have h2 := h1.then_grids (SameGrids.of_modifyBlock _ (lowerLevel.toNat, nb)
      (fun b => b.setRegionBits (rx - ix - ix + 1) (ry - iy - iy + 1) (rz - iz - iz + 1) 0)
      (fun _ => ⟨rfl, rfl, rfl⟩))
    split <;> exact h2
  · exact h1

/-- The innermost loop body of `ClaimBlockSharedRegion` writes only
`BoundaryBits` and `RegionBits`. -/
theorem claimNeighbor_SameGrids (block : BlockPtr) (bx by' bz rx ry rz lowerLevel : Int)
    (d : Nat) (st : ClaimState) (ix iy iz : Int) :
    SameGrids st.helper
      (claimNeighbor block bx by' bz rx ry rz lowerLevel d st ix iy iz).helper := by
  unfold claimNeighbor
  split
  · simp only
    split
    · exact SameGrids.rfl_grids _
    · exact claimFound_SameGrids _ _ _ _ _ _ _ _ _ _
  · exact SameGrids.rfl_grids _

theorem claimFound_best (block : BlockPtr) (rx ry rz lowerLevel : Int)
    (st : ClaimState) (ix iy iz : Int) (nb : Nat) :
    ((claimFound block rx ry rz lowerLevel st ix iy iz nb).bestLevel = st.bestLevel ∧
      (claimFound block rx ry rz lowerLevel st ix iy iz nb).bestBlock = st.bestBlock) ∨
    ((claimFound block rx ry rz lowerLevel st ix iy iz nb).bestLevel = lowerLevel ∧
      (claimFound block rx ry rz lowerLevel st ix iy iz nb).bestBlock =
        (lowerLevel.toNat, nb)) := by
  unfold claimFound
  simp only
  split
  · split
    · exact Or.inr ⟨rfl, rfl⟩
    · exact Or.inl ⟨rfl, rfl⟩
  · exact Or.inl ⟨rfl, rfl⟩

/-- The innermost loop body of `ClaimBlockSharedRegion` either keeps the best
candidate or replaces it by a block found in the grid of `lowerLevel`. -/
theorem claimNeighbor_best (block : BlockPtr) (bx by' bz rx ry rz lowerLevel : Int)
    (d : Nat) (st : ClaimState) (ix iy iz : Int) :
    ((claimNeighbor block bx by' bz rx ry rz lowerLevel d st ix iy iz).bestLevel = st.bestLevel ∧
      (claimNeighbor block bx by' bz rx ry rz lowerLevel d st ix iy iz).bestBlock =
        st.bestBlock) ∨
    ((claimNeighbor block bx by' bz rx ry rz lowerLevel d st ix iy iz).bestLevel = lowerLevel ∧
      ∃ nb, (st.helper.levelAt lowerLevel.toNat).GetGridBlock ((bx + ix) >>> d)
          ((by' + iy) >>> d) ((bz + iz) >>> d) = some nb ∧
        (claimNeighbor block bx by' bz rx ry rz lowerLevel d st ix iy iz).bestBlock =
          (lowerLevel.toNat, nb)) := by
  unfold claimNeighbor
  split
  · simp only
    split
    · exact Or.inl ⟨rfl, rfl⟩
    · rename_i nb hnb
      rcases claimFound_best block rx ry rz lowerLevel st ix iy iz nb with h | h
      · exact Or.inl h
      · exact Or.inr ⟨h.1, nb, hnb, h.2⟩
  · exact Or.inl ⟨rfl, rfl⟩

theorem readAt_mem (g : List (Option Nat)) (i : Int) (k : Nat) (h : readAt g i = some k) :
    some k ∈ g := by
  unfold readAt at h
  split at h
  · exact absurd h (by simp)
  · rw [List.getD_eq_getElem?_getD] at h
    cases hg : g[i.toNat]? with
    | none => rw [hg] at h; exact absurd h (by simp)
    | some v =>
      rw [hg] at h
      simp only [Option.getD_some] at h
      rw [h] at hg
      exact List.getElem?_mem hg

theorem GetGridBlock_mem (l : vtkAMRDualGridHelperLevel) (x y z : Int) (k : Nat)
    (h : l.GetGridBlock x y z = some k) : some k ∈ l.Grid.getD [] := by
  unfold vtkAMRDualGridHelperLevel.GetGridBlock at h
  split at h
  · exact absurd h (by simp)
  split at h
  · exact absurd h (by simp)
  split at h
  · exact absurd h (by simp)
  exact readAt_mem _ _ _ h

/-- The loop over the levels of `ClaimBlockSharedRegion` changes no grid, and
its best candidate is the block itself or a block found in the grid of a level
between 0 and the level of the block, at one of the offsets of the region. -/
theorem claimLevels_inv (h : vtkAMRDualGridHelper) (block : BlockPtr)
    (bx by' bz rx ry rz : Int) :
    SameGrids h (claimLevels h block bx by' bz rx ry rz).helper ∧
    (((claimLevels h block bx by' bz rx ry rz).bestLevel = (h.blockAt block).Level ∧
        (claimLevels h block bx by' bz rx ry rz).bestBlock = block) ∨
      (0 ≤ (claimLevels h block bx by' bz rx ry rz).bestLevel ∧
        (claimLevels h block bx by' bz rx ry rz).bestLevel ≤ (h.blockAt block).Level ∧
        ∃ o ∈ neighborOffsets rx ry rz, ∃ nb,
          (h.levelAt (claimLevels h block bx by' bz rx ry rz).bestLevel.toNat).GetGridBlock
            ((bx + o.1) >>> ((h.blockAt block).Level -
              (claimLevels h block bx by' bz rx ry rz).bestLevel).toNat)
            ((by' + o.2.1) >>> ((h.blockAt block).Level -
              (claimLevels h block bx by' bz rx ry rz).bestLevel).toNat)
            ((bz + o.2.2) >>> ((h.blockAt block).Level -
              (claimLevels h block bx by' bz rx ry rz).bestLevel).toNat) = some nb ∧
          (claimLevels h block bx by' bz rx ry rz).bestBlock =
            ((claimLevels h block bx by' bz rx ry rz).bestLevel.toNat, nb))) := by
  unfold claimLevels
  simp only
  apply foldl_invariant (fun st : ClaimState =>
    SameGrids h st.helper ∧
    ((st.bestLevel = (h.blockAt block).Level ∧ st.bestBlock = block) ∨
      (0 ≤ st.bestLevel ∧ st.bestLevel ≤ (h.blockAt block).Level ∧
        ∃ o ∈ neighborOffsets rx ry rz, ∃ nb,
          (h.levelAt st.bestLevel.toNat).GetGridBlock
            ((bx + o.1) >>> ((h.blockAt block).Level - st.bestLevel).toNat)
            ((by' + o.2.1) >>> ((h.blockAt block).Level - st.bestLevel).toNat)
            ((bz + o.2.2) >>> ((h.blockAt block).Level - st.bestLevel).toNat) = some nb ∧
          st.bestBlock = (st.bestLevel.toNat, nb))))
  · exact ⟨SameGrids.rfl_grids h, Or.inl ⟨rfl, rfl⟩⟩
  · intro st lowerLevel hl hst
    have hl' : 0 ≤ lowerLevel ∧ lowerLevel ≤ (h.blockAt block).Level := by
      rw [List.mem_reverse] at hl
      exact (mem_intRange _ _ _).1 hl
    unfold claimLevel
    simp only
    split
    · apply foldl_invariant (fun st : ClaimState =>
        SameGrids h st.helper ∧
        ((st.bestLevel = (h.blockAt block).Level ∧ st.bestBlock = block) ∨
          (0 ≤ st.bestLevel ∧ st.bestLevel ≤ (h.blockAt block).Level ∧
            ∃ o ∈ neighborOffsets rx ry rz, ∃ nb,
              (h.levelAt st.bestLevel.toNat).GetGridBlock
                ((bx + o.1) >>> ((h.blockAt block).Level - st.bestLevel).toNat)
                ((by' + o.2.1) >>> ((h.blockAt block).Level - st.bestLevel).toNat)
                ((bz + o.2.2) >>> ((h.blockAt block).Level - st.bestLevel).toNat) = some nb ∧
              st.bestBlock = (st.bestLevel.toNat, nb))))
      · exact hst
      · intro s o ho hs
        refine ⟨hs.1.then_grids (claimNeighbor_SameGrids _ _ _ _ _ _ _ _ _ _ _ _ _), ?_⟩
        rcases claimNeighbor_best block bx by' bz rx ry rz lowerLevel
            ((h.blockAt block).Level - lowerLevel).toNat s o.1 o.2.1 o.2.2 with hk | hk
        · rw [hk.1, hk.2]
          exact hs.2
        · obtain ⟨hbl, nb, hnb, hbb⟩ := hk
          rw [hs.1.getGridBlock_eq] at hnb
          refine Or.inr ?_
          rw [hbl, hbb]
          exact ⟨hl'.1, hl'.2, o, ho, nb, hnb, rfl⟩
    · exact hst

theorem ClaimBlockSharedRegion_snd (h : vtkAMRDualGridHelper) (block : BlockPtr)
    (bx by' bz rx ry rz : Int) :
    (h.ClaimBlockSharedRegion block bx by' bz rx ry rz).2 =
      (claimLevels h block bx by' bz rx ry rz).bestLevel := by
  unfold vtkAMRDualGridHelper.ClaimBlockSharedRegion
  simp only
  split
  · split
    · split <;> rfl
    · rfl
  · rfl

theorem blockAt_Level_of_consistent (h : vtkAMRDualGridHelper) (hc : h.LevelsConsistent)
    (p : BlockPtr) (hv : h.validPtr p) : (h.blockAt p).Level = (p.1 : Int) := by
  have := hc p.1 (List.mem_range.2 hv.1)
  apply this.2.1
  unfold vtkAMRDualGridHelper.blockAt
  rw [List.getD_eq_getElem?_getD, List.getElem?_eq_getElem hv.2]
  exact List.getElem_mem _

/-- C7. In a consistent registry, for every block `B` (level `L`), every
position and every region direction handed to `ClaimBlockSharedRegion`, the
returned level lies in `[0, L]`, so it is never finer than `L`, and it is `L`
itself or the level of a block of the registry that the grid of that level
holds at one of the neighbour offsets of the region. -/
theorem C7_level_monotonicity (h : vtkAMRDualGridHelper) (hc : h.LevelsConsistent)
    (block : BlockPtr) (hv : h.validPtr block) (bx by' bz rx ry rz : Int) :
    0 ≤ (h.ClaimBlockSharedRegion block bx by' bz rx ry rz).2 ∧
    (h.ClaimBlockSharedRegion block bx by' bz rx ry rz).2 ≤ (h.blockAt block).Level ∧
    ((h.ClaimBlockSharedRegion block bx by' bz rx ry rz).2 = (h.blockAt block).Level ∨
      ∃ o ∈ neighborOffsets rx ry rz, ∃ nb,
        (h.levelAt (h.ClaimBlockSharedRegion block bx by' bz rx ry rz).2.toNat).GetGridBlock
          ((bx + o.1) >>> ((h.blockAt block).Level -
            (h.ClaimBlockSharedRegion block bx by' bz rx ry rz).2).toNat)
          ((by' + o.2.1) >>> ((h.blockAt block).Level -
            (h.ClaimBlockSharedRegion block bx by' bz rx ry rz).2).toNat)
          ((bz + o.2.2) >>> ((h.blockAt block).Level -
            (h.ClaimBlockSharedRegion block bx by' bz rx ry rz).2).toNat) = some nb ∧
        h.validPtr ((h.ClaimBlockSharedRegion block bx by' bz rx ry rz).2.toNat, nb) ∧
        (h.blockAt ((h.ClaimBlockSharedRegion block bx by' bz rx ry rz).2.toNat, nb)).Level =
          (h.ClaimBlockSharedRegion block bx by' bz rx ry rz).2) := by
  rw [ClaimBlockSharedRegion_snd]
  have hL := blockAt_Level_of_consistent h hc block hv
  obtain ⟨_, hb⟩ := claimLevels_inv h block bx by' bz rx ry rz
  rcases hb with ⟨h1, _⟩ | ⟨h0, h1, o, ho, nb, hnb, _⟩
  · rw [h1]
    exact ⟨by omega, le_refl _, Or.inl rfl⟩
  · refine ⟨h0, h1, Or.inr ⟨o, ho, nb, hnb, ?_⟩⟩
    have hlt : (claimLevels h block bx by' bz rx ry rz).bestLevel.toNat < h.Levels.length := by
      have := hv.1
      omega
    have hvn : h.validPtr ((claimLevels h block bx by' bz rx ry rz).bestLevel.toNat, nb) := by
      refine ⟨hlt, ?_⟩
      have := hc _ (List.mem_range.2 hlt)
      exact this.2.2 _ (GetGridBlock_mem _ _ _ _ _ hnb) nb rfl
    refine ⟨hvn, ?_⟩
    rw [blockAt_Level_of_consistent h hc _ hvn]
    exact Int.toNat_of_nonneg h0

/-- C7, on the two-level scenario as rank 1 sees it: the -x face of the fine
block at (2,0,0). -/
theorem C7_level_monotonicity_witness :
    (twoLevelScenario 1).LevelsConsistent ∧ (twoLevelScenario 1).validPtr (1, 0) ∧
      0 ≤ ((twoLevelScenario 1).ClaimBlockSharedRegion (1, 0) 2 0 0 (-1) 0 0).2 ∧
      ((twoLevelScenario 1).ClaimBlockSharedRegion (1, 0) 2 0 0 (-1) 0 0).2 ≤
        ((twoLevelScenario 1).blockAt (1, 0)).Level :=
  have h := C7_level_monotonicity (twoLevelScenario 1) (by decide!) (1, 0) (by decide!)
    2 0 0 (-1) 0 0
  ⟨by decide!, by decide!, h.1, h.2.1⟩

/-- The grid traversal of `AssignSharedRegions` reads at every coordinate what
`GetGridBlock` returns there. -/
theorem zip_extentCoords_GetGridBlock (l : vtkAMRDualGridHelperLevel) (hwf : l.GridWF)
    (p : (Int × Int × Int) × Option Nat)
    (hp : p ∈ (extentCoords l.GridExtent).zip (l.Grid.getD [])) :
    p.2 = l.GetGridBlock p.1.1 p.1.2.1 p.1.2.2 := by
  obtain ⟨hext, hlen, hge1, hge3, hge5⟩ := GridWF_length l hwf
  have e1 : ((l.GridExtent.e1 + 1).toNat : Int) = l.GridExtent.e1 + 1 :=
    Int.toNat_of_nonneg (by omega)
  have e3 : ((l.GridExtent.e3 + 1).toNat : Int) = l.GridExtent.e3 + 1 :=
    Int.toNat_of_nonneg (by omega)
  have hm := (mem_extentCoords _ p.1).1 (List.of_mem_zip (by
    have : (p.1, p.2) ∈ (extentCoords l.GridExtent).zip (l.Grid.getD []) := hp
    exact this)).1
  rw [hwf.1, hwf.2.1, hwf.2.2.1] at hm
  rw [hext] at hp
  have := zip_extentCoords_snd _ _ _ _ hlen p hp
  rw [GetGridBlock_of_GridWF l hwf, if_pos (by omega), this, e1, e3]

/-! ## A block without neighbours -/

/-- When no grid holds a block at any neighbour offset of the region, the loop
over the levels of `ClaimBlockSharedRegion` changes nothing. -/
theorem claimLevels_of_no_neighbor (h : vtkAMRDualGridHelper) (block : BlockPtr)
    (bx by' bz rx ry rz : Int)
    (hno : ∀ lowerLevel : Int, 0 ≤ lowerLevel → lowerLevel ≤ (h.blockAt block).Level →
      ∀ o ∈ neighborOffsets rx ry rz, (o.1 ≠ 0 ∨ o.2.1 ≠ 0 ∨ o.2.2 ≠ 0) →
        (h.levelAt lowerLevel.toNat).GetGridBlock
          ((bx + o.1) >>> ((h.blockAt block).Level - lowerLevel).toNat)
          ((by' + o.2.1) >>> ((h.blockAt block).Level - lowerLevel).toNat)
          ((bz + o.2.2) >>> ((h.blockAt block).Level - lowerLevel).toNat) = none) :
    claimLevels h block bx by' bz rx ry rz =
      { helper := h
        bestLevel := (h.blockAt block).Level
        bestDist := rx * rx + ry * ry + rz * rz
        bestBlock := block } := by
  unfold claimLevels
  simp only
  apply foldl_invariant (fun st : ClaimState => st =
      { helper := h
        bestLevel := (h.blockAt block).Level
        bestDist := rx * rx + ry * ry + rz * rz
        bestBlock := block })
  · rfl
  · intro st lowerLevel hl hst
    have hl' : 0 ≤ lowerLevel ∧ lowerLevel ≤ (h.blockAt block).Level := by
      rw [List.mem_reverse] at hl
      exact (mem_intRange _ _ _).1 hl
    unfold claimLevel
    simp only
    split
    · apply foldl_invariant (fun st : ClaimState => st =
        { helper := h
          bestLevel := (h.blockAt block).Level
          bestDist := rx * rx + ry * ry + rz * rz
          bestBlock := block })
      · exact hst
      · intro s o ho hs
        unfold claimNeighbor
        split
        · rename_i hne
          simp only
          rw [hs]
          simp only
          rw [hno lowerLevel hl'.1 hl'.2 o ho hne]
        · exact hs
    · exact hst

/-- When no grid holds a block at any neighbour offset of the region,
`ClaimBlockSharedRegion` changes nothing and returns the level of the block. -/
theorem ClaimBlockSharedRegion_of_no_neighbor (h : vtkAMRDualGridHelper) (block : BlockPtr)
    (bx by' bz rx ry rz : Int)
    (hno : ∀ lowerLevel : Int, 0 ≤ lowerLevel → lowerLevel ≤ (h.blockAt block).Level →
      ∀ o ∈ neighborOffsets rx ry rz, (o.1 ≠ 0 ∨ o.2.1 ≠ 0 ∨ o.2.2 ≠ 0) →
        (h.levelAt lowerLevel.toNat).GetGridBlock
          ((bx + o.1) >>> ((h.blockAt block).Level - lowerLevel).toNat)
          ((by' + o.2.1) >>> ((h.blockAt block).Level - lowerLevel).toNat)
          ((bz + o.2.2) >>> ((h.blockAt block).Level - lowerLevel).toNat) = none) :
    h.ClaimBlockSharedRegion block bx by' bz rx ry rz = (h, (h.blockAt block).Level) := by
  unfold vtkAMRDualGridHelper.ClaimBlockSharedRegion
  simp only
  rw [claimLevels_of_no_neighbor h block bx by' bz rx ry rz hno]
  simp

/-- A block none of whose neighbour offsets holds a block, at any level from
its own down to 0, is left as it is by `AssignBlockSharedRegions`, and so is the
rest of the helper. -/
theorem AssignBlockSharedRegions_of_no_neighbor (h : vtkAMRDualGridHelper) (block : BlockPtr)
    (bx by' bz : Int)
    (hno : ∀ lowerLevel : Int, 0 ≤ lowerLevel → lowerLevel ≤ (h.blockAt block).Level →
      ∀ ix iy iz : Int, (ix ≠ 0 ∨ iy ≠ 0 ∨ iz ≠ 0) →
        (h.levelAt lowerLevel.toNat).GetGridBlock
          ((bx + ix) >>> ((h.blockAt block).Level - lowerLevel).toNat)
          ((by' + iy) >>> ((h.blockAt block).Level - lowerLevel).toNat)
          ((bz + iz) >>> ((h.blockAt block).Level - lowerLevel).toNat) = none) :
    h.AssignBlockSharedRegions block (h.blockAt block).Level bx by' bz = h := by
  unfold vtkAMRDualGridHelper.AssignBlockSharedRegions
  apply foldl_invariant (fun s : vtkAMRDualGridHelper => s = h)
  · rfl
  · intro s r _ hs
    subst hs
    unfold assignRegion
    simp only
    split
    · rw [ClaimBlockSharedRegion_of_no_neighbor s block bx by' bz r.1 r.2.1 r.2.2
        (fun ll h0 h1 o _ hne => hno ll h0 h1 o.1 o.2.1 o.2.2 hne)]
      simp
    · rfl

theorem levelAt_init (n : Nat) (dims : Int × Int × Int) (i : Nat) :
    (vtkAMRDualGridHelper.init n dims).levelAt i =
      if i < n then (vtkAMRDualGridHelperLevel.newAt (i : Int))
      else vtkAMRDualGridHelperLevel.new := by
  unfold vtkAMRDualGridHelper.levelAt vtkAMRDualGridHelper.init
  simp only [List.getD_eq_getElem?_getD, List.getElem?_map, List.getElem?_range]
  by_cases h : i < n
  · simp [h, List.getElem?_range h]
  · have hn : (List.range n)[i]? = none := List.getElem?_eq_none (by simp; omega)
    simp [h, hn]

/-- The levels after a block was put into the registry. -/
theorem levelAt_addBlockAt (h : vtkAMRDualGridHelper) (level : Nat)
    (hl : level < h.Levels.length) (x y z : Int) (volume : Option vtkImageData)
    (processId : Int) (originIndex : Int × Int × Int) (n : Nat) :
    (h.addBlockAt level x y z volume processId originIndex).levelAt n =
      if level = n then
        { ((h.levelAt level).AddGridBlock x y z volume processId).1 with
          Blocks := ((h.levelAt level).AddGridBlock x y z volume processId).1.Blocks.modify
            (fun b => { b with ProcessId := processId, OriginIndex := originIndex })
            ((h.levelAt level).AddGridBlock x y z volume processId).2 }
      else h.levelAt n := by
  unfold vtkAMRDualGridHelper.addBlockAt
  simp only
  rw [levelAt_modifyBlock]
  simp only
  have hset : ∀ m, vtkAMRDualGridHelper.levelAt
      { h with Levels := (h.Levels.set level
        ((h.levelAt level).AddGridBlock x y z volume processId).1) } m =
      if level = m then ((h.levelAt level).AddGridBlock x y z volume processId).1
      else h.levelAt m := by
    intro m
    unfold vtkAMRDualGridHelper.levelAt
    simp only [List.getD_eq_getElem?_getD, List.getElem?_set]
    split
    · rename_i he
      subst he
      simp [hl]
    · rfl
  by_cases he : level = n
  · rw [if_pos he, if_pos he, hset, if_pos he]
  · rw [if_neg he, if_neg he, hset, if_neg he]

theorem length_addBlockAt (h : vtkAMRDualGridHelper) (level : Nat)
    (x y z : Int) (volume : Option vtkImageData)
    (processId : Int) (originIndex : Int × Int × Int) :
    (h.addBlockAt level x y z volume processId originIndex).Levels.length = h.Levels.length := by
  unfold vtkAMRDualGridHelper.addBlockAt
  simp only
  rw [length_modifyBlock]
  simp

/-! ## A registry with a single block -/

theorem int_shiftRight_zero (a : Int) : a >>> (0 : Nat) = a := by
  rw [Int.shiftRight_eq_div_pow]
  simp

/-- The levels and the block of a registry that holds exactly one block. -/
theorem singleBlockRegistry_spec (numLevels level : Nat) (hl : level < numLevels)
    (dims : Int × Int × Int) (enable skip : Bool) (x y z : Int)
    (hx : 0 ≤ x) (hy : 0 ≤ y) (hz : 0 ≤ z) (volume : Option vtkImageData) (processId : Int)
    (originIndex : Int × Int × Int) :
    (singleBlockRegistry numLevels level dims enable skip x y z volume processId
        originIndex).Levels.length = numLevels ∧
    ((singleBlockRegistry numLevels level dims enable skip x y z volume processId
        originIndex).levelAt level).GridWF ∧
    (∀ a b c, ((singleBlockRegistry numLevels level dims enable skip x y z volume processId
        originIndex).levelAt level).GetGridBlock a b c =
          if (a, b, c) = (x, y, z) then some 0 else none) ∧
    (∀ n, n ≠ level → ((singleBlockRegistry numLevels level dims enable skip x y z volume
        processId originIndex).levelAt n).Grid = none ∧
      ∀ a b c, ((singleBlockRegistry numLevels level dims enable skip x y z volume processId
        originIndex).levelAt n).GetGridBlock a b c = none) ∧
    ((singleBlockRegistry numLevels level dims enable skip x y z volume processId
        originIndex).levelAt level).Blocks =
      [{ vtkAMRDualGridHelperBlock.new processId with
          Image := volume, Level := (level : Int), GridIndex := (x, y, z),
          ProcessId := processId, OriginIndex := originIndex }] ∧
    (singleBlockRegistry numLevels level dims enable skip x y z volume processId
        originIndex).DegenerateRegionQueue = [] := by
  have hlen : (vtkAMRDualGridHelper.mk (vtkAMRDualGridHelper.init numLevels dims).Levels enable skip
      (vtkAMRDualGridHelper.init numLevels dims).StandardBlockDimensions
      (vtkAMRDualGridHelper.init numLevels dims).DataTypeSize
      (vtkAMRDualGridHelper.init numLevels dims).DegenerateRegionQueue).Levels.length =
        numLevels := by
    simp [vtkAMRDualGridHelper.init]
  have h0 : ∀ n, vtkAMRDualGridHelper.levelAt
      (vtkAMRDualGridHelper.mk (vtkAMRDualGridHelper.init numLevels dims).Levels enable skip
      (vtkAMRDualGridHelper.init numLevels dims).StandardBlockDimensions
      (vtkAMRDualGridHelper.init numLevels dims).DataTypeSize
      (vtkAMRDualGridHelper.init numLevels dims).DegenerateRegionQueue) n =
      if n < numLevels then (vtkAMRDualGridHelperLevel.newAt (n : Int))
      else vtkAMRDualGridHelperLevel.new := fun n => levelAt_init numLevels dims n
  have hs := AddGridBlock_spec (vtkAMRDualGridHelperLevel.newAt (level : Int))
    (GridWF_new level) x y z volume processId hx hy hz
  have hla := fun n => levelAt_addBlockAt _ level (by rw [hlen]; exact hl) x y z volume
    processId originIndex n
  simp only [h0, if_pos hl] at hla
  unfold singleBlockRegistry
  refine ⟨by rw [length_addBlockAt, hlen], ?_, ?_, ?_, ?_, ?_⟩
  · rw [hla level, if_pos rfl]
    obtain ⟨w0, w2, w4, wc⟩ := hs.1
    refine ⟨w0, w2, w4, ?_⟩
    rcases wc with ⟨wn, w⟩ | ⟨wn, w⟩
    · exact Or.inl ⟨wn, w⟩
    · exact Or.inr ⟨wn, w⟩
  · intro a b c
    rw [hla level, if_pos rfl]
    refine Eq.trans (GetGridBlock_congr _ (vtkAMRDualGridHelperLevel.AddGridBlock
      (vtkAMRDualGridHelperLevel.newAt (level : Int)) x y z volume processId).1
      ⟨rfl, rfl, rfl, rfl⟩ a b c) ?_
    by_cases he : (a, b, c) = (x, y, z)
    · rw [if_pos he]
      simp only [Prod.mk.injEq] at he
      rw [he.1, he.2.1, he.2.2, hs.2.2.2.2.1]
      rfl
    · rw [if_neg he, hs.2.2.2.2.2 a b c he]
      exact GetGridBlock_new _ _ _ _
  · intro n hn
    rw [hla n, if_neg (Ne.symm hn)]
    split
    · exact ⟨rfl, fun a b c => GetGridBlock_new _ _ _ _⟩
    · exact ⟨rfl, fun a b c => GetGridBlock_new 0 a b c⟩
  · rw [hla level, if_pos rfl]
    simp only [hs.2.1, hs.2.2.1]
    rfl
  · rfl

/-- C4. On a registry that holds exactly one block, at any level and any
non-negative grid index, `AssignSharedRegions` changes nothing: every
`RegionBits` entry of the block keeps the self-owned default, all 26 non-center
ones included, `BoundaryBits` stays 63 and the queue stays empty. -/
theorem C4_single_block (numLevels level : Nat) (hl : level < numLevels)
    (dims : Int × Int × Int) (enable skip : Bool) (x y z : Int)
    (hx : 0 ≤ x) (hy : 0 ≤ y) (hz : 0 ≤ z) (volume : Option vtkImageData) (processId : Int)
    (originIndex : Int × Int × Int) :
    (singleBlockRegistry numLevels level dims enable skip x y z volume processId
        originIndex).GetBlock level x y z = some (level, 0) ∧
    (singleBlockRegistry numLevels level dims enable skip x y z volume processId
        originIndex).AssignSharedRegions =
      singleBlockRegistry numLevels level dims enable skip x y z volume processId originIndex ∧
    (∀ r ∈ regionDirections, (r.1 ≠ 0 ∨ r.2.1 ≠ 0 ∨ r.2.2 ≠ 0) →
      (((singleBlockRegistry numLevels level dims enable skip x y z volume processId
        originIndex).AssignSharedRegions.blockAt (level, 0)).regionBits
          (r.1 + 1) (r.2.1 + 1) (r.2.2 + 1)) = vtkAMRRegionBitOwner) ∧
    ((singleBlockRegistry numLevels level dims enable skip x y z volume processId
        originIndex).AssignSharedRegions.blockAt (level, 0)).BoundaryBits = 63 ∧
    (singleBlockRegistry numLevels level dims enable skip x y z volume processId
        originIndex).AssignSharedRegions.DegenerateRegionQueue = [] := by
  obtain ⟨hlen, hwf, hget, hoth, hblocks, hq⟩ := singleBlockRegistry_spec numLevels level hl dims
    enable skip x y z hx hy hz volume processId originIndex
  generalize singleBlockRegistry numLevels level dims enable skip x y z volume processId
    originIndex = h at *
  have hb : h.blockAt (level, 0) =
      { vtkAMRDualGridHelperBlock.new processId with
          Image := volume, Level := (level : Int), GridIndex := (x, y, z),
          ProcessId := processId, OriginIndex := originIndex } := by
    unfold vtkAMRDualGridHelper.blockAt
    rw [hblocks]
    rfl
  have hLevel : (h.blockAt (level, 0)).Level = (level : Int) := by rw [hb]
  have hassign : h.AssignSharedRegions = h := by
    unfold vtkAMRDualGridHelper.AssignSharedRegions
    apply foldl_invariant (fun s : vtkAMRDualGridHelper => s = h)
    · rfl
    · intro s n _ hs
      subst hs
      unfold assignLevel
      simp only
      apply foldl_invariant (fun t : vtkAMRDualGridHelper => t = s)
      · rfl
      · intro t p hp ht
        subst ht
        by_cases hn : n = level
        · subst hn
          have hp2 := zip_extentCoords_GetGridBlock _ hwf p hp
          rw [hget] at hp2
          unfold assignSlot
          by_cases hc : (p.1.1, p.1.2.1, p.1.2.2) = (x, y, z)
          · rw [if_pos hc] at hp2
            rw [hp2]
            simp only [Prod.mk.injEq] at hc
            simp only [hc.1, hc.2.1, hc.2.2]
            have := AssignBlockSharedRegions_of_no_neighbor t (n, 0) x y z (by
              intro ll h0 h1 ix iy iz hne
              rw [hLevel] at h1 ⊢
              by_cases hll : ll.toNat = n
              · have : ll = (n : Int) := by omega
                subst this
                simp only [sub_self, Int.toNat_zero, int_shiftRight_zero, Int.toNat_ofNat]
                rw [hget, if_neg]
                simp only [Prod.mk.injEq]
                omega
              · exact (hoth _ hll).2 _ _ _)
            rw [hLevel] at this
            exact this
          · rw [if_neg hc] at hp2
            rw [hp2]
        · rw [(hoth n hn).1] at hp
          simp at hp
  rw [hassign]
  refine ⟨?_, rfl, ?_, by rw [hb]; rfl, hq⟩
  · unfold vtkAMRDualGridHelper.GetBlock
    rw [if_neg (by omega)]
    simp only [Int.toNat_ofNat, hget, if_pos]
    rfl
  · rw [hb]
    unfold vtkAMRDualGridHelperBlock.regionBits vtkAMRDualGridHelperBlock.new
    simp only
    decide

/-- C4, for a block at level 1 of 3, grid index (2,1,0). -/
theorem C4_single_block_witness :
    (singleBlockRegistry 3 1 (4, 4, 4) true false 2 1 0 none 0 (7, 3, -1)).AssignSharedRegions =
        singleBlockRegistry 3 1 (4, 4, 4) true false 2 1 0 none 0 (7, 3, -1) ∧
      ((singleBlockRegistry 3 1 (4, 4, 4) true false 2 1 0 none 0
        (7, 3, -1)).AssignSharedRegions.blockAt (1, 0)).BoundaryBits = 63 ∧
      (singleBlockRegistry 3 1 (4, 4, 4) true false 2 1 0 none 0
        (7, 3, -1)).AssignSharedRegions.DegenerateRegionQueue = [] :=
  have h := C4_single_block 3 1 (by decide) (4, 4, 4) true false 2 1 0 (by decide) (by decide)
    (by decide) none 0 (7, 3, -1)
  ⟨h.2.1, h.2.2.2.1, h.2.2.2.2⟩

/-! ## The ownership decisions do not read payloads or owners -/

theorem map_modify_comm {α β : Type} (g : α → β) (f : α → α) (f' : β → β)
    (hfg : ∀ a, g (f a) = f' (g a)) (l : List α) (n : Nat) :
    (l.modify f n).map g = (l.map g).modify f' n := by
  induction l generalizing n with
  | nil => cases n <;> rfl
  | cons a l ih =>
    cases n with
    | zero => simp [List.modify_zero_cons, hfg]
    | succ n => simp [List.modify_succ_cons, ih]

theorem levelAt_skeleton (h : vtkAMRDualGridHelper) (n : Nat) :
    h.skeleton.levelAt n = (h.levelAt n).skeleton := by
  unfold vtkAMRDualGridHelper.levelAt vtkAMRDualGridHelper.skeleton
  simp only [List.getD_eq_getElem?_getD, List.getElem?_map]
  cases h.Levels[n]? <;> rfl

theorem blockAt_skeleton (h : vtkAMRDualGridHelper) (p : BlockPtr) :
    h.skeleton.blockAt p = (h.blockAt p).skeleton := by
  unfold vtkAMRDualGridHelper.blockAt
  rw [levelAt_skeleton]
  unfold vtkAMRDualGridHelperLevel.skeleton
  simp only [List.getD_eq_getElem?_getD, List.getElem?_map]
  cases (h.levelAt p.1).Blocks[p.2]? <;> rfl

theorem GetGridBlock_skeleton (h : vtkAMRDualGridHelper) (n : Nat) (a b c : Int) :
    (h.skeleton.levelAt n).GetGridBlock a b c = (h.levelAt n).GetGridBlock a b c := by
  rw [levelAt_skeleton]
  rfl

/-- An assignment through a block pointer that commutes with the reduction of
the block commutes with the reduction of the helper. -/
theorem skeleton_modifyBlock (h : vtkAMRDualGridHelper) (p : BlockPtr)
    (f f' : vtkAMRDualGridHelperBlock → vtkAMRDualGridHelperBlock)
    (hf : ∀ b, (f b).skeleton = f' b.skeleton) :
    (h.modifyBlock p f).skeleton = h.skeleton.modifyBlock p f' := by
  unfold vtkAMRDualGridHelper.modifyBlock vtkAMRDualGridHelper.skeleton
  simp only [vtkAMRDualGridHelper.mk.injEq, and_self, and_true]
  apply map_modify_comm
  intro l
  unfold vtkAMRDualGridHelperLevel.skeleton
  simp only [vtkAMRDualGridHelperLevel.mk.injEq, true_and, and_true]
  exact map_modify_comm _ _ _ hf _ _

/-- An assignment through a block pointer that changes only the payload, the
copy flag, the owner or the origin index is not seen in the skeleton. -/
theorem skeleton_modifyBlock_id (h : vtkAMRDualGridHelper) (p : BlockPtr)
    (f : vtkAMRDualGridHelperBlock → vtkAMRDualGridHelperBlock)
    (hf : ∀ b, (f b).skeleton = b.skeleton) :
    (h.modifyBlock p f).skeleton = h.skeleton := by
  rw [skeleton_modifyBlock h p f id hf]
  unfold vtkAMRDualGridHelper.modifyBlock
  have : (fun l : vtkAMRDualGridHelperLevel => { l with Blocks := l.Blocks.modify id p.2 }) = id := by
    funext l
    simp
  rw [this]
  simp

theorem skeleton_skeleton (h : vtkAMRDualGridHelper) : h.skeleton.skeleton = h.skeleton := by
  unfold vtkAMRDualGridHelper.skeleton
  simp only [List.map_map, vtkAMRDualGridHelper.mk.injEq, and_self, and_true]
  apply List.map_congr_left
  intro l _
  unfold vtkAMRDualGridHelperLevel.skeleton
  simp only [Function.comp_apply, List.map_map, vtkAMRDualGridHelperLevel.mk.injEq, true_and,
    and_true]
  apply List.map_congr_left
  intro b _
  rfl

theorem clearBoundaryBits_skeleton (h : vtkAMRDualGridHelper) (block nb : BlockPtr)
    (ix iy iz : Int) :
    (clearBoundaryBits h block nb ix iy iz).skeleton =
      clearBoundaryBits h.skeleton block nb ix iy iz := by
  unfold clearBoundaryBits
  split
  · rfl
  · rename_i m _
    rw [skeleton_modifyBlock _ nb (fun b => { b with BoundaryBits := b.BoundaryBits &&& m.2 })
      (fun b => { b with BoundaryBits := b.BoundaryBits &&& m.2 }) (fun _ => rfl),
      skeleton_modifyBlock h block (fun b => { b with BoundaryBits := b.BoundaryBits &&& m.1 })
      (fun b => { b with BoundaryBits := b.BoundaryBits &&& m.1 }) (fun _ => rfl)]

theorem claimFound_skeleton (block : BlockPtr) (rx ry rz lowerLevel : Int)
    (st : ClaimState) (ix iy iz : Int) (nb : Nat) :
    (claimFound block rx ry rz lowerLevel st ix iy iz nb).skeleton =
      claimFound block rx ry rz lowerLevel st.skeleton ix iy iz nb := by
  unfold claimFound
  simp only
  have he : (clearBoundaryBits st.skeleton.helper block (lowerLevel.toNat, nb) ix iy
      iz).EnableDegenerateCells =
      (clearBoundaryBits st.helper block (lowerLevel.toNat, nb) ix iy iz).EnableDegenerateCells := by
    show (clearBoundaryBits st.helper.skeleton block (lowerLevel.toNat, nb) ix iy
      iz).EnableDegenerateCells = _
    rw [← clearBoundaryBits_skeleton]
    rfl
  have hc : (clearBoundaryBits st.helper block (lowerLevel.toNat, nb) ix iy iz).skeleton =
      clearBoundaryBits st.skeleton.helper block (lowerLevel.toNat, nb) ix iy iz :=
    clearBoundaryBits_skeleton _ _ _ _ _ _
  have hm : ((clearBoundaryBits st.helper block (lowerLevel.toNat, nb) ix iy iz).modifyBlock
      (lowerLevel.toNat, nb) fun b =>
        b.setRegionBits (rx - ix - ix + 1) (ry - iy - iy + 1) (rz - iz - iz + 1) 0).skeleton =
      (clearBoundaryBits st.skeleton.helper block (lowerLevel.toNat, nb) ix iy iz).modifyBlock
      (lowerLevel.toNat, nb) fun b =>
        b.setRegionBits (rx - ix - ix + 1) (ry - iy - iy + 1) (rz - iz - iz + 1) 0 := by
    rw [skeleton_modifyBlock _ (lowerLevel.toNat, nb) (fun b =>
        b.setRegionBits (rx - ix - ix + 1) (ry - iy - iy + 1) (rz - iz - iz + 1) 0) (fun b =>
        b.setRegionBits (rx - ix - ix + 1) (ry - iy - iy + 1) (rz - iz - iz + 1) 0)
      (fun _ => rfl), hc]
  rw [he]
  split
  · have hd : st.skeleton.bestDist = st.bestDist := rfl
    rw [hd]
    split
    · simp only [ClaimState.skeleton, hm]
    · simp only [ClaimState.skeleton, hm]
  · simp only [ClaimState.skeleton, hc]

theorem claimNeighbor_skeleton (block : BlockPtr) (bx by' bz rx ry rz lowerLevel : Int)
    (d : Nat) (st : ClaimState) (ix iy iz : Int) :
    (claimNeighbor block bx by' bz rx ry rz lowerLevel d st ix iy iz).skeleton =
      claimNeighbor block bx by' bz rx ry rz lowerLevel d st.skeleton ix iy iz := by
  unfold claimNeighbor
  split
  · simp only
    have : (st.skeleton.helper.levelAt lowerLevel.toNat).GetGridBlock ((bx + ix) >>> d)
        ((by' + iy) >>> d) ((bz + iz) >>> d) =
        (st.helper.levelAt lowerLevel.toNat).GetGridBlock ((bx + ix) >>> d)
        ((by' + iy) >>> d) ((bz + iz) >>> d) := GetGridBlock_skeleton _ _ _ _ _
    rw [this]
    split
    · rfl
    · exact claimFound_skeleton _ _ _ _ _ _ _ _ _ _
  · rfl

theorem foldl_comm {σ α : Type} (E : σ → σ) (f : σ → α → σ) (l : List α)
    (hf : ∀ s a, E (f s a) = f (E s) a) (s : σ) : E (l.foldl f s) = l.foldl f (E s) := by
  induction l generalizing s with
  | nil => rfl
  | cons a l ih => simp only [List.foldl_cons, ih, hf]

theorem foldl_congr_erase {σ α : Type} (E : σ → σ) (f : σ → α → σ) (l : List α)
    (hE : ∀ s, E (E s) = E s) (hf : ∀ s a, E (f s a) = E (f (E s) a)) (s : σ) :
    E (l.foldl f s) = E (l.foldl f (E s)) := by
  induction l generalizing s with
  | nil => exact (hE s).symm
  | cons a l ih =>
    simp only [List.foldl_cons]
    rw [ih (f s a), ih (f (E s) a), hf s a]

theorem claimLevel_skeleton (block : BlockPtr) (blockLevel bx by' bz rx ry rz : Int)
    (st : ClaimState) (lowerLevel : Int) :
    (claimLevel block blockLevel bx by' bz rx ry rz st lowerLevel).skeleton =
      claimLevel block blockLevel bx by' bz rx ry rz st.skeleton lowerLevel := by
  unfold claimLevel
  simp only
  split
  · exact foldl_comm ClaimState.skeleton
      (fun (s : ClaimState) (o : Int × Int × Int) => claimNeighbor block bx by' bz rx ry rz
        lowerLevel (blockLevel - lowerLevel).toNat s o.1 o.2.1 o.2.2) _
      (fun s o => claimNeighbor_skeleton block bx by' bz rx ry rz lowerLevel
        (blockLevel - lowerLevel).toNat s o.1 o.2.1 o.2.2) st
  · rfl

/-- The loop over the levels of `ClaimBlockSharedRegion` run on the skeleton
gives the skeleton of the run on the helper, with the same best candidate. -/
theorem claimLevels_skeleton (h : vtkAMRDualGridHelper) (block : BlockPtr)
    (bx by' bz rx ry rz : Int) :
    (claimLevels h block bx by' bz rx ry rz).skeleton =
      claimLevels h.skeleton block bx by' bz rx ry rz := by
  unfold claimLevels
  simp only
  have hL : (h.skeleton.blockAt block).Level = (h.blockAt block).Level := by
    rw [blockAt_skeleton]; rfl
  rw [hL]
  exact foldl_comm ClaimState.skeleton
    (claimLevel block (h.blockAt block).Level bx by' bz rx ry rz) _
    (fun s o => claimLevel_skeleton block (h.blockAt block).Level bx by' bz rx ry rz s o) _

theorem skeleton_CopyDegenerateRegionBlockToBlock (h : vtkAMRDualGridHelper)
    (rx ry rz : Int) (low high : BlockPtr) :
    (h.CopyDegenerateRegionBlockToBlock rx ry rz low high).skeleton = h.skeleton := by
  unfold vtkAMRDualGridHelper.CopyDegenerateRegionBlockToBlock
  simp only
  have h1 : (h.modifyBlock high fun b => { b with CopyFlag := true }).skeleton = h.skeleton :=
    skeleton_modifyBlock_id _ _ _ (fun _ => rfl)
  split
  · rfl
  split
  · rfl
  split
  · split
    · split
      · exact h1
      · refine Eq.trans ?_ h1
        apply skeleton_modifyBlock_id
        intro b
        rfl
    · exact h1
  · exact h1

/-- The skeleton of the helper after `ClaimBlockSharedRegion`, and the returned
level, are those of the loop over the levels run on the skeleton. -/
theorem ClaimBlockSharedRegion_skeleton (h : vtkAMRDualGridHelper) (block : BlockPtr)
    (bx by' bz rx ry rz : Int) :
    (h.ClaimBlockSharedRegion block bx by' bz rx ry rz).1.skeleton =
        (claimLevels h.skeleton block bx by' bz rx ry rz).helper ∧
      (h.ClaimBlockSharedRegion block bx by' bz rx ry rz).2 =
        (claimLevels h.skeleton block bx by' bz rx ry rz).bestLevel := by
  rw [← claimLevels_skeleton]
  refine ⟨?_, ClaimBlockSharedRegion_snd h block bx by' bz rx ry rz⟩
  unfold vtkAMRDualGridHelper.ClaimBlockSharedRegion
  simp only
  split
  · split
    · split <;> rfl
    · exact skeleton_CopyDegenerateRegionBlockToBlock _ _ _ _ _ _
  · rfl

theorem regionBits_skeleton (b : vtkAMRDualGridHelperBlock) (x y z : Int) :
    b.skeleton.regionBits x y z = b.regionBits x y z := rfl

theorem EnableDegenerateCells_Claim (h : vtkAMRDualGridHelper) (block : BlockPtr)
    (bx by' bz rx ry rz : Int) :
    (h.ClaimBlockSharedRegion block bx by' bz rx ry rz).1.EnableDegenerateCells =
      h.EnableDegenerateCells := by
  have h1 : (h.ClaimBlockSharedRegion block bx by' bz rx ry rz).1.skeleton.EnableDegenerateCells =
      h.EnableDegenerateCells := by
    rw [(ClaimBlockSharedRegion_skeleton h block bx by' bz rx ry rz).1]
    have := (claimLevels_inv h.skeleton block bx by' bz rx ry rz).1
    exact this.2.1
  exact h1

theorem skeleton_setRegionBits (h : vtkAMRDualGridHelper) (p : BlockPtr) (x y z : Int)
    (v : Nat) :
    (h.modifyBlock p fun b => b.setRegionBits x y z v).skeleton =
      h.skeleton.modifyBlock p fun b => b.setRegionBits x y z v :=
  skeleton_modifyBlock h p (fun b => b.setRegionBits x y z v)
    (fun b => b.setRegionBits x y z v) (fun _ => rfl)

theorem assignRegion_skeleton (block : BlockPtr) (blockLevel bx by' bz : Int)
    (h : vtkAMRDualGridHelper) (r : Int × Int × Int) :
    (assignRegion block blockLevel bx by' bz h r).skeleton =
      (assignRegion block blockLevel bx by' bz h.skeleton r).skeleton := by
  unfold assignRegion
  simp only
  rw [blockAt_skeleton, regionBits_skeleton]
  split
  · have e1 := ClaimBlockSharedRegion_skeleton h block bx by' bz r.1 r.2.1 r.2.2
    have e2 := ClaimBlockSharedRegion_skeleton h.skeleton block bx by' bz r.1 r.2.1 r.2.2
    rw [skeleton_skeleton] at e2
    rw [EnableDegenerateCells_Claim, EnableDegenerateCells_Claim, e1.2, e2.2]
    have hE : h.skeleton.EnableDegenerateCells = h.EnableDegenerateCells := rfl
    rw [hE]
    split
    · rw [skeleton_setRegionBits, skeleton_setRegionBits, e1.1, e2.1]
    · rw [e1.1, e2.1]
  · exact (skeleton_skeleton h).symm

theorem AssignBlockSharedRegions_skeleton (h : vtkAMRDualGridHelper) (block : BlockPtr)
    (blockLevel bx by' bz : Int) :
    (h.AssignBlockSharedRegions block blockLevel bx by' bz).skeleton =
      (h.skeleton.AssignBlockSharedRegions block blockLevel bx by' bz).skeleton := by
  unfold vtkAMRDualGridHelper.AssignBlockSharedRegions
  exact foldl_congr_erase vtkAMRDualGridHelper.skeleton _ _ skeleton_skeleton
    (fun s r => assignRegion_skeleton block blockLevel bx by' bz s r) h

theorem assignLevel_skeleton (h : vtkAMRDualGridHelper) (level : Nat) :
    (assignLevel h level).skeleton = (assignLevel h.skeleton level).skeleton := by
  unfold assignLevel
  simp only
  rw [levelAt_skeleton]
  have hl : (h.levelAt level).skeleton.GridExtent = (h.levelAt level).GridExtent := rfl
  have hg : (h.levelAt level).skeleton.Grid = (h.levelAt level).Grid := rfl
  rw [hl, hg]
  apply foldl_congr_erase vtkAMRDualGridHelper.skeleton _ _ skeleton_skeleton
  intro s p
  unfold assignSlot
  split
  · rw [skeleton_skeleton]
  · exact AssignBlockSharedRegions_skeleton _ _ _ _ _ _

/-- The skeleton of the helper after `AssignSharedRegions` is a function of the
skeleton of the helper before it. -/
theorem AssignSharedRegions_skeleton (h : vtkAMRDualGridHelper) :
    h.AssignSharedRegions.skeleton = h.skeleton.AssignSharedRegions.skeleton := by
  unfold vtkAMRDualGridHelper.AssignSharedRegions
  have hlen : h.skeleton.Levels.length = h.Levels.length := by
    simp [vtkAMRDualGridHelper.skeleton]
  rw [hlen]
  exact foldl_congr_erase vtkAMRDualGridHelper.skeleton _ _ skeleton_skeleton
    (fun s n => assignLevel_skeleton s n) h

/-- C8. Two registries with the same levels, grids and blocks and the same
`EnableDegenerateCells`, whose blocks agree on `Level`, `GridIndex`,
`RegionBits` and `BoundaryBits` but may differ in payload (`Image`,
`CopyFlag`), `ProcessId` and `OriginIndex` (and the helpers in `SkipGhostCopy`,
block dimensions and queue), have after `AssignSharedRegions` identical
`RegionBits` and identical `BoundaryBits` on every block. -/
theorem C8_replicated_decisions (h1 h2 : vtkAMRDualGridHelper)
    (hsame : h1.skeleton = h2.skeleton) (p : BlockPtr) :
    (h1.AssignSharedRegions.blockAt p).RegionBits =
        (h2.AssignSharedRegions.blockAt p).RegionBits ∧
      (h1.AssignSharedRegions.blockAt p).BoundaryBits =
        (h2.AssignSharedRegions.blockAt p).BoundaryBits := by
  have h : h1.AssignSharedRegions.skeleton = h2.AssignSharedRegions.skeleton := by
    rw [AssignSharedRegions_skeleton h1, AssignSharedRegions_skeleton h2, hsame]
  have hb := congrArg (fun s => vtkAMRDualGridHelper.blockAt s p) h
  simp only [blockAt_skeleton] at hb
  have hr := congrArg vtkAMRDualGridHelperBlock.RegionBits hb
  have hbb := congrArg vtkAMRDualGridHelperBlock.BoundaryBits hb
  exact ⟨hr, hbb⟩

/-- C8, on the two-level scenario: the registry as rank 0 sees it and as rank 1
sees it differ in the payloads only. -/
theorem C8_replicated_decisions_witness :
    (twoLevelScenario 0).skeleton = (twoLevelScenario 1).skeleton ∧
      ((twoLevelScenario 0).AssignSharedRegions.blockAt (0, 0)).RegionBits =
        ((twoLevelScenario 1).AssignSharedRegions.blockAt (0, 0)).RegionBits ∧
      ((twoLevelScenario 0).AssignSharedRegions.blockAt (0, 0)).BoundaryBits =
        ((twoLevelScenario 1).AssignSharedRegions.blockAt (0, 0)).BoundaryBits :=
  have h := C8_replicated_decisions (twoLevelScenario 0) (twoLevelScenario 1) (by decide!) (0, 0)
  ⟨by decide!, h.1, h.2⟩

/-! ## The queue on different processes -/

theorem foldl_rel {σ α : Type} (R : σ → σ → Prop) (f : σ → α → σ) (l : List α)
    (hf : ∀ s t a, R s t → R (f s a) (f t a)) (s t : σ) (h : R s t) :
    R (l.foldl f s) (l.foldl f t) := by
  induction l generalizing s t with
  | nil => exact h
  | cons a l ih => exact ih _ _ (hf s t a h)

theorem SamePayloads.rfl_payloads (h : vtkAMRDualGridHelper) : SamePayloads h h :=
  fun _ => ⟨Iff.rfl, rfl⟩

theorem SamePayloads.then_payloads {h1 h2 h3 : vtkAMRDualGridHelper} (a : SamePayloads h1 h2)
    (b : SamePayloads h2 h3) : SamePayloads h1 h3 :=
  fun q => ⟨(b q).1.trans (a q).1, (b q).2.trans (a q).2⟩

theorem SamePayloads.of_SameGrids {h h' : vtkAMRDualGridHelper} (s : SameGrids h h') :
    SamePayloads h h' :=
  fun q => ⟨by rw [(s.2.2.2.2.2.2.1 q).1], (s.2.2.2.2.2.2.1 q).2⟩

theorem SamePayloads.pushed_eq {h h' : vtkAMRDualGridHelper} (s : SamePayloads h h') :
    h'.pushed = h.pushed := by
  funext d
  unfold vtkAMRDualGridHelper.pushed
  exact decide_eq_decide.2 (or_congr (s d.ReceivingBlock).1 (s d.SourceBlock).1)

theorem SamePayloads.crossOwner_eq {h h' : vtkAMRDualGridHelper} (s : SamePayloads h h') :
    h'.crossOwner = h.crossOwner := by
  funext d
  unfold vtkAMRDualGridHelper.crossOwner
  rw [(s d.ReceivingBlock).2, (s d.SourceBlock).2]

/-- An assignment through a block pointer that neither adds nor removes a
payload and keeps the owner. -/
theorem SamePayloads.of_assign (h : vtkAMRDualGridHelper) (p : BlockPtr)
    (f : vtkAMRDualGridHelperBlock → vtkAMRDualGridHelperBlock)
    (hf : ((f (h.blockAt p)).Image = none ↔ (h.blockAt p).Image = none) ∧
      (f (h.blockAt p)).ProcessId = (h.blockAt p).ProcessId) :
    SamePayloads h (h.modifyBlock p f) := by
  intro q
  rw [blockAt_modifyBlock]
  split
  · rename_i hpq
    rw [← hpq.1]
    exact hf
  · exact ⟨Iff.rfl, rfl⟩

/-- What `CopyDegenerateRegionBlockToBlock` leaves alone: the queue, the flag
`SkipGhostCopy`, the owners and the presence of the payloads. -/
theorem CopyDegenerateRegionBlockToBlock_frame (h : vtkAMRDualGridHelper)
    (rx ry rz : Int) (low high : BlockPtr) :
    (h.CopyDegenerateRegionBlockToBlock rx ry rz low high).DegenerateRegionQueue =
        h.DegenerateRegionQueue ∧
      (h.CopyDegenerateRegionBlockToBlock rx ry rz low high).SkipGhostCopy = h.SkipGhostCopy ∧
      SamePayloads h (h.CopyDegenerateRegionBlockToBlock rx ry rz low high) := by
  unfold vtkAMRDualGridHelper.CopyDegenerateRegionBlockToBlock
  simp only
  have h1 : SamePayloads h (h.modifyBlock high fun b => { b with CopyFlag := true }) :=
    SamePayloads.of_assign h high (fun b => { b with CopyFlag := true }) ⟨Iff.rfl, rfl⟩
  split
  · exact ⟨rfl, rfl, SamePayloads.rfl_payloads _⟩
  split
  · exact ⟨rfl, rfl, SamePayloads.rfl_payloads _⟩
  split
  · rename_i hImg lImg hh hl
    split
    · split
      · exact ⟨rfl, rfl, h1⟩
      · refine ⟨rfl, rfl, h1.then_payloads (SamePayloads.of_assign _ _ _ ⟨?_, rfl⟩)⟩
        have : ((h.modifyBlock high fun b => { b with CopyFlag := true }).blockAt high).Image ≠
            none := by
          intro hn
          have := (h1 high).1.1 hn
          rw [hh] at this
          exact absurd this (by simp)
        simp [this]
    · exact ⟨rfl, rfl, h1⟩
  · exact ⟨rfl, rfl, h1⟩

theorem SamePayloads_setRegionBits (h : vtkAMRDualGridHelper) (p : BlockPtr) (x y z : Int)
    (v : Nat) : SamePayloads h (h.modifyBlock p fun b => b.setRegionBits x y z v) :=
  SamePayloads.of_assign h p (fun b => b.setRegionBits x y z v) ⟨Iff.rfl, rfl⟩

theorem SamePayloads_Claim (h : vtkAMRDualGridHelper) (block : BlockPtr)
    (bx by' bz rx ry rz : Int) :
    SamePayloads h (h.ClaimBlockSharedRegion block bx by' bz rx ry rz).1 := by
  have hs := SamePayloads.of_SameGrids (claimLevels_inv h block bx by' bz rx ry rz).1
  unfold vtkAMRDualGridHelper.ClaimBlockSharedRegion
  simp only
  split
  · split
    · split
      · exact hs
      · exact hs
    · exact hs.then_payloads (CopyDegenerateRegionBlockToBlock_frame _ _ _ _ _ _).2.2
  · exact hs

theorem SamePayloads_assignRegion (block : BlockPtr) (blockLevel bx by' bz : Int)
    (h : vtkAMRDualGridHelper) (r : Int × Int × Int) :
    SamePayloads h (assignRegion block blockLevel bx by' bz h r) := by
  unfold assignRegion
  simp only
  split
  · split
    · exact (SamePayloads_Claim h block bx by' bz r.1 r.2.1 r.2.2).then_payloads
        (SamePayloads_setRegionBits _ _ _ _ _ _)
    · exact SamePayloads_Claim h block bx by' bz r.1 r.2.1 r.2.2
  · exact SamePayloads.rfl_payloads _

theorem SamePayloads_AssignBlockSharedRegions (h : vtkAMRDualGridHelper) (block : BlockPtr)
    (blockLevel bx by' bz : Int) :
    SamePayloads h (h.AssignBlockSharedRegions block blockLevel bx by' bz) := by
  unfold vtkAMRDualGridHelper.AssignBlockSharedRegions
  apply foldl_invariant (fun s => SamePayloads h s)
  · exact SamePayloads.rfl_payloads _
  · intro t r _ ht
    exact ht.then_payloads (SamePayloads_assignRegion block blockLevel bx by' bz t r)

theorem SamePayloads_assignLevel (h : vtkAMRDualGridHelper) (level : Nat) :
    SamePayloads h (assignLevel h level) := by
  unfold assignLevel
  simp only
  apply foldl_invariant (fun s => SamePayloads h s)
  · exact SamePayloads.rfl_payloads _
  · intro t p _ ht
    unfold assignSlot
    split
    · exact ht
    · exact ht.then_payloads (SamePayloads_AssignBlockSharedRegions _ _ _ _ _ _)

/-- `AssignSharedRegions` neither adds nor removes a payload and changes no
owner. -/
theorem SamePayloads_AssignSharedRegions (h : vtkAMRDualGridHelper) :
    SamePayloads h h.AssignSharedRegions := by
  unfold vtkAMRDualGridHelper.AssignSharedRegions
  apply foldl_invariant (fun s => SamePayloads h s)
  · exact SamePayloads.rfl_payloads _
  · intro t n _ ht
    exact ht.then_payloads (SamePayloads_assignLevel t n)

theorem Claim_fst_of_not (h : vtkAMRDualGridHelper) (block : BlockPtr)
    (bx by' bz rx ry rz : Int)
    (hc : ¬ ((claimLevels h block bx by' bz rx ry rz).helper.EnableDegenerateCells ∧
      (claimLevels h block bx by' bz rx ry rz).bestLevel < (h.blockAt block).Level)) :
    (h.ClaimBlockSharedRegion block bx by' bz rx ry rz).1 =
      (claimLevels h block bx by' bz rx ry rz).helper := by
  unfold vtkAMRDualGridHelper.ClaimBlockSharedRegion
  simp only
  rw [if_neg hc]

theorem Claim_fst_of_push (h : vtkAMRDualGridHelper) (block : BlockPtr)
    (bx by' bz rx ry rz : Int)
    (hc : (claimLevels h block bx by' bz rx ry rz).helper.EnableDegenerateCells ∧
      (claimLevels h block bx by' bz rx ry rz).bestLevel < (h.blockAt block).Level)
    (hp : (claimLevels h block bx by' bz rx ry rz).helper.pushed
      { ReceivingBlock := block, ReceivingRegion := (rx, ry, rz),
        SourceBlock := (claimLevels h block bx by' bz rx ry rz).bestBlock } = true) :
    (h.ClaimBlockSharedRegion block bx by' bz rx ry rz).1 =
      if (claimLevels h block bx by' bz rx ry rz).helper.SkipGhostCopy = true
      then (claimLevels h block bx by' bz rx ry rz).helper
      else { (claimLevels h block bx by' bz rx ry rz).helper with
        DegenerateRegionQueue :=
          (claimLevels h block bx by' bz rx ry rz).helper.DegenerateRegionQueue ++
            [{ ReceivingBlock := block, ReceivingRegion := (rx, ry, rz),
               SourceBlock := (claimLevels h block bx by' bz rx ry rz).bestBlock }] } := by
  unfold vtkAMRDualGridHelper.pushed at hp
  simp only [decide_eq_true_eq] at hp
  unfold vtkAMRDualGridHelper.ClaimBlockSharedRegion
  simp only
  rw [if_pos hc, if_pos hp]
  split <;> simp_all

theorem Claim_fst_of_copy (h : vtkAMRDualGridHelper) (block : BlockPtr)
    (bx by' bz rx ry rz : Int)
    (hc : (claimLevels h block bx by' bz rx ry rz).helper.EnableDegenerateCells ∧
      (claimLevels h block bx by' bz rx ry rz).bestLevel < (h.blockAt block).Level)
    (hp : (claimLevels h block bx by' bz rx ry rz).helper.pushed
      { ReceivingBlock := block, ReceivingRegion := (rx, ry, rz),
        SourceBlock := (claimLevels h block bx by' bz rx ry rz).bestBlock } = false) :
    (h.ClaimBlockSharedRegion block bx by' bz rx ry rz).1 =
      (claimLevels h block bx by' bz rx ry rz).helper.CopyDegenerateRegionBlockToBlock rx ry rz
        (claimLevels h block bx by' bz rx ry rz).bestBlock block := by
  unfold vtkAMRDualGridHelper.pushed at hp
  simp only [decide_eq_false_iff_not] at hp
  unfold vtkAMRDualGridHelper.ClaimBlockSharedRegion
  simp only
  rw [if_pos hc, if_neg hp]

/-- The loop over the levels of `ClaimBlockSharedRegion`, run side by side on
two related helpers, ends in related helpers with the same best candidate. -/
theorem QueueSim_claimLevels (h g : vtkAMRDualGridHelper) (S : QueueSim h g)
    (block : BlockPtr) (bx by' bz rx ry rz : Int) :
    QueueSim (claimLevels h block bx by' bz rx ry rz).helper
        (claimLevels g block bx by' bz rx ry rz).helper ∧
      (claimLevels h block bx by' bz rx ry rz).bestLevel =
        (claimLevels g block bx by' bz rx ry rz).bestLevel ∧
      (claimLevels h block bx by' bz rx ry rz).bestBlock =
        (claimLevels g block bx by' bz rx ry rz).bestBlock := by
  obtain ⟨hsk, hskip, himg, hq⟩ := S
  have hst : (claimLevels h block bx by' bz rx ry rz).skeleton =
      (claimLevels g block bx by' bz rx ry rz).skeleton := by
    rw [claimLevels_skeleton, claimLevels_skeleton, hsk]
  have sh := (claimLevels_inv h block bx by' bz rx ry rz).1
  have sg := (claimLevels_inv g block bx by' bz rx ry rz).1
  have hbl : (claimLevels h block bx by' bz rx ry rz).skeleton.bestLevel =
      (claimLevels g block bx by' bz rx ry rz).skeleton.bestLevel := by rw [hst]
  have hbb : (claimLevels h block bx by' bz rx ry rz).skeleton.bestBlock =
      (claimLevels g block bx by' bz rx ry rz).skeleton.bestBlock := by rw [hst]
  refine ⟨⟨congrArg ClaimState.helper hst, ?_, ?_, ?_⟩, hbl, hbb⟩
  · rw [sh.2.2.1, sg.2.2.1, hskip]
  · intro p
    rw [(sg.2.2.2.2.2.2.1 p).1]
    exact himg p
  · rw [sh.2.2.2.2.2.2.2, sg.2.2.2.2.2.2.2, (SamePayloads.of_SameGrids sh).pushed_eq]
    exact hq

theorem blockAt_Level_of_skeleton_eq (h g : vtkAMRDualGridHelper)
    (hsk : h.skeleton = g.skeleton) (p : BlockPtr) :
    (h.blockAt p).Level = (g.blockAt p).Level := by
  have := congrArg (fun s => (vtkAMRDualGridHelper.blockAt s p).Level) hsk
  simp only [blockAt_skeleton] at this
  exact this

theorem regionBits_of_skeleton_eq (h g : vtkAMRDualGridHelper)
    (hsk : h.skeleton = g.skeleton) (p : BlockPtr) (x y z : Int) :
    (h.blockAt p).regionBits x y z = (g.blockAt p).regionBits x y z := by
  have := congrArg (fun s => (vtkAMRDualGridHelper.blockAt s p).regionBits x y z) hsk
  simp only [blockAt_skeleton] at this
  exact this

/-- `ClaimBlockSharedRegion`, run side by side on the helper of a process and
on the helper of a process without payload, keeps them related and returns the
same level. -/
theorem QueueSim_Claim (h g : vtkAMRDualGridHelper) (S : QueueSim h g)
    (block : BlockPtr) (bx by' bz rx ry rz : Int) :
    QueueSim (h.ClaimBlockSharedRegion block bx by' bz rx ry rz).1
        (g.ClaimBlockSharedRegion block bx by' bz rx ry rz).1 ∧
      (h.ClaimBlockSharedRegion block bx by' bz rx ry rz).2 =
        (g.ClaimBlockSharedRegion block bx by' bz rx ry rz).2 := by
  obtain ⟨S', hbl, hbb⟩ := QueueSim_claimLevels h g S block bx by' bz rx ry rz
  refine ⟨?_, by rw [ClaimBlockSharedRegion_snd, ClaimBlockSharedRegion_snd, hbl]⟩
  have hL := blockAt_Level_of_skeleton_eq h g S.1 block
  have hE : (claimLevels h block bx by' bz rx ry rz).helper.EnableDegenerateCells =
      (claimLevels g block bx by' bz rx ry rz).helper.EnableDegenerateCells := by
    have := congrArg vtkAMRDualGridHelper.EnableDegenerateCells S'.1
    exact this
  have hpg : ∀ d, (claimLevels g block bx by' bz rx ry rz).helper.pushed d = true := by
    intro d
    unfold vtkAMRDualGridHelper.pushed
    simp [S'.2.2.1]
  by_cases hc : (claimLevels h block bx by' bz rx ry rz).helper.EnableDegenerateCells ∧
      (claimLevels h block bx by' bz rx ry rz).bestLevel < (h.blockAt block).Level
  · have hc' : (claimLevels g block bx by' bz rx ry rz).helper.EnableDegenerateCells ∧
        (claimLevels g block bx by' bz rx ry rz).bestLevel < (g.blockAt block).Level := by
      rw [← hE, ← hbl, ← hL]; exact hc
    rw [Claim_fst_of_push g block bx by' bz rx ry rz hc' (hpg _), ← hbb, ← S'.2.1]
    cases hp : (claimLevels h block bx by' bz rx ry rz).helper.pushed
        { ReceivingBlock := block, ReceivingRegion := (rx, ry, rz),
          SourceBlock := (claimLevels h block bx by' bz rx ry rz).bestBlock }
    · rw [Claim_fst_of_copy h block bx by' bz rx ry rz hc hp]
      obtain ⟨fq, fs, fp⟩ := CopyDegenerateRegionBlockToBlock_frame
        (claimLevels h block bx by' bz rx ry rz).helper rx ry rz
        (claimLevels h block bx by' bz rx ry rz).bestBlock block
      have hsk := skeleton_CopyDegenerateRegionBlockToBlock
        (claimLevels h block bx by' bz rx ry rz).helper rx ry rz
        (claimLevels h block bx by' bz rx ry rz).bestBlock block
      split
      · exact ⟨hsk.trans S'.1, fs.trans S'.2.1, S'.2.2.1, by rw [fq, fp.pushed_eq]; exact S'.2.2.2⟩
      · refine ⟨hsk.trans S'.1, fs.trans S'.2.1, S'.2.2.1, ?_⟩
        rw [fq, fp.pushed_eq]
        simp only [List.filter_append, List.filter_cons, hp, List.filter_nil, List.append_nil,
          Bool.false_eq_true, if_false]
        exact S'.2.2.2
    · rw [Claim_fst_of_push h block bx by' bz rx ry rz hc hp]
      split
      · exact S'
      · refine ⟨S'.1, S'.2.1, S'.2.2.1, ?_⟩
        have hpu : vtkAMRDualGridHelper.pushed
            { (claimLevels h block bx by' bz rx ry rz).helper with
              DegenerateRegionQueue :=
                (claimLevels h block bx by' bz rx ry rz).helper.DegenerateRegionQueue ++
                  [{ ReceivingBlock := block, ReceivingRegion := (rx, ry, rz),
                     SourceBlock := (claimLevels h block bx by' bz rx ry rz).bestBlock }] } =
            (claimLevels h block bx by' bz rx ry rz).helper.pushed := rfl
        rw [hpu]
        simp only [List.filter_append, List.filter_cons, hp, List.filter_nil, if_true]
        rw [← S'.2.2.2]
  · have hc' : ¬ ((claimLevels g block bx by' bz rx ry rz).helper.EnableDegenerateCells ∧
        (claimLevels g block bx by' bz rx ry rz).bestLevel < (g.blockAt block).Level) := by
      rw [← hE, ← hbl, ← hL]; exact hc
    rw [Claim_fst_of_not h block bx by' bz rx ry rz hc,
      Claim_fst_of_not g block bx by' bz rx ry rz hc']
    exact S'

theorem QueueSim_setRegionBits (h g : vtkAMRDualGridHelper) (S : QueueSim h g)
    (p : BlockPtr) (x y z : Int) (v : Nat) :
    QueueSim (h.modifyBlock p fun b => b.setRegionBits x y z v)
      (g.modifyBlock p fun b => b.setRegionBits x y z v) := by
  refine ⟨?_, S.2.1, ?_, ?_⟩
  · rw [skeleton_setRegionBits, skeleton_setRegionBits, S.1]
  · intro q
    rw [blockAt_modifyBlock_proj (fun b => b.Image) g p q
      (fun b => b.setRegionBits x y z v) (fun _ => rfl)]
    exact S.2.2.1 q
  · rw [(SamePayloads_setRegionBits h p x y z v).pushed_eq]
    exact S.2.2.2

theorem QueueSim_assignRegion (block : BlockPtr) (blockLevel bx by' bz : Int)
    (h g : vtkAMRDualGridHelper) (r : Int × Int × Int) (S : QueueSim h g) :
    QueueSim (assignRegion block blockLevel bx by' bz h r)
      (assignRegion block blockLevel bx by' bz g r) := by
  unfold assignRegion
  simp only
  rw [regionBits_of_skeleton_eq h g S.1]
  split
  · obtain ⟨Sc, hr⟩ := QueueSim_Claim h g S block bx by' bz r.1 r.2.1 r.2.2
    have hE : (h.ClaimBlockSharedRegion block bx by' bz r.1 r.2.1 r.2.2).1.EnableDegenerateCells =
        (g.ClaimBlockSharedRegion block bx by' bz r.1 r.2.1 r.2.2).1.EnableDegenerateCells := by
      have := congrArg vtkAMRDualGridHelper.EnableDegenerateCells Sc.1
      exact this
    rw [hE, hr]
    split
    · exact QueueSim_setRegionBits _ _ Sc _ _ _ _ _
    · exact Sc
  · exact S

theorem QueueSim_AssignBlockSharedRegions (h g : vtkAMRDualGridHelper) (S : QueueSim h g)
    (block : BlockPtr) (blockLevel bx by' bz : Int) :
    QueueSim (h.AssignBlockSharedRegions block blockLevel bx by' bz)
      (g.AssignBlockSharedRegions block blockLevel bx by' bz) := by
  unfold vtkAMRDualGridHelper.AssignBlockSharedRegions
  exact foldl_rel QueueSim _ _
    (fun s t r hst => QueueSim_assignRegion block blockLevel bx by' bz s t r hst) h g S

theorem levelAt_grid_of_skeleton_eq (h g : vtkAMRDualGridHelper)
    (hsk : h.skeleton = g.skeleton) (n : Nat) :
    (h.levelAt n).GridExtent = (g.levelAt n).GridExtent ∧
      (h.levelAt n).Grid = (g.levelAt n).Grid := by
  have h1 := congrArg (fun s => (vtkAMRDualGridHelper.levelAt s n).GridExtent) hsk
  have h2 := congrArg (fun s => (vtkAMRDualGridHelper.levelAt s n).Grid) hsk
  simp only [levelAt_skeleton] at h1 h2
  exact ⟨h1, h2⟩

theorem QueueSim_assignLevel (h g : vtkAMRDualGridHelper) (S : QueueSim h g) (level : Nat) :
    QueueSim (assignLevel h level) (assignLevel g level) := by
  unfold assignLevel
  simp only
  obtain ⟨e1, e2⟩ := levelAt_grid_of_skeleton_eq h g S.1 level
  rw [e1, e2]
  apply foldl_rel QueueSim _ _ _ h g S
  intro s t p hst
  unfold assignSlot
  split
  · exact hst
  · exact QueueSim_AssignBlockSharedRegions s t hst _ _ _ _ _

/-- `AssignSharedRegions`, run side by side on the helper of a process and on
the helper of a process without payload, keeps them related: the queue of the
process is the queue of the process without payload, without the entries whose
two payloads the process holds. -/
theorem QueueSim_AssignSharedRegions (h g : vtkAMRDualGridHelper) (S : QueueSim h g) :
    QueueSim h.AssignSharedRegions g.AssignSharedRegions := by
  unfold vtkAMRDualGridHelper.AssignSharedRegions
  have hlen : h.Levels.length = g.Levels.length := by
    have := congrArg (fun s => s.Levels.length) S.1
    simpa [vtkAMRDualGridHelper.skeleton] using this
  rw [hlen]
  exact foldl_rel QueueSim _ _ (fun s t n hst => QueueSim_assignLevel s t hst n) h g S

theorem skeleton_withoutPayload (h : vtkAMRDualGridHelper) :
    h.withoutPayload.skeleton = h.skeleton := by
  unfold vtkAMRDualGridHelper.withoutPayload vtkAMRDualGridHelper.skeleton
  simp only [List.map_map, vtkAMRDualGridHelper.mk.injEq, and_self, and_true]
  apply List.map_congr_left
  intro l _
  unfold vtkAMRDualGridHelperLevel.skeleton
  simp only [Function.comp_apply, List.map_map, vtkAMRDualGridHelperLevel.mk.injEq, true_and,
    and_true]
  apply List.map_congr_left
  intro b _
  rfl

theorem blockAt_withoutPayload (h : vtkAMRDualGridHelper) (p : BlockPtr) :
    (h.withoutPayload.blockAt p).Image = none := by
  unfold vtkAMRDualGridHelper.blockAt vtkAMRDualGridHelper.levelAt
    vtkAMRDualGridHelper.withoutPayload
  simp only [List.getD_eq_getElem?_getD, List.getElem?_map]
  cases h.Levels[p.1]? with
  | none => rfl
  | some l =>
    simp only [Option.map_some', Option.getD_some, List.getElem?_map]
    cases l.Blocks[p.2]? <;> rfl


theorem ProcessId_blockAt_owners (h : vtkAMRDualGridHelper) (p : BlockPtr) :
    (h.blockAt p).ProcessId = (h.owners.getD p.1 []).getD p.2 0 := by
  unfold vtkAMRDualGridHelper.blockAt vtkAMRDualGridHelper.levelAt vtkAMRDualGridHelper.owners
  simp only [List.getD_eq_getElem?_getD, List.getElem?_map]
  cases h.Levels[p.1]? with
  | none => rfl
  | some l =>
    simp only [Option.map_some', Option.getD_some, List.getElem?_map]
    cases l.Blocks[p.2]? <;> rfl

theorem blockAt_payloadsOwnedBy (h : vtkAMRDualGridHelper) (rank : Int)
    (hloc : h.payloadsOwnedBy rank) (p : BlockPtr) (hp : (h.blockAt p).Image ≠ none) :
    (h.blockAt p).ProcessId = rank := by
  unfold vtkAMRDualGridHelper.blockAt vtkAMRDualGridHelper.levelAt at hp ⊢
  simp only [List.getD_eq_getElem?_getD] at hp ⊢
  cases hl : h.Levels[p.1]? with
  | none =>
    rw [hl] at hp
    exact absurd rfl hp
  | some l =>
    rw [hl] at hp
    simp only [Option.getD_some] at hp ⊢
    cases hb : l.Blocks[p.2]? with
    | none =>
      rw [hb] at hp
      exact absurd rfl hp
    | some b =>
      rw [hb] at hp
      exact hloc l (List.getElem?_mem hl) b (List.getElem?_mem hb) hp

/-- What the code keeps of the agreement of the queues.  Two processes hold the
same skeleton registry (same levels, grids and blocks, same owners, same flags,
empty queues) and each holds payloads of blocks it owns only.  After
`AssignSharedRegions` the entries of the queue whose receiving block and source
block have different owners are the same on both processes, in the same
order. -/
theorem cross_owner_queue_agrees (h1 h2 : vtkAMRDualGridHelper) (rank1 rank2 : Int)
    (hsame : h1.skeleton = h2.skeleton) (hskip : h1.SkipGhostCopy = h2.SkipGhostCopy)
    (howners : h1.owners = h2.owners)
    (hq1 : h1.DegenerateRegionQueue = []) (hq2 : h2.DegenerateRegionQueue = [])
    (hpay1 : h1.payloadsOwnedBy rank1) (hpay2 : h2.payloadsOwnedBy rank2) :
    h1.AssignSharedRegions.DegenerateRegionQueue.filter h1.AssignSharedRegions.crossOwner =
      h2.AssignSharedRegions.DegenerateRegionQueue.filter h2.AssignSharedRegions.crossOwner := by
  have hown : ∀ p, (h1.blockAt p).ProcessId = (h2.blockAt p).ProcessId := by
    intro p
    rw [ProcessId_blockAt_owners, ProcessId_blockAt_owners, howners]
  have hloc1 := blockAt_payloadsOwnedBy h1 rank1 hpay1
  have hloc2 := blockAt_payloadsOwnedBy h2 rank2 hpay2
  have S1 : QueueSim h1 h1.withoutPayload :=
    ⟨(skeleton_withoutPayload h1).symm, rfl, blockAt_withoutPayload h1, by
      rw [hq1]
      have : h1.withoutPayload.DegenerateRegionQueue = [] := hq1
      rw [this]; rfl⟩
  have S2 : QueueSim h2 h2.withoutPayload :=
    ⟨(skeleton_withoutPayload h2).symm, rfl, blockAt_withoutPayload h2, by
      rw [hq2]
      have : h2.withoutPayload.DegenerateRegionQueue = [] := hq2
      rw [this]; rfl⟩
  have S12 : QueueSim h1.withoutPayload h2.withoutPayload :=
    ⟨by rw [skeleton_withoutPayload, skeleton_withoutPayload, hsame], hskip,
      blockAt_withoutPayload h2, by
      have a : h1.withoutPayload.DegenerateRegionQueue = [] := hq1
      have b : h2.withoutPayload.DegenerateRegionQueue = [] := hq2
      rw [a, b]; rfl⟩
  have A1 := QueueSim_AssignSharedRegions _ _ S1
  have A2 := QueueSim_AssignSharedRegions _ _ S2
  have A12 := QueueSim_AssignSharedRegions _ _ S12
  have hall : ∀ d, h1.withoutPayload.AssignSharedRegions.pushed d = true := by
    intro d
    unfold vtkAMRDualGridHelper.pushed
    simp [A1.2.2.1]
  have hg : h1.withoutPayload.AssignSharedRegions.DegenerateRegionQueue =
      h2.withoutPayload.AssignSharedRegions.DegenerateRegionQueue := by
    rw [A12.2.2.2]
    exact List.filter_eq_self.2 (fun d _ => hall d)
  have P1 := SamePayloads_AssignSharedRegions h1
  have P2 := SamePayloads_AssignSharedRegions h2
  have hcross : h2.crossOwner = h1.crossOwner := by
    funext d
    unfold vtkAMRDualGridHelper.crossOwner
    rw [hown, hown]
  have himp : ∀ (h : vtkAMRDualGridHelper) (rank : Int),
      (∀ p, (h.blockAt p).Image ≠ none → (h.blockAt p).ProcessId = rank) →
      ∀ d, (h.crossOwner d && h.pushed d) = h.crossOwner d := by
    intro h rank hloc d
    unfold vtkAMRDualGridHelper.crossOwner vtkAMRDualGridHelper.pushed
    by_cases ha : (h.blockAt d.ReceivingBlock).Image = none
    · simp [ha]
    · by_cases hb : (h.blockAt d.SourceBlock).Image = none
      · simp [hb]
      · have := hloc _ ha
        have := hloc _ hb
        simp_all
  rw [A1.2.2.2, A2.2.2.2, hg, List.filter_filter, List.filter_filter, P1.crossOwner_eq, P1.pushed_eq,
    P2.crossOwner_eq, P2.pushed_eq, hcross]
  apply List.filter_congr
  intro d _
  rw [himp h1 rank1 hloc1 d]
  have := himp h2 rank2 hloc2 d
  rw [hcross] at this
  exact this.symm

/-- The agreement of the entries that cross owners, on the two-level scenario:
rank 0 owns the coarse block and rank 1 the four fine blocks. -/
theorem cross_owner_queue_agrees_witness :
    (twoLevelScenario 0).skeleton = (twoLevelScenario 1).skeleton ∧
      (twoLevelScenario 0).payloadsOwnedBy 0 ∧ (twoLevelScenario 1).payloadsOwnedBy 1 ∧
      (twoLevelScenario 0).AssignSharedRegions.DegenerateRegionQueue.filter
          (twoLevelScenario 0).AssignSharedRegions.crossOwner =
        (twoLevelScenario 1).AssignSharedRegions.DegenerateRegionQueue.filter
          (twoLevelScenario 1).AssignSharedRegions.crossOwner :=
  ⟨by decide!, by decide!, by decide!,
    cross_owner_queue_agrees (twoLevelScenario 0) (twoLevelScenario 1) 0 1 (by decide!) (by decide!)
      (by decide!) (by decide!) (by decide!) (by decide!) (by decide!)⟩
/-! ## The exchange schedule -/

theorem foldl_append_flatMap {α β : Type} (f : α → List β) (l : List α) (init : List β) :
    l.foldl (fun acc x => acc ++ f x) init = init ++ l.flatMap f := by
  induction l generalizing init with
  | nil => simp
  | cons a t ih => simp [List.foldl_cons, ih, List.flatMap_cons, List.append_assoc]

theorem ProcessDegenerateRegionQueue_eq (h : vtkAMRDualGridHelper) (P m : Int)
    (hskip : h.SkipGhostCopy = false) :
    h.ProcessDegenerateRegionQueue (some (P, m)) =
      ((intRange 0 (P - 1)).filter fun r => decide (r ≠ m)).flatMap (exchangeWith m) := by
  unfold vtkAMRDualGridHelper.ProcessDegenerateRegionQueue
  simp only [hskip, Bool.false_eq_true, if_false]
  have key : ∀ (l : List Int) (init : List ControllerCall),
      l.foldl (processQueueStep m) init =
        init ++ (l.filter fun r => decide (r ≠ m)).flatMap (exchangeWith m) := by
    intro l
    induction l with
    | nil => intro init; simp
    | cons a t ih =>
      intro init
      rw [List.foldl_cons, ih]
      unfold processQueueStep exchangeWith
      by_cases h1 : a < m
      · have : a ≠ m := by omega
        simp [h1, this, List.filter_cons, List.flatMap_cons]
      · by_cases h2 : a > m
        · have : a ≠ m := by omega
          simp [h1, h2, this, List.filter_cons, List.flatMap_cons]
        · have : a = m := by omega
          simp [h1, h2, this, List.filter_cons]
  simpa using key (intRange 0 (P - 1)) []

theorem callsWith_flatMap (m : Int) (l : List Int) (hl : l.Nodup) (r : Int) :
    callsWith (l.flatMap (exchangeWith m)) r = if r ∈ l then exchangeWith m r else [] := by
  induction l with
  | nil => simp [callsWith]
  | cons a t ih =>
    have hnd := List.nodup_cons.1 hl
    have iht := ih hnd.2
    unfold callsWith at iht ⊢
    rw [List.flatMap_cons, List.filter_append, iht]
    by_cases har : a = r
    · subst har
      have : a ∉ t := hnd.1
      simp only [this, if_false, List.mem_cons, true_or, if_true, List.append_nil]
      unfold exchangeWith
      split <;> simp [ControllerCall.remoteProc]
    · have h1 : (exchangeWith m a).filter (fun c => decide (c.remoteProc = r)) = [] := by
        unfold exchangeWith
        split <;> simp [ControllerCall.remoteProc, har]
      rw [h1]
      have : (r ∈ a :: t) ↔ r ∈ t := by
        simp [List.mem_cons]; intro h; exact absurd h.symm har
      simp only [List.nil_append, this]

theorem nodup_intRange (a b : Int) : (intRange a b).Nodup := by
  unfold intRange
  refine List.Nodup.map ?_ (List.nodup_range _)
  intro x y hxy
  simpa using hxy

theorem callsWith_ProcessDegenerateRegionQueue (h : vtkAMRDualGridHelper) (P m r : Int)
    (hskip : h.SkipGhostCopy = false) :
    callsWith (h.ProcessDegenerateRegionQueue (some (P, m))) r =
      if 0 ≤ r ∧ r < P ∧ r ≠ m then exchangeWith m r else [] := by
  rw [ProcessDegenerateRegionQueue_eq h P m hskip,
    callsWith_flatMap m _ ((nodup_intRange 0 (P - 1)).filter _) r]
  have : (r ∈ (intRange 0 (P - 1)).filter fun r => decide (r ≠ m)) ↔ (0 ≤ r ∧ r < P ∧ r ≠ m) := by
    rw [List.mem_filter, mem_intRange]
    simp only [decide_eq_true_eq]
    constructor
    · rintro ⟨⟨h1, h2⟩, h3⟩; exact ⟨h1, by omega, h3⟩
    · rintro ⟨h1, h2, h3⟩; exact ⟨⟨h1, by omega⟩, h3⟩
  simp only [this]

/-- C15. When a controller is present and the ghost copy is not skipped, the
calls that `ProcessDegenerateRegionQueue` makes on rank `m` of `P` processes
are, for each rank `r` of `0 .. P-1` other than `m` in ascending order, one send
and one receive addressed to `r`: send then receive when `r < m`, receive then
send when `r > m`; no call is addressed to `m` or to a rank outside `0 .. P-1`.
For two distinct ranks `m` and `b` of `0 .. P-1` the calls of `b` addressed to
`m` are the matching calls of those of `m` addressed to `b`, position by
position. -/
theorem C15_exchange_schedule (h : vtkAMRDualGridHelper) (P m : Int)
    (hskip : h.SkipGhostCopy = false) :
    h.ProcessDegenerateRegionQueue (some (P, m)) =
        ((intRange 0 (P - 1)).filter fun r => decide (r ≠ m)).flatMap (exchangeWith m) ∧
      (∀ r, callsWith (h.ProcessDegenerateRegionQueue (some (P, m))) r =
        if 0 ≤ r ∧ r < P ∧ r ≠ m then
          (if r < m then [ControllerCall.Send r, ControllerCall.Receive r]
           else [ControllerCall.Receive r, ControllerCall.Send r])
        else []) ∧
      ∀ (hb : vtkAMRDualGridHelper) (b : Int), hb.SkipGhostCopy = false →
        0 ≤ m ∧ m < P → 0 ≤ b ∧ b < P → m ≠ b →
        callsWith (hb.ProcessDegenerateRegionQueue (some (P, b))) m =
          (callsWith (h.ProcessDegenerateRegionQueue (some (P, m))) b).map
            fun c => c.matching m := by
  refine ⟨ProcessDegenerateRegionQueue_eq h P m hskip, ?_, ?_⟩
  · intro r
    rw [callsWith_ProcessDegenerateRegionQueue h P m r hskip]
    rfl
  · intro hb b hskipb hm hbr hmb
    rw [callsWith_ProcessDegenerateRegionQueue hb P b m hskipb,
      callsWith_ProcessDegenerateRegionQueue h P m b hskip]
    have h1 : 0 ≤ m ∧ m < P ∧ m ≠ b := ⟨hm.1, hm.2, hmb⟩
    have h2 : 0 ≤ b ∧ b < P ∧ b ≠ m := ⟨hbr.1, hbr.2, fun e => hmb e.symm⟩
    rw [if_pos h1, if_pos h2]
    unfold exchangeWith
    by_cases hlt : m < b
    · have : ¬ b < m := by omega
      simp [hlt, this, ControllerCall.matching]
    · have : b < m := by omega
      simp [hlt, this, ControllerCall.matching]

/-- C15, on rank 2 of 4 processes, with rank 3 as the other side. -/
theorem C15_exchange_schedule_witness :
    (vtkAMRDualGridHelper.init 1 (4, 4, 4)).SkipGhostCopy = false ∧
      (vtkAMRDualGridHelper.init 1 (4, 4, 4)).ProcessDegenerateRegionQueue (some (4, 2)) =
        [ControllerCall.Send 0, ControllerCall.Receive 0, ControllerCall.Send 1,
          ControllerCall.Receive 1, ControllerCall.Receive 3, ControllerCall.Send 3] ∧
      callsWith ((vtkAMRDualGridHelper.init 1 (4, 4, 4)).ProcessDegenerateRegionQueue
          (some (4, 3))) 2 =
        (callsWith ((vtkAMRDualGridHelper.init 1 (4, 4, 4)).ProcessDegenerateRegionQueue
          (some (4, 2))) 3).map fun c => c.matching 2 :=
  ⟨rfl, (C15_exchange_schedule (vtkAMRDualGridHelper.init 1 (4, 4, 4)) 4 2 rfl).1.trans
      (by decide),
    (C15_exchange_schedule (vtkAMRDualGridHelper.init 1 (4, 4, 4)) 4 2 rfl).2.2
      (vtkAMRDualGridHelper.init 1 (4, 4, 4)) 3 rfl (by decide) (by decide) (by decide)⟩

/-- C16, at the failing input: with two processes, rank 0 (the lower rank)
receives from rank 1 before it sends to it, and rank 1 (the higher rank) sends
to rank 0 before it receives from it, the reverse of the comment in
`ProcessDegenerateRegionQueue` (`Lower processes send first and receive second.
Higher processes receive first and send second.`). -/
theorem C16_lower_rank_receives_first :
    callsWith ((vtkAMRDualGridHelper.init 1 (4, 4, 4)).ProcessDegenerateRegionQueue
        (some (2, 0))) 1 = [ControllerCall.Receive 1, ControllerCall.Send 1] ∧
      callsWith ((vtkAMRDualGridHelper.init 1 (4, 4, 4)).ProcessDegenerateRegionQueue
        (some (2, 1))) 0 = [ControllerCall.Send 0, ControllerCall.Receive 0] := by
  decide

/-- The order the code follows in general.  For ranks `a < b` of `0 .. P-1` that
process their queues (controller present, ghost copy not skipped), the higher
rank `b` sends to `a` before it receives from `a`, and the lower rank `a`
receives from `b` before it sends to `b`. -/
theorem higher_rank_sends_first (ha hb : vtkAMRDualGridHelper) (P a b : Int)
    (hskipa : ha.SkipGhostCopy = false) (hskipb : hb.SkipGhostCopy = false)
    (h0 : 0 ≤ a) (hab : a < b) (hP : b < P) :
    callsWith (hb.ProcessDegenerateRegionQueue (some (P, b))) a =
        [ControllerCall.Send a, ControllerCall.Receive a] ∧
      callsWith (ha.ProcessDegenerateRegionQueue (some (P, a))) b =
        [ControllerCall.Receive b, ControllerCall.Send b] := by
  rw [callsWith_ProcessDegenerateRegionQueue hb P b a hskipb,
    callsWith_ProcessDegenerateRegionQueue ha P a b hskipa]
  have h1 : 0 ≤ a ∧ a < P ∧ a ≠ b := ⟨h0, by omega, by omega⟩
  have h2 : 0 ≤ b ∧ b < P ∧ b ≠ a := ⟨by omega, hP, by omega⟩
  rw [if_pos h1, if_pos h2]
  unfold exchangeWith
  have : ¬ b < a := by omega
  simp [hab, this]

/-- The order of the exchange on ranks 1 and 3 of 4 processes. -/
theorem higher_rank_sends_first_witness :
    callsWith ((vtkAMRDualGridHelper.init 1 (4, 4, 4)).ProcessDegenerateRegionQueue
        (some (4, 3))) 1 = [ControllerCall.Send 1, ControllerCall.Receive 1] ∧
      callsWith ((vtkAMRDualGridHelper.init 1 (4, 4, 4)).ProcessDegenerateRegionQueue
        (some (4, 1))) 3 = [ControllerCall.Receive 3, ControllerCall.Send 3] :=
  higher_rank_sends_first (vtkAMRDualGridHelper.init 1 (4, 4, 4))
    (vtkAMRDualGridHelper.init 1 (4, 4, 4)) 4 1 3 rfl rfl (by decide) (by decide) (by decide)
/-! ## The degenerate copy through a message -/

theorem shiftRight_mono (a b : Int) (d : Nat) (h : a ≤ b) : a >>> d ≤ b >>> d := by
  rw [Int.shiftRight_eq_div_pow, Int.shiftRight_eq_div_pow]
  exact Int.ediv_le_ediv (by positivity) h

theorem shiftRight_pred (a : Int) (d : Nat) : (a >>> d) - 1 ≤ (a - 1) >>> d := by
  rw [Int.shiftRight_eq_div_pow, Int.shiftRight_eq_div_pow]
  have hpos : (0 : Int) < ((2 ^ d : Nat) : Int) := by positivity
  have h1 : (a - 1 * ((2 ^ d : Nat) : Int)) / ((2 ^ d : Nat) : Int) = a / ((2 ^ d : Nat) : Int) - 1 := by
    have := Int.add_mul_ediv_right a (-1) (ne_of_gt hpos)
    simpa [sub_eq_add_neg] using this
  rw [← h1]
  apply Int.ediv_le_ediv hpos
  have : (1 : Int) ≤ ((2 ^ d : Nat) : Int) := by omega
  linarith

theorem intRange_shift (a b : Int) :
    intRange a b = (intRange 0 (b - a)).map fun i => i + a := by
  unfold intRange
  rw [List.map_map]
  have : (b - a + 1 - 0).toNat = (b + 1 - a).toNat := by congr 1; ring
  rw [this]
  apply List.map_congr_left
  intro i _
  simp only [Function.comp]
  ring

theorem readCell_writeAt (g : List Int) (i j : Int) (v : Int) :
    readCell (writeAt g i v) j =
      if i = j ∧ 0 ≤ i ∧ i < g.length then v else readCell g j := by
  unfold readCell writeAt
  by_cases hi : i < 0
  · have : ¬ (i = j ∧ 0 ≤ i ∧ i < (g.length : Int)) := by omega
    simp only [hi, if_true, this, if_false]
  · simp only [hi, if_false]
    by_cases hj : j < 0
    · have : ¬ (i = j ∧ 0 ≤ i ∧ i < (g.length : Int)) := by omega
      simp only [hj, if_true, this, if_false]
    · simp only [hj, if_false]
      by_cases hij : i = j
      · subst hij
        by_cases hlt : i < (g.length : Int)
        · have h1 : i.toNat < g.length := by omega
          have : (i = i ∧ 0 ≤ i ∧ i < (g.length : Int)) := ⟨rfl, by omega, hlt⟩
          simp only [this, if_true]
          simp [List.getD_eq_getElem?_getD, List.getElem?_set, h1]
        · have h1 : g.length ≤ i.toNat := by omega
          have : ¬ (i = i ∧ 0 ≤ i ∧ i < (g.length : Int)) := by omega
          rw [if_neg this, List.set_eq_of_length_le h1]
      · have : ¬ (i = j ∧ 0 ≤ i ∧ i < (g.length : Int)) := fun h => hij h.1
        simp only [this, if_false]
        have hne : i.toNat ≠ j.toNat := by omega
        simp [List.getD_eq_getElem?_getD, List.getElem?_set, hne]

theorem foldl_congr_mem {σ α : Type} (f g : σ → α → σ) (l : List α) (s : σ)
    (h : ∀ t, ∀ a ∈ l, f t a = g t a) : l.foldl f s = l.foldl g s := by
  induction l generalizing s with
  | nil => rfl
  | cons a t ih =>
    rw [List.foldl_cons, List.foldl_cons, h s a (List.mem_cons_self _ _)]
    exact ih _ fun u b hb => h u b (List.mem_cons_of_mem _ hb)

theorem writeSeq_spec (vals : List Int) (buf : List Int) (p : Int) :
    (vals.foldl (fun (m : MessagePtr) v => (writeAt m.1 m.2 v, m.2 + 1)) (buf, p)).2 =
        p + vals.length ∧
      (vals.foldl (fun (m : MessagePtr) v => (writeAt m.1 m.2 v, m.2 + 1)) (buf, p)).1.length =
        buf.length ∧
      (∀ j, (j < p ∨ p + vals.length ≤ j) →
        readCell (vals.foldl (fun (m : MessagePtr) v => (writeAt m.1 m.2 v, m.2 + 1))
          (buf, p)).1 j = readCell buf j) ∧
      (0 ≤ p → p + vals.length ≤ buf.length → ∀ k : Nat, k < vals.length →
        readCell (vals.foldl (fun (m : MessagePtr) v => (writeAt m.1 m.2 v, m.2 + 1))
          (buf, p)).1 (p + k) = vals.getD k 0) := by
  induction vals generalizing buf p with
  | nil =>
    refine ⟨by simp, rfl, fun _ _ => rfl, ?_⟩
    intro _ _ k hk
    exact absurd hk (by simp)
  | cons v t ih =>
    rw [List.foldl_cons]
    obtain ⟨i1, i2, i3, i4⟩ := ih (writeAt buf p v) (p + 1)
    refine ⟨?_, ?_, ?_, ?_⟩
    · rw [i1]; simp only [List.length_cons]; push_cast; ring
    · rw [i2, length_writeAt]
    · intro j hj
      simp only [List.length_cons] at hj
      push_cast at hj
      rw [i3 j (by omega), readCell_writeAt]
      have : ¬ (p = j ∧ 0 ≤ p ∧ p < (buf.length : Int)) := by omega
      rw [if_neg this]
    · intro hp hfit k hk
      simp only [List.length_cons] at hk hfit
      push_cast at hfit
      cases k with
      | zero =>
        simp only [Nat.cast_zero, add_zero, List.getD_cons_zero]
        rw [i3 p (by omega), readCell_writeAt]
        have : (p = p ∧ 0 ≤ p ∧ p < (buf.length : Int)) := ⟨rfl, hp, by omega⟩
        rw [if_pos this]
      | succ k =>
        have := i4 (by omega) (by rw [length_writeAt]; omega) k (by omega)
        simp only [List.getD_cons_succ]
        rw [← this]
        congr 1
        push_cast
        ring

theorem intRange_shift_zero (a b : Int) :
    intRange a b = (intRange 0 (((b + 1 - a).toNat : Int) - 1)).map fun i => i + a := by
  rw [intRange_zero]
  unfold intRange
  rw [List.map_map]
  apply List.map_congr_left
  intro i _
  simp only [Function.comp]
  ring

theorem extentCoords_shift (e : Ext6) :
    extentCoords e =
      (extentCoords ⟨0, ((e.e1 + 1 - e.e0).toNat : Int) - 1, 0,
        ((e.e3 + 1 - e.e2).toNat : Int) - 1, 0, ((e.e5 + 1 - e.e4).toNat : Int) - 1⟩).map
        fun c => (c.1 + e.e0, c.2.1 + e.e2, c.2.2 + e.e4) := by
  unfold extentCoords
  simp only
  rw [intRange_shift_zero e.e4 e.e5, intRange_shift_zero e.e2 e.e3, intRange_shift_zero e.e0 e.e1]
  simp only [List.map_flatMap, List.flatMap_map, List.map_map]
  rfl

theorem extentCoords_index_shift (e : Ext6) :
    (extentCoords e).map (fun c =>
        (c.1 - e.e0) + (c.2.1 - e.e2) * ((e.e1 + 1 - e.e0).toNat : Int) +
          (c.2.2 - e.e4) * (((e.e3 + 1 - e.e2).toNat : Int) * ((e.e1 + 1 - e.e0).toNat : Int))) =
      (List.range ((e.e5 + 1 - e.e4).toNat * ((e.e3 + 1 - e.e2).toNat * (e.e1 + 1 - e.e0).toNat))).map
        fun (n : Nat) => (n : Int) := by
  rw [extentCoords_shift e, List.map_map, ← extentCoords_index]
  apply List.map_congr_left
  intro c _
  simp only [Function.comp]
  ring

theorem length_extentCoords_shift (e : Ext6) :
    (extentCoords e).length =
      (e.e5 + 1 - e.e4).toNat * ((e.e3 + 1 - e.e2).toNat * (e.e1 + 1 - e.e0).toNat) := by
  rw [extentCoords_shift e, List.length_map, length_extentCoords]

theorem CopyBlockToMessage_spec (buf : List Int) (p : Int) (lowerPtr : List Int) (e : Ext6)
    (yInc zInc : Int) :
    (vtkDualGridHelperCopyBlockToMessage (buf, p) lowerPtr e yInc zInc).2 =
        p + ((extentCoords e).length : Int) ∧
      (vtkDualGridHelperCopyBlockToMessage (buf, p) lowerPtr e yInc zInc).1.length = buf.length ∧
      (∀ j, (j < p ∨ p + ((extentCoords e).length : Int) ≤ j) →
        readCell (vtkDualGridHelperCopyBlockToMessage (buf, p) lowerPtr e yInc zInc).1 j =
          readCell buf j) ∧
      (0 ≤ p → p + ((extentCoords e).length : Int) ≤ buf.length → ∀ c ∈ extentCoords e,
        readCell (vtkDualGridHelperCopyBlockToMessage (buf, p) lowerPtr e yInc zInc).1
            (p + ((c.1 - e.e0) + (c.2.1 - e.e2) * ((e.e1 + 1 - e.e0).toNat : Int) +
              (c.2.2 - e.e4) *
                (((e.e3 + 1 - e.e2).toNat : Int) * ((e.e1 + 1 - e.e0).toNat : Int)))) =
          readCell lowerPtr (c.1 + c.2.1 * yInc + c.2.2 * zInc)) := by
  have hfold : vtkDualGridHelperCopyBlockToMessage (buf, p) lowerPtr e yInc zInc =
      ((extentCoords e).map fun c => readCell lowerPtr (c.1 + c.2.1 * yInc + c.2.2 * zInc)).foldl
        (fun (m : MessagePtr) v => (writeAt m.1 m.2 v, m.2 + 1)) (buf, p) := by
    unfold vtkDualGridHelperCopyBlockToMessage
    rw [List.foldl_map]
  rw [hfold]
  obtain ⟨w1, w2, w3, w4⟩ := writeSeq_spec
    ((extentCoords e).map fun c => readCell lowerPtr (c.1 + c.2.1 * yInc + c.2.2 * zInc)) buf p
  rw [List.length_map] at w1 w3 w4
  refine ⟨w1, w2, w3, ?_⟩
  intro hp hfit c hc
  obtain ⟨k, hk, hkc⟩ := List.getElem_of_mem hc
  have hidx := extentCoords_index_shift e
  have e2 := congrArg (fun l => l[k]?) hidx
  have hk2 : k < (e.e5 + 1 - e.e4).toNat * ((e.e3 + 1 - e.e2).toNat * (e.e1 + 1 - e.e0).toNat) := by
    rw [← length_extentCoords_shift]; exact hk
  simp only [List.getElem?_map, List.getElem?_eq_getElem hk, Option.map_some',
    List.getElem?_range hk2, Option.some.injEq, hkc] at e2
  rw [e2, w4 hp hfit k hk]
  rw [List.getD_eq_getElem?_getD, List.getElem?_map, List.getElem?_eq_getElem hk, hkc]
  rfl

theorem lowResExtent_mem (ext : Ext6) (d : Nat) (hi lo : Int × Int × Int) (x y z : Int)
    (hx : ext.e0 ≤ x ∧ x ≤ ext.e1) (hy : ext.e2 ≤ y ∧ y ≤ ext.e3) (hz : ext.e4 ≤ z ∧ z ≤ ext.e5) :
    (((x + hi.1) >>> d) - lo.1, ((y + hi.2.1) >>> d) - lo.2.1, ((z + hi.2.2) >>> d) - lo.2.2) ∈
      extentCoords (lowResExtent ext d hi lo) := by
  rw [mem_extentCoords]
  unfold lowResExtent
  simp only
  have a1 := shiftRight_mono (ext.e0 + hi.1) (x + hi.1) d (by omega)
  have a2 := shiftRight_mono (x + hi.1) (ext.e1 + hi.1) d (by omega)
  have b1 := shiftRight_mono (ext.e2 + hi.2.1) (y + hi.2.1) d (by omega)
  have b2 := shiftRight_mono (y + hi.2.1) (ext.e3 + hi.2.1) d (by omega)
  have c1 := shiftRight_mono (ext.e4 + hi.2.2) (z + hi.2.2) d (by omega)
  have c2 := shiftRight_mono (z + hi.2.2) (ext.e5 + hi.2.2) d (by omega)
  omega

theorem lowResExtent_size (ext : Ext6) (d : Nat) (hi lo : Int × Int × Int)
    (hx : ext.e0 - 1 ≤ ext.e1) (hy : ext.e2 - 1 ≤ ext.e3) (hz : ext.e4 - 1 ≤ ext.e5) :
    0 ≤ (lowResExtent ext d hi lo).e1 + 1 - (lowResExtent ext d hi lo).e0 ∧
      0 ≤ (lowResExtent ext d hi lo).e3 + 1 - (lowResExtent ext d hi lo).e2 ∧
      0 ≤ (lowResExtent ext d hi lo).e5 + 1 - (lowResExtent ext d hi lo).e4 := by
  unfold lowResExtent
  simp only
  have a1 := shiftRight_mono (ext.e0 + hi.1 - 1) (ext.e1 + hi.1) d (by omega)
  have a2 := shiftRight_pred (ext.e0 + hi.1) d
  have b1 := shiftRight_mono (ext.e2 + hi.2.1 - 1) (ext.e3 + hi.2.1) d (by omega)
  have b2 := shiftRight_pred (ext.e2 + hi.2.1) d
  have c1 := shiftRight_mono (ext.e4 + hi.2.2 - 1) (ext.e5 + hi.2.2) d (by omega)
  have c2 := shiftRight_pred (ext.e4 + hi.2.2) d
  omega

theorem CopyMessageToBlock_pack (ptr lowerPtr buf : List Int) (p : Int) (ext : Ext6) (d : Nat)
    (yInc zInc : Int) (hi lo : Int × Int × Int)
    (hx : ext.e0 - 1 ≤ ext.e1) (hy : ext.e2 - 1 ≤ ext.e3) (hz : ext.e4 - 1 ≤ ext.e5)
    (hp : 0 ≤ p)
    (hfit : (vtkDualGridHelperCopyBlockToMessage (buf, p) lowerPtr
      (lowResExtent ext d hi lo) yInc zInc).2 ≤ buf.length) :
    vtkDualGridHelperCopyMessageToBlock ptr
        ((vtkDualGridHelperCopyBlockToMessage (buf, p) lowerPtr
          (lowResExtent ext d hi lo) yInc zInc).1, p)
        ext (lowResExtent ext d hi lo) d yInc zInc hi lo =
      (vtkDualGridHelperCopyBlockToBlock ptr lowerPtr ext d yInc zInc hi lo,
        (vtkDualGridHelperCopyBlockToMessage (buf, p) lowerPtr
          (lowResExtent ext d hi lo) yInc zInc).2) ∧
    ∀ c ∈ extentCoords ext,
      0 ≤ messageOffset (lowResExtent ext d hi lo) d hi lo c.1 c.2.1 c.2.2 ∧
      p + messageOffset (lowResExtent ext d hi lo) d hi lo c.1 c.2.1 c.2.2 <
        (vtkDualGridHelperCopyBlockToMessage (buf, p) lowerPtr
          (lowResExtent ext d hi lo) yInc zInc).2 := by
  obtain ⟨s1, s2, s3⟩ := lowResExtent_size ext d hi lo hx hy hz
  obtain ⟨w1, w2, w3, w4⟩ := CopyBlockToMessage_spec buf p lowerPtr (lowResExtent ext d hi lo)
    yInc zInc
  generalize hm : lowResExtent ext d hi lo = m at *
  have hX : (((m.e1 + 1 - m.e0).toNat : Nat) : Int) = m.e1 - m.e0 + 1 := by omega
  have hY : (((m.e3 + 1 - m.e2).toNat : Nat) : Int) = m.e3 - m.e2 + 1 := by omega
  have hZ : (((m.e5 + 1 - m.e4).toNat : Nat) : Int) = m.e5 - m.e4 + 1 := by omega
  have hlen : ((extentCoords m).length : Int) =
      (m.e1 - m.e0 + 1) * (m.e3 - m.e2 + 1) * (m.e5 - m.e4 + 1) := by
    rw [length_extentCoords_shift]
    push_cast
    rw [hX, hY, hZ]
    ring
  rw [w1] at hfit
  have key : ∀ x y z, (ext.e0 ≤ x ∧ x ≤ ext.e1) → (ext.e2 ≤ y ∧ y ≤ ext.e3) →
      (ext.e4 ≤ z ∧ z ≤ ext.e5) →
      readCell (vtkDualGridHelperCopyBlockToMessage (buf, p) lowerPtr m yInc zInc).1
          (p + messageOffset m d hi lo x y z) =
        readCell lowerPtr ((((x + hi.1) >>> d) - lo.1) + (((y + hi.2.1) >>> d) - lo.2.1) * yInc +
          (((z + hi.2.2) >>> d) - lo.2.2) * zInc) ∧
      0 ≤ messageOffset m d hi lo x y z ∧
      messageOffset m d hi lo x y z < ((extentCoords m).length : Int) := by
    intro x y z hx' hy' hz'
    have hmem := lowResExtent_mem ext d hi lo x y z hx' hy' hz'
    rw [hm] at hmem
    have hr := w4 hp hfit _ hmem
    simp only at hr
    have hoff : messageOffset m d hi lo x y z =
        (((x + hi.1) >>> d) - lo.1 - m.e0) +
          (((y + hi.2.1) >>> d) - lo.2.1 - m.e2) * ((m.e1 + 1 - m.e0).toNat : Int) +
          (((z + hi.2.2) >>> d) - lo.2.2 - m.e4) *
            (((m.e3 + 1 - m.e2).toNat : Int) * ((m.e1 + 1 - m.e0).toNat : Int)) := by
      unfold messageOffset
      simp only
      rw [hX, hY]
      ring
    rw [mem_extentCoords] at hmem
    simp only at hmem
    have hb := linearIndex_bounds ((m.e1 + 1 - m.e0).toNat : Int) ((m.e3 + 1 - m.e2).toNat : Int)
      ((m.e5 + 1 - m.e4).toNat : Int)
      (((x + hi.1) >>> d) - lo.1 - m.e0) (((y + hi.2.1) >>> d) - lo.2.1 - m.e2)
      (((z + hi.2.2) >>> d) - lo.2.2 - m.e4) (by omega) (by omega) (by omega)
    refine ⟨?_, ?_, ?_⟩
    · rw [hoff, hr]
    · rw [hoff]; exact hb.1
    · rw [hoff, length_extentCoords_shift]
      push_cast
      refine lt_of_lt_of_eq hb.2 ?_
      ring
  constructor
  · unfold vtkDualGridHelperCopyMessageToBlock vtkDualGridHelperCopyBlockToBlock
    simp only
    refine Prod.ext ?_ ?_
    · simp only
      apply foldl_congr_mem
      intro pz z hzr
      apply foldl_congr_mem
      intro py y hyr
      apply foldl_congr_mem
      intro px x hxr
      rw [mem_intRange] at hzr hyr hxr
      rw [(key x y z hxr hyr hzr).1]
    · simp only
      rw [w1, hlen]
  · intro c hc
    rw [mem_extentCoords] at hc
    have := key c.1 c.2.1 c.2.2 hc.1 hc.2.1 hc.2.2
    refine ⟨this.2.1, ?_⟩
    rw [w1]
    linarith [this.2.2]

/-! ## The message copy against the direct copy -/

theorem degenerateRegionExt_size (dims : Int × Int × Int) (rx ry rz : Int)
    (hdim : 0 ≤ dims.1 ∧ 0 ≤ dims.2.1 ∧ 0 ≤ dims.2.2) :
    (degenerateRegionExt dims rx ry rz).e0 - 1 ≤ (degenerateRegionExt dims rx ry rz).e1 ∧
      (degenerateRegionExt dims rx ry rz).e2 - 1 ≤ (degenerateRegionExt dims rx ry rz).e3 ∧
      (degenerateRegionExt dims rx ry rz).e4 - 1 ≤ (degenerateRegionExt dims rx ry rz).e5 := by
  unfold degenerateRegionExt regionAxisExt
  simp only
  refine ⟨?_, ?_, ?_⟩
  · split_ifs <;> simp only <;> omega
  · split_ifs <;> simp only <;> omega
  · split_ifs <;> simp only <;> omega

/-- C11. The sending process `hs` holds the payload of the low-resolution
block, the receiving process `hr` the payload of the high-resolution block, and
`hd` is a process that holds both; the three agree on the standard block
dimensions (non-negative) and on the `Level` and `OriginIndex` of the two
blocks, the level difference is at least 1, the two arrays have the same data
type and the message buffer has room for the region.  Then unpacking with
`CopyDegenerateRegionMessageToBlock` what `CopyDegenerateRegionBlockToMessage`
packed leaves the high-resolution block exactly as
`CopyDegenerateRegionBlockToBlock` leaves it on `hd`, both routines advance the
message pointer to the same position, and every position the receiver reads
lies between the start of the region in the message and that position. -/
theorem C11_message_copy_equals_direct_copy (hs hr hd : vtkAMRDualGridHelper)
    (rx ry rz : Int) (low high : BlockPtr) (buf : List Int) (p : Int)
    (lImg hImg : vtkImageData) (lowerPtr ptr : List Int)
    (hdims_s : hs.StandardBlockDimensions = hd.StandardBlockDimensions)
    (hdims_r : hr.StandardBlockDimensions = hd.StandardBlockDimensions)
    (hdim : 0 ≤ hd.StandardBlockDimensions.1 ∧ 0 ≤ hd.StandardBlockDimensions.2.1 ∧
      0 ≤ hd.StandardBlockDimensions.2.2)
    (hlow_s : (hs.blockAt low).Level = (hd.blockAt low).Level ∧
      (hs.blockAt low).OriginIndex = (hd.blockAt low).OriginIndex ∧
      (hs.blockAt low).Image = (hd.blockAt low).Image)
    (hhigh_s : (hs.blockAt high).Level = (hd.blockAt high).Level ∧
      (hs.blockAt high).OriginIndex = (hd.blockAt high).OriginIndex)
    (hlow_r : (hr.blockAt low).Level = (hd.blockAt low).Level ∧
      (hr.blockAt low).OriginIndex = (hd.blockAt low).OriginIndex)
    (hhigh_r : hr.blockAt high = hd.blockAt high)
    (hvalid_r : hr.validPtr high) (hvalid_d : hd.validPtr high)
    (hlevel : (hd.blockAt low).Level < (hd.blockAt high).Level)
    (hlImg : (hd.blockAt low).Image = some lImg) (hlS : lImg.Scalars = some lowerPtr)
    (hhImg : (hd.blockAt high).Image = some hImg) (hhS : hImg.Scalars = some ptr)
    (htype : lImg.DataType = hImg.DataType)
    (hp : 0 ≤ p)
    (hfit : (hs.CopyDegenerateRegionBlockToMessage rx ry rz low high (buf, p)).2 ≤ buf.length) :
    (hr.CopyDegenerateRegionMessageToBlock rx ry rz low high
        ((hs.CopyDegenerateRegionBlockToMessage rx ry rz low high (buf, p)).1, p)).1.blockAt high =
      (hd.CopyDegenerateRegionBlockToBlock rx ry rz low high).blockAt high ∧
    (hr.CopyDegenerateRegionMessageToBlock rx ry rz low high
        ((hs.CopyDegenerateRegionBlockToMessage rx ry rz low high (buf, p)).1, p)).2 =
      (hs.CopyDegenerateRegionBlockToMessage rx ry rz low high (buf, p)).2 ∧
    ∀ c ∈ extentCoords (degenerateRegionExt hd.StandardBlockDimensions rx ry rz),
      0 ≤ messageOffset
          (lowResExtent (degenerateRegionExt hd.StandardBlockDimensions rx ry rz)
            ((hd.blockAt high).Level - (hd.blockAt low).Level).toNat
            (hd.blockAt high).OriginIndex (hd.blockAt low).OriginIndex)
          ((hd.blockAt high).Level - (hd.blockAt low).Level).toNat
          (hd.blockAt high).OriginIndex (hd.blockAt low).OriginIndex c.1 c.2.1 c.2.2 ∧
      p + messageOffset
          (lowResExtent (degenerateRegionExt hd.StandardBlockDimensions rx ry rz)
            ((hd.blockAt high).Level - (hd.blockAt low).Level).toNat
            (hd.blockAt high).OriginIndex (hd.blockAt low).OriginIndex)
          ((hd.blockAt high).Level - (hd.blockAt low).Level).toNat
          (hd.blockAt high).OriginIndex (hd.blockAt low).OriginIndex c.1 c.2.1 c.2.2 <
        (hs.CopyDegenerateRegionBlockToMessage rx ry rz low high (buf, p)).2 := by
  have hne : ¬ ((hd.blockAt high).Level - (hd.blockAt low).Level = 0) := by omega
  have hnl : ¬ ((hd.blockAt high).Level - (hd.blockAt low).Level < 0) := by omega
  obtain ⟨e1, e2, e3⟩ := degenerateRegionExt_size hd.StandardBlockDimensions rx ry rz hdim
  have hpack : hs.CopyDegenerateRegionBlockToMessage rx ry rz low high (buf, p) =
      vtkDualGridHelperCopyBlockToMessage (buf, p) lowerPtr
        (lowResExtent (degenerateRegionExt hd.StandardBlockDimensions rx ry rz)
          ((hd.blockAt high).Level - (hd.blockAt low).Level).toNat
          (hd.blockAt high).OriginIndex (hd.blockAt low).OriginIndex)
        (hd.StandardBlockDimensions.1 + 1 - 0 + 1)
        ((hd.StandardBlockDimensions.1 + 1 - 0 + 1) * (hd.StandardBlockDimensions.2.2 + 1 - 0 + 1)) := by
    unfold vtkAMRDualGridHelper.CopyDegenerateRegionBlockToMessage
    simp only [hlow_s.1, hlow_s.2.1, hlow_s.2.2, hhigh_s.1, hhigh_s.2, hdims_s, hne, hnl, if_false,
      hlImg, hlS]
  rw [hpack] at hfit ⊢
  obtain ⟨k1, k2⟩ := CopyMessageToBlock_pack ptr lowerPtr buf p
    (degenerateRegionExt hd.StandardBlockDimensions rx ry rz)
    ((hd.blockAt high).Level - (hd.blockAt low).Level).toNat
    (hd.StandardBlockDimensions.1 + 1 - 0 + 1)
    ((hd.StandardBlockDimensions.1 + 1 - 0 + 1) * (hd.StandardBlockDimensions.2.2 + 1 - 0 + 1))
    (hd.blockAt high).OriginIndex (hd.blockAt low).OriginIndex e1 e2 e3 hp hfit
  refine ⟨?_, ?_, k2⟩
  · unfold vtkAMRDualGridHelper.CopyDegenerateRegionMessageToBlock
      vtkAMRDualGridHelper.CopyDegenerateRegionBlockToBlock
    simp only [hlow_r.1, hlow_r.2, hhigh_r, hdims_r, hne, hnl, if_false, hlImg, hhImg, hlS, hhS,
      htype, ne_eq, not_true_eq_false, k1]
    have v1 : high.2 < (hr.levelAt high.1).Blocks.length := hvalid_r.2
    have v2 : high.2 < (hd.levelAt high.1).Blocks.length := hvalid_d.2
    simp only [blockAt_modifyBlock, length_Blocks_modifyBlock, v1, v2, and_self, if_true,
      hhigh_r, true_and]
  · unfold vtkAMRDualGridHelper.CopyDegenerateRegionMessageToBlock
    simp only [hlow_r.1, hlow_r.2, hhigh_r, hdims_r, hne, hnl, if_false, hhImg, hhS, k1]

/-- C11, on `copyScenario`: rank 0 packs the region `(-1,0,0)` of the fine
block at position 1 of a buffer of four elements and rank 1 unpacks it; the
cell `(0,1,1)` of the fine block receives the value 122 of the coarse cell
`(2,1,1)`. -/
theorem C11_message_copy_equals_direct_copy_witness :
    ((copyScenario false true).CopyDegenerateRegionMessageToBlock (-1) 0 0 (0, 0) (1, 0)
        (((copyScenario true false).CopyDegenerateRegionBlockToMessage (-1) 0 0 (0, 0) (1, 0)
          ([0, 0, 0, 0], 1)).1, 1)).1.blockAt (1, 0) =
      ((copyScenario true true).CopyDegenerateRegionBlockToBlock (-1) 0 0 (0, 0) (1, 0)).blockAt
        (1, 0) ∧
    ((copyScenario false true).CopyDegenerateRegionMessageToBlock (-1) 0 0 (0, 0) (1, 0)
        (((copyScenario true false).CopyDegenerateRegionBlockToMessage (-1) 0 0 (0, 0) (1, 0)
          ([0, 0, 0, 0], 1)).1, 1)).2 = 2 ∧
    (((copyScenario false true).CopyDegenerateRegionMessageToBlock (-1) 0 0 (0, 0) (1, 0)
        (((copyScenario true false).CopyDegenerateRegionBlockToMessage (-1) 0 0 (0, 0) (1, 0)
          ([0, 0, 0, 0], 1)).1, 1)).1.blockAt (1, 0)).cells.getD 20 0 = 122 := by
  have h := C11_message_copy_equals_direct_copy (copyScenario true false)
    (copyScenario false true) (copyScenario true true) (-1) 0 0 (0, 0) (1, 0) [0, 0, 0, 0] 1
    { DataType := 11, Scalars := some ((List.range 64).map fun (i : Nat) => (100 + i : Int)) }
    (constImage (2, 2, 2) 0) ((List.range 64).map fun (i : Nat) => (100 + i : Int))
    (List.replicate 64 0)
    (by decide!) (by decide!) (by decide!) (by decide!) (by decide!) (by decide!) (by decide!)
    (by decide!) (by decide!) (by decide!) (by decide!) (by decide!) (by decide!) (by decide!)
    (by decide!) (by decide!) (by decide!)
  exact ⟨h.1, h.2.1.trans (by decide!), by decide!⟩

/-! ## Repeating the same-process copy -/

theorem writeAt_writeAt_same {α : Type} (b : List α) (i : Int) (v w : α) :
    writeAt (writeAt b i v) i w = writeAt b i w := by
  unfold writeAt
  split
  · rfl
  · exact List.set_set _ _ _ _

theorem writeAt_comm {α : Type} (b : List α) (i j : Int) (v w : α) (hij : i ≠ j) :
    writeAt (writeAt b i v) j w = writeAt (writeAt b j w) i v := by
  unfold writeAt
  by_cases hi : i < 0
  · simp only [hi, if_true]
  · by_cases hj : j < 0
    · simp only [hj, if_true]
    · simp only [hi, hj, if_false]
      exact List.set_comm _ _ _ (by omega)

theorem foldl_writeAt_overwritten {α : Type} (W : List (Int × α)) (b : List α) (i : Int)
    (v w : α) :
    writeAt (W.foldl (fun g x => writeAt g x.1 x.2) (writeAt b i v)) i w =
      writeAt (W.foldl (fun g x => writeAt g x.1 x.2) b) i w := by
  induction W generalizing b with
  | nil => exact writeAt_writeAt_same b i v w
  | cons x t ih =>
    rw [List.foldl_cons, List.foldl_cons]
    by_cases hx : x.1 = i
    · rw [hx, writeAt_writeAt_same]
    · rw [writeAt_comm b i x.1 v x.2 (fun e => hx e.symm)]
      exact ih _

theorem foldl_writeAt_idem {α : Type} (W : List (Int × α)) (a : List α) :
    W.foldl (fun g x => writeAt g x.1 x.2) (W.foldl (fun g x => writeAt g x.1 x.2) a) =
      W.foldl (fun g x => writeAt g x.1 x.2) a := by
  induction W using List.reverseRecOn generalizing a with
  | nil => rfl
  | append_singleton W w ih =>
    simp only [List.foldl_append, List.foldl_cons, List.foldl_nil]
    rw [foldl_writeAt_overwritten, ih]

theorem foldl_flatMap_eq {σ α β : Type} (f : α → List β) (g : σ → β → σ) (l : List α) (s : σ) :
    (l.flatMap f).foldl g s = l.foldl (fun s a => (f a).foldl g s) s := by
  induction l generalizing s with
  | nil => rfl
  | cons a t ih => rw [List.flatMap_cons, List.foldl_append, List.foldl_cons, ih]

theorem CopyBlockToBlock_eq_writes (ptr lowerPtr : List Int) (ext : Ext6) (d : Nat)
    (yInc zInc : Int) (hi lo : Int × Int × Int) :
    vtkDualGridHelperCopyBlockToBlock ptr lowerPtr ext d yInc zInc hi lo =
      ((intRange ext.e4 ext.e5).flatMap fun z =>
        (intRange ext.e2 ext.e3).flatMap fun y =>
          (intRange ext.e0 ext.e1).map fun x =>
            ((x + yInc * y + zInc * z,
              readCell lowerPtr ((((x + hi.1) >>> d) - lo.1) + (((y + hi.2.1) >>> d) - lo.2.1) * yInc +
                (((z + hi.2.2) >>> d) - lo.2.2) * zInc)) : Int × Int)).foldl
        (fun g x => writeAt g x.1 x.2) ptr := by
  unfold vtkDualGridHelperCopyBlockToBlock
  rw [foldl_flatMap_eq]
  apply foldl_congr_mem
  intro pz z _
  rw [foldl_flatMap_eq]
  apply foldl_congr_mem
  intro py y _
  rw [List.foldl_map]

theorem CopyBlockToBlock_idem (ptr lowerPtr : List Int) (ext : Ext6) (d : Nat)
    (yInc zInc : Int) (hi lo : Int × Int × Int) :
    vtkDualGridHelperCopyBlockToBlock
        (vtkDualGridHelperCopyBlockToBlock ptr lowerPtr ext d yInc zInc hi lo)
        lowerPtr ext d yInc zInc hi lo =
      vtkDualGridHelperCopyBlockToBlock ptr lowerPtr ext d yInc zInc hi lo := by
  rw [CopyBlockToBlock_eq_writes, CopyBlockToBlock_eq_writes, foldl_writeAt_idem]

theorem list_modify_congr_at {α : Type} (f g : α → α) (n : Nat) (l : List α)
    (h : ∀ x, l[n]? = some x → f x = g x) : l.modify f n = l.modify g n := by
  apply List.ext_getElem?
  intro m
  rw [List.getElem?_modify, List.getElem?_modify]
  by_cases hnm : n = m
  · subst hnm
    cases hx : l[n]? with
    | none => rfl
    | some x => simp [h x hx]
  · simp [hnm]

theorem modifyBlock_modifyBlock (h : vtkAMRDualGridHelper) (p : BlockPtr)
    (f g : vtkAMRDualGridHelperBlock → vtkAMRDualGridHelperBlock) :
    (h.modifyBlock p f).modifyBlock p g = h.modifyBlock p fun b => g (f b) := by
  unfold vtkAMRDualGridHelper.modifyBlock
  simp only
  rw [List.modify_modify_eq]
  congr 1
  apply list_modify_congr_at
  intro l _
  simp only [Function.comp, List.modify_modify_eq]
  rfl

theorem modifyBlock_congr_at (h : vtkAMRDualGridHelper) (p : BlockPtr)
    (f g : vtkAMRDualGridHelperBlock → vtkAMRDualGridHelperBlock)
    (hfg : f (h.blockAt p) = g (h.blockAt p)) :
    h.modifyBlock p f = h.modifyBlock p g := by
  unfold vtkAMRDualGridHelper.modifyBlock
  congr 1
  apply list_modify_congr_at
  intro l hl
  congr 1
  apply list_modify_congr_at
  intro b hb
  have : h.blockAt p = b := by
    unfold vtkAMRDualGridHelper.blockAt vtkAMRDualGridHelper.levelAt
    simp only [List.getD_eq_getElem?_getD, hl, Option.getD_some, hb]
  rw [← this]
  exact hfg

theorem CopyDegenerateRegionBlockToBlock_eq (h : vtkAMRDualGridHelper) (rx ry rz : Int)
    (low high : BlockPtr) :
    h.CopyDegenerateRegionBlockToBlock rx ry rz low high =
      if (h.blockAt high).Level - (h.blockAt low).Level ≤ 0 then h
      else h.modifyBlock high
        (copiedBlock h.StandardBlockDimensions rx ry rz (h.blockAt low)) := by
  unfold vtkAMRDualGridHelper.CopyDegenerateRegionBlockToBlock
  simp only
  by_cases h0 : (h.blockAt high).Level - (h.blockAt low).Level = 0
  · have : (h.blockAt high).Level - (h.blockAt low).Level ≤ 0 := by omega
    rw [if_pos h0, if_pos this]
  · by_cases h1 : (h.blockAt high).Level - (h.blockAt low).Level < 0
    · have : (h.blockAt high).Level - (h.blockAt low).Level ≤ 0 := by omega
      rw [if_neg h0, if_pos h1, if_pos this]
    · have : ¬ (h.blockAt high).Level - (h.blockAt low).Level ≤ 0 := by omega
      rw [if_neg h0, if_neg h1, if_neg this]
      cases hI : (h.blockAt high).Image with
      | none =>
        simp only
        apply modifyBlock_congr_at
        unfold copiedBlock
        simp only [hI]
      | some hImg =>
        cases lI : (h.blockAt low).Image with
        | none =>
          simp only
          apply modifyBlock_congr_at
          unfold copiedBlock
          simp only [hI, lI]
        | some lImg =>
          simp only
          cases hS : hImg.Scalars with
          | none =>
            simp only
            apply modifyBlock_congr_at
            unfold copiedBlock
            simp only [hI, lI, hS]
          | some ptr =>
            cases lS : lImg.Scalars with
            | none =>
              simp only
              apply modifyBlock_congr_at
              unfold copiedBlock
              simp only [hI, lI, hS, lS]
            | some lowerPtr =>
              simp only
              by_cases ht : lImg.DataType = hImg.DataType
              · simp only [ht, ne_eq, not_true_eq_false, if_false]
                rw [modifyBlock_modifyBlock]
                apply modifyBlock_congr_at
                unfold copiedBlock
                simp only [hI, lI, hS, lS, ht, ne_eq, not_true_eq_false, if_false]
              · simp only [ht, ne_eq, not_false_eq_true, if_true]
                apply modifyBlock_congr_at
                unfold copiedBlock
                simp only [hI, lI, hS, lS, ht, ne_eq, not_false_eq_true, if_true]

theorem copiedBlock_Level (dims : Int × Int × Int) (rx ry rz : Int)
    (low high : vtkAMRDualGridHelperBlock) :
    (copiedBlock dims rx ry rz low high).Level = high.Level := by
  unfold copiedBlock
  split
  · split
    · split <;> rfl
    · rfl
  · rfl

theorem copiedBlock_idem (dims : Int × Int × Int) (rx ry rz : Int)
    (low high : vtkAMRDualGridHelperBlock) :
    copiedBlock dims rx ry rz low (copiedBlock dims rx ry rz low high) =
      copiedBlock dims rx ry rz low high := by
  cases hI : high.Image with
  | none => unfold copiedBlock; simp only [hI]
  | some hImg =>
    cases lI : low.Image with
    | none => unfold copiedBlock; simp only [hI, lI]
    | some lImg =>
      cases hS : hImg.Scalars with
      | none => unfold copiedBlock; simp only [hI, lI, hS]
      | some ptr =>
        cases lS : lImg.Scalars with
        | none => unfold copiedBlock; simp only [hI, lI, hS, lS]
        | some lowerPtr =>
          by_cases ht : lImg.DataType = hImg.DataType
          · unfold copiedBlock
            simp only [hI, lI, hS, lS, ht, ne_eq, not_true_eq_false, if_false,
              CopyBlockToBlock_idem]
          · unfold copiedBlock
            simp only [hI, lI, hS, lS, ht, ne_eq, not_false_eq_true, if_true]

/-- C12. Calling `CopyDegenerateRegionBlockToBlock` a second time with the same
arguments changes nothing: the helper after the second call, the cell values of
the high-resolution block included, is the helper after the first call. -/
theorem C12_copy_idempotent (h : vtkAMRDualGridHelper) (rx ry rz : Int)
    (low high : BlockPtr) :
    (h.CopyDegenerateRegionBlockToBlock rx ry rz low high).CopyDegenerateRegionBlockToBlock
        rx ry rz low high =
      h.CopyDegenerateRegionBlockToBlock rx ry rz low high := by
  by_cases hd : (h.blockAt high).Level - (h.blockAt low).Level ≤ 0
  · have e : h.CopyDegenerateRegionBlockToBlock rx ry rz low high = h := by
      rw [CopyDegenerateRegionBlockToBlock_eq, if_pos hd]
    rw [e, e]
  · have hne : high ≠ low := by
      rintro rfl
      exact hd (by omega)
    have e : h.CopyDegenerateRegionBlockToBlock rx ry rz low high =
        h.modifyBlock high (copiedBlock h.StandardBlockDimensions rx ry rz (h.blockAt low)) := by
      rw [CopyDegenerateRegionBlockToBlock_eq, if_neg hd]
    rw [e, CopyDegenerateRegionBlockToBlock_eq]
    have hlow : (h.modifyBlock high
        (copiedBlock h.StandardBlockDimensions rx ry rz (h.blockAt low))).blockAt low =
        h.blockAt low := by
      rw [blockAt_modifyBlock]
      have : ¬ (high = low ∧ low.2 < (h.levelAt low.1).Blocks.length) := fun c => hne c.1
      rw [if_neg this]
    have hhigh : ((h.modifyBlock high
        (copiedBlock h.StandardBlockDimensions rx ry rz (h.blockAt low))).blockAt high).Level =
        (h.blockAt high).Level :=
      blockAt_modifyBlock_proj (fun b => b.Level) h high high _
        (fun b => copiedBlock_Level _ _ _ _ _ b)
    rw [hlow, hhigh, if_neg hd, modifyBlock_modifyBlock]
    have hdims : (h.modifyBlock high
        (copiedBlock h.StandardBlockDimensions rx ry rz (h.blockAt low))).StandardBlockDimensions =
        h.StandardBlockDimensions := rfl
    rw [hdims]
    congr 1
    funext b
    exact copiedBlock_idem _ _ _ _ _ b


/-! ## The message lengths on the two sides -/

theorem foldl_if_add {α : Type} (p : α → Bool) (f : α → Int) (l : List α) (init : Int) :
    l.foldl (fun acc x => if p x then acc + f x else acc) init =
      init + ((l.filter p).map f).sum := by
  induction l generalizing init with
  | nil => simp
  | cons a t ih =>
    rw [List.foldl_cons, ih]
    by_cases hp : p a
    · simp [hp, List.filter_cons, add_assoc]
    · simp [hp, List.filter_cons]

theorem filter_of_imp {α : Type} (p q : α → Bool) (l : List α) (h : ∀ x, p x = true → q x = true) :
    l.filter p = (l.filter q).filter p := by
  rw [List.filter_filter]
  apply List.filter_congr
  intro x _
  cases hp : p x
  · rfl
  · simp [h x hp]

/-- C13. Rank `a` and rank `b` (distinct) hold registries with the same owners,
the same `StandardBlockDimensions` and `DataTypeSize`, and queues with the same
entries between blocks of different owners in the same order (in particular,
equal queues).  Then the message length `SendDegenerateRegionsFromQueue`
computes on `a` for its send to `b` is the length
`ReceiveDegenerateRegionsFromQueue` computes on `b` for its receive from `a`,
and the entries packed on `a` are the entries unpacked on `b`, in the same
order. -/
theorem C13_message_lengths_agree (ha hb : vtkAMRDualGridHelper) (a b : Int)
    (hab : a ≠ b)
    (hdims : ha.StandardBlockDimensions = hb.StandardBlockDimensions)
    (hsize : ha.DataTypeSize = hb.DataTypeSize)
    (howners : ha.owners = hb.owners)
    (hqueue : ha.DegenerateRegionQueue.filter ha.crossOwner =
      hb.DegenerateRegionQueue.filter hb.crossOwner) :
    ha.sendMessageLength b a = hb.receiveMessageLength a b ∧
      ha.sentRegions b a = hb.receivedRegions a b := by
  have hown : ∀ p, (ha.blockAt p).ProcessId = (hb.blockAt p).ProcessId := by
    intro p
    rw [ProcessId_blockAt_owners, ProcessId_blockAt_owners, howners]
  have hsel : ha.sendsRegion b a = hb.receivesRegion a b := by
    funext d
    unfold vtkAMRDualGridHelper.sendsRegion vtkAMRDualGridHelper.receivesRegion
    rw [hown, hown]
  have hca : ∀ d, ha.sendsRegion b a d = true → ha.crossOwner d = true := by
    intro d hd
    unfold vtkAMRDualGridHelper.sendsRegion at hd
    unfold vtkAMRDualGridHelper.crossOwner
    simp only [decide_eq_true_eq] at hd ⊢
    rw [hd.1, hd.2]
    exact fun e => hab e.symm
  have hcb : ∀ d, hb.receivesRegion a b d = true → hb.crossOwner d = true := by
    intro d hd
    unfold vtkAMRDualGridHelper.receivesRegion at hd
    unfold vtkAMRDualGridHelper.crossOwner
    simp only [decide_eq_true_eq] at hd ⊢
    rw [hd.1, hd.2]
    exact fun e => hab e.symm
  have hregions : ha.sentRegions b a = hb.receivedRegions a b := by
    unfold vtkAMRDualGridHelper.sentRegions vtkAMRDualGridHelper.receivedRegions
    rw [filter_of_imp _ _ _ hca, filter_of_imp _ _ _ hcb, hqueue, hsel]
  refine ⟨?_, hregions⟩
  unfold vtkAMRDualGridHelper.sendMessageLength vtkAMRDualGridHelper.receiveMessageLength
  rw [foldl_if_add, foldl_if_add]
  unfold vtkAMRDualGridHelper.sentRegions vtkAMRDualGridHelper.receivedRegions at hregions
  rw [hregions, hdims, hsize]


/-- C13, on the two-level scenario after the ownership resolution: rank 0 owns
the coarse block and sends to rank 1, which owns the four fine blocks. -/
theorem C13_message_lengths_agree_witness :
    (twoLevelScenario 0).AssignSharedRegions.sendMessageLength 1 0 =
        (twoLevelScenario 1).AssignSharedRegions.receiveMessageLength 0 1 ∧
      (twoLevelScenario 0).AssignSharedRegions.sentRegions 1 0 =
        (twoLevelScenario 1).AssignSharedRegions.receivedRegions 0 1 ∧
      (twoLevelScenario 0).AssignSharedRegions.sendMessageLength 1 0 = 392 := by
  have h := C13_message_lengths_agree (twoLevelScenario 0).AssignSharedRegions
    (twoLevelScenario 1).AssignSharedRegions 0 1 (by decide) (by decide!) (by decide!)
    (by decide!) (by decide!)
  exact ⟨h.1, h.2, by decide!⟩

/-! ## The global metadata on concrete inputs -/

/-- C19, at the failing input: process 0 holds one block with the bounding box
`[-1,9]^3`; process 1 holds a block of 5x5x5 cells of spacing 2 at level 0 and a
block of 10x10x10 cells of spacing 1 at level 1, with the union bounding box
`[7,27] x [-1,9] x [-1,9]`.  Process 1 puts its six bounds at `dMsg[12..17]`
and sends 15 doubles, process 0 asks for 18 and takes the bounds from
`dMsg[9..14]`: it ends with the maximum x bound 9 instead of 27, and with the
dimensions `(10,10,10)` of the largest block of process 1, not the packed
`(5,5,5)`, as `lowestDims`. -/
theorem C19_bounds_read_at_wrong_positions :
    (localScan zeroLocals (10 ^ 38)
        [[some (coarseBlock 17)], [some (paddedBlock 7)]]).globalBounds =
      ⟨7, 27, -1, 9, -1, 9⟩ ∧
    (packDMsg (localScan zeroLocals (10 ^ 38)
        [[some (coarseBlock 17)], [some (paddedBlock 7)]])).drop 12 = [7, 27, -1, 9, -1, 9] ∧
    (sentDMsg (localScan zeroLocals (10 ^ 38)
        [[some (coarseBlock 17)], [some (paddedBlock 7)]])).drop 9 = [1, 1, 1, 7, 27, -1] ∧
    (reduceToRoot (10 ^ 38) (zeroLocals, [[], [some (paddedBlock (-1))]])
        [(zeroLocals, [[some (coarseBlock 17)], [some (paddedBlock 7)]])]).globalBounds =
      ⟨-1, 9, -1, 9, -1, 9⟩ ∧
    (localScan zeroLocals (10 ^ 38)
        [[some (coarseBlock 17)], [some (paddedBlock 7)]]).lowestDims = (5, 5, 5) ∧
    (reduceToRoot (10 ^ 38) (zeroLocals, [[], [some (paddedBlock (-1))]])
        [(zeroLocals, [[some (coarseBlock 17)], [some (paddedBlock 7)]])]).lowestDims =
      (10, 10, 10) ∧
    dMsgSendLength = 15 ∧ dMsgReceiveLength = 18 := by
  decide!

/-- C17, at the failing input: process 0 holds a block with the bounding box
`[-11,-1] x [-1,9] x [-1,9]` and process 1 a block with the bounding box
`[-101,-91] x [-1,9] x [-1,9]`.  Process 0 takes the spacing 1 of the block of
process 1 for its minimum x bound, keeps -11 and computes the x origin -18,
above the minimum x coordinate -101 of the union. -/
theorem C17_origin_above_minimum :
    (ComputeGlobalMetaData (10 ^ 38) (zeroLocals, [[some (paddedBlock (-11))]])
        [(zeroLocals, [[some (paddedBlock (-101))]])]).GlobalOrigin.1 = -18 ∧
    (paddedBlock (-101)).Bounds.b0 = -101 ∧
    ¬ ((ComputeGlobalMetaData (10 ^ 38) (zeroLocals, [[some (paddedBlock (-11))]])
        [(zeroLocals, [[some (paddedBlock (-101))]])]).GlobalOrigin.1 ≤
      (paddedBlock (-101)).Bounds.b0) := by
  decide!

/-- C18, counterexample: three processes hold one block of 10x10x10 cells of
spacing 1 each, at level 0, with the bounding boxes `[-1,9]`, `[7,17]` and
`[15,25]` on the x axis.  The metadata is `StandardBlockDimensions = 8`,
`RootSpacing = 1` and `GlobalOrigin = -8` on the x axis: the minimum x
coordinate -1 of the union is 7 above the origin, not a multiple of 8. -/
theorem C18_padded_minimum_off_grid :
    (ComputeGlobalMetaData (10 ^ 38) (zeroLocals, [[some (paddedBlock (-1))]])
        [(zeroLocals, [[some (paddedBlock 7)]]),
          (zeroLocals, [[some (paddedBlock 15)]])]).GlobalOrigin.1 = -8 ∧
    (ComputeGlobalMetaData (10 ^ 38) (zeroLocals, [[some (paddedBlock (-1))]])
        [(zeroLocals, [[some (paddedBlock 7)]]),
          (zeroLocals, [[some (paddedBlock 15)]])]).StandardBlockDimensions.1 = 8 ∧
    (ComputeGlobalMetaData (10 ^ 38) (zeroLocals, [[some (paddedBlock (-1))]])
        [(zeroLocals, [[some (paddedBlock 7)]]),
          (zeroLocals, [[some (paddedBlock 15)]])]).RootSpacing.1 = 1 ∧
    ¬ ∃ k : Int, (paddedBlock (-1)).Bounds.b0 -
        (ComputeGlobalMetaData (10 ^ 38) (zeroLocals, [[some (paddedBlock (-1))]])
          [(zeroLocals, [[some (paddedBlock 7)]]),
            (zeroLocals, [[some (paddedBlock 15)]])]).GlobalOrigin.1 =
      (k : ℚ) * (((ComputeGlobalMetaData (10 ^ 38) (zeroLocals, [[some (paddedBlock (-1))]])
          [(zeroLocals, [[some (paddedBlock 7)]]),
            (zeroLocals, [[some (paddedBlock 15)]])]).StandardBlockDimensions.1 : ℚ) *
        (ComputeGlobalMetaData (10 ^ 38) (zeroLocals, [[some (paddedBlock (-1))]])
          [(zeroLocals, [[some (paddedBlock 7)]]),
            (zeroLocals, [[some (paddedBlock 15)]])]).RootSpacing.1) := by
  have h1 : (ComputeGlobalMetaData (10 ^ 38) (zeroLocals, [[some (paddedBlock (-1))]])
        [(zeroLocals, [[some (paddedBlock 7)]]),
          (zeroLocals, [[some (paddedBlock 15)]])]).GlobalOrigin.1 = -8 := by decide!
  have h2 : (ComputeGlobalMetaData (10 ^ 38) (zeroLocals, [[some (paddedBlock (-1))]])
        [(zeroLocals, [[some (paddedBlock 7)]]),
          (zeroLocals, [[some (paddedBlock 15)]])]).StandardBlockDimensions.1 = 8 := by decide!
  have h3 : (ComputeGlobalMetaData (10 ^ 38) (zeroLocals, [[some (paddedBlock (-1))]])
        [(zeroLocals, [[some (paddedBlock 7)]]),
          (zeroLocals, [[some (paddedBlock 15)]])]).RootSpacing.1 = 1 := by decide!
  have h4 : (paddedBlock (-1)).Bounds.b0 = -1 := rfl
  refine ⟨h1, h2, h3, ?_⟩
  rw [h1, h2, h3, h4]
  rintro ⟨k, hk⟩
  have : (7 : ℚ) = ((k * 8 : Int) : ℚ) := by
    push_cast at hk ⊢
    linarith
  have h7 : (7 : Int) = k * 8 := by exact_mod_cast this
  omega

/-! ## The origin on the block grid -/

theorem originOnAxis_grid (a s b : ℚ) (D : Int) (g : ℚ) :
    ∃ k : Int, originOnAxis a s b s D g = a + s + (k : ℚ) * ((D : ℚ) * s) := by
  unfold originOnAxis
  simp only
  refine ⟨⌊1 / 2 + (b - (a + s)) / (s * (D : ℚ))⌋ +
    ⌊(g - (a + s + (⌊1 / 2 + (b - (a + s)) / (s * (D : ℚ))⌋ : ℚ) * (s * (D : ℚ)))) /
      (s * (D : ℚ))⌋, ?_⟩
  push_cast
  ring

theorem uniformLocals_scanStart (s : ℚ × ℚ × ℚ) (seen : vtkImageGeometry → Prop)
    (uninit : MetaDataLocals) (large : ℚ) : uniformLocals s seen (scanStart uninit large) := by
  unfold uniformLocals scanStart
  simp

theorem uniformLocals_scanImage (s : ℚ × ℚ × ℚ) (hs : 0 < s.1)
    (seen : vtkImageGeometry → Prop)
    (st : MetaDataLocals) (im : vtkImageGeometry) (hst : uniformLocals s seen st)
    (him : im.uniform s) (hseen : seen im) :
    uniformLocals s seen (scanImage 0 st im) ∧ (scanImage 0 st im).lowestSpacing = s ∧
      0 < (scanImage 0 st im).largestNumCells := by
  obtain ⟨h1, h2, h3, h4⟩ := hst
  obtain ⟨i1, i2, i3, i4⟩ := him
  have hcells : 0 < (im.Extent.e1 - im.Extent.e0) * (im.Extent.e3 - im.Extent.e2) *
      (im.Extent.e5 - im.Extent.e4) := by positivity
  unfold scanImage uniformLocals
  simp only
  by_cases hc : (im.Extent.e1 - im.Extent.e0) * (im.Extent.e3 - im.Extent.e2) *
      (im.Extent.e5 - im.Extent.e4) > st.largestNumCells
  · rw [if_pos hc]
    rcases h2 with h2 | h2
    · have hn : ¬ (im.Spacing.1 > st.lowestSpacing.1) := by rw [i1, h2]; exact lt_irrefl _
      simp only [hn, if_false]
      exact ⟨⟨h1, Or.inl h2, le_of_lt hcells, fun _ => ⟨i1, i2, i3, i4, im, hseen, rfl⟩⟩, h2,
        hcells⟩
    · have hn : im.Spacing.1 > st.lowestSpacing.1 := by rw [i1, h2]; exact hs
      simp only [hn, if_true]
      exact ⟨⟨trivial, Or.inl i1, le_of_lt hcells, fun _ => ⟨i1, i2, i3, i4, im, hseen, rfl⟩⟩, i1,
        hcells⟩
  · rw [if_neg hc]
    have hpos : 0 < st.largestNumCells := by omega
    rcases h2 with h2 | h2
    · have hn : ¬ (im.Spacing.1 > st.lowestSpacing.1) := by rw [i1, h2]; exact lt_irrefl _
      simp only [hn, if_false]
      exact ⟨⟨h1, Or.inl h2, h3, h4⟩, h2, hpos⟩
    · have hn : im.Spacing.1 > st.lowestSpacing.1 := by rw [i1, h2]; exact hs
      simp only [hn, if_true]
      exact ⟨⟨trivial, Or.inl i1, h3, h4⟩, i1, hpos⟩

theorem uniformLocals_scanLevel (s : ℚ × ℚ × ℚ) (hs : 0 < s.1)
    (seen : vtkImageGeometry → Prop) (lv : List (Option vtkImageGeometry))
    (hall : ∀ im, some im ∈ lv → im.uniform s ∧ seen im) (st : MetaDataLocals)
    (hst : uniformLocals s seen st) :
    uniformLocals s seen (lv.foldl (fun st image =>
        match image with
        | none => st
        | some im => scanImage ((0 : Nat) : Int) st im) st) ∧
      (((st.lowestSpacing = s ∧ 0 < st.largestNumCells) ∨ ∃ im, some im ∈ lv) →
        (lv.foldl (fun st image =>
          match image with
          | none => st
          | some im => scanImage ((0 : Nat) : Int) st im) st).lowestSpacing = s ∧
        0 < (lv.foldl (fun st image =>
          match image with
          | none => st
          | some im => scanImage ((0 : Nat) : Int) st im) st).largestNumCells) := by
  induction lv generalizing st with
  | nil =>
    refine ⟨hst, ?_⟩
    rintro (h | ⟨im, him⟩)
    · exact h
    · exact absurd him (List.not_mem_nil _)
  | cons a t ih =>
    rw [List.foldl_cons]
    have hall' : ∀ im, some im ∈ t → im.uniform s ∧ seen im :=
      fun im him => hall im (List.mem_cons_of_mem _ him)
    cases a with
    | none =>
      simp only
      obtain ⟨j1, j2⟩ := ih hall' st hst
      refine ⟨j1, ?_⟩
      rintro (h | ⟨im, him⟩)
      · exact j2 (Or.inl h)
      · rcases List.mem_cons.1 him with e | e
        · exact absurd e (by simp)
        · exact j2 (Or.inr ⟨im, e⟩)
    | some im0 =>
      simp only
      have h0 := hall im0 (List.mem_cons_self _ _)
      obtain ⟨k1, k2, k3⟩ := uniformLocals_scanImage s hs seen st im0 hst h0.1 h0.2
      have e0 : (((0 : Nat) : Int)) = 0 := rfl
      rw [e0]
      obtain ⟨j1, j2⟩ := ih hall' (scanImage 0 st im0) k1
      rw [e0] at j1 j2
      exact ⟨j1, fun _ => j2 (Or.inl ⟨k2, k3⟩)⟩

theorem mem_inputBlocks_singleton (lv : List (Option vtkImageGeometry))
    (im : vtkImageGeometry) : im ∈ inputBlocks [lv] ↔ some im ∈ lv := by
  unfold inputBlocks
  simp [List.mem_filterMap]

theorem uniformLocals_localScan (s : ℚ × ℚ × ℚ) (hs : 0 < s.1)
    (seen : vtkImageGeometry → Prop) (uninit : MetaDataLocals) (large : ℚ)
    (input : MetaDataInput) (hlen : input.length ≤ 1)
    (hall : ∀ im ∈ inputBlocks input, im.uniform s ∧ seen im) :
    uniformLocals s seen (localScan uninit large input) ∧
      (inputBlocks input ≠ [] → (localScan uninit large input).lowestSpacing = s ∧
        0 < (localScan uninit large input).largestNumCells) := by
  cases input with
  | nil =>
    refine ⟨uniformLocals_scanStart s seen uninit large, ?_⟩
    intro h
    exact absurd rfl h
  | cons lv rest =>
    cases rest with
    | cons _ _ => simp at hlen
    | nil =>
      have hall' : ∀ im, some im ∈ lv → im.uniform s ∧ seen im :=
        fun im him => hall im ((mem_inputBlocks_singleton lv im).2 him)
      obtain ⟨j1, j2⟩ := uniformLocals_scanLevel s hs seen lv hall' (scanStart uninit large)
        (uniformLocals_scanStart s seen uninit large)
      have e : localScan uninit large [lv] = lv.foldl (fun st image =>
          match image with
          | none => st
          | some im => scanImage ((0 : Nat) : Int) st im) (scanStart uninit large) := by
        unfold localScan
        simp [List.enum, List.enumFrom]
      rw [e]
      refine ⟨j1, ?_⟩
      intro hne
      apply j2
      right
      obtain ⟨im, him⟩ := List.exists_mem_of_ne_nil _ hne
      exact ⟨im, (mem_inputBlocks_singleton lv im).1 him⟩

theorem uniformLocals_rootReceive (s : ℚ × ℚ × ℚ) (hs : 0 < s.1)
    (seen : vtkImageGeometry → Prop) (st loc : MetaDataLocals)
    (hst : uniformLocals s seen st) (hloc : uniformLocals s seen loc) :
    uniformLocals s seen (rootReceive st (packIMsg loc) (sentDMsg loc)) ∧
      (((st.lowestSpacing = s ∧ 0 < st.largestNumCells) ∨
          (loc.lowestSpacing = s ∧ 0 < loc.largestNumCells)) →
        (rootReceive st (packIMsg loc) (sentDMsg loc)).lowestSpacing = s ∧
        0 < (rootReceive st (packIMsg loc) (sentDMsg loc)).largestNumCells) := by
  obtain ⟨h1, h2, h3, h4⟩ := hst
  obtain ⟨l1, l2, l3, l4⟩ := hloc
  unfold rootReceive uniformLocals
  simp only [packIMsg, sentDMsg, packDMsg, dMsgSendLength, List.take, List.getD_cons_zero,
    List.getD_cons_succ]
  by_cases hc : loc.largestNumCells > st.largestNumCells
  · have lpos : 0 < loc.largestNumCells := by omega
    obtain ⟨m1, m2, m3, m4, m5⟩ := l4 lpos
    rw [if_pos hc]
    rcases h2 with h2 | h2
    · have hn : ¬ (loc.lowestSpacing.1 > st.lowestSpacing.1) := by
        rcases l2 with l2 | l2
        · rw [l2, h2]; exact lt_irrefl _
        · rw [l2, h2]; exact not_lt.2 (le_of_lt hs)
      simp only [hn, if_false]
      refine ⟨⟨h1, Or.inl h2, l3, fun _ => ⟨?_, m2, m3, m4, ?_⟩⟩, fun _ => ⟨h2, lpos⟩⟩
      · rw [← m1]
      · obtain ⟨im, q1, q2⟩ := m5
        exact ⟨im, q1, by rw [← q2]⟩
    · rcases l2 with l2 | l2
      · have hn : loc.lowestSpacing.1 > st.lowestSpacing.1 := by rw [l2, h2]; exact hs
        simp only [hn, if_true]
        refine ⟨⟨l1, Or.inl ?_, l3, fun _ => ⟨?_, m2, m3, m4, ?_⟩⟩, fun _ => ⟨?_, lpos⟩⟩
        · rw [← l2]
        · rw [← m1]
        · obtain ⟨im, q1, q2⟩ := m5
          exact ⟨im, q1, by rw [← q2]⟩
        · rw [← l2]
      · have hn : ¬ (loc.lowestSpacing.1 > st.lowestSpacing.1) := by
          rw [l2, h2]; exact lt_irrefl _
        simp only [hn, if_false]
        refine ⟨⟨h1, Or.inr h2, l3, fun _ => ⟨?_, m2, m3, m4, ?_⟩⟩, ?_⟩
        · rw [← m1]
        · obtain ⟨im, q1, q2⟩ := m5
          exact ⟨im, q1, by rw [← q2]⟩
        · rintro (⟨a, _⟩ | ⟨a, _⟩)
          · rw [h2] at a
            rw [← a] at hs
            exact absurd hs (lt_irrefl _)
          · rw [l2] at a
            rw [← a] at hs
            exact absurd hs (lt_irrefl _)
  · rw [if_neg hc]
    rcases h2 with h2 | h2
    · have hn : ¬ (loc.lowestSpacing.1 > st.lowestSpacing.1) := by
        rcases l2 with l2 | l2
        · rw [l2, h2]; exact lt_irrefl _
        · rw [l2, h2]; exact not_lt.2 (le_of_lt hs)
      simp only [hn, if_false]
      refine ⟨⟨h1, Or.inl h2, h3, h4⟩, ?_⟩
      rintro (⟨_, b⟩ | ⟨_, b⟩)
      · exact ⟨h2, b⟩
      · exact ⟨h2, by omega⟩
    · rcases l2 with l2 | l2
      · have hn : loc.lowestSpacing.1 > st.lowestSpacing.1 := by rw [l2, h2]; exact hs
        simp only [hn, if_true]
        refine ⟨⟨l1, Or.inl ?_, h3, h4⟩, ?_⟩
        · rw [← l2]
        · rintro (⟨_, b⟩ | ⟨_, b⟩)
          · exact ⟨by rw [← l2], b⟩
          · exact ⟨by rw [← l2], by omega⟩
      · have hn : ¬ (loc.lowestSpacing.1 > st.lowestSpacing.1) := by
          rw [l2, h2]; exact lt_irrefl _
        simp only [hn, if_false]
        refine ⟨⟨h1, Or.inr h2, h3, h4⟩, ?_⟩
        rintro (⟨a, _⟩ | ⟨a, _⟩)
        · rw [h2] at a
          rw [← a] at hs
          exact absurd hs (lt_irrefl _)
        · rw [l2] at a
          rw [← a] at hs
          exact absurd hs (lt_irrefl _)

theorem uniformLocals_reduce (s : ℚ × ℚ × ℚ) (hs : 0 < s.1)
    (seen : vtkImageGeometry → Prop) (large : ℚ) (others : List RankInput)
    (hothers : ∀ r ∈ others, r.2.length ≤ 1 ∧ ∀ im ∈ inputBlocks r.2, im.uniform s ∧ seen im)
    (st : MetaDataLocals) (hst : uniformLocals s seen st) :
    uniformLocals s seen (others.foldl
        (fun st r => rootReceive st (packIMsg (localScan r.1 large r.2))
          (sentDMsg (localScan r.1 large r.2))) st) ∧
      (((st.lowestSpacing = s ∧ 0 < st.largestNumCells) ∨
          ∃ r ∈ others, inputBlocks r.2 ≠ []) →
        (others.foldl
          (fun st r => rootReceive st (packIMsg (localScan r.1 large r.2))
            (sentDMsg (localScan r.1 large r.2))) st).lowestSpacing = s ∧
        0 < (others.foldl
          (fun st r => rootReceive st (packIMsg (localScan r.1 large r.2))
            (sentDMsg (localScan r.1 large r.2))) st).largestNumCells) := by
  induction others generalizing st with
  | nil =>
    refine ⟨hst, ?_⟩
    rintro (h | ⟨r, hr, _⟩)
    · exact h
    · exact absurd hr (List.not_mem_nil _)
  | cons r t ih =>
    rw [List.foldl_cons]
    have hr := hothers r (List.mem_cons_self _ _)
    obtain ⟨a1, a2⟩ := uniformLocals_localScan s hs seen r.1 large r.2 hr.1 hr.2
    obtain ⟨b1, b2⟩ := uniformLocals_rootReceive s hs seen st (localScan r.1 large r.2) hst a1
    obtain ⟨c1, c2⟩ := ih (fun q hq => hothers q (List.mem_cons_of_mem _ hq)) _ b1
    refine ⟨c1, ?_⟩
    rintro (h | ⟨q, hq, hne⟩)
    · exact c2 (Or.inl (b2 (Or.inl h)))
    · rcases List.mem_cons.1 hq with e | e
      · subst e
        exact c2 (Or.inl (b2 (Or.inr (a2 hne))))
      · exact c2 (Or.inr ⟨q, e, hne⟩)

theorem multiple_shift (m a G B : ℚ) (k0 : Int) (hG : G = a + (k0 : ℚ) * B) :
    (∃ j : Int, m - a = (j : ℚ) * B) ↔ ∃ k : Int, m - G = (k : ℚ) * B := by
  constructor
  · rintro ⟨j, hj⟩
    refine ⟨j - k0, ?_⟩
    push_cast
    rw [hG]
    linarith
  · rintro ⟨k, hk⟩
    refine ⟨k + k0, ?_⟩
    push_cast
    rw [hG] at hk
    linarith

/-- The blocks of all processes lie on level 0 and have the same positive
spacing `s`, at least three cells on the x and y axes and at least one on the z
axis, and there is at least one block.  Then `RootSpacing` is `s`, the standard
block dimensions are at least 1, and `GlobalOrigin` lies on the block grid of
the largest block (one of the blocks of the input), the grid of step
`StandardBlockDimensions * RootSpacing` through the origin of that block plus
one spacing: on every axis a coordinate `m` differs from `GlobalOrigin` by an
integer multiple of the step exactly when it differs by such a multiple from
the origin of the largest block plus one spacing. -/
theorem GlobalOrigin_on_block_grid (large : ℚ) (root : RankInput) (others : List RankInput)
    (s : ℚ × ℚ × ℚ) (hs : 0 < s.1 ∧ 0 < s.2.1 ∧ 0 < s.2.2)
    (hlevel : ∀ r ∈ root :: others, r.2.length ≤ 1)
    (hblocks : ∀ r ∈ root :: others, ∀ im ∈ inputBlocks r.2, im.uniform s)
    (hne : ∃ r ∈ root :: others, inputBlocks r.2 ≠ []) :
    (ComputeGlobalMetaData large root others).RootSpacing = s ∧
    (∃ r ∈ root :: others, ∃ im ∈ inputBlocks r.2,
      (reduceToRoot large root others).largestOrigin = im.Origin) ∧
    (1 ≤ (ComputeGlobalMetaData large root others).StandardBlockDimensions.1 ∧
      1 ≤ (ComputeGlobalMetaData large root others).StandardBlockDimensions.2.1 ∧
      1 ≤ (ComputeGlobalMetaData large root others).StandardBlockDimensions.2.2) ∧
    (∀ m : ℚ,
      (∃ j : Int, m - ((reduceToRoot large root others).largestOrigin.1 + s.1) =
        (j : ℚ) * (((ComputeGlobalMetaData large root others).StandardBlockDimensions.1 : ℚ) *
          (ComputeGlobalMetaData large root others).RootSpacing.1)) ↔
      ∃ k : Int, m - (ComputeGlobalMetaData large root others).GlobalOrigin.1 =
        (k : ℚ) * (((ComputeGlobalMetaData large root others).StandardBlockDimensions.1 : ℚ) *
          (ComputeGlobalMetaData large root others).RootSpacing.1)) ∧
    (∀ m : ℚ,
      (∃ j : Int, m - ((reduceToRoot large root others).largestOrigin.2.1 + s.2.1) =
        (j : ℚ) * (((ComputeGlobalMetaData large root others).StandardBlockDimensions.2.1 : ℚ) *
          (ComputeGlobalMetaData large root others).RootSpacing.2.1)) ↔
      ∃ k : Int, m - (ComputeGlobalMetaData large root others).GlobalOrigin.2.1 =
        (k : ℚ) * (((ComputeGlobalMetaData large root others).StandardBlockDimensions.2.1 : ℚ) *
          (ComputeGlobalMetaData large root others).RootSpacing.2.1)) ∧
    (∀ m : ℚ,
      (∃ j : Int, m - ((reduceToRoot large root others).largestOrigin.2.2 + s.2.2) =
        (j : ℚ) * (((ComputeGlobalMetaData large root others).StandardBlockDimensions.2.2 : ℚ) *
          (ComputeGlobalMetaData large root others).RootSpacing.2.2)) ↔
      ∃ k : Int, m - (ComputeGlobalMetaData large root others).GlobalOrigin.2.2 =
        (k : ℚ) * (((ComputeGlobalMetaData large root others).StandardBlockDimensions.2.2 : ℚ) *
          (ComputeGlobalMetaData large root others).RootSpacing.2.2)) := by
  have hroot := uniformLocals_localScan s hs.1
    (fun im => ∃ r ∈ root :: others, im ∈ inputBlocks r.2) root.1 large root.2
    (hlevel root (List.mem_cons_self _ _))
    (fun im him => ⟨hblocks root (List.mem_cons_self _ _) im him, root,
      List.mem_cons_self _ _, him⟩)
  have hred := uniformLocals_reduce s hs.1
    (fun im => ∃ r ∈ root :: others, im ∈ inputBlocks r.2) large others
    (fun r hr => ⟨hlevel r (List.mem_cons_of_mem _ hr), fun im him =>
      ⟨hblocks r (List.mem_cons_of_mem _ hr) im him, r, List.mem_cons_of_mem _ hr, him⟩⟩)
    (localScan root.1 large root.2) hroot.1
  have hres : (reduceToRoot large root others).lowestSpacing = s ∧
      0 < (reduceToRoot large root others).largestNumCells := by
    apply hred.2
    obtain ⟨r, hr, hrne⟩ := hne
    rcases List.mem_cons.1 hr with e | e
    · subst e
      exact Or.inl (hroot.2 hrne)
    · exact Or.inr ⟨r, e, hrne⟩
  have hinv : uniformLocals s (fun im => ∃ r ∈ root :: others, im ∈ inputBlocks r.2)
      (reduceToRoot large root others) := hred.1
  obtain ⟨v1, _, _, v4⟩ := hinv
  obtain ⟨w1, w2, w3, w4, im, ⟨r, hr, him⟩, w5⟩ := v4 hres.2
  have hRS : (ComputeGlobalMetaData large root others).RootSpacing = s := by
    unfold ComputeGlobalMetaData resolveMetaData
    simp only [v1, hres.1]
    simp
  have hD1 : (ComputeGlobalMetaData large root others).StandardBlockDimensions.1 =
      (reduceToRoot large root others).largestDims.1 - 2 := rfl
  have hD2 : (ComputeGlobalMetaData large root others).StandardBlockDimensions.2.1 =
      (reduceToRoot large root others).largestDims.2.1 - 2 := rfl
  have hD3 : 1 ≤ (ComputeGlobalMetaData large root others).StandardBlockDimensions.2.2 := by
    unfold ComputeGlobalMetaData resolveMetaData
    simp only
    split <;> omega
  refine ⟨hRS, ⟨r, hr, im, him, w5⟩, ⟨by rw [hD1]; omega, by rw [hD2]; omega, hD3⟩, ?_, ?_, ?_⟩
  · intro m
    obtain ⟨k0, hk0⟩ := originOnAxis_grid (reduceToRoot large root others).largestOrigin.1 s.1
      (reduceToRoot large root others).lowestOrigin.1
      (ComputeGlobalMetaData large root others).StandardBlockDimensions.1
      (reduceToRoot large root others).globalBounds.b0
    apply multiple_shift _ _ _ _ k0
    rw [hRS, ← hk0]
    unfold ComputeGlobalMetaData resolveMetaData
    simp only [w1, hres.1]
  · intro m
    obtain ⟨k0, hk0⟩ := originOnAxis_grid (reduceToRoot large root others).largestOrigin.2.1 s.2.1
      (reduceToRoot large root others).lowestOrigin.2.1
      (ComputeGlobalMetaData large root others).StandardBlockDimensions.2.1
      (reduceToRoot large root others).globalBounds.b2
    apply multiple_shift _ _ _ _ k0
    rw [hRS, ← hk0]
    unfold ComputeGlobalMetaData resolveMetaData
    simp only [w1, hres.1]
  · intro m
    obtain ⟨k0, hk0⟩ := originOnAxis_grid (reduceToRoot large root others).largestOrigin.2.2 s.2.2
      (reduceToRoot large root others).lowestOrigin.2.2
      (ComputeGlobalMetaData large root others).StandardBlockDimensions.2.2
      (reduceToRoot large root others).globalBounds.b4
    apply multiple_shift _ _ _ _ k0
    rw [hRS, ← hk0]
    unfold ComputeGlobalMetaData resolveMetaData
    simp only [w1, hres.1]

theorem offset_multiple (U G s : ℚ) (D g k0 : Int) (hs : 0 < s)
    (h : U + (g : ℚ) * s - G = (k0 : ℚ) * ((D : ℚ) * s)) :
    (∃ k : Int, U - G = (k : ℚ) * ((D : ℚ) * s) - (g : ℚ) * s) ∧
      ((∃ k : Int, U - G = (k : ℚ) * ((D : ℚ) * s)) ↔ D ∣ g) := by
  refine ⟨⟨k0, by linarith⟩, ?_, ?_⟩
  · rintro ⟨k, hk⟩
    have e : (g : ℚ) * s = (((k0 - k) * D : Int) : ℚ) * s := by
      push_cast
      linarith
    have e2 : (g : ℚ) = (((k0 - k) * D : Int) : ℚ) := mul_right_cancel₀ (ne_of_gt hs) e
    have e3 : g = (k0 - k) * D := by exact_mod_cast e2
    exact Dvd.intro_left _ e3.symm
  · rintro ⟨c, hc⟩
    refine ⟨k0 - c, ?_⟩
    subst hc
    push_cast
    push_cast at h
    linarith

/-- C18, as amended. The blocks of all processes lie on level 0 and have the
same positive spacing `s`, at least three cells on the x and y axes and at least
one on the z axis.  `bx`, `by'` and `bz` are blocks of the input that attain the
minimum coordinate of the union of the bounding boxes on the x, y and z axis,
and that minimum lies `gx`, `gy`, `gz` cells below the block grid of the largest
block, the grid of step `StandardBlockDimensions * RootSpacing` through the
origin of the largest block plus one spacing (0 cells for an outermost block
that has lost its ghost layer, 1 cell for one that still carries it).  Then
`RootSpacing` is `s`, the largest block is one of the blocks of the input, the
standard block dimensions are at least 1, and on every axis the difference
between the minimum coordinate of the union bounding box and `GlobalOrigin` is
an integer multiple of `StandardBlockDimensions * RootSpacing` less `g` times
`RootSpacing`; it is itself such a multiple exactly when
`StandardBlockDimensions` divides `g`. -/
theorem C18_union_minimum_offset (large : ℚ) (root : RankInput) (others : List RankInput)
    (s : ℚ × ℚ × ℚ) (bx by' bz : vtkImageGeometry) (gx gy gz : Int)
    (hs : 0 < s.1 ∧ 0 < s.2.1 ∧ 0 < s.2.2)
    (hlevel : ∀ r ∈ root :: others, r.2.length ≤ 1)
    (hblocks : ∀ r ∈ root :: others, ∀ im ∈ inputBlocks r.2, im.uniform s)
    (hmin : (∃ r ∈ root :: others, bx ∈ inputBlocks r.2) ∧
      (∃ r ∈ root :: others, by' ∈ inputBlocks r.2) ∧
      (∃ r ∈ root :: others, bz ∈ inputBlocks r.2) ∧
      ∀ r ∈ root :: others, ∀ im ∈ inputBlocks r.2,
        bx.Bounds.b0 ≤ im.Bounds.b0 ∧ by'.Bounds.b2 ≤ im.Bounds.b2 ∧
          bz.Bounds.b4 ≤ im.Bounds.b4)
    (hgridx : ∃ j : Int, bx.Bounds.b0 + (gx : ℚ) * s.1 -
        ((reduceToRoot large root others).largestOrigin.1 + s.1) =
      (j : ℚ) * (((ComputeGlobalMetaData large root others).StandardBlockDimensions.1 : ℚ) *
        (ComputeGlobalMetaData large root others).RootSpacing.1))
    (hgridy : ∃ j : Int, by'.Bounds.b2 + (gy : ℚ) * s.2.1 -
        ((reduceToRoot large root others).largestOrigin.2.1 + s.2.1) =
      (j : ℚ) * (((ComputeGlobalMetaData large root others).StandardBlockDimensions.2.1 : ℚ) *
        (ComputeGlobalMetaData large root others).RootSpacing.2.1))
    (hgridz : ∃ j : Int, bz.Bounds.b4 + (gz : ℚ) * s.2.2 -
        ((reduceToRoot large root others).largestOrigin.2.2 + s.2.2) =
      (j : ℚ) * (((ComputeGlobalMetaData large root others).StandardBlockDimensions.2.2 : ℚ) *
        (ComputeGlobalMetaData large root others).RootSpacing.2.2)) :
    (ComputeGlobalMetaData large root others).RootSpacing = s ∧
    (∃ r ∈ root :: others, ∃ im ∈ inputBlocks r.2,
      (reduceToRoot large root others).largestOrigin = im.Origin) ∧
    (1 ≤ (ComputeGlobalMetaData large root others).StandardBlockDimensions.1 ∧
      1 ≤ (ComputeGlobalMetaData large root others).StandardBlockDimensions.2.1 ∧
      1 ≤ (ComputeGlobalMetaData large root others).StandardBlockDimensions.2.2) ∧
    ((∃ k : Int, bx.Bounds.b0 - (ComputeGlobalMetaData large root others).GlobalOrigin.1 =
        (k : ℚ) * (((ComputeGlobalMetaData large root others).StandardBlockDimensions.1 : ℚ) *
          (ComputeGlobalMetaData large root others).RootSpacing.1) -
        (gx : ℚ) * (ComputeGlobalMetaData large root others).RootSpacing.1) ∧
      ((∃ k : Int, bx.Bounds.b0 - (ComputeGlobalMetaData large root others).GlobalOrigin.1 =
        (k : ℚ) * (((ComputeGlobalMetaData large root others).StandardBlockDimensions.1 : ℚ) *
          (ComputeGlobalMetaData large root others).RootSpacing.1)) ↔
        (ComputeGlobalMetaData large root others).StandardBlockDimensions.1 ∣ gx)) ∧
    ((∃ k : Int, by'.Bounds.b2 - (ComputeGlobalMetaData large root others).GlobalOrigin.2.1 =
        (k : ℚ) * (((ComputeGlobalMetaData large root others).StandardBlockDimensions.2.1 : ℚ) *
          (ComputeGlobalMetaData large root others).RootSpacing.2.1) -
        (gy : ℚ) * (ComputeGlobalMetaData large root others).RootSpacing.2.1) ∧
      ((∃ k : Int, by'.Bounds.b2 - (ComputeGlobalMetaData large root others).GlobalOrigin.2.1 =
        (k : ℚ) * (((ComputeGlobalMetaData large root others).StandardBlockDimensions.2.1 : ℚ) *
          (ComputeGlobalMetaData large root others).RootSpacing.2.1)) ↔
        (ComputeGlobalMetaData large root others).StandardBlockDimensions.2.1 ∣ gy)) ∧
    ((∃ k : Int, bz.Bounds.b4 - (ComputeGlobalMetaData large root others).GlobalOrigin.2.2 =
        (k : ℚ) * (((ComputeGlobalMetaData large root others).StandardBlockDimensions.2.2 : ℚ) *
          (ComputeGlobalMetaData large root others).RootSpacing.2.2) -
        (gz : ℚ) * (ComputeGlobalMetaData large root others).RootSpacing.2.2) ∧
      ((∃ k : Int, bz.Bounds.b4 - (ComputeGlobalMetaData large root others).GlobalOrigin.2.2 =
        (k : ℚ) * (((ComputeGlobalMetaData large root others).StandardBlockDimensions.2.2 : ℚ) *
          (ComputeGlobalMetaData large root others).RootSpacing.2.2)) ↔
        (ComputeGlobalMetaData large root others).StandardBlockDimensions.2.2 ∣ gz)) := by
  obtain ⟨hRS, hL, hD, gX, gY, gZ⟩ := GlobalOrigin_on_block_grid large root others s hs hlevel
    hblocks (by
      obtain ⟨r, hr, hb⟩ := hmin.1
      exact ⟨r, hr, List.ne_nil_of_mem hb⟩)
  refine ⟨hRS, hL, hD, ?_, ?_, ?_⟩
  · obtain ⟨k0, hk0⟩ := (gX (bx.Bounds.b0 + (gx : ℚ) * s.1)).1 hgridx
    rw [hRS] at hk0 ⊢
    exact offset_multiple _ _ _ _ _ k0 hs.1 hk0
  · obtain ⟨k0, hk0⟩ := (gY (by'.Bounds.b2 + (gy : ℚ) * s.2.1)).1 hgridy
    rw [hRS] at hk0 ⊢
    exact offset_multiple _ _ _ _ _ k0 hs.2.1 hk0
  · obtain ⟨k0, hk0⟩ := (gZ (bz.Bounds.b4 + (gz : ℚ) * s.2.2)).1 hgridz
    rw [hRS] at hk0 ⊢
    exact offset_multiple _ _ _ _ _ k0 hs.2.2 hk0

/-- C18 as amended, on three processes: process 0 holds a block whose ghost
layer on the -x side has been stripped, with the bounding box `[0,9]` on the x
axis, processes 1 and 2 hold blocks with their ghost layers, with the bounding
boxes `[7,17]` and `[15,25]`; all three start at -1 on the y and z axes, one
ghost cell below the block grid of the largest block (origin `(7,-1,-1)`,
blocks of 8 cells).  The minimum x coordinate 0 of the union lies on the block
grid, so it is an integer multiple of the block size away from `GlobalOrigin`;
the minimum y coordinate -1 is one cell short of such a multiple and is not one
itself. -/
theorem C18_union_minimum_offset_witness :
    (strippedBlock 0).Bounds.b0 = 0 ∧ (strippedBlock 0).Bounds.b2 = -1 ∧
    (∃ k : Int, (strippedBlock 0).Bounds.b0 -
        (ComputeGlobalMetaData (10 ^ 38) (zeroLocals, [[some (strippedBlock 0)]])
          [(zeroLocals, [[some (paddedBlock 7)]]),
            (zeroLocals, [[some (paddedBlock 15)]])]).GlobalOrigin.1 =
      (k : ℚ) * (((ComputeGlobalMetaData (10 ^ 38) (zeroLocals, [[some (strippedBlock 0)]])
          [(zeroLocals, [[some (paddedBlock 7)]]),
            (zeroLocals, [[some (paddedBlock 15)]])]).StandardBlockDimensions.1 : ℚ) *
        (ComputeGlobalMetaData (10 ^ 38) (zeroLocals, [[some (strippedBlock 0)]])
          [(zeroLocals, [[some (paddedBlock 7)]]),
            (zeroLocals, [[some (paddedBlock 15)]])]).RootSpacing.1)) ∧
    ¬ ∃ k : Int, (strippedBlock 0).Bounds.b2 -
        (ComputeGlobalMetaData (10 ^ 38) (zeroLocals, [[some (strippedBlock 0)]])
          [(zeroLocals, [[some (paddedBlock 7)]]),
            (zeroLocals, [[some (paddedBlock 15)]])]).GlobalOrigin.2.1 =
      (k : ℚ) * (((ComputeGlobalMetaData (10 ^ 38) (zeroLocals, [[some (strippedBlock 0)]])
          [(zeroLocals, [[some (paddedBlock 7)]]),
            (zeroLocals, [[some (paddedBlock 15)]])]).StandardBlockDimensions.2.1 : ℚ) *
        (ComputeGlobalMetaData (10 ^ 38) (zeroLocals, [[some (strippedBlock 0)]])
          [(zeroLocals, [[some (paddedBlock 7)]]),
            (zeroLocals, [[some (paddedBlock 15)]])]).RootSpacing.2.1) := by
  have h := C18_union_minimum_offset (10 ^ 38) (zeroLocals, [[some (strippedBlock 0)]])
    [(zeroLocals, [[some (paddedBlock 7)]]), (zeroLocals, [[some (paddedBlock 15)]])]
    (1, 1, 1) (strippedBlock 0) (strippedBlock 0) (strippedBlock 0) 0 1 1
    (by decide!) (by decide!) (by decide!) (by decide!)
    ⟨-1, by decide!⟩ ⟨0, by decide!⟩ ⟨0, by decide!⟩
  exact ⟨rfl, rfl, h.2.2.2.1.2.2 (dvd_zero _),
    fun hk => absurd (h.2.2.2.2.1.2.1 hk) (by decide!)⟩

/-- The last step of the computation of the origin uses `floor`: when the
spacing of the lowest level block and the standard block dimension are
positive, the component of `GlobalOrigin` is at or below the minimum bound it
is computed from. -/
theorem originOnAxis_le (a s b t : ℚ) (D : Int) (g : ℚ) (ht : 0 < t * (D : ℚ)) :
    originOnAxis a s b t D g ≤ g := by
  unfold originOnAxis
  simp only
  have h := Int.floor_le ((g - (a + s + (⌊1 / 2 + (b - (a + s)) / (s * (D : ℚ))⌋ : ℚ) *
    (s * (D : ℚ)))) / (t * (D : ℚ)))
  have h2 := mul_le_mul_of_nonneg_right h (le_of_lt ht)
  rw [div_mul_cancel₀ _ (ne_of_gt ht)] at h2
  linarith

/-! ## The block distribution exchange -/

theorem sendBlock_foldl (r lp : Int) (bs : List vtkAMRDualGridHelperBlock) (m : List Int)
    (n : Int) :
    bs.foldl (sendBlock r lp) (m, n) =
      (m ++ (bs.filter fun b => decide (b.ProcessId ≠ r)).flatMap (encodeBlock lp),
        n + (((bs.filter fun b => decide (b.ProcessId ≠ r)).length : Nat) : Int)) := by
  induction bs generalizing m n with
  | nil => simp
  | cons b t ih =>
    rw [List.foldl_cons]
    by_cases hb : b.ProcessId = r
    · have e : sendBlock r lp (m, n) b = (m, n) := by
        unfold sendBlock
        simp [hb]
      rw [e, ih]
      simp [List.filter_cons, hb]
    · have e : sendBlock r lp (m, n) b = (m ++ encodeBlock lp b, n + 1) := by
        unfold sendBlock encodeBlock
        by_cases hl : lp = 0 <;> simp [hb, hl]
      rw [e, ih]
      simp [List.filter_cons, hb, List.flatMap_cons, List.append_assoc]
      ring

theorem writeAt_append_length (m rest : List Int) (a v : Int) :
    writeAt (m ++ a :: rest) (m.length : Int) v = m ++ v :: rest := by
  unfold writeAt
  have : ¬ ((m.length : Int) < 0) := by omega
  rw [if_neg this]
  simp

theorem sendLevel_eq (r lp : Int) (msg : List Int) (l : vtkAMRDualGridHelperLevel) :
    sendLevel r lp msg l = msg ++ encodeLevel r lp l := by
  unfold sendLevel encodeLevel
  simp only
  rw [sendBlock_foldl]
  simp only [List.append_assoc, List.singleton_append, zero_add]
  exact writeAt_append_length _ _ _ _

theorem foldl_sendLevel (r lp : Int) (ls : List vtkAMRDualGridHelperLevel) (msg : List Int) :
    ls.foldl (sendLevel r lp) msg = msg ++ ls.flatMap (encodeLevel r lp) := by
  induction ls generalizing msg with
  | nil => simp
  | cons l t ih => rw [List.foldl_cons, sendLevel_eq, ih, List.flatMap_cons, List.append_assoc]

theorem SendBlocks_eq (h : vtkAMRDualGridHelper) (r lp : Int) :
    (h.SendBlocks r lp).2 = (h.Levels.length : Int) :: h.Levels.flatMap (encodeLevel r lp) ∧
      (h.SendBlocks r lp).1 = ((h.SendBlocks r lp).2.length : Int) := by
  unfold vtkAMRDualGridHelper.SendBlocks vtkAMRDualGridHelper.GetNumberOfLevels
  simp only [foldl_sendLevel]
  exact ⟨rfl, trivial⟩

theorem length_encodeBlock_le (lp : Int) (b : vtkAMRDualGridHelperBlock) :
    (encodeBlock lp b).length = if lp = 0 then 4 else 3 := by
  unfold encodeBlock
  split <;> simp

theorem length_encodeLevel_le (r lp : Int) (l : vtkAMRDualGridHelperLevel) :
    ((encodeLevel r lp l).length : Int) ≤
      1 + (if lp = 0 then 4 else 3) * (l.Blocks.length : Int) := by
  unfold encodeLevel
  have h1 : ∀ bs : List vtkAMRDualGridHelperBlock,
      ((bs.flatMap (encodeBlock lp)).length : Int) = (if lp = 0 then 4 else 3) * (bs.length : Int) := by
    intro bs
    induction bs with
    | nil => simp
    | cons b t ih =>
      rw [List.flatMap_cons, List.length_append, List.length_cons]
      push_cast
      rw [ih, length_encodeBlock_le]
      split <;> push_cast <;> ring
  rw [List.length_cons]
  push_cast
  rw [h1]
  have h2 : (((l.Blocks.filter fun b => decide (b.ProcessId ≠ r)).length : Nat) : Int) ≤
      (l.Blocks.length : Int) := by
    exact_mod_cast List.length_filter_le _ _
  split <;> omega

theorem SendBlocks_le_allocation (h : vtkAMRDualGridHelper) (r lp : Int) :
    (h.SendBlocks r lp).1 ≤ h.sendBlocksAllocation lp := by
  rw [(SendBlocks_eq h r lp).2, (SendBlocks_eq h r lp).1]
  unfold vtkAMRDualGridHelper.sendBlocksAllocation
  have key : ∀ (ls : List vtkAMRDualGridHelperLevel) (a : Int),
      a + ((ls.flatMap (encodeLevel r lp)).length : Int) ≤
        ls.foldl (fun messageLength level =>
          if lp = 0 then messageLength + 1 + 4 * (level.Blocks.length : Int)
          else messageLength + 1 + 3 * (level.Blocks.length : Int)) a := by
    intro ls
    induction ls with
    | nil => intro a; simp
    | cons l t ih =>
      intro a
      rw [List.foldl_cons, List.flatMap_cons, List.length_append]
      push_cast
      have hl := length_encodeLevel_le r lp l
      refine le_trans ?_ (ih _)
      by_cases hlp : lp = 0
      · subst hlp
        simp only [if_true] at hl ⊢
        omega
      · simp only [hlp, if_false] at hl ⊢
        omega
  have := key h.Levels 1
  rw [List.length_cons]
  push_cast
  omega

theorem readCell_append (pre l : List Int) (k : Nat) :
    readCell (pre ++ l) ((pre.length : Int) + (k : Int)) = readCell l (k : Int) := by
  unfold readCell
  have h1 : ¬ ((pre.length : Int) + (k : Int) < 0) := by omega
  have h2 : ¬ ((k : Int) < 0) := by omega
  rw [if_neg h1, if_neg h2]
  have e : ((pre.length : Int) + (k : Int)).toNat = pre.length + k := by omega
  rw [e, Int.toNat_ofNat, List.getD_eq_getElem?_getD, List.getD_eq_getElem?_getD,
    List.getElem?_append_right (by omega)]
  simp

theorem receiveBlock_spec (rp : Int) (pre post : List Int) (b : vtkAMRDualGridHelperBlock)
    (L : Nat) (st : ReceiveState) (k : Nat) (hptr : st.messagePtr = (pre.length : Int))
    (hbp : rp ≠ 0 → st.blockProc = rp) :
    (receiveBlock rp (pre ++ (encodeBlock rp b ++ post)) L st k).helper =
        addSkeletons rp L st.helper [b] ∧
      (receiveBlock rp (pre ++ (encodeBlock rp b ++ post)) L st k).messagePtr =
        ((pre ++ encodeBlock rp b).length : Int) ∧
      (rp ≠ 0 → (receiveBlock rp (pre ++ (encodeBlock rp b ++ post)) L st k).blockProc = rp) := by
  have r0 := readCell_append pre (encodeBlock rp b ++ post) 0
  have r1 := readCell_append pre (encodeBlock rp b ++ post) 1
  have r2 := readCell_append pre (encodeBlock rp b ++ post) 2
  have r3 := readCell_append pre (encodeBlock rp b ++ post) 3
  simp only [Nat.cast_zero, add_zero, Nat.cast_one, Nat.cast_ofNat] at r0 r1 r2 r3
  unfold receiveBlock addSkeletons receivedOwner
  simp only [hptr, List.foldl_cons, List.foldl_nil]
  have a3 : (pre.length : Int) + 3 = (pre.length : Int) + 3 := rfl
  rw [r0, r1, r2, r3]
  unfold encodeBlock
  by_cases h0 : rp = 0
  · subst h0
    simp only [if_true, List.cons_append, List.nil_append, List.length_append, List.length_cons,
      List.length_nil]
    refine ⟨?_, ?_, ?_⟩
    · simp [readCell]
    · push_cast; ring
    · intro h; exact absurd rfl h
  · simp only [h0, if_false, List.cons_append, List.nil_append, List.length_append,
      List.length_cons, List.length_nil, List.append_nil]
    refine ⟨?_, ?_, ?_⟩
    · simp [readCell, hbp h0]
    · push_cast; ring
    · intro _; exact hbp h0

theorem foldl_const_iterate {σ α : Type} (F : σ → σ) (l : List α) (s : σ) :
    l.foldl (fun t _ => F t) s = F^[l.length] s := by
  induction l generalizing s with
  | nil => rfl
  | cons a t ih => rw [List.foldl_cons, ih, List.length_cons, Function.iterate_succ_apply]

theorem iterate_receiveBlock (rp : Int) (bs : List vtkAMRDualGridHelperBlock) (L : Nat)
    (msg pre post : List Int) (st : ReceiveState)
    (hmsg : msg = pre ++ (bs.flatMap (encodeBlock rp) ++ post))
    (hptr : st.messagePtr = (pre.length : Int)) (hbp : rp ≠ 0 → st.blockProc = rp) :
    ((fun s => receiveBlock rp msg L s 0)^[bs.length] st).helper =
        addSkeletons rp L st.helper bs ∧
      ((fun s => receiveBlock rp msg L s 0)^[bs.length] st).messagePtr =
        ((pre ++ bs.flatMap (encodeBlock rp)).length : Int) ∧
      (rp ≠ 0 → ((fun s => receiveBlock rp msg L s 0)^[bs.length] st).blockProc = rp) := by
  induction bs generalizing pre st with
  | nil =>
    simp only [List.length_nil, Function.iterate_zero, id_eq, List.flatMap_nil, List.append_nil]
    exact ⟨rfl, hptr, hbp⟩
  | cons b t ih =>
    rw [List.length_cons, Function.iterate_succ_apply]
    have hmsg1 : msg = pre ++ (encodeBlock rp b ++ (t.flatMap (encodeBlock rp) ++ post)) := by
      rw [hmsg, List.flatMap_cons, List.append_assoc]
    obtain ⟨a1, a2, a3⟩ := receiveBlock_spec rp pre (t.flatMap (encodeBlock rp) ++ post) b L st 0
      hptr hbp
    rw [← hmsg1] at a1 a2 a3
    have hmsg2 : msg = (pre ++ encodeBlock rp b) ++ (t.flatMap (encodeBlock rp) ++ post) := by
      rw [hmsg1, List.append_assoc]
    obtain ⟨b1, b2, b3⟩ := ih (pre ++ encodeBlock rp b) (receiveBlock rp msg L st 0) hmsg2 a2 a3
    refine ⟨?_, ?_, b3⟩
    · rw [b1, a1]
      unfold addSkeletons
      simp only [List.foldl_cons, List.foldl_nil]
    · rw [b2, List.flatMap_cons, List.append_assoc]

theorem receiveLevel_spec (rp r : Int) (l : vtkAMRDualGridHelperLevel) (L : Nat)
    (msg pre post : List Int) (st : ReceiveState)
    (hmsg : msg = pre ++ (encodeLevel r rp l ++ post))
    (hptr : st.messagePtr = (pre.length : Int)) (hbp : rp ≠ 0 → st.blockProc = rp) :
    (receiveLevel rp msg st L).helper =
        addSkeletons rp L st.helper (l.Blocks.filter fun b => decide (b.ProcessId ≠ r)) ∧
      (receiveLevel rp msg st L).messagePtr = ((pre ++ encodeLevel r rp l).length : Int) ∧
      (rp ≠ 0 → (receiveLevel rp msg st L).blockProc = rp) := by
  unfold receiveLevel
  simp only
  have hcount : readCell msg st.messagePtr =
      (((l.Blocks.filter fun b => decide (b.ProcessId ≠ r)).length : Nat) : Int) := by
    have := readCell_append pre (encodeLevel r rp l ++ post) 0
    simp only [Nat.cast_zero, add_zero] at this
    rw [hmsg, hptr, this]
    unfold encodeLevel
    simp [readCell]
  rw [hcount, Int.toNat_ofNat]
  have hfold : ∀ s : ReceiveState,
      (List.range (l.Blocks.filter fun b => decide (b.ProcessId ≠ r)).length).foldl
        (receiveBlock rp msg L) s =
      (fun s => receiveBlock rp msg L s 0)^[(l.Blocks.filter fun b =>
        decide (b.ProcessId ≠ r)).length] s := by
    intro s
    have := foldl_const_iterate (fun s => receiveBlock rp msg L s 0)
      (List.range (l.Blocks.filter fun b => decide (b.ProcessId ≠ r)).length) s
    rw [List.length_range] at this
    rw [← this]
    rfl
  rw [hfold]
  have hmsg2 : msg = (pre ++ [(((l.Blocks.filter fun b => decide (b.ProcessId ≠ r)).length :
      Nat) : Int)]) ++ ((l.Blocks.filter fun b => decide (b.ProcessId ≠ r)).flatMap
        (encodeBlock rp) ++ post) := by
    rw [hmsg]
    unfold encodeLevel
    simp
  obtain ⟨a1, a2, a3⟩ := iterate_receiveBlock rp
    (l.Blocks.filter fun b => decide (b.ProcessId ≠ r)) L msg _ post
    { st with messagePtr := st.messagePtr + 1 } hmsg2
    (by simp only [List.length_append, List.length_cons, List.length_nil, hptr]; push_cast; ring)
    hbp
  refine ⟨a1, ?_, a3⟩
  rw [a2]
  unfold encodeLevel
  simp

theorem foldl_receiveLevel (rp r : Int) (todo : List vtkAMRDualGridHelperLevel) (i0 : Nat)
    (msg pre post : List Int) (st : ReceiveState)
    (hmsg : msg = pre ++ (todo.flatMap (encodeLevel r rp) ++ post))
    (hptr : st.messagePtr = (pre.length : Int)) (hbp : rp ≠ 0 → st.blockProc = rp) :
    ((List.range' i0 todo.length).foldl (receiveLevel rp msg) st).helper =
        (todo.enumFrom i0).foldl
          (fun h il => addSkeletons rp il.1 h
            (il.2.Blocks.filter fun b => decide (b.ProcessId ≠ r))) st.helper ∧
      ((List.range' i0 todo.length).foldl (receiveLevel rp msg) st).messagePtr =
        ((pre ++ todo.flatMap (encodeLevel r rp)).length : Int) ∧
      (rp ≠ 0 → ((List.range' i0 todo.length).foldl (receiveLevel rp msg) st).blockProc = rp) := by
  induction todo generalizing i0 pre st with
  | nil =>
    simp only [List.length_nil, List.range'_zero, List.foldl_nil, List.enumFrom_nil,
      List.flatMap_nil, List.append_nil]
    exact ⟨trivial, hptr, hbp⟩
  | cons l t ih =>
    rw [List.length_cons, List.range'_succ, List.foldl_cons, List.enumFrom_cons,
      List.foldl_cons]
    have hmsg1 : msg = pre ++ (encodeLevel r rp l ++ (t.flatMap (encodeLevel r rp) ++ post)) := by
      rw [hmsg, List.flatMap_cons, List.append_assoc]
    obtain ⟨a1, a2, a3⟩ := receiveLevel_spec rp r l i0 msg pre _ st hmsg1 hptr hbp
    have hmsg2 : msg = (pre ++ encodeLevel r rp l) ++ (t.flatMap (encodeLevel r rp) ++ post) := by
      rw [hmsg1, List.append_assoc]
    obtain ⟨b1, b2, b3⟩ := ih (i0 + 1) (pre ++ encodeLevel r rp l) (receiveLevel rp msg st i0)
      hmsg2 a2 a3
    refine ⟨?_, ?_, b3⟩
    · rw [b1, a1]
    · rw [b2, List.flatMap_cons, List.append_assoc]

theorem ReceiveBlocks_SendBlocks (h s : vtkAMRDualGridHelper) (r rp : Int) :
    h.ReceiveBlocks rp (s.SendBlocks r rp).2 =
        s.Levels.enum.foldl
          (fun g il => addSkeletons rp il.1 g
            (il.2.Blocks.filter fun b => decide (b.ProcessId ≠ r))) h ∧
      (receiveBlocksState h rp (s.SendBlocks r rp).2).messagePtr = (s.SendBlocks r rp).1 := by
  obtain ⟨e1, e2⟩ := SendBlocks_eq s r rp
  rw [e2, e1]
  unfold vtkAMRDualGridHelper.ReceiveBlocks receiveBlocksState
  have hn : readCell ((s.Levels.length : Int) :: s.Levels.flatMap (encodeLevel r rp)) 0 =
      (s.Levels.length : Int) := by simp [readCell]
  simp only [hn, Int.toNat_ofNat, List.range_eq_range']
  obtain ⟨a1, a2, _⟩ := foldl_receiveLevel rp r s.Levels 0
    ((s.Levels.length : Int) :: s.Levels.flatMap (encodeLevel r rp)) [(s.Levels.length : Int)] []
    { helper := h, messagePtr := 1, blockProc := rp } (by simp) (by simp) (fun _ => rfl)
  refine ⟨a1, ?_⟩
  rw [a2]
  simp

theorem AddGridBlock_Blocks (l : vtkAMRDualGridHelperLevel) (x y z : Int)
    (volume : Option vtkImageData) (p : Int) :
    (l.AddGridBlock x y z volume p).1.Blocks = l.Blocks ++
        [{ vtkAMRDualGridHelperBlock.new p with
            Image := volume, Level := l.Level, GridIndex := (x, y, z) }] ∧
      (l.AddGridBlock x y z volume p).2 = l.Blocks.length := by
  unfold vtkAMRDualGridHelperLevel.AddGridBlock
  simp only
  split
  · exact ⟨rfl, rfl⟩
  · exact ⟨rfl, rfl⟩

theorem levelKeys_addBlockAt (h : vtkAMRDualGridHelper) (L : Nat) (hL : L < h.Levels.length)
    (x y z : Int) (volume : Option vtkImageData) (p : Int) (o : Int × Int × Int) (n : Nat) :
    ((h.addBlockAt L x y z volume p o).levelAt n).levelKeys =
      (h.levelAt n).levelKeys ++ (if L = n then [((x, y, z), p)] else []) := by
  rw [levelAt_addBlockAt h L hL]
  by_cases hn : L = n
  · subst hn
    simp only [if_true]
    unfold vtkAMRDualGridHelperLevel.levelKeys
    simp only
    obtain ⟨e1, e2⟩ := AddGridBlock_Blocks (h.levelAt L) x y z volume p
    rw [e1, e2]
    have : (List.modify (fun b => { b with ProcessId := p, OriginIndex := o })
        (h.levelAt L).Blocks.length
        ((h.levelAt L).Blocks ++ [{ vtkAMRDualGridHelperBlock.new p with
            Image := volume, Level := (h.levelAt L).Level, GridIndex := (x, y, z) }])) =
        (h.levelAt L).Blocks ++ [{ vtkAMRDualGridHelperBlock.new p with
            Image := volume, Level := (h.levelAt L).Level, GridIndex := (x, y, z),
            OriginIndex := o }] := by
      rw [List.modify_eq_take_cons_drop (by simp)]
      simp [vtkAMRDualGridHelperBlock.new]
    rw [this]
    simp [vtkAMRDualGridHelperBlock.new]
  · simp only [hn, if_false, List.append_nil]

theorem addBlockAt_dims (h : vtkAMRDualGridHelper) (L : Nat)
    (x y z : Int) (volume : Option vtkImageData) (p : Int) (o : Int × Int × Int) :
    (h.addBlockAt L x y z volume p o).StandardBlockDimensions = h.StandardBlockDimensions :=
  rfl

theorem levelKeys_addSkeletons (rp : Int) (L : Nat) (bs : List vtkAMRDualGridHelperBlock)
    (h : vtkAMRDualGridHelper) (hL : L < h.Levels.length) :
    (addSkeletons rp L h bs).Levels.length = h.Levels.length ∧
      ∀ n, ((addSkeletons rp L h bs).levelAt n).levelKeys =
        (h.levelAt n).levelKeys ++
          (if L = n then bs.map (fun b => (b.GridIndex, receivedOwner rp b)) else []) := by
  induction bs generalizing h with
  | nil =>
    unfold addSkeletons
    simp
  | cons b t ih =>
    have e : addSkeletons rp L h (b :: t) =
        addSkeletons rp L (h.addBlockAt L b.GridIndex.1 b.GridIndex.2.1 b.GridIndex.2.2 none
          (receivedOwner rp b)
          (h.StandardBlockDimensions.1 * b.GridIndex.1 - 1,
            h.StandardBlockDimensions.2.1 * b.GridIndex.2.1 - 1,
            h.StandardBlockDimensions.2.2 * b.GridIndex.2.2 - 1)) t := by
      unfold addSkeletons
      rw [List.foldl_cons]
    rw [e]
    have hlen := length_addBlockAt h L b.GridIndex.1 b.GridIndex.2.1 b.GridIndex.2.2 none
      (receivedOwner rp b)
      (h.StandardBlockDimensions.1 * b.GridIndex.1 - 1,
        h.StandardBlockDimensions.2.1 * b.GridIndex.2.1 - 1,
        h.StandardBlockDimensions.2.2 * b.GridIndex.2.2 - 1)
    obtain ⟨i1, i2⟩ := ih _ (by rw [hlen]; exact hL)
    refine ⟨i1.trans hlen, ?_⟩
    intro n
    rw [i2 n, levelKeys_addBlockAt h L hL]
    by_cases hn : L = n
    · simp [hn]
    · simp [hn]

theorem levelKeys_foldl_enumFrom (rp r : Int) (todo : List vtkAMRDualGridHelperLevel)
    (i0 : Nat) (h : vtkAMRDualGridHelper) (hlen : i0 + todo.length ≤ h.Levels.length) :
    ((todo.enumFrom i0).foldl
        (fun g il => addSkeletons rp il.1 g
          (il.2.Blocks.filter fun b => decide (b.ProcessId ≠ r))) h).Levels.length =
        h.Levels.length ∧
      ∀ n, (((todo.enumFrom i0).foldl
        (fun g il => addSkeletons rp il.1 g
          (il.2.Blocks.filter fun b => decide (b.ProcessId ≠ r))) h).levelAt n).levelKeys =
        (h.levelAt n).levelKeys ++
          (if i0 ≤ n then
            ((todo.getD (n - i0) vtkAMRDualGridHelperLevel.new).Blocks.filter
              fun b => decide (b.ProcessId ≠ r)).map (fun b => (b.GridIndex, receivedOwner rp b))
           else []) := by
  induction todo generalizing i0 h with
  | nil =>
    simp [vtkAMRDualGridHelperLevel.new]
  | cons l t ih =>
    rw [List.enumFrom_cons, List.foldl_cons]
    simp only [List.length_cons] at hlen
    obtain ⟨a1, a2⟩ := levelKeys_addSkeletons rp i0
      (l.Blocks.filter fun b => decide (b.ProcessId ≠ r)) h (by omega)
    obtain ⟨b1, b2⟩ := ih (i0 + 1) (addSkeletons rp i0 h
      (l.Blocks.filter fun b => decide (b.ProcessId ≠ r))) (by rw [a1]; omega)
    refine ⟨b1.trans a1, ?_⟩
    intro n
    rw [b2 n, a2 n]
    by_cases h1 : i0 = n
    · subst h1
      simp
    · by_cases h2 : i0 + 1 ≤ n
      · have h3 : i0 ≤ n := by omega
        have h4 : n - i0 = (n - (i0 + 1)) + 1 := by omega
        simp only [h1, h2, h3, if_true, if_false, List.append_nil]
        rw [h4, List.getD_cons_succ]
      · have h3 : ¬ i0 ≤ n := by omega
        simp [h1, h2, h3]

theorem levelKeys_ReceiveBlocks (h s : vtkAMRDualGridHelper) (r rp : Int)
    (hlen : s.Levels.length ≤ h.Levels.length) :
    (h.ReceiveBlocks rp (s.SendBlocks r rp).2).Levels.length = h.Levels.length ∧
      ∀ n, ((h.ReceiveBlocks rp (s.SendBlocks r rp).2).levelAt n).levelKeys =
        (h.levelAt n).levelKeys ++
          ((s.levelAt n).Blocks.filter fun b => decide (b.ProcessId ≠ r)).map
            (fun b => (b.GridIndex, receivedOwner rp b)) := by
  rw [(ReceiveBlocks_SendBlocks h s r rp).1]
  obtain ⟨a1, a2⟩ := levelKeys_foldl_enumFrom rp r s.Levels 0 h (by omega)
  refine ⟨a1, ?_⟩
  intro n
  have := a2 n
  simp only [Nat.zero_le, if_true, Nat.sub_zero] at this
  exact this

theorem ownedBy_levelAt (h : vtkAMRDualGridHelper) (rank : Int) (ho : h.ownedBy rank)
    (n : Nat) : ∀ b ∈ (h.levelAt n).Blocks, b.ProcessId = rank := by
  intro b hb
  unfold vtkAMRDualGridHelper.levelAt at hb
  rw [List.getD_eq_getElem?_getD] at hb
  cases hl : h.Levels[n]? with
  | none =>
    rw [hl] at hb
    exact absurd hb (by simp [vtkAMRDualGridHelperLevel.new])
  | some l =>
    rw [hl] at hb
    exact ho l (List.getElem?_mem hl) b hb

theorem filter_eq_self_of_forall {α : Type} (p : α → Bool) (l : List α)
    (h : ∀ a ∈ l, p a = true) : l.filter p = l :=
  List.filter_eq_self.2 h

theorem levelKeys_receive_owned (h s : vtkAMRDualGridHelper) (rank : Int) (hrank : rank ≠ 0)
    (hs : s.ownedBy rank) (hlen : s.Levels.length ≤ h.Levels.length) (n : Nat) :
    ((h.ReceiveBlocks rank (s.SendBlocks 0 rank).2).levelAt n).levelKeys =
      (h.levelAt n).levelKeys ++ (s.levelAt n).levelKeys := by
  rw [(levelKeys_ReceiveBlocks h s 0 rank hlen).2 n]
  congr 1
  have hown := ownedBy_levelAt s rank hs n
  rw [List.filter_eq_self.2 (fun b hb => by simp [hown b hb, hrank])]
  unfold vtkAMRDualGridHelperLevel.levelKeys
  apply List.map_congr_left
  intro b hb
  unfold receivedOwner
  rw [if_neg hrank, hown b hb]

theorem levelKeys_collect (others : List vtkAMRDualGridHelper) (i0 : Nat)
    (h : vtkAMRDualGridHelper)
    (hlev : ∀ o ∈ others, o.Levels.length = h.Levels.length)
    (hown : ∀ o ∈ others.enumFrom i0, o.2.ownedBy ((o.1 : Int) + 1)) :
    ((others.enumFrom i0).foldl
        (fun g o => g.ReceiveBlocks ((o.1 : Int) + 1) (o.2.SendBlocks 0 ((o.1 : Int) + 1)).2)
        h).Levels.length = h.Levels.length ∧
      ∀ n, (((others.enumFrom i0).foldl
        (fun g o => g.ReceiveBlocks ((o.1 : Int) + 1) (o.2.SendBlocks 0 ((o.1 : Int) + 1)).2)
        h).levelAt n).levelKeys =
        (h.levelAt n).levelKeys ++ others.flatMap fun o => (o.levelAt n).levelKeys := by
  induction others generalizing i0 h with
  | nil => simp
  | cons o t ih =>
    rw [List.enumFrom_cons, List.foldl_cons]
    have ho := hown (i0, o) (by rw [List.enumFrom_cons]; exact List.mem_cons_self _ _)
    have hlo := hlev o (List.mem_cons_self _ _)
    have hne : ((i0 : Int) + 1) ≠ 0 := by omega
    obtain ⟨a1, _⟩ := levelKeys_ReceiveBlocks h o 0 ((i0 : Int) + 1) (by omega)
    obtain ⟨b1, b2⟩ := ih (i0 + 1)
      (h.ReceiveBlocks ((i0 : Int) + 1) (o.SendBlocks 0 ((i0 : Int) + 1)).2)
      (fun q hq => by rw [a1]; exact hlev q (List.mem_cons_of_mem _ hq))
      (fun q hq => hown q (by rw [List.enumFrom_cons]; exact List.mem_cons_of_mem _ hq))
    refine ⟨b1.trans a1, ?_⟩
    intro n
    rw [b2 n, levelKeys_receive_owned h o _ hne ho (by omega) n, List.flatMap_cons,
      List.append_assoc]

theorem filter_rank (os : List vtkAMRDualGridHelper) (i0 i n : Nat)
    (dflt : vtkAMRDualGridHelper)
    (hown : ∀ o ∈ os.enumFrom i0, o.2.ownedBy ((o.1 : Int) + 1)) :
    (os.flatMap fun o => (o.levelAt n).levelKeys).filter
        (fun k => decide (k.2 = (i : Int) + 1)) =
      if i0 ≤ i ∧ i < i0 + os.length then ((os.getD (i - i0) dflt).levelAt n).levelKeys
      else [] := by
  induction os generalizing i0 with
  | nil => simp
  | cons o t ih =>
    have ho := hown (i0, o) (by rw [List.enumFrom_cons]; exact List.mem_cons_self _ _)
    have hk := ownedBy_levelAt o _ ho n
    have iht := ih (i0 + 1)
      (fun q hq => hown q (by rw [List.enumFrom_cons]; exact List.mem_cons_of_mem _ hq))
    rw [List.flatMap_cons, List.filter_append, iht]
    by_cases h1 : i0 = i
    · subst h1
      have e : (o.levelAt n).levelKeys.filter (fun k => decide (k.2 = (i0 : Int) + 1)) =
          (o.levelAt n).levelKeys := by
        apply List.filter_eq_self.2
        intro k hk'
        unfold vtkAMRDualGridHelperLevel.levelKeys at hk'
        obtain ⟨b, hb, rfl⟩ := List.mem_map.1 hk'
        simp [hk b hb]
      rw [e]
      simp
    · have e : (o.levelAt n).levelKeys.filter (fun k => decide (k.2 = (i : Int) + 1)) = [] := by
        apply List.filter_eq_nil_iff.2
        intro k hk'
        unfold vtkAMRDualGridHelperLevel.levelKeys at hk'
        obtain ⟨b, hb, rfl⟩ := List.mem_map.1 hk'
        simp only [hk b hb, decide_eq_true_eq]
        omega
      rw [e, List.nil_append]
      by_cases h2 : i0 + 1 ≤ i
      · have h3 : i0 ≤ i := by omega
        have h4 : i - i0 = (i - (i0 + 1)) + 1 := by omega
        by_cases h5 : i < i0 + 1 + t.length
        · have h6 : i < i0 + (o :: t).length := by simp only [List.length_cons]; omega
          simp only [h2, h3, h5, h6, and_self, if_true]
          rw [h4, List.getD_cons_succ]
        · have h6 : ¬ i < i0 + (o :: t).length := by simp only [List.length_cons]; omega
          simp only [h5, h6, and_false, if_false]
      · have h3 : ¬ i0 ≤ i := by omega
        simp only [h2, h3, false_and, if_false]

theorem getD_map_enum {α β : Type} (l : List α) (f : Nat × α → β) (i : Nat)
    (hi : i < l.length) (d : β) (a : α) :
    (l.enum.map f).getD i d = f (i, l.getD i a) := by
  rw [List.getD_eq_getElem?_getD, List.getElem?_map, List.getD_eq_getElem?_getD,
    List.getElem?_eq_getElem hi]
  simp [List.enum, List.getElem?_enumFrom, List.getElem?_eq_getElem hi]

/-- C14. Process 0 holds `root`, the processes 1, 2, ... hold `others` (one
process for each entry), all with the same number of levels, and before the
exchange every block of a registry is owned by the process that holds it.
After `ShareBlocks` every registry has its levels; at every level the registry
of process 0 holds its own blocks followed by the blocks of the processes 1, 2,
... in this order, each with its grid index and the rank of the process that
held it, and the registry of process `i+1` holds its own blocks followed by the
blocks of process 0's registry whose owner is not `i+1`: the same blocks as
process 0 in another order, each grid index once if it was held once.  For any
sender and receiver, the message `SendBlocks(remoteProc, localProc)` builds is
decoded by `ReceiveBlocks(localProc)` into exactly the blocks of the sender
whose owner is not `remoteProc`, level by level, with their grid index and
owner; the length sent is the number of integers written, where the decoding
ends, and it does not exceed the allocation. -/
theorem C14_skeleton_complete (root : vtkAMRDualGridHelper)
    (others : List vtkAMRDualGridHelper)
    (hlev : ∀ o ∈ others, o.Levels.length = root.Levels.length)
    (hroot : root.ownedBy 0)
    (hown : ∀ o ∈ others.enum, o.2.ownedBy ((o.1 : Int) + 1)) :
    (ShareBlocks root others).1.Levels.length = root.Levels.length ∧
    (ShareBlocks root others).2.length = others.length ∧
    (∀ n, ((ShareBlocks root others).1.levelAt n).levelKeys =
      (root.levelAt n).levelKeys ++ others.flatMap fun o => (o.levelAt n).levelKeys) ∧
    (∀ i, i < others.length →
      ((ShareBlocks root others).2.getD i root).Levels.length = root.Levels.length ∧
      ∀ n,
        (((ShareBlocks root others).2.getD i root).levelAt n).levelKeys =
          ((others.getD i root).levelAt n).levelKeys ++
            (((ShareBlocks root others).1.levelAt n).levelKeys.filter
              fun k => decide (k.2 ≠ (i : Int) + 1)) ∧
        List.Perm (((ShareBlocks root others).2.getD i root).levelAt n).levelKeys
          ((ShareBlocks root others).1.levelAt n).levelKeys ∧
        ((((ShareBlocks root others).1.levelAt n).levelKeys.map Prod.fst).Nodup →
          ((((ShareBlocks root others).2.getD i root).levelAt n).levelKeys.map
            Prod.fst).Nodup)) ∧
    (∀ (s g : vtkAMRDualGridHelper) (remoteProc localProc : Int),
      s.Levels.length ≤ g.Levels.length →
      (∀ n, ((g.ReceiveBlocks localProc (s.SendBlocks remoteProc localProc).2).levelAt
          n).levelKeys =
        (g.levelAt n).levelKeys ++
          ((s.levelAt n).Blocks.filter fun b => decide (b.ProcessId ≠ remoteProc)).map
            (fun b => (b.GridIndex, receivedOwner localProc b))) ∧
      (s.SendBlocks remoteProc localProc).1 =
        ((s.SendBlocks remoteProc localProc).2.length : Int) ∧
      (receiveBlocksState g localProc (s.SendBlocks remoteProc localProc).2).messagePtr =
        (s.SendBlocks remoteProc localProc).1 ∧
      (s.SendBlocks remoteProc localProc).1 ≤ s.sendBlocksAllocation localProc) := by
  have hown0 : ∀ o ∈ others.enumFrom 0, o.2.ownedBy ((o.1 : Int) + 1) := hown
  obtain ⟨c1, c2⟩ := levelKeys_collect others 0 root hlev hown0
  have hS1 : (ShareBlocks root others).1 = (others.enumFrom 0).foldl
      (fun g o => g.ReceiveBlocks ((o.1 : Int) + 1) (o.2.SendBlocks 0 ((o.1 : Int) + 1)).2)
      root := rfl
  rw [hS1]
  refine ⟨c1, ?_, c2, ?_, ?_⟩
  · unfold ShareBlocks
    simp
  · intro i hi
    have hget : (ShareBlocks root others).2.getD i root =
        (others.getD i root).ReceiveBlocks 0
          ((ShareBlocks root others).1.SendBlocks ((i : Int) + 1) 0).2 := by
      unfold ShareBlocks
      simp only
      rw [getD_map_enum others _ i hi root root]
    rw [hget, hS1]
    have hoi : (others.getD i root) ∈ others := by
      rw [List.getD_eq_getElem?_getD, List.getElem?_eq_getElem hi]
      exact List.getElem_mem _
    have hlen := hlev _ hoi
    obtain ⟨a1, a2⟩ := levelKeys_ReceiveBlocks (others.getD i root)
      ((others.enumFrom 0).foldl
        (fun g o => g.ReceiveBlocks ((o.1 : Int) + 1) (o.2.SendBlocks 0 ((o.1 : Int) + 1)).2)
        root) ((i : Int) + 1) 0 (by rw [c1, hlen])
    refine ⟨a1.trans hlen, ?_⟩
    intro n
    have hkeys : (((others.getD i root).ReceiveBlocks 0
        (((others.enumFrom 0).foldl
          (fun g o => g.ReceiveBlocks ((o.1 : Int) + 1) (o.2.SendBlocks 0 ((o.1 : Int) + 1)).2)
          root).SendBlocks ((i : Int) + 1) 0).2).levelAt n).levelKeys =
        ((others.getD i root).levelAt n).levelKeys ++
          ((((others.enumFrom 0).foldl
            (fun g o => g.ReceiveBlocks ((o.1 : Int) + 1)
              (o.2.SendBlocks 0 ((o.1 : Int) + 1)).2) root).levelAt n).levelKeys.filter
            fun k => decide (k.2 ≠ (i : Int) + 1)) := by
      rw [a2 n]
      congr 1
      unfold vtkAMRDualGridHelperLevel.levelKeys
      rw [List.filter_map]
      apply List.map_congr_left
      intro b _
      unfold receivedOwner
      simp
    have hfilter : (((others.enumFrom 0).foldl
        (fun g o => g.ReceiveBlocks ((o.1 : Int) + 1) (o.2.SendBlocks 0 ((o.1 : Int) + 1)).2)
        root).levelAt n).levelKeys.filter (fun k => decide (k.2 = (i : Int) + 1)) =
        ((others.getD i root).levelAt n).levelKeys := by
      rw [c2 n, List.filter_append, filter_rank others 0 i n root hown0]
      have hr : (root.levelAt n).levelKeys.filter (fun k => decide (k.2 = (i : Int) + 1)) =
          [] := by
        apply List.filter_eq_nil_iff.2
        intro k hk'
        unfold vtkAMRDualGridHelperLevel.levelKeys at hk'
        obtain ⟨b, hb, rfl⟩ := List.mem_map.1 hk'
        simp only [ownedBy_levelAt root 0 hroot n b hb, decide_eq_true_eq]
        omega
      rw [hr, List.nil_append]
      have : 0 ≤ i ∧ i < 0 + others.length := ⟨Nat.zero_le _, by omega⟩
      rw [if_pos this, Nat.sub_zero]
    have hperm : List.Perm (((others.getD i root).ReceiveBlocks 0
        (((others.enumFrom 0).foldl
          (fun g o => g.ReceiveBlocks ((o.1 : Int) + 1) (o.2.SendBlocks 0 ((o.1 : Int) + 1)).2)
          root).SendBlocks ((i : Int) + 1) 0).2).levelAt n).levelKeys
        (((others.enumFrom 0).foldl
          (fun g o => g.ReceiveBlocks ((o.1 : Int) + 1) (o.2.SendBlocks 0 ((o.1 : Int) + 1)).2)
          root).levelAt n).levelKeys := by
      rw [hkeys]
      nth_rewrite 1 [← hfilter]
      have hp := List.filter_append_perm (fun k : (Int × Int × Int) × Int =>
        decide (k.2 = (i : Int) + 1)) (((others.enumFrom 0).foldl
          (fun g o => g.ReceiveBlocks ((o.1 : Int) + 1) (o.2.SendBlocks 0 ((o.1 : Int) + 1)).2)
          root).levelAt n).levelKeys
      have hcongr : (fun k : (Int × Int × Int) × Int => decide (k.2 ≠ (i : Int) + 1)) =
          fun k => !decide (k.2 = (i : Int) + 1) := by
        funext k
        simp
      rw [hcongr]
      exact hp
    refine ⟨hkeys, hperm, ?_⟩
    intro hnd
    exact ((hperm.map Prod.fst).nodup_iff).2 hnd
  · intro s g remoteProc localProc hlen
    exact ⟨(levelKeys_ReceiveBlocks g s remoteProc localProc hlen).2,
      (SendBlocks_eq s remoteProc localProc).2,
      (ReceiveBlocks_SendBlocks g s remoteProc localProc).2,
      SendBlocks_le_allocation s remoteProc localProc⟩

/-- C14, on three processes: process 0 holds a block at level 0, process 1 two
blocks at level 1, process 2 one block at each level.  After the exchange
process 0 holds the five blocks in the order of the ranks, and process 2 holds
the same blocks at level 1 in another order. -/
theorem C14_skeleton_complete_witness :
    ((ShareBlocks shareRank0 [shareRank1, shareRank2]).1.levelAt 0).levelKeys =
        [((0, 0, 0), 0), ((1, 0, 0), 2)] ∧
      ((ShareBlocks shareRank0 [shareRank1, shareRank2]).1.levelAt 1).levelKeys =
        [((2, 0, 0), 1), ((2, 1, 0), 1), ((2, 0, 1), 2)] ∧
      (((ShareBlocks shareRank0 [shareRank1, shareRank2]).2.getD 1 shareRank0).levelAt
          1).levelKeys =
        [((2, 0, 1), 2), ((2, 0, 0), 1), ((2, 1, 0), 1)] ∧
      List.Perm
        (((ShareBlocks shareRank0 [shareRank1, shareRank2]).2.getD 1 shareRank0).levelAt
          1).levelKeys
        ((ShareBlocks shareRank0 [shareRank1, shareRank2]).1.levelAt 1).levelKeys := by
  have h := C14_skeleton_complete shareRank0 [shareRank1, shareRank2] (by decide!) (by decide!)
    (by decide!)
  exact ⟨(h.2.2.1 0).trans (by decide!), (h.2.2.1 1).trans (by decide!), by decide!,
    ((h.2.2.2.1 1 (by decide)).2 1).2.1⟩

/-! ## The boundary mask on a registry with one level -/

theorem and_and_self_right (x m : Nat) : (x &&& m) &&& x = x &&& m := by
  rw [Nat.and_comm (x &&& m) x, ← Nat.and_assoc, Nat.and_self]

theorem mem_faceDirections (f : Int × Int × Int) :
    f ∈ faceDirections ↔
      f = (-1, 0, 0) ∨ f = (1, 0, 0) ∨ f = (0, -1, 0) ∨ f = (0, 1, 0) ∨ f = (0, 0, -1) ∨
        f = (0, 0, 1) := by
  unfold faceDirections
  simp

theorem oppositeDirection_mem (f : Int × Int × Int) (hf : f ∈ faceDirections) :
    oppositeDirection f ∈ faceDirections := by
  rw [mem_faceDirections] at hf
  rcases hf with rfl | rfl | rfl | rfl | rfl | rfl <;> decide

theorem oppositeDirection_opposite (f : Int × Int × Int) :
    oppositeDirection (oppositeDirection f) = f := by
  unfold oppositeDirection
  simp

/-- The masks of the six tests of `ClaimBlockSharedRegion` clear the bit of the
face of the offset in the block and the bit of the opposite face in the
neighbour, and keep the other face bits. -/
theorem boundaryMasks_some (ix iy iz : Int) (m : Nat × Nat)
    (hm : boundaryMasks ix iy iz = some m) :
    (ix, iy, iz) ∈ faceDirections ∧
    ∀ f ∈ faceDirections,
      (m.1 &&& faceBit f = if f = (ix, iy, iz) then 0 else faceBit f) ∧
      (m.2 &&& faceBit f = if f = oppositeDirection (ix, iy, iz) then 0 else faceBit f) := by
  unfold boundaryMasks at hm
  split at hm
  · rename_i hc
    obtain ⟨rfl, rfl, rfl⟩ := hc
    cases hm
    refine ⟨by decide, fun f hf => ?_⟩
    rw [mem_faceDirections] at hf
    rcases hf with rfl | rfl | rfl | rfl | rfl | rfl <;> decide
  split at hm
  · rename_i hc
    obtain ⟨rfl, rfl, rfl⟩ := hc
    cases hm
    refine ⟨by decide, fun f hf => ?_⟩
    rw [mem_faceDirections] at hf
    rcases hf with rfl | rfl | rfl | rfl | rfl | rfl <;> decide
  split at hm
  · rename_i hc
    obtain ⟨rfl, rfl, rfl⟩ := hc
    cases hm
    refine ⟨by decide, fun f hf => ?_⟩
    rw [mem_faceDirections] at hf
    rcases hf with rfl | rfl | rfl | rfl | rfl | rfl <;> decide
  split at hm
  · rename_i hc
    obtain ⟨rfl, rfl, rfl⟩ := hc
    cases hm
    refine ⟨by decide, fun f hf => ?_⟩
    rw [mem_faceDirections] at hf
    rcases hf with rfl | rfl | rfl | rfl | rfl | rfl <;> decide
  split at hm
  · rename_i hc
    obtain ⟨rfl, rfl, rfl⟩ := hc
    cases hm
    refine ⟨by decide, fun f hf => ?_⟩
    rw [mem_faceDirections] at hf
    rcases hf with rfl | rfl | rfl | rfl | rfl | rfl <;> decide
  split at hm
  · rename_i hc
    obtain ⟨rfl, rfl, rfl⟩ := hc
    cases hm
    refine ⟨by decide, fun f hf => ?_⟩
    rw [mem_faceDirections] at hf
    rcases hf with rfl | rfl | rfl | rfl | rfl | rfl <;> decide
  · exact absurd hm (by simp)

/-- Every face direction is one of the six tests. -/
theorem boundaryMasks_face (f : Int × Int × Int) (hf : f ∈ faceDirections) :
    ∃ m, boundaryMasks f.1 f.2.1 f.2.2 = some m := by
  rw [mem_faceDirections] at hf
  have : (boundaryMasks f.1 f.2.1 f.2.2).isSome = true := by
    rcases hf with rfl | rfl | rfl | rfl | rfl | rfl <;> decide
  exact Option.isSome_iff_exists.1 this

theorem BitsOnlyCleared.rfl_bits (h : vtkAMRDualGridHelper) : BitsOnlyCleared h h :=
  fun _ => Nat.and_self _

theorem BitsOnlyCleared.then_bits {h1 h2 h3 : vtkAMRDualGridHelper}
    (a : BitsOnlyCleared h1 h2) (b : BitsOnlyCleared h2 h3) : BitsOnlyCleared h1 h3 := by
  intro q
  rw [← b q, Nat.and_assoc, a q]

theorem BitsOnlyCleared.of_modifyBlock_bits (h : vtkAMRDualGridHelper) (p : BlockPtr)
    (f : vtkAMRDualGridHelperBlock → vtkAMRDualGridHelperBlock)
    (hf : ∀ b, (f b).BoundaryBits &&& b.BoundaryBits = (f b).BoundaryBits) :
    BitsOnlyCleared h (h.modifyBlock p f) := by
  intro q
  rw [blockAt_modifyBlock]
  split
  · exact hf _
  · exact Nat.and_self _

/-- A cleared bit stays cleared in a state whose bits were only cleared. -/
theorem BitsOnlyCleared.keeps_cleared {t s : vtkAMRDualGridHelper} (a : BitsOnlyCleared t s)
    (L k : Nat) (f : Int × Int × Int) (hc : t.faceCleared L k f) : s.faceCleared L k f := by
  unfold vtkAMRDualGridHelper.faceCleared at hc ⊢
  rw [← a (L, k), Nat.and_assoc, hc, Nat.and_zero]

theorem clearBoundaryBits_bits (h : vtkAMRDualGridHelper) (block nb : BlockPtr)
    (ix iy iz : Int) : BitsOnlyCleared h (clearBoundaryBits h block nb ix iy iz) := by
  unfold clearBoundaryBits
  split
  · exact BitsOnlyCleared.rfl_bits _
  · rename_i m _
    exact (BitsOnlyCleared.of_modifyBlock_bits h block
      (fun b => { b with BoundaryBits := b.BoundaryBits &&& m.1 })
      (fun b => and_and_self_right _ _)).then_bits
      (BitsOnlyCleared.of_modifyBlock_bits _ nb
        (fun b => { b with BoundaryBits := b.BoundaryBits &&& m.2 })
        (fun b => and_and_self_right _ _))

theorem claimFound_bits (block : BlockPtr) (rx ry rz lowerLevel : Int)
    (st : ClaimState) (ix iy iz : Int) (nb : Nat) :
    BitsOnlyCleared st.helper (claimFound block rx ry rz lowerLevel st ix iy iz nb).helper := by
  unfold claimFound
  have h1 := clearBoundaryBits_bits st.helper block (lowerLevel.toNat, nb) ix iy iz
  simp only
  split
  · have h2 := h1.then_bits (BitsOnlyCleared.of_modifyBlock_bits _ (lowerLevel.toNat, nb)
      (fun b => b.setRegionBits (rx - ix - ix + 1) (ry - iy - iy + 1) (rz - iz - iz + 1) 0)
      (fun _ => Nat.and_self _))
    split <;> exact h2
  · exact h1

theorem claimNeighbor_bits (block : BlockPtr) (bx by' bz rx ry rz lowerLevel : Int)
    (d : Nat) (st : ClaimState) (ix iy iz : Int) :
    BitsOnlyCleared st.helper
      (claimNeighbor block bx by' bz rx ry rz lowerLevel d st ix iy iz).helper := by
  unfold claimNeighbor
  split
  · simp only
    split
    · exact BitsOnlyCleared.rfl_bits _
    · exact claimFound_bits _ _ _ _ _ _ _ _ _ _
  · exact BitsOnlyCleared.rfl_bits _

theorem claimLevel_bits (block : BlockPtr) (blockLevel bx by' bz rx ry rz : Int)
    (st : ClaimState) (lowerLevel : Int) :
    BitsOnlyCleared st.helper
      (claimLevel block blockLevel bx by' bz rx ry rz st lowerLevel).helper := by
  unfold claimLevel
  simp only
  split
  · apply foldl_invariant (fun s : ClaimState => BitsOnlyCleared st.helper s.helper)
    · exact BitsOnlyCleared.rfl_bits _
    · intro s o _ hs
      exact hs.then_bits (claimNeighbor_bits _ _ _ _ _ _ _ _ _ _ _ _ _)
  · exact BitsOnlyCleared.rfl_bits _

theorem claimLevels_bits (h : vtkAMRDualGridHelper) (block : BlockPtr)
    (bx by' bz rx ry rz : Int) :
    BitsOnlyCleared h (claimLevels h block bx by' bz rx ry rz).helper := by
  unfold claimLevels
  simp only
  apply foldl_invariant (fun s : ClaimState => BitsOnlyCleared h s.helper)
  · exact BitsOnlyCleared.rfl_bits _
  · intro s o _ hs
    exact hs.then_bits (claimLevel_bits _ _ _ _ _ _ _ _ _ _)

theorem CopyDegenerateRegionBlockToBlock_bits (h : vtkAMRDualGridHelper)
    (rx ry rz : Int) (low high : BlockPtr) :
    BitsOnlyCleared h (h.CopyDegenerateRegionBlockToBlock rx ry rz low high) := by
  unfold vtkAMRDualGridHelper.CopyDegenerateRegionBlockToBlock
  simp only
  have h1 : BitsOnlyCleared h (h.modifyBlock high fun b => { b with CopyFlag := true }) :=
    BitsOnlyCleared.of_modifyBlock_bits h high _ (fun _ => Nat.and_self _)
  split
  · exact BitsOnlyCleared.rfl_bits _
  split
  · exact BitsOnlyCleared.rfl_bits _
  split
  · split
    · split
      · exact h1
      · exact h1.then_bits (BitsOnlyCleared.of_modifyBlock_bits _ _ _ (fun _ => Nat.and_self _))
    · exact h1
  · exact h1

theorem ClaimBlockSharedRegion_bits (h : vtkAMRDualGridHelper) (block : BlockPtr)
    (bx by' bz rx ry rz : Int) :
    BitsOnlyCleared h (h.ClaimBlockSharedRegion block bx by' bz rx ry rz).1 := by
  have h1 := claimLevels_bits h block bx by' bz rx ry rz
  unfold vtkAMRDualGridHelper.ClaimBlockSharedRegion
  simp only
  split
  · split
    · split
      · exact h1
      · exact h1
    · exact h1.then_bits (CopyDegenerateRegionBlockToBlock_bits _ _ _ _ _ _)
  · exact h1

theorem assignRegion_bits (block : BlockPtr) (blockLevel bx by' bz : Int)
    (h : vtkAMRDualGridHelper) (r : Int × Int × Int) :
    BitsOnlyCleared h (assignRegion block blockLevel bx by' bz h r) := by
  unfold assignRegion
  simp only
  split
  · have h1 := ClaimBlockSharedRegion_bits h block bx by' bz r.1 r.2.1 r.2.2
    split
    · exact h1.then_bits (BitsOnlyCleared.of_modifyBlock_bits _ _ _ (fun _ => Nat.and_self _))
    · exact h1
  · exact BitsOnlyCleared.rfl_bits _

theorem AssignBlockSharedRegions_bits (h : vtkAMRDualGridHelper) (block : BlockPtr)
    (blockLevel bx by' bz : Int) :
    BitsOnlyCleared h (h.AssignBlockSharedRegions block blockLevel bx by' bz) := by
  unfold vtkAMRDualGridHelper.AssignBlockSharedRegions
  apply foldl_invariant (fun s : vtkAMRDualGridHelper => BitsOnlyCleared h s)
  · exact BitsOnlyCleared.rfl_bits _
  · intro s r _ hs
    exact hs.then_bits (assignRegion_bits _ _ _ _ _ _ _)

theorem assignSlot_bits (level : Nat) (h : vtkAMRDualGridHelper)
    (p : (Int × Int × Int) × Option Nat) : BitsOnlyCleared h (assignSlot level h p) := by
  unfold assignSlot
  split
  · exact BitsOnlyCleared.rfl_bits _
  · exact AssignBlockSharedRegions_bits _ _ _ _ _ _

theorem assignLevel_bits (h : vtkAMRDualGridHelper) (level : Nat) :
    BitsOnlyCleared h (assignLevel h level) := by
  unfold assignLevel
  simp only
  apply foldl_invariant (fun s : vtkAMRDualGridHelper => BitsOnlyCleared h s)
  · exact BitsOnlyCleared.rfl_bits _
  · intro s r _ hs
    exact hs.then_bits (assignSlot_bits _ _ _)

/-- `AssignSharedRegions` sets no bit of `BoundaryBits`, on any registry. -/
theorem AssignSharedRegions_bits (h : vtkAMRDualGridHelper) :
    BitsOnlyCleared h h.AssignSharedRegions := by
  unfold vtkAMRDualGridHelper.AssignSharedRegions
  apply foldl_invariant (fun s : vtkAMRDualGridHelper => BitsOnlyCleared h s)
  · exact BitsOnlyCleared.rfl_bits _
  · intro s r _ hs
    exact hs.then_bits (assignLevel_bits _ _)

/-! ### The grid of a registry with one level -/

theorem GetGridBlock_in_extent (l : vtkAMRDualGridHelperLevel) (x y z : Int) (k : Nat)
    (h : l.GetGridBlock x y z = some k) : (x, y, z) ∈ extentCoords l.GridExtent := by
  rw [mem_extentCoords]
  unfold vtkAMRDualGridHelperLevel.GetGridBlock at h
  split at h
  · exact absurd h (by simp)
  split at h
  · exact absurd h (by simp)
  split at h
  · exact absurd h (by simp)
  simp only
  omega

/-- In a registry with one level the grids of the other levels hold no block. -/
theorem OneLevel_other_level (h : vtkAMRDualGridHelper) (L : Nat) (ho : h.OneLevel L)
    (m : Nat) (hm : m ≠ L) (x y z : Int) : (h.levelAt m).GetGridBlock x y z = none := by
  cases hg : (h.levelAt m).GetGridBlock x y z with
  | none => rfl
  | some k =>
    exfalso
    have hmem := GetGridBlock_mem _ _ _ _ _ hg
    by_cases hlt : m < h.Levels.length
    · have hc := (ho.1 m (List.mem_range.2 hlt)).2.2 _ hmem k rfl
      rw [ho.2.2.1 m (List.mem_range.2 hlt) hm] at hc
      exact absurd hc (by simp)
    · have : h.levelAt m = vtkAMRDualGridHelperLevel.new := by
        unfold vtkAMRDualGridHelper.levelAt
        rw [List.getD_eq_getElem?_getD, List.getElem?_eq_none (Nat.le_of_not_lt hlt)]
        rfl
      rw [this] at hmem
      simp [vtkAMRDualGridHelperLevel.new] at hmem

/-- In a registry with one level a pointer that the grid of the level returns
points to a block of the level, and the block has the grid index asked for. -/
theorem OneLevel_grid_spec (h : vtkAMRDualGridHelper) (L : Nat) (ho : h.OneLevel L)
    (x y z : Int) (j : Nat) (hj : (h.levelAt L).GetGridBlock x y z = some j) :
    j < (h.levelAt L).Blocks.length ∧ (h.blockAt (L, j)).GridIndex = (x, y, z) := by
  refine ⟨(ho.1 L (List.mem_range.2 ho.2.1)).2.2 _ (GetGridBlock_mem _ _ _ _ _ hj) j rfl, ?_⟩
  exact ho.2.2.2.2.1 (x, y, z) (GetGridBlock_in_extent _ _ _ _ _ hj) j hj

/-- The neighbour of a block across an offset has the block as its neighbour
across the opposite offset. -/
theorem OneLevel_neighbor_spec (h : vtkAMRDualGridHelper) (L : Nat) (ho : h.OneLevel L)
    (k : Nat) (hk : k < (h.levelAt L).Blocks.length) (f : Int × Int × Int) (j : Nat)
    (hj : h.faceNeighbor L k f = some j) :
    j < (h.levelAt L).Blocks.length ∧
    (h.blockAt (L, j)).GridIndex = ((h.blockAt (L, k)).GridIndex.1 + f.1,
      (h.blockAt (L, k)).GridIndex.2.1 + f.2.1, (h.blockAt (L, k)).GridIndex.2.2 + f.2.2) ∧
    h.faceNeighbor L j (oppositeDirection f) = some k := by
  unfold vtkAMRDualGridHelper.faceNeighbor at hj
  obtain ⟨h1, h2⟩ := OneLevel_grid_spec h L ho _ _ _ j hj
  refine ⟨h1, h2, ?_⟩
  unfold vtkAMRDualGridHelper.faceNeighbor oppositeDirection
  rw [h2]
  simp only [add_neg_cancel_right]
  exact ho.2.2.2.2.2 k (List.mem_range.2 hk)

/-- Two blocks with the same neighbour across the same offset are the same
block. -/
theorem OneLevel_neighbor_inj (h : vtkAMRDualGridHelper) (L : Nat) (ho : h.OneLevel L)
    (k k' : Nat) (hk : k < (h.levelAt L).Blocks.length)
    (hk' : k' < (h.levelAt L).Blocks.length) (f : Int × Int × Int) (j : Nat)
    (hj : h.faceNeighbor L k f = some j) (hj' : h.faceNeighbor L k' f = some j) : k = k' := by
  have h1 := (OneLevel_neighbor_spec h L ho k hk f j hj).2.2
  have h2 := (OneLevel_neighbor_spec h L ho k' hk' f j hj').2.2
  rw [h1] at h2
  exact Option.some.inj h2

/-- The grid traversal of `AssignSharedRegions` meets a block at its grid
index only. -/
theorem OneLevel_slot_spec (h : vtkAMRDualGridHelper) (L : Nat) (ho : h.OneLevel L)
    (p : (Int × Int × Int) × Option Nat)
    (hp : p ∈ (extentCoords (h.levelAt L).GridExtent).zip ((h.levelAt L).Grid.getD []))
    (b : Nat) (hb : p.2 = some b) :
    b < (h.levelAt L).Blocks.length ∧ (h.blockAt (L, b)).GridIndex = p.1 := by
  have h1 := zip_extentCoords_GetGridBlock _ ho.2.2.2.1 p hp
  rw [hb] at h1
  exact OneLevel_grid_spec h L ho _ _ _ b h1.symm

/-- The grid traversal of `AssignSharedRegions` meets every block of the
level. -/
theorem OneLevel_slot_mem (h : vtkAMRDualGridHelper) (L : Nat) (ho : h.OneLevel L)
    (k : Nat) (hk : k < (h.levelAt L).Blocks.length) :
    ((h.blockAt (L, k)).GridIndex, some k) ∈
      (extentCoords (h.levelAt L).GridExtent).zip ((h.levelAt L).Grid.getD []) := by
  have hg := ho.2.2.2.2.2 k (List.mem_range.2 hk)
  have hc := GetGridBlock_in_extent _ _ _ _ _ hg
  obtain ⟨hext, hlen, _⟩ := GridWF_length _ ho.2.2.2.1
  have hc' := hc
  rw [hext] at hc'
  obtain ⟨v, hv⟩ := zip_extentCoords_mem _ _ _ _ hlen _ hc'
  rw [← hext] at hv
  have h1 := zip_extentCoords_GetGridBlock _ ho.2.2.2.1 _ hv
  simp only at h1
  rw [hg] at h1
  rw [h1] at hv
  exact hv

/-! ### One neighbour found by `ClaimBlockSharedRegion` -/

theorem bits_cleared_mono {t s : vtkAMRDualGridHelper} (a : BitsOnlyCleared t s)
    (q : BlockPtr) (b : Nat) (hc : (t.blockAt q).BoundaryBits &&& b = 0) :
    (s.blockAt q).BoundaryBits &&& b = 0 := by
  rw [← a q, Nat.and_assoc, hc, Nat.and_zero]

theorem and_mask_faceBit (x m fb : Nat) (c : Prop) [Decidable c]
    (hm : m &&& fb = if c then 0 else fb) (h0 : (x &&& m) &&& fb = 0) :
    c ∨ x &&& fb = 0 := by
  rw [Nat.and_assoc, hm] at h0
  by_cases hc : c
  · exact Or.inl hc
  · rw [if_neg hc] at h0
    exact Or.inr h0

/-- What the six tests of `ClaimBlockSharedRegion` do to the boundary bits: a
face bit that is cleared afterwards was cleared before, or it is the bit of the
offset in the block, or the bit of the opposite face in the neighbour; and
these two bits are cleared when the offset is a face direction. -/
theorem clearBoundaryBits_spec (s : vtkAMRDualGridHelper) (block nbp : BlockPtr)
    (ix iy iz : Int) :
    (∀ q f, f ∈ faceDirections →
      ((clearBoundaryBits s block nbp ix iy iz).blockAt q).BoundaryBits &&& faceBit f = 0 →
      (s.blockAt q).BoundaryBits &&& faceBit f = 0 ∨
        ((ix, iy, iz) ∈ faceDirections ∧
          ((q = block ∧ f = (ix, iy, iz)) ∨
            (q = nbp ∧ f = oppositeDirection (ix, iy, iz))))) ∧
    ((ix, iy, iz) ∈ faceDirections → s.validPtr block → s.validPtr nbp →
      ((clearBoundaryBits s block nbp ix iy iz).blockAt block).BoundaryBits &&&
          faceBit (ix, iy, iz) = 0 ∧
        ((clearBoundaryBits s block nbp ix iy iz).blockAt nbp).BoundaryBits &&&
          faceBit (oppositeDirection (ix, iy, iz)) = 0) := by
  unfold clearBoundaryBits
  cases hm : boundaryMasks ix iy iz with
  | none =>
    simp only
    refine ⟨fun q f _ hc => Or.inl hc, fun hf _ _ => ?_⟩
    obtain ⟨m, hm'⟩ := boundaryMasks_face (ix, iy, iz) hf
    rw [hm] at hm'
    exact absurd hm' (by simp)
  | some m =>
    simp only
    obtain ⟨hface, hmask⟩ := boundaryMasks_some ix iy iz m hm
    constructor
    · intro q f hf hc
      rw [blockAt_modifyBlock] at hc
      have mid : ((s.modifyBlock block fun b =>
          { b with BoundaryBits := b.BoundaryBits &&& m.1 }).blockAt q).BoundaryBits &&&
            faceBit f = 0 →
          (s.blockAt q).BoundaryBits &&& faceBit f = 0 ∨
            (q = block ∧ f = (ix, iy, iz)) := by
        intro hc'
        rw [blockAt_modifyBlock] at hc'
        split at hc'
        · rename_i hq
          simp only at hc'
          rcases and_mask_faceBit _ _ _ _ (hmask f hf).1 hc' with e | e
          · exact Or.inr ⟨hq.1.symm, e⟩
          · exact Or.inl e
        · exact Or.inl hc'
      split at hc
      · rename_i hq
        simp only at hc
        rcases and_mask_faceBit _ _ _ _ (hmask f hf).2 hc with e | e
        · exact Or.inr ⟨hface, Or.inr ⟨hq.1.symm, e⟩⟩
        · rcases mid e with e' | e'
          · exact Or.inl e'
          · exact Or.inr ⟨hface, Or.inl e'⟩
      · rcases mid hc with e' | e'
        · exact Or.inl e'
        · exact Or.inr ⟨hface, Or.inl e'⟩
    · intro _ hvb hvn
      have hmono : BitsOnlyCleared
          (s.modifyBlock block fun b => { b with BoundaryBits := b.BoundaryBits &&& m.1 })
          ((s.modifyBlock block fun b =>
            { b with BoundaryBits := b.BoundaryBits &&& m.1 }).modifyBlock nbp fun b =>
              { b with BoundaryBits := b.BoundaryBits &&& m.2 }) :=
        BitsOnlyCleared.of_modifyBlock_bits _ nbp
          (fun b => { b with BoundaryBits := b.BoundaryBits &&& m.2 })
          (fun b => and_and_self_right _ _)
      constructor
      · apply bits_cleared_mono hmono
        rw [blockAt_modifyBlock, if_pos ⟨rfl, hvb.2⟩]
        simp only
        rw [Nat.and_assoc, (hmask _ hface).1, if_pos rfl, Nat.and_zero]
      · rw [blockAt_modifyBlock, if_pos ⟨rfl, by rw [length_Blocks_modifyBlock]; exact hvn.2⟩]
        simp only
        rw [Nat.and_assoc, (hmask _ (oppositeDirection_mem _ hface)).2, if_pos rfl,
          Nat.and_zero]

theorem clearBoundaryBits_frame (s : vtkAMRDualGridHelper) (block nbp : BlockPtr)
    (ix iy iz : Int) (q : BlockPtr) :
    ((clearBoundaryBits s block nbp ix iy iz).blockAt q).GridIndex = (s.blockAt q).GridIndex ∧
    ((clearBoundaryBits s block nbp ix iy iz).blockAt q).RegionBits =
      (s.blockAt q).RegionBits := by
  unfold clearBoundaryBits
  split
  · exact ⟨rfl, rfl⟩
  · rename_i m _
    constructor
    · refine (blockAt_modifyBlock_proj (fun b => b.GridIndex) _ nbp q _ ?_).trans
        (blockAt_modifyBlock_proj (fun b => b.GridIndex) _ block q _ ?_) <;> intro _ <;> rfl
    · refine (blockAt_modifyBlock_proj (fun b => b.RegionBits) _ nbp q _ ?_).trans
        (blockAt_modifyBlock_proj (fun b => b.RegionBits) _ block q _ ?_) <;> intro _ <;> rfl

theorem regionBits_setRegionBits_ne (b : vtkAMRDualGridHelperBlock) (x y z a c d : Int)
    (v : Nat) (hne : regionBitsIndex x y z ≠ regionBitsIndex a c d) :
    (b.setRegionBits a c d v).regionBits x y z = b.regionBits x y z := by
  unfold vtkAMRDualGridHelperBlock.setRegionBits vtkAMRDualGridHelperBlock.regionBits
  simp only
  by_cases h1 : regionBitsIndex x y z < 0
  · rw [if_pos h1, if_pos h1]
  rw [if_neg h1, if_neg h1]
  unfold writeAt
  split
  · rfl
  · rename_i h2
    rw [List.getD_eq_getElem?_getD, List.getD_eq_getElem?_getD, List.getElem?_set_ne]
    omega

/-- What the branch `if (neighborBlock)` of `ClaimBlockSharedRegion` writes: no
grid index, the boundary bits as the six tests do, and of the `RegionBits` only
the entry of the neighbour at the region seen from the neighbour. -/
theorem claimFound_spec (block : BlockPtr) (rx ry rz lowerLevel : Int)
    (st : ClaimState) (ix iy iz : Int) (nb : Nat) :
    (∀ q, ((claimFound block rx ry rz lowerLevel st ix iy iz nb).helper.blockAt q).GridIndex =
      (st.helper.blockAt q).GridIndex) ∧
    (∀ q f, f ∈ faceDirections →
      ((claimFound block rx ry rz lowerLevel st ix iy iz nb).helper.blockAt q).BoundaryBits &&&
        faceBit f = 0 →
      (st.helper.blockAt q).BoundaryBits &&& faceBit f = 0 ∨
        ((ix, iy, iz) ∈ faceDirections ∧
          ((q = block ∧ f = (ix, iy, iz)) ∨
            (q = (lowerLevel.toNat, nb) ∧ f = oppositeDirection (ix, iy, iz))))) ∧
    ((ix, iy, iz) ∈ faceDirections → st.helper.validPtr block →
      st.helper.validPtr (lowerLevel.toNat, nb) →
      ((claimFound block rx ry rz lowerLevel st ix iy iz nb).helper.blockAt
          block).BoundaryBits &&& faceBit (ix, iy, iz) = 0 ∧
        ((claimFound block rx ry rz lowerLevel st ix iy iz nb).helper.blockAt
          (lowerLevel.toNat, nb)).BoundaryBits &&&
            faceBit (oppositeDirection (ix, iy, iz)) = 0) ∧
    (∀ q x y z,
      ((claimFound block rx ry rz lowerLevel st ix iy iz nb).helper.blockAt q).regionBits x y z =
          (st.helper.blockAt q).regionBits x y z ∨
        (q = (lowerLevel.toNat, nb) ∧
          regionBitsIndex x y z =
            regionBitsIndex (rx - ix - ix + 1) (ry - iy - iy + 1) (rz - iz - iz + 1))) := by
  have hspec := clearBoundaryBits_spec st.helper block (lowerLevel.toNat, nb) ix iy iz
  have hframe := clearBoundaryBits_frame st.helper block (lowerLevel.toNat, nb) ix iy iz
  have hreg : ∀ q x y z,
      ((clearBoundaryBits st.helper block (lowerLevel.toNat, nb) ix iy iz).blockAt q).regionBits
        x y z = (st.helper.blockAt q).regionBits x y z := by
    intro q x y z
    unfold vtkAMRDualGridHelperBlock.regionBits
    rw [(hframe q).2]
  have hset : ∀ q,
      (((clearBoundaryBits st.helper block (lowerLevel.toNat, nb) ix iy iz).modifyBlock
        (lowerLevel.toNat, nb) fun b =>
          b.setRegionBits (rx - ix - ix + 1) (ry - iy - iy + 1) (rz - iz - iz + 1) 0).blockAt
            q).GridIndex = (st.helper.blockAt q).GridIndex ∧
      (((clearBoundaryBits st.helper block (lowerLevel.toNat, nb) ix iy iz).modifyBlock
        (lowerLevel.toNat, nb) fun b =>
          b.setRegionBits (rx - ix - ix + 1) (ry - iy - iy + 1) (rz - iz - iz + 1) 0).blockAt
            q).BoundaryBits =
        ((clearBoundaryBits st.helper block (lowerLevel.toNat, nb) ix iy iz).blockAt
          q).BoundaryBits ∧
      ∀ x y z,
        (((clearBoundaryBits st.helper block (lowerLevel.toNat, nb) ix iy iz).modifyBlock
          (lowerLevel.toNat, nb) fun b =>
            b.setRegionBits (rx - ix - ix + 1) (ry - iy - iy + 1) (rz - iz - iz + 1) 0).blockAt
              q).regionBits x y z = (st.helper.blockAt q).regionBits x y z ∨
          (q = (lowerLevel.toNat, nb) ∧
            regionBitsIndex x y z =
              regionBitsIndex (rx - ix - ix + 1) (ry - iy - iy + 1) (rz - iz - iz + 1)) := by
    intro q
    refine ⟨?_, ?_, ?_⟩
    · refine (blockAt_modifyBlock_proj (fun b => b.GridIndex) _ _ q _ ?_).trans (hframe q).1
      intro _; rfl
    · refine blockAt_modifyBlock_proj (fun b => b.BoundaryBits) _ _ q _ ?_
      intro _; rfl
    · intro x y z
      rw [blockAt_modifyBlock]
      split
      · rename_i hq
        by_cases he : regionBitsIndex x y z =
            regionBitsIndex (rx - ix - ix + 1) (ry - iy - iy + 1) (rz - iz - iz + 1)
        · exact Or.inr ⟨hq.1.symm, he⟩
        · rw [regionBits_setRegionBits_ne _ _ _ _ _ _ _ _ he]
          exact Or.inl (hreg q x y z)
      · exact Or.inl (hreg q x y z)
  unfold claimFound
  simp only
  split
  · have key :
        (∀ q, (((clearBoundaryBits st.helper block (lowerLevel.toNat, nb) ix iy iz).modifyBlock
          (lowerLevel.toNat, nb) fun b =>
            b.setRegionBits (rx - ix - ix + 1) (ry - iy - iy + 1) (rz - iz - iz + 1) 0).blockAt
              q).GridIndex = (st.helper.blockAt q).GridIndex) ∧
        (∀ q f, f ∈ faceDirections →
          (((clearBoundaryBits st.helper block (lowerLevel.toNat, nb) ix iy iz).modifyBlock
            (lowerLevel.toNat, nb) fun b =>
              b.setRegionBits (rx - ix - ix + 1) (ry - iy - iy + 1) (rz - iz - iz + 1)
                0).blockAt q).BoundaryBits &&& faceBit f = 0 →
          (st.helper.blockAt q).BoundaryBits &&& faceBit f = 0 ∨
            ((ix, iy, iz) ∈ faceDirections ∧
              ((q = block ∧ f = (ix, iy, iz)) ∨
                (q = (lowerLevel.toNat, nb) ∧ f = oppositeDirection (ix, iy, iz))))) ∧
        ((ix, iy, iz) ∈ faceDirections → st.helper.validPtr block →
          st.helper.validPtr (lowerLevel.toNat, nb) →
          (((clearBoundaryBits st.helper block (lowerLevel.toNat, nb) ix iy iz).modifyBlock
            (lowerLevel.toNat, nb) fun b =>
              b.setRegionBits (rx - ix - ix + 1) (ry - iy - iy + 1) (rz - iz - iz + 1)
                0).blockAt block).BoundaryBits &&& faceBit (ix, iy, iz) = 0 ∧
            (((clearBoundaryBits st.helper block (lowerLevel.toNat, nb) ix iy iz).modifyBlock
              (lowerLevel.toNat, nb) fun b =>
                b.setRegionBits (rx - ix - ix + 1) (ry - iy - iy + 1) (rz - iz - iz + 1)
                  0).blockAt (lowerLevel.toNat, nb)).BoundaryBits &&&
                faceBit (oppositeDirection (ix, iy, iz)) = 0) ∧
        (∀ q x y z,
          (((clearBoundaryBits st.helper block (lowerLevel.toNat, nb) ix iy iz).modifyBlock
            (lowerLevel.toNat, nb) fun b =>
              b.setRegionBits (rx - ix - ix + 1) (ry - iy - iy + 1) (rz - iz - iz + 1)
                0).blockAt q).regionBits x y z = (st.helper.blockAt q).regionBits x y z ∨
            (q = (lowerLevel.toNat, nb) ∧
              regionBitsIndex x y z =
                regionBitsIndex (rx - ix - ix + 1) (ry - iy - iy + 1) (rz - iz - iz + 1))) := by
      refine ⟨fun q => (hset q).1, fun q f hf hc => ?_, fun hf hvb hvn => ?_,
        fun q x y z => (hset q).2.2 x y z⟩
      · rw [(hset q).2.1] at hc
        exact hspec.1 q f hf hc
      · rw [(hset block).2.1, (hset (lowerLevel.toNat, nb)).2.1]
        exact hspec.2 hf hvb hvn
    split <;> exact key
  · exact ⟨fun q => (hframe q).1, hspec.1, hspec.2, fun q x y z => Or.inl (hreg q x y z)⟩

/-! ### The state of the faces in the course of `AssignSharedRegions` -/

/-- A property that no step of a loop destroys and that one iteration
establishes holds after the loop. -/
theorem foldl_reaches {σ α : Type} (Q P : σ → Prop) (f : σ → α → σ) (l : List α) (s : σ)
    (a : α) (ha : a ∈ l) (h0 : Q s) (hstep : ∀ t, ∀ b ∈ l, Q t → Q (f t b))
    (hstable : ∀ t b, P t → P (f t b)) (hreach : ∀ t, Q t → P (f t a)) :
    P (l.foldl f s) := by
  induction l generalizing s with
  | nil => exact absurd ha (List.not_mem_nil _)
  | cons b l ih =>
    rw [List.foldl_cons]
    rcases List.mem_cons.1 ha with e | e
    · subst e
      exact foldl_invariant P f l _ (hreach s h0) (fun t b _ ht => hstable t b ht)
    · exact ih (f s b) e (hstep s b (List.mem_cons_self _ _) h0)
        (fun t c hc ht => hstep t c (List.mem_cons_of_mem _ hc) ht)

theorem mem_neighborOffsets (rx ry rz : Int) (o : Int × Int × Int)
    (hr : (-1 ≤ rx ∧ rx ≤ 1) ∧ (-1 ≤ ry ∧ ry ≤ 1) ∧ (-1 ≤ rz ∧ rz ≤ 1)) :
    o ∈ neighborOffsets rx ry rz ↔
      (o.1 = 0 ∨ o.1 = rx) ∧ (o.2.1 = 0 ∨ o.2.1 = ry) ∧ (o.2.2 = 0 ∨ o.2.2 = rz) := by
  obtain ⟨x, y, z⟩ := o
  unfold neighborOffsets
  simp only [List.mem_flatMap, List.mem_map, mem_intRange, Prod.mk.injEq]
  constructor
  · rintro ⟨k, hk, j, hj, i, hi, rfl, rfl, rfl⟩
    refine ⟨?_, ?_, ?_⟩
    · split_ifs at hi <;> omega
    · split_ifs at hj <;> omega
    · split_ifs at hk <;> omega
  · rintro ⟨hx, hy, hz⟩
    refine ⟨z, ?_, y, ?_, x, ?_, rfl, rfl, rfl⟩
    · split_ifs <;> omega
    · split_ifs <;> omega
    · split_ifs <;> omega

theorem mem_regionDirections (r : Int × Int × Int) :
    r ∈ regionDirections ↔
      (-1 ≤ r.1 ∧ r.1 ≤ 1) ∧ (-1 ≤ r.2.1 ∧ r.2.1 ≤ 1) ∧ (-1 ≤ r.2.2 ∧ r.2.2 ≤ 1) := by
  obtain ⟨x, y, z⟩ := r
  unfold regionDirections
  simp only [List.mem_flatMap, List.mem_map, mem_intRange, Prod.mk.injEq]
  constructor
  · rintro ⟨k, hk, j, hj, i, hi, rfl, rfl, rfl⟩
    exact ⟨hi, hj, hk⟩
  · rintro ⟨hx, hy, hz⟩
    exact ⟨z, hz, y, hy, x, hx, rfl, rfl, rfl⟩

theorem faceDirections_bounds (f : Int × Int × Int) (hf : f ∈ faceDirections) :
    ((-1 ≤ f.1 ∧ f.1 ≤ 1) ∧ (-1 ≤ f.2.1 ∧ f.2.1 ≤ 1) ∧ (-1 ≤ f.2.2 ∧ f.2.2 ≤ 1)) ∧
      (f.1 ≠ 0 ∨ f.2.1 ≠ 0 ∨ f.2.2 ≠ 0) := by
  rw [mem_faceDirections] at hf
  rcases hf with rfl | rfl | rfl | rfl | rfl | rfl <;> decide

/-- The region of the neighbour that `ClaimBlockSharedRegion` takes the
ownership of is a face of the neighbour only when the offset is the opposite
face direction. -/
theorem neighbor_region_face (rx ry rz ix iy iz : Int)
    (hr : (-1 ≤ rx ∧ rx ≤ 1) ∧ (-1 ≤ ry ∧ ry ≤ 1) ∧ (-1 ≤ rz ∧ rz ≤ 1))
    (hi : ix ≠ 0 ∨ iy ≠ 0 ∨ iz ≠ 0)
    (hbox : (ix = 0 ∨ ix = rx) ∧ (iy = 0 ∨ iy = ry) ∧ (iz = 0 ∨ iz = rz))
    (hf : (rx - ix - ix, ry - iy - iy, rz - iz - iz) ∈ faceDirections) :
    (ix, iy, iz) ∈ faceDirections ∧
      (rx - ix - ix, ry - iy - iy, rz - iz - iz) = oppositeDirection (ix, iy, iz) := by
  rw [mem_faceDirections] at hf
  simp only [Prod.mk.injEq] at hf
  rcases hf with hc | hc | hc | hc | hc | hc
  · have h1 : ix = 1 ∧ iy = 0 ∧ iz = 0 ∧ rx = 1 ∧ ry = 0 ∧ rz = 0 := by omega
    obtain ⟨rfl, rfl, rfl, rfl, rfl, rfl⟩ := h1
    exact ⟨by decide, by decide⟩
  · have h1 : ix = -1 ∧ iy = 0 ∧ iz = 0 ∧ rx = -1 ∧ ry = 0 ∧ rz = 0 := by omega
    obtain ⟨rfl, rfl, rfl, rfl, rfl, rfl⟩ := h1
    exact ⟨by decide, by decide⟩
  · have h1 : ix = 0 ∧ iy = 1 ∧ iz = 0 ∧ rx = 0 ∧ ry = 1 ∧ rz = 0 := by omega
    obtain ⟨rfl, rfl, rfl, rfl, rfl, rfl⟩ := h1
    exact ⟨by decide, by decide⟩
  · have h1 : ix = 0 ∧ iy = -1 ∧ iz = 0 ∧ rx = 0 ∧ ry = -1 ∧ rz = 0 := by omega
    obtain ⟨rfl, rfl, rfl, rfl, rfl, rfl⟩ := h1
    exact ⟨by decide, by decide⟩
  · have h1 : ix = 0 ∧ iy = 0 ∧ iz = 1 ∧ rx = 0 ∧ ry = 0 ∧ rz = 1 := by omega
    obtain ⟨rfl, rfl, rfl, rfl, rfl, rfl⟩ := h1
    exact ⟨by decide, by decide⟩
  · have h1 : ix = 0 ∧ iy = 0 ∧ iz = -1 ∧ rx = 0 ∧ ry = 0 ∧ rz = -1 := by omega
    obtain ⟨rfl, rfl, rfl, rfl, rfl, rfl⟩ := h1
    exact ⟨by decide, by decide⟩

/-- One neighbour found keeps the state of the faces: the two bits cleared
belong to two blocks that share the face of the offset, and the region taken
from the neighbour is a face only when these two bits are cleared in the same
step. -/
theorem FacesTracked_step (h : vtkAMRDualGridHelper) (L : Nat) (ho : h.OneLevel L)
    (s s' : vtkAMRDualGridHelper) (k nb : Nat) (i r' : Int × Int × Int)
    (hk : k < (h.levelAt L).Blocks.length)
    (hnb : h.faceNeighbor L k i = some nb)
    (hT : FacesTracked h s L)
    (hmono : BitsOnlyCleared s s')
    (hB1 : ∀ k' f, f ∈ faceDirections → s'.faceCleared L k' f →
      s.faceCleared L k' f ∨
        (i ∈ faceDirections ∧ ((k' = k ∧ f = i) ∨ (k' = nb ∧ f = oppositeDirection i))))
    (hB2 : i ∈ faceDirections →
      s'.faceCleared L k i ∧ s'.faceCleared L nb (oppositeDirection i))
    (hR1 : ∀ k' f, f ∈ faceDirections → s.ownsRegion L k' f →
      s'.ownsRegion L k' f ∨ (k' = nb ∧ f = r'))
    (hr' : r' ∈ faceDirections → i ∈ faceDirections ∧ r' = oppositeDirection i) :
    FacesTracked h s' L := by
  obtain ⟨_, _, hj3⟩ := OneLevel_neighbor_spec h L ho k hk i nb hnb
  constructor
  · intro k' f hf hc
    rcases hB1 k' f hf hc with e | ⟨_, ⟨e1, e2⟩ | ⟨e1, e2⟩⟩
    · exact hT.1 k' f hf e
    · rw [e1, e2, hnb]
      simp
    · rw [e1, e2, hj3]
      simp
  · intro k' f j' hf hk' hj'
    rcases hT.2 k' f j' hf hk' hj' with ⟨c1, c2⟩ | ⟨o1, o2⟩
    · exact Or.inl ⟨hmono.keeps_cleared L k' f c1, hmono.keeps_cleared L j' _ c2⟩
    · rcases hR1 k' f hf o1 with a1 | ⟨e1, e2⟩
      · rcases hR1 j' (oppositeDirection f) (oppositeDirection_mem f hf) o2 with
          a2 | ⟨e3, e4⟩
        · exact Or.inr ⟨a1, a2⟩
        · obtain ⟨hif, hri⟩ := hr' (e4 ▸ oppositeDirection_mem f hf)
          have hfi : f = i := by
            have := congrArg oppositeDirection (e4.trans hri)
            rwa [oppositeDirection_opposite, oppositeDirection_opposite] at this
          rw [hfi, e3] at hj'
          have hkk : k' = k := OneLevel_neighbor_inj h L ho k' k hk' hk i nb hj' hnb
          rw [hkk, hfi, e3]
          exact Or.inl (hB2 hif)
      · obtain ⟨hif, hri⟩ := hr' (e2 ▸ hf)
        have hfi : f = oppositeDirection i := e2.trans hri
        rw [e1, hfi, hj3] at hj'
        have hjk : k = j' := Option.some.inj hj'
        rw [e1, hfi, ← hjk, oppositeDirection_opposite]
        exact Or.inl ⟨(hB2 hif).2, (hB2 hif).1⟩

theorem Evolved.valid_of {h s : vtkAMRDualGridHelper} (hE : Evolved h s) (L k : Nat)
    (hL : L < h.Levels.length) (hk : k < (h.levelAt L).Blocks.length) :
    s.validPtr (L, k) := by
  unfold vtkAMRDualGridHelper.validPtr
  simp only
  rw [hE.1.1, (hE.1.2.2.2.2.1 L).2.2.2.2.2]
  exact ⟨hL, hk⟩

/-- A neighbour found at the level of the block, in a registry with one level:
the state stays a later state of the registry, the faces stay tracked, and the
bit of the offset is cleared in the block when the offset is a face
direction. -/
theorem claimFound_tracked (h : vtkAMRDualGridHelper) (L : Nat) (ho : h.OneLevel L)
    (k : Nat) (hk : k < (h.levelAt L).Blocks.length) (rx ry rz : Int)
    (hr : (-1 ≤ rx ∧ rx ≤ 1) ∧ (-1 ≤ ry ∧ ry ≤ 1) ∧ (-1 ≤ rz ∧ rz ≤ 1))
    (st : ClaimState) (hE : Evolved h st.helper) (hT : FacesTracked h st.helper L)
    (ix iy iz : Int) (hi : ix ≠ 0 ∨ iy ≠ 0 ∨ iz ≠ 0)
    (hbox : (ix = 0 ∨ ix = rx) ∧ (iy = 0 ∨ iy = ry) ∧ (iz = 0 ∨ iz = rz))
    (nb : Nat) (hnb : h.faceNeighbor L k (ix, iy, iz) = some nb) :
    Evolved h (claimFound (L, k) rx ry rz (L : Int) st ix iy iz nb).helper ∧
    FacesTracked h (claimFound (L, k) rx ry rz (L : Int) st ix iy iz nb).helper L ∧
    ((ix, iy, iz) ∈ faceDirections →
      (claimFound (L, k) rx ry rz (L : Int) st ix iy iz nb).helper.faceCleared L k
        (ix, iy, iz)) := by
  obtain ⟨s1, s2, s3, s4⟩ := claimFound_spec (L, k) rx ry rz (L : Int) st ix iy iz nb
  simp only [Int.toNat_ofNat] at s2 s3 s4
  have hvk : st.helper.validPtr (L, k) := hE.valid_of L k ho.2.1 hk
  have hvn : st.helper.validPtr (L, nb) :=
    hE.valid_of L nb ho.2.1 (OneLevel_neighbor_spec h L ho k hk _ nb hnb).1
  refine ⟨⟨hE.1.then_grids (claimFound_SameGrids _ _ _ _ _ _ _ _ _ _),
    fun q => (s1 q).trans (hE.2 q)⟩, ?_, fun hf => (s3 hf hvk hvn).1⟩
  refine FacesTracked_step h L ho st.helper _ k nb (ix, iy, iz)
    (rx - ix - ix, ry - iy - iy, rz - iz - iz) hk hnb hT
    (claimFound_bits _ _ _ _ _ _ _ _ _ _) ?_ (fun hf => s3 hf hvk hvn) ?_
    (neighbor_region_face rx ry rz ix iy iz hr hi hbox)
  · intro k' f hf hc
    rcases s2 (L, k') f hf hc with e | ⟨hif, ⟨e1, e2⟩ | ⟨e1, e2⟩⟩
    · exact Or.inl e
    · exact Or.inr ⟨hif, Or.inl ⟨(Prod.mk.inj e1).2, e2⟩⟩
    · exact Or.inr ⟨hif, Or.inr ⟨(Prod.mk.inj e1).2, e2⟩⟩
  · intro k' f hf hown
    unfold vtkAMRDualGridHelper.ownsRegion at hown ⊢
    rcases s4 (L, k') (f.1 + 1) (f.2.1 + 1) (f.2.2 + 1) with e | ⟨e1, e2⟩
    · left
      rw [e]
      exact hown
    · right
      refine ⟨(Prod.mk.inj e1).2, ?_⟩
      obtain ⟨hb, _⟩ := faceDirections_bounds f hf
      obtain ⟨f1, f2, f3⟩ := f
      unfold regionBitsIndex at e2
      simp only at e2 hb
      simp only [Prod.mk.injEq]
      omega

/-! ### The loops of `ClaimBlockSharedRegion` on a registry with one level -/

theorem claimNeighbor_other (h : vtkAMRDualGridHelper) (L : Nat) (ho : h.OneLevel L)
    (block : BlockPtr) (bx by' bz rx ry rz lowerLevel : Int) (d : Nat) (st : ClaimState)
    (hE : Evolved h st.helper) (hll : lowerLevel.toNat ≠ L) (ix iy iz : Int) :
    claimNeighbor block bx by' bz rx ry rz lowerLevel d st ix iy iz = st := by
  unfold claimNeighbor
  split
  · simp only
    rw [hE.1.getGridBlock_eq, OneLevel_other_level h L ho _ hll]
  · rfl

/-- The levels other than the level of the blocks hold no neighbour. -/
theorem claimLevel_other (h : vtkAMRDualGridHelper) (L : Nat) (ho : h.OneLevel L)
    (block : BlockPtr) (blockLevel bx by' bz rx ry rz : Int) (st : ClaimState)
    (lowerLevel : Int) (hE : Evolved h st.helper) (hll : lowerLevel.toNat ≠ L) :
    claimLevel block blockLevel bx by' bz rx ry rz st lowerLevel = st := by
  unfold claimLevel
  simp only
  split
  · apply foldl_invariant (fun s : ClaimState => s = st)
    · rfl
    · intro s o _ hs
      rw [hs]
      exact claimNeighbor_other h L ho _ _ _ _ _ _ _ _ _ st hE hll _ _ _
  · rfl

theorem claimNeighbor_tracked (h : vtkAMRDualGridHelper) (L : Nat) (ho : h.OneLevel L)
    (k : Nat) (hk : k < (h.levelAt L).Blocks.length) (rx ry rz : Int)
    (hr : (-1 ≤ rx ∧ rx ≤ 1) ∧ (-1 ≤ ry ∧ ry ≤ 1) ∧ (-1 ≤ rz ∧ rz ≤ 1))
    (st : ClaimState) (hE : Evolved h st.helper) (hT : FacesTracked h st.helper L)
    (o : Int × Int × Int) (hoff : o ∈ neighborOffsets rx ry rz) :
    Evolved h (claimNeighbor (L, k) (h.blockAt (L, k)).GridIndex.1
      (h.blockAt (L, k)).GridIndex.2.1 (h.blockAt (L, k)).GridIndex.2.2 rx ry rz (L : Int) 0 st
      o.1 o.2.1 o.2.2).helper ∧
    FacesTracked h (claimNeighbor (L, k) (h.blockAt (L, k)).GridIndex.1
      (h.blockAt (L, k)).GridIndex.2.1 (h.blockAt (L, k)).GridIndex.2.2 rx ry rz (L : Int) 0 st
      o.1 o.2.1 o.2.2).helper L ∧
    (o ∈ faceDirections → h.faceNeighbor L k o ≠ none →
      (claimNeighbor (L, k) (h.blockAt (L, k)).GridIndex.1
        (h.blockAt (L, k)).GridIndex.2.1 (h.blockAt (L, k)).GridIndex.2.2 rx ry rz (L : Int) 0
        st o.1 o.2.1 o.2.2).helper.faceCleared L k o) := by
  have hbox := (mem_neighborOffsets rx ry rz o hr).1 hoff
  obtain ⟨o1, o2, o3⟩ := o
  simp only at hbox ⊢
  unfold claimNeighbor
  split
  · rename_i hi
    simp only [int_shiftRight_zero, Int.toNat_ofNat]
    rw [hE.1.getGridBlock_eq]
    cases hg : (h.levelAt L).GetGridBlock ((h.blockAt (L, k)).GridIndex.1 + o1)
        ((h.blockAt (L, k)).GridIndex.2.1 + o2) ((h.blockAt (L, k)).GridIndex.2.2 + o3) with
    | none =>
      simp only
      exact ⟨hE, hT, fun _ hn => absurd hg hn⟩
    | some nb =>
      simp only
      have t := claimFound_tracked h L ho k hk rx ry rz hr st hE hT o1 o2 o3 hi hbox nb hg
      exact ⟨t.1, t.2.1, fun hf _ => t.2.2 hf⟩
  · rename_i hi
    refine ⟨hE, hT, fun hf _ => ?_⟩
    exact absurd (faceDirections_bounds _ hf).2 hi

theorem onLowerGridBoundary_zero (bx by' bz rx ry rz : Int)
    (hf : (rx, ry, rz) ∈ faceDirections) : onLowerGridBoundary bx by' bz rx ry rz 0 := by
  unfold onLowerGridBoundary
  simp only [int_shiftRight_zero, pow_zero, mul_one, and_true]
  rw [mem_faceDirections] at hf
  simp only [Prod.mk.injEq] at hf
  omega

/-- The neighbour loop at the level of the block: the faces stay tracked, and
when the region is a face with a block behind it, the bit of the face is
cleared in the block. -/
theorem claimLevel_tracked (h : vtkAMRDualGridHelper) (L : Nat) (ho : h.OneLevel L)
    (k : Nat) (hk : k < (h.levelAt L).Blocks.length) (rx ry rz : Int)
    (hr : (-1 ≤ rx ∧ rx ≤ 1) ∧ (-1 ≤ ry ∧ ry ≤ 1) ∧ (-1 ≤ rz ∧ rz ≤ 1))
    (st : ClaimState) (hE : Evolved h st.helper) (hT : FacesTracked h st.helper L) :
    Evolved h (claimLevel (L, k) (L : Int) (h.blockAt (L, k)).GridIndex.1
      (h.blockAt (L, k)).GridIndex.2.1 (h.blockAt (L, k)).GridIndex.2.2 rx ry rz st
      (L : Int)).helper ∧
    FacesTracked h (claimLevel (L, k) (L : Int) (h.blockAt (L, k)).GridIndex.1
      (h.blockAt (L, k)).GridIndex.2.1 (h.blockAt (L, k)).GridIndex.2.2 rx ry rz st
      (L : Int)).helper L ∧
    ((rx, ry, rz) ∈ faceDirections → h.faceNeighbor L k (rx, ry, rz) ≠ none →
      (claimLevel (L, k) (L : Int) (h.blockAt (L, k)).GridIndex.1
        (h.blockAt (L, k)).GridIndex.2.1 (h.blockAt (L, k)).GridIndex.2.2 rx ry rz st
        (L : Int)).helper.faceCleared L k (rx, ry, rz)) := by
  unfold claimLevel
  simp only [sub_self, Int.toNat_zero]
  split
  · have hinv : ∀ t : ClaimState, ∀ o ∈ neighborOffsets rx ry rz,
        (Evolved h t.helper ∧ FacesTracked h t.helper L) →
        (Evolved h (claimNeighbor (L, k) (h.blockAt (L, k)).GridIndex.1
          (h.blockAt (L, k)).GridIndex.2.1 (h.blockAt (L, k)).GridIndex.2.2 rx ry rz (L : Int)
          0 t o.1 o.2.1 o.2.2).helper ∧
        FacesTracked h (claimNeighbor (L, k) (h.blockAt (L, k)).GridIndex.1
          (h.blockAt (L, k)).GridIndex.2.1 (h.blockAt (L, k)).GridIndex.2.2 rx ry rz (L : Int)
          0 t o.1 o.2.1 o.2.2).helper L) := by
      intro t o hoff ht
      have := claimNeighbor_tracked h L ho k hk rx ry rz hr t ht.1 ht.2 o hoff
      exact ⟨this.1, this.2.1⟩
    have h12 := foldl_invariant
      (fun t : ClaimState => Evolved h t.helper ∧ FacesTracked h t.helper L)
      (fun s o => claimNeighbor (L, k) (h.blockAt (L, k)).GridIndex.1
        (h.blockAt (L, k)).GridIndex.2.1 (h.blockAt (L, k)).GridIndex.2.2 rx ry rz (L : Int)
        0 s o.1 o.2.1 o.2.2) (neighborOffsets rx ry rz) st ⟨hE, hT⟩ hinv
    refine ⟨h12.1, h12.2, fun hf hn => ?_⟩
    have hmem : (rx, ry, rz) ∈ neighborOffsets rx ry rz :=
      (mem_neighborOffsets rx ry rz _ hr).2 ⟨Or.inr rfl, Or.inr rfl, Or.inr rfl⟩
    have X := foldl_reaches
      (fun t : ClaimState => Evolved h t.helper ∧ FacesTracked h t.helper L)
      (fun t : ClaimState => t.helper.faceCleared L k (rx, ry, rz))
      (fun s o => claimNeighbor (L, k) (h.blockAt (L, k)).GridIndex.1
        (h.blockAt (L, k)).GridIndex.2.1 (h.blockAt (L, k)).GridIndex.2.2 rx ry rz (L : Int)
        0 s o.1 o.2.1 o.2.2) (neighborOffsets rx ry rz) st (rx, ry, rz) hmem ⟨hE, hT⟩ hinv
    refine X ?_ ?_
    · intro t b ht
      exact BitsOnlyCleared.keeps_cleared (claimNeighbor_bits (L, k)
        (h.blockAt (L, k)).GridIndex.1 (h.blockAt (L, k)).GridIndex.2.1
        (h.blockAt (L, k)).GridIndex.2.2 rx ry rz (L : Int) 0 t b.1 b.2.1 b.2.2) L k
        (rx, ry, rz) ht
    · intro t ht
      exact (claimNeighbor_tracked h L ho k hk rx ry rz hr t ht.1 ht.2 (rx, ry, rz)
        hmem).2.2 hf hn
  · rename_i hnot
    exact ⟨hE, hT, fun hf _ => absurd (onLowerGridBoundary_zero _ _ _ _ _ _ hf) hnot⟩

/-- The loop over the levels of `ClaimBlockSharedRegion` on a registry with one
level: the faces stay tracked, the best level stays the level of the block,
and when the region is a face with a block behind it, the bit of the face is
cleared in the block. -/
theorem claimLevels_tracked (h : vtkAMRDualGridHelper) (L : Nat) (ho : h.OneLevel L)
    (k : Nat) (hk : k < (h.levelAt L).Blocks.length) (rx ry rz : Int)
    (hr : (-1 ≤ rx ∧ rx ≤ 1) ∧ (-1 ≤ ry ∧ ry ≤ 1) ∧ (-1 ≤ rz ∧ rz ≤ 1))
    (s : vtkAMRDualGridHelper) (hE : Evolved h s) (hT : FacesTracked h s L) :
    Evolved h (claimLevels s (L, k) (h.blockAt (L, k)).GridIndex.1
      (h.blockAt (L, k)).GridIndex.2.1 (h.blockAt (L, k)).GridIndex.2.2 rx ry rz).helper ∧
    FacesTracked h (claimLevels s (L, k) (h.blockAt (L, k)).GridIndex.1
      (h.blockAt (L, k)).GridIndex.2.1 (h.blockAt (L, k)).GridIndex.2.2 rx ry rz).helper L ∧
    ((rx, ry, rz) ∈ faceDirections → h.faceNeighbor L k (rx, ry, rz) ≠ none →
      (claimLevels s (L, k) (h.blockAt (L, k)).GridIndex.1
        (h.blockAt (L, k)).GridIndex.2.1 (h.blockAt (L, k)).GridIndex.2.2 rx ry
        rz).helper.faceCleared L k (rx, ry, rz)) ∧
    (claimLevels s (L, k) (h.blockAt (L, k)).GridIndex.1
      (h.blockAt (L, k)).GridIndex.2.1 (h.blockAt (L, k)).GridIndex.2.2 rx ry rz).bestLevel =
        (L : Int) := by
  have hlev : (s.blockAt (L, k)).Level = (L : Int) :=
    (hE.1.2.2.2.2.2.1 (L, k)).trans
      (blockAt_Level_of_consistent h ho.1 (L, k) ⟨ho.2.1, hk⟩)
  have hbest : (claimLevels s (L, k) (h.blockAt (L, k)).GridIndex.1
      (h.blockAt (L, k)).GridIndex.2.1 (h.blockAt (L, k)).GridIndex.2.2 rx ry rz).bestLevel =
        (L : Int) := by
    rcases (claimLevels_inv s (L, k) (h.blockAt (L, k)).GridIndex.1
      (h.blockAt (L, k)).GridIndex.2.1 (h.blockAt (L, k)).GridIndex.2.2 rx ry rz).2 with
      ⟨e, _⟩ | ⟨h0, h1, o, _, nb, hg, _⟩
    · exact e.trans hlev
    · by_contra hne
      rw [hlev] at h1
      have hne' : (claimLevels s (L, k) (h.blockAt (L, k)).GridIndex.1
          (h.blockAt (L, k)).GridIndex.2.1 (h.blockAt (L, k)).GridIndex.2.2 rx ry
          rz).bestLevel.toNat ≠ L := by omega
      rw [hE.1.getGridBlock_eq, OneLevel_other_level h L ho _ hne'] at hg
      exact absurd hg (by simp)
  have main : Evolved h (claimLevels s (L, k) (h.blockAt (L, k)).GridIndex.1
        (h.blockAt (L, k)).GridIndex.2.1 (h.blockAt (L, k)).GridIndex.2.2 rx ry rz).helper ∧
      FacesTracked h (claimLevels s (L, k) (h.blockAt (L, k)).GridIndex.1
        (h.blockAt (L, k)).GridIndex.2.1 (h.blockAt (L, k)).GridIndex.2.2 rx ry rz).helper L ∧
      ((rx, ry, rz) ∈ faceDirections → h.faceNeighbor L k (rx, ry, rz) ≠ none →
        (claimLevels s (L, k) (h.blockAt (L, k)).GridIndex.1
          (h.blockAt (L, k)).GridIndex.2.1 (h.blockAt (L, k)).GridIndex.2.2 rx ry
          rz).helper.faceCleared L k (rx, ry, rz)) := by
    unfold claimLevels
    simp only
    rw [hlev]
    have hinv : ∀ t : ClaimState, ∀ ll ∈ (intRange 0 (L : Int)).reverse,
        (Evolved h t.helper ∧ FacesTracked h t.helper L) →
        (Evolved h (claimLevel (L, k) (L : Int) (h.blockAt (L, k)).GridIndex.1
          (h.blockAt (L, k)).GridIndex.2.1 (h.blockAt (L, k)).GridIndex.2.2 rx ry rz t
          ll).helper ∧
        FacesTracked h (claimLevel (L, k) (L : Int) (h.blockAt (L, k)).GridIndex.1
          (h.blockAt (L, k)).GridIndex.2.1 (h.blockAt (L, k)).GridIndex.2.2 rx ry rz t
          ll).helper L) := by
      intro t ll hl ht
      rw [List.mem_reverse, mem_intRange] at hl
      by_cases hll : ll = (L : Int)
      · rw [hll]
        have := claimLevel_tracked h L ho k hk rx ry rz hr t ht.1 ht.2
        exact ⟨this.1, this.2.1⟩
      · rw [claimLevel_other h L ho _ _ _ _ _ _ _ _ t ll ht.1 (by omega)]
        exact ht
    have h12 := foldl_invariant
      (fun t : ClaimState => Evolved h t.helper ∧ FacesTracked h t.helper L)
      (claimLevel (L, k) (L : Int) (h.blockAt (L, k)).GridIndex.1
        (h.blockAt (L, k)).GridIndex.2.1 (h.blockAt (L, k)).GridIndex.2.2 rx ry rz)
      (intRange 0 (L : Int)).reverse
      { helper := s, bestLevel := (L : Int), bestDist := rx * rx + ry * ry + rz * rz,
        bestBlock := (L, k) } ⟨hE, hT⟩ hinv
    refine ⟨h12.1, h12.2, fun hf hn => ?_⟩
    have hmem : (L : Int) ∈ (intRange 0 (L : Int)).reverse := by
      rw [List.mem_reverse, mem_intRange]
      omega
    have X := foldl_reaches
      (fun t : ClaimState => Evolved h t.helper ∧ FacesTracked h t.helper L)
      (fun t : ClaimState => t.helper.faceCleared L k (rx, ry, rz))
      (claimLevel (L, k) (L : Int) (h.blockAt (L, k)).GridIndex.1
        (h.blockAt (L, k)).GridIndex.2.1 (h.blockAt (L, k)).GridIndex.2.2 rx ry rz)
      (intRange 0 (L : Int)).reverse
      { helper := s, bestLevel := (L : Int), bestDist := rx * rx + ry * ry + rz * rz,
        bestBlock := (L, k) } (L : Int) hmem ⟨hE, hT⟩ hinv
    refine X ?_ ?_
    · intro t b ht
      exact BitsOnlyCleared.keeps_cleared (claimLevel_bits (L, k) (L : Int)
        (h.blockAt (L, k)).GridIndex.1 (h.blockAt (L, k)).GridIndex.2.1
        (h.blockAt (L, k)).GridIndex.2.2 rx ry rz t b) L k (rx, ry, rz) ht
    · intro t ht
      exact (claimLevel_tracked h L ho k hk rx ry rz hr t ht.1 ht.2).2.2 hf hn
  exact ⟨main.1, main.2.1, main.2.2, hbest⟩

/-- `ClaimBlockSharedRegion` on a registry with one level: no degenerate region
is found, the faces stay tracked, and when the region is a face with a block
behind it, the bit of the face is cleared in the block. -/
theorem ClaimBlockSharedRegion_tracked (h : vtkAMRDualGridHelper) (L : Nat)
    (ho : h.OneLevel L) (k : Nat) (hk : k < (h.levelAt L).Blocks.length) (rx ry rz : Int)
    (hr : (-1 ≤ rx ∧ rx ≤ 1) ∧ (-1 ≤ ry ∧ ry ≤ 1) ∧ (-1 ≤ rz ∧ rz ≤ 1))
    (s : vtkAMRDualGridHelper) (hE : Evolved h s) (hT : FacesTracked h s L) :
    Evolved h (s.ClaimBlockSharedRegion (L, k) (h.blockAt (L, k)).GridIndex.1
      (h.blockAt (L, k)).GridIndex.2.1 (h.blockAt (L, k)).GridIndex.2.2 rx ry rz).1 ∧
    FacesTracked h (s.ClaimBlockSharedRegion (L, k) (h.blockAt (L, k)).GridIndex.1
      (h.blockAt (L, k)).GridIndex.2.1 (h.blockAt (L, k)).GridIndex.2.2 rx ry rz).1 L ∧
    ((rx, ry, rz) ∈ faceDirections → h.faceNeighbor L k (rx, ry, rz) ≠ none →
      (s.ClaimBlockSharedRegion (L, k) (h.blockAt (L, k)).GridIndex.1
        (h.blockAt (L, k)).GridIndex.2.1 (h.blockAt (L, k)).GridIndex.2.2 rx ry
        rz).1.faceCleared L k (rx, ry, rz)) ∧
    (s.ClaimBlockSharedRegion (L, k) (h.blockAt (L, k)).GridIndex.1
      (h.blockAt (L, k)).GridIndex.2.1 (h.blockAt (L, k)).GridIndex.2.2 rx ry rz).2 =
        (L : Int) := by
  obtain ⟨a, b, c, d⟩ := claimLevels_tracked h L ho k hk rx ry rz hr s hE hT
  have hlev : (s.blockAt (L, k)).Level = (L : Int) :=
    (hE.1.2.2.2.2.2.1 (L, k)).trans
      (blockAt_Level_of_consistent h ho.1 (L, k) ⟨ho.2.1, hk⟩)
  rw [Claim_fst_of_not s (L, k) _ _ _ rx ry rz (by
    rw [d, hlev]
    intro hh
    exact lt_irrefl _ hh.2), ClaimBlockSharedRegion_snd]
  exact ⟨a, b, c, d⟩

/-- The body of the region loop of `AssignBlockSharedRegions` on a registry
with one level: the faces stay tracked, and after the iteration of a face
region with a block behind it, the bit of the face is cleared in the block. -/
theorem assignRegion_tracked (h : vtkAMRDualGridHelper) (L : Nat)
    (ho : h.OneLevel L) (k : Nat) (hk : k < (h.levelAt L).Blocks.length)
    (s : vtkAMRDualGridHelper) (hE : Evolved h s) (hT : FacesTracked h s L)
    (r : Int × Int × Int) (hr : r ∈ regionDirections) :
    Evolved h (assignRegion (L, k) (L : Int) (h.blockAt (L, k)).GridIndex.1
      (h.blockAt (L, k)).GridIndex.2.1 (h.blockAt (L, k)).GridIndex.2.2 s r) ∧
    FacesTracked h (assignRegion (L, k) (L : Int) (h.blockAt (L, k)).GridIndex.1
      (h.blockAt (L, k)).GridIndex.2.1 (h.blockAt (L, k)).GridIndex.2.2 s r) L ∧
    (r ∈ faceDirections → h.faceNeighbor L k r ≠ none →
      (assignRegion (L, k) (L : Int) (h.blockAt (L, k)).GridIndex.1
        (h.blockAt (L, k)).GridIndex.2.1 (h.blockAt (L, k)).GridIndex.2.2 s r).faceCleared
          L k r) := by
  have hb := (mem_regionDirections r).1 hr
  obtain ⟨r1, r2, r3⟩ := r
  simp only at hb
  obtain ⟨a, b, c, d⟩ := ClaimBlockSharedRegion_tracked h L ho k hk r1 r2 r3 hb s hE hT
  unfold assignRegion
  simp only
  split
  · split
    · rename_i hh
      rw [d] at hh
      exact absurd hh.2 (lt_irrefl _)
    · exact ⟨a, b, c⟩
  · rename_i hcond
    refine ⟨hE, hT, fun hf hn => ?_⟩
    obtain ⟨j, hj⟩ := Option.ne_none_iff_exists'.1 hn
    rcases hT.2 k _ j hf hk hj with ⟨c1, _⟩ | ⟨o1, _⟩
    · exact c1
    · exact absurd ⟨(faceDirections_bounds _ hf).2, o1⟩ hcond

/-- `AssignBlockSharedRegions` on a block of a registry with one level: the
faces stay tracked, and the bit of every face of the block with a block behind
it is cleared. -/
theorem AssignBlockSharedRegions_tracked (h : vtkAMRDualGridHelper) (L : Nat)
    (ho : h.OneLevel L) (k : Nat) (hk : k < (h.levelAt L).Blocks.length)
    (s : vtkAMRDualGridHelper) (hE : Evolved h s) (hT : FacesTracked h s L) :
    Evolved h (s.AssignBlockSharedRegions (L, k) (L : Int) (h.blockAt (L, k)).GridIndex.1
      (h.blockAt (L, k)).GridIndex.2.1 (h.blockAt (L, k)).GridIndex.2.2) ∧
    FacesTracked h (s.AssignBlockSharedRegions (L, k) (L : Int)
      (h.blockAt (L, k)).GridIndex.1 (h.blockAt (L, k)).GridIndex.2.1
      (h.blockAt (L, k)).GridIndex.2.2) L ∧
    (∀ f, f ∈ faceDirections → h.faceNeighbor L k f ≠ none →
      (s.AssignBlockSharedRegions (L, k) (L : Int) (h.blockAt (L, k)).GridIndex.1
        (h.blockAt (L, k)).GridIndex.2.1 (h.blockAt (L, k)).GridIndex.2.2).faceCleared
          L k f) := by
  unfold vtkAMRDualGridHelper.AssignBlockSharedRegions
  have hinv : ∀ t : vtkAMRDualGridHelper, ∀ r ∈ regionDirections,
      (Evolved h t ∧ FacesTracked h t L) →
      (Evolved h (assignRegion (L, k) (L : Int) (h.blockAt (L, k)).GridIndex.1
        (h.blockAt (L, k)).GridIndex.2.1 (h.blockAt (L, k)).GridIndex.2.2 t r) ∧
      FacesTracked h (assignRegion (L, k) (L : Int) (h.blockAt (L, k)).GridIndex.1
        (h.blockAt (L, k)).GridIndex.2.1 (h.blockAt (L, k)).GridIndex.2.2 t r) L) := by
    intro t r hr ht
    have := assignRegion_tracked h L ho k hk t ht.1 ht.2 r hr
    exact ⟨this.1, this.2.1⟩
  have h12 := foldl_invariant (fun t : vtkAMRDualGridHelper => Evolved h t ∧ FacesTracked h t L)
    (assignRegion (L, k) (L : Int) (h.blockAt (L, k)).GridIndex.1
      (h.blockAt (L, k)).GridIndex.2.1 (h.blockAt (L, k)).GridIndex.2.2)
    regionDirections s ⟨hE, hT⟩ hinv
  refine ⟨h12.1, h12.2, fun f hf hn => ?_⟩
  have hmem : f ∈ regionDirections := (mem_regionDirections f).2 (faceDirections_bounds f hf).1
  have X := foldl_reaches (fun t : vtkAMRDualGridHelper => Evolved h t ∧ FacesTracked h t L)
    (fun t : vtkAMRDualGridHelper => t.faceCleared L k f)
    (assignRegion (L, k) (L : Int) (h.blockAt (L, k)).GridIndex.1
      (h.blockAt (L, k)).GridIndex.2.1 (h.blockAt (L, k)).GridIndex.2.2)
    regionDirections s f hmem ⟨hE, hT⟩ hinv
  refine X ?_ ?_
  · intro t b ht
    exact BitsOnlyCleared.keeps_cleared (assignRegion_bits (L, k) (L : Int)
      (h.blockAt (L, k)).GridIndex.1 (h.blockAt (L, k)).GridIndex.2.1
      (h.blockAt (L, k)).GridIndex.2.2 t b) L k f ht
  · intro t ht
    exact (assignRegion_tracked h L ho k hk t ht.1 ht.2 f hmem).2.2 hf hn

/-! ### The grid traversal of `AssignSharedRegions` on a registry with one level -/

/-- One slot of the grid traversal of the level of the blocks: the faces stay
tracked, and the bit of every face of the block of the slot with a block behind
it is cleared. -/
theorem assignSlot_tracked (h : vtkAMRDualGridHelper) (L : Nat) (ho : h.OneLevel L)
    (s : vtkAMRDualGridHelper) (hE : Evolved h s) (hT : FacesTracked h s L)
    (p : (Int × Int × Int) × Option Nat)
    (hp : p ∈ (extentCoords (h.levelAt L).GridExtent).zip ((h.levelAt L).Grid.getD [])) :
    Evolved h (assignSlot L s p) ∧ FacesTracked h (assignSlot L s p) L ∧
    (∀ k, p.2 = some k → ∀ f, f ∈ faceDirections → h.faceNeighbor L k f ≠ none →
      (assignSlot L s p).faceCleared L k f) := by
  unfold assignSlot
  split
  · rename_i hnone
    refine ⟨hE, hT, fun k hk => ?_⟩
    rw [hnone] at hk
    exact absurd hk (by simp)
  · rename_i b hb
    obtain ⟨hlt, hg⟩ := OneLevel_slot_spec h L ho p hp b hb
    have t := AssignBlockSharedRegions_tracked h L ho b hlt s hE hT
    rw [hg] at t
    refine ⟨t.1, t.2.1, fun k hk => ?_⟩
    rw [hb] at hk
    rw [← Option.some.inj hk]
    exact t.2.2

/-- The grid traversal of the level of the blocks: the faces stay tracked, and
the bit of every face of every block with a block behind it is cleared. -/
theorem assignLevel_tracked (h : vtkAMRDualGridHelper) (L : Nat) (ho : h.OneLevel L)
    (s : vtkAMRDualGridHelper) (hE : Evolved h s) (hT : FacesTracked h s L) :
    Evolved h (assignLevel s L) ∧ FacesTracked h (assignLevel s L) L ∧
    (∀ k, k < (h.levelAt L).Blocks.length → ∀ f, f ∈ faceDirections →
      h.faceNeighbor L k f ≠ none → (assignLevel s L).faceCleared L k f) := by
  unfold assignLevel
  simp only
  rw [(hE.1.2.2.2.2.1 L).1, (hE.1.2.2.2.2.1 L).2.1]
  have hinv : ∀ t : vtkAMRDualGridHelper,
      ∀ p ∈ (extentCoords (h.levelAt L).GridExtent).zip ((h.levelAt L).Grid.getD []),
      (Evolved h t ∧ FacesTracked h t L) →
      (Evolved h (assignSlot L t p) ∧ FacesTracked h (assignSlot L t p) L) := by
    intro t p hp ht
    have := assignSlot_tracked h L ho t ht.1 ht.2 p hp
    exact ⟨this.1, this.2.1⟩
  have h12 := foldl_invariant (fun t : vtkAMRDualGridHelper => Evolved h t ∧ FacesTracked h t L)
    (assignSlot L) ((extentCoords (h.levelAt L).GridExtent).zip ((h.levelAt L).Grid.getD []))
    s ⟨hE, hT⟩ hinv
  refine ⟨h12.1, h12.2, fun k hk f hf hn => ?_⟩
  have hmem := OneLevel_slot_mem h L ho k hk
  have X := foldl_reaches (fun t : vtkAMRDualGridHelper => Evolved h t ∧ FacesTracked h t L)
    (fun t : vtkAMRDualGridHelper => t.faceCleared L k f)
    (assignSlot L) ((extentCoords (h.levelAt L).GridExtent).zip ((h.levelAt L).Grid.getD []))
    s ((h.blockAt (L, k)).GridIndex, some k) hmem ⟨hE, hT⟩ hinv
  refine X ?_ ?_
  · intro t b ht
    exact BitsOnlyCleared.keeps_cleared (assignSlot_bits L t b) L k f ht
  · intro t ht
    exact (assignSlot_tracked h L ho t ht.1 ht.2 _ hmem).2.2 k rfl f hf hn

/-- The grid traversal of a level without blocks changes nothing. -/
theorem assignLevel_other (h : vtkAMRDualGridHelper) (L : Nat) (ho : h.OneLevel L)
    (s : vtkAMRDualGridHelper) (hE : Evolved h s) (m : Nat) (hm : m < h.Levels.length)
    (hne : m ≠ L) : assignLevel s m = s := by
  unfold assignLevel
  simp only
  rw [(hE.1.2.2.2.2.1 m).1, (hE.1.2.2.2.2.1 m).2.1]
  apply foldl_invariant (fun t : vtkAMRDualGridHelper => t = s)
  · rfl
  · intro t p hp ht
    rw [ht]
    unfold assignSlot
    split
    · rfl
    · rename_i b hb
      exfalso
      have hmem : p.2 ∈ (h.levelAt m).Grid.getD [] := (List.of_mem_zip hp).2
      rw [hb] at hmem
      have hc := (ho.1 m (List.mem_range.2 hm)).2.2 _ hmem b rfl
      rw [ho.2.2.1 m (List.mem_range.2 hm) hne] at hc
      exact absurd hc (by simp)

theorem blockAt_mem (h : vtkAMRDualGridHelper) (L k : Nat)
    (hk : k < (h.levelAt L).Blocks.length) : h.blockAt (L, k) ∈ (h.levelAt L).Blocks := by
  unfold vtkAMRDualGridHelper.blockAt
  simp only
  rw [List.getD_eq_getElem?_getD, List.getElem?_eq_getElem hk]
  exact List.getElem_mem _

theorem blockAt_default (h : vtkAMRDualGridHelper) (L k : Nat)
    (hk : ¬ k < (h.levelAt L).Blocks.length) :
    h.blockAt (L, k) = vtkAMRDualGridHelperBlock.new 0 := by
  unfold vtkAMRDualGridHelper.blockAt
  simp only
  rw [List.getD_eq_getElem?_getD, List.getElem?_eq_none (Nat.le_of_not_lt hk)]
  rfl

/-- Before `AssignSharedRegions`, with the blocks as their constructor leaves
them, no face bit is cleared and every block owns its face regions. -/
theorem FacesTracked_fresh (h : vtkAMRDualGridHelper) (L : Nat) (ho : h.OneLevel L)
    (hfresh : h.Fresh L) : FacesTracked h h L := by
  have hbits : ∀ k, (h.blockAt (L, k)).BoundaryBits = 63 := by
    intro k
    by_cases hk : k < (h.levelAt L).Blocks.length
    · exact (hfresh _ (blockAt_mem h L k hk)).1
    · rw [blockAt_default h L k hk]
      rfl
  have hown : ∀ k f, k < (h.levelAt L).Blocks.length → f ∈ faceDirections →
      h.ownsRegion L k f := by
    intro k f hk hf
    unfold vtkAMRDualGridHelper.ownsRegion vtkAMRDualGridHelperBlock.regionBits
    rw [(hfresh _ (blockAt_mem h L k hk)).2]
    rw [mem_faceDirections] at hf
    rcases hf with rfl | rfl | rfl | rfl | rfl | rfl <;> decide
  constructor
  · intro k f hf hc
    exfalso
    unfold vtkAMRDualGridHelper.faceCleared at hc
    rw [hbits k] at hc
    rw [mem_faceDirections] at hf
    rcases hf with rfl | rfl | rfl | rfl | rfl | rfl <;> exact absurd hc (by decide)
  · intro k f j hf hk hj
    exact Or.inr ⟨hown k f hk hf, hown j _ (OneLevel_neighbor_spec h L ho k hk f j hj).1
      (oppositeDirection_mem f hf)⟩

/-- `AssignSharedRegions` on a registry with one level: the grids and the grid
indices stay as they are, the faces stay tracked, and the bit of every face of
every block with a block behind it is cleared. -/
theorem AssignSharedRegions_tracked (h : vtkAMRDualGridHelper) (L : Nat) (ho : h.OneLevel L)
    (hT : FacesTracked h h L) :
    Evolved h h.AssignSharedRegions ∧ FacesTracked h h.AssignSharedRegions L ∧
    (∀ k, k < (h.levelAt L).Blocks.length → ∀ f, f ∈ faceDirections →
      h.faceNeighbor L k f ≠ none → h.AssignSharedRegions.faceCleared L k f) := by
  unfold vtkAMRDualGridHelper.AssignSharedRegions
  have hE : Evolved h h := ⟨SameGrids.rfl_grids h, fun _ => rfl⟩
  have hinv : ∀ t : vtkAMRDualGridHelper, ∀ m ∈ (List.range h.Levels.length).reverse,
      (Evolved h t ∧ FacesTracked h t L) →
      (Evolved h (assignLevel t m) ∧ FacesTracked h (assignLevel t m) L) := by
    intro t m hm ht
    rw [List.mem_reverse, List.mem_range] at hm
    by_cases hne : m = L
    · rw [hne]
      have := assignLevel_tracked h L ho t ht.1 ht.2
      exact ⟨this.1, this.2.1⟩
    · rw [assignLevel_other h L ho t ht.1 m hm hne]
      exact ht
  have h12 := foldl_invariant (fun t : vtkAMRDualGridHelper => Evolved h t ∧ FacesTracked h t L)
    assignLevel (List.range h.Levels.length).reverse h ⟨hE, hT⟩ hinv
  refine ⟨h12.1, h12.2, fun k hk f hf hn => ?_⟩
  have hmem : L ∈ (List.range h.Levels.length).reverse := by
    rw [List.mem_reverse, List.mem_range]
    exact ho.2.1
  have X := foldl_reaches (fun t : vtkAMRDualGridHelper => Evolved h t ∧ FacesTracked h t L)
    (fun t : vtkAMRDualGridHelper => t.faceCleared L k f)
    assignLevel (List.range h.Levels.length).reverse h L hmem ⟨hE, hT⟩ hinv
  refine X ?_ ?_
  · intro t b ht
    exact BitsOnlyCleared.keeps_cleared (assignLevel_bits t b) L k f ht
  · intro t ht
    exact (assignLevel_tracked h L ho t ht.1 ht.2).2.2 k hk f hf hn

theorem Evolved.faceNeighbor_eq {h s : vtkAMRDualGridHelper} (hE : Evolved h s) (L k : Nat)
    (f : Int × Int × Int) : s.faceNeighbor L k f = h.faceNeighbor L k f := by
  unfold vtkAMRDualGridHelper.faceNeighbor
  rw [hE.2, hE.1.getGridBlock_eq]

/-- C20. On a registry whose blocks all lie on one level `L` (well-formed grid,
every block found in the grid at its grid index), with the blocks as their
constructor leaves them, `AssignSharedRegions` leaves the grid as it is, and
afterwards, for every block `k` of the level and each of the six face
directions `f`, the bit of `f` in `BoundaryBits` (-x = 1, +x = 2, -y = 4,
+y = 8, -z = 16, +z = 32) is cleared if and only if the grid of the level holds
a block at the grid index of `k` offset by `f`; when it holds the block `j`
there, the bit of `f` is cleared in `k` and the bit of the opposite face is
cleared in `j`, whose neighbour across the opposite face is `k`.  On every
registry, `AssignSharedRegions`, each iteration of the region loop of
`AssignBlockSharedRegions` and each call of `ClaimBlockSharedRegion` set no bit
of `BoundaryBits`: a bit that is cleared stays cleared. -/
theorem C20_boundary_mask (h : vtkAMRDualGridHelper) (L : Nat) (hone : h.OneLevel L)
    (hfresh : h.Fresh L) :
    (∀ k f, k < (h.levelAt L).Blocks.length → f ∈ faceDirections →
      h.AssignSharedRegions.faceNeighbor L k f = h.faceNeighbor L k f ∧
      (h.AssignSharedRegions.faceCleared L k f ↔
        h.AssignSharedRegions.faceNeighbor L k f ≠ none) ∧
      (∀ j, h.AssignSharedRegions.faceNeighbor L k f = some j →
        h.AssignSharedRegions.faceCleared L k f ∧
        h.AssignSharedRegions.faceCleared L j (oppositeDirection f) ∧
        h.AssignSharedRegions.faceNeighbor L j (oppositeDirection f) = some k)) ∧
    BitsOnlyCleared h h.AssignSharedRegions ∧
    (∀ (s : vtkAMRDualGridHelper) (block : BlockPtr) (blockLevel bx by' bz : Int)
      (r : Int × Int × Int),
      BitsOnlyCleared s (assignRegion block blockLevel bx by' bz s r) ∧
      BitsOnlyCleared s (s.ClaimBlockSharedRegion block bx by' bz r.1 r.2.1 r.2.2).1) := by
  obtain ⟨hE, hT, hP⟩ :=
    AssignSharedRegions_tracked h L hone (FacesTracked_fresh h L hone hfresh)
  refine ⟨fun k f hk hf => ⟨hE.faceNeighbor_eq L k f, ?_, fun j hj => ?_⟩,
    AssignSharedRegions_bits h,
    fun s block blockLevel bx by' bz r =>
      ⟨assignRegion_bits block blockLevel bx by' bz s r,
        ClaimBlockSharedRegion_bits s block bx by' bz r.1 r.2.1 r.2.2⟩⟩
  · rw [hE.faceNeighbor_eq L k f]
    exact ⟨fun hc => hT.1 k f hf hc, fun hn => hP k hk f hf hn⟩
  · rw [hE.faceNeighbor_eq L k f] at hj
    obtain ⟨hjlt, _, hback⟩ := OneLevel_neighbor_spec h L hone k hk f j hj
    rw [hE.faceNeighbor_eq L j (oppositeDirection f)]
    refine ⟨hP k hk f hf (by rw [hj]; simp), hP j hjlt _ (oppositeDirection_mem f hf) ?_, hback⟩
    rw [hback]
    simp

theorem C20_boundary_mask_witness :
    rowScenario.OneLevel 1 ∧ rowScenario.Fresh 1 ∧
    rowScenario.faceNeighbor 1 0 (1, 0, 0) = some 1 ∧
    rowScenario.faceNeighbor 1 0 (-1, 0, 0) = none ∧
    rowScenario.AssignSharedRegions.faceCleared 1 0 (1, 0, 0) ∧
    rowScenario.AssignSharedRegions.faceCleared 1 1 (oppositeDirection (1, 0, 0)) ∧
    ¬ rowScenario.AssignSharedRegions.faceCleared 1 0 (-1, 0, 0) ∧
    (rowScenario.AssignSharedRegions.levelAt 1).Blocks.map (fun b => b.BoundaryBits) =
      [53, 60, 62, 59] := by
  have hO : rowScenario.OneLevel 1 := by decide!
  have hF : rowScenario.Fresh 1 := by decide!
  have hN : rowScenario.faceNeighbor 1 0 (1, 0, 0) = some 1 := by decide!
  have hN' : rowScenario.faceNeighbor 1 0 (-1, 0, 0) = none := by decide!
  have T := (C20_boundary_mask rowScenario 1 hO hF).1
  have A := T 0 (1, 0, 0) (by decide!) (by decide)
  have B := T 0 (-1, 0, 0) (by decide!) (by decide)
  have A' := A.2.2 1 (A.1.trans hN)
  refine ⟨hO, hF, hN, hN', A'.1, A'.2.1, fun hc => ?_, by decide!⟩
  have := B.2.1.1 hc
  rw [B.1, hN'] at this
  exact this rfl

/-! ## The packed entry and the warning of `AssignBlockSharedRegions` -/

theorem SameShape.rfl_shape (h : vtkAMRDualGridHelper) : SameShape h h :=
  ⟨rfl, fun _ => rfl, fun _ => rfl⟩

theorem SameShape.then_shape {h1 h2 h3 : vtkAMRDualGridHelper} (a : SameShape h1 h2)
    (b : SameShape h2 h3) : SameShape h1 h3 :=
  ⟨b.1.trans a.1, fun n => (b.2.1 n).trans (a.2.1 n), fun q => (b.2.2 q).trans (a.2.2 q)⟩

theorem SameShape.of_modifyBlock_shape (h : vtkAMRDualGridHelper) (p : BlockPtr)
    (f : vtkAMRDualGridHelperBlock → vtkAMRDualGridHelperBlock)
    (hf : ∀ b, (f b).RegionBits.length = b.RegionBits.length) :
    SameShape h (h.modifyBlock p f) := by
  refine ⟨length_modifyBlock h p f, fun n => length_Blocks_modifyBlock h p f n, fun q => ?_⟩
  rw [blockAt_modifyBlock]
  split
  · exact hf _
  · rfl

theorem SameShape.valid_shape {h s : vtkAMRDualGridHelper} (a : SameShape h s) (p : BlockPtr)
    (hv : h.validPtr p) : s.validPtr p := by
  unfold vtkAMRDualGridHelper.validPtr at hv ⊢
  rw [a.1, a.2.1]
  exact hv

theorem length_setRegionBits (b : vtkAMRDualGridHelperBlock) (x y z : Int) (v : Nat) :
    (b.setRegionBits x y z v).RegionBits.length = b.RegionBits.length := by
  unfold vtkAMRDualGridHelperBlock.setRegionBits
  simp only
  exact length_writeAt _ _ _

theorem clearBoundaryBits_shape (h : vtkAMRDualGridHelper) (block nb : BlockPtr)
    (ix iy iz : Int) : SameShape h (clearBoundaryBits h block nb ix iy iz) := by
  unfold clearBoundaryBits
  split
  · exact SameShape.rfl_shape _
  · rename_i m _
    exact (SameShape.of_modifyBlock_shape h block
      (fun b => { b with BoundaryBits := b.BoundaryBits &&& m.1 }) (fun _ => rfl)).then_shape
      (SameShape.of_modifyBlock_shape _ nb
        (fun b => { b with BoundaryBits := b.BoundaryBits &&& m.2 }) (fun _ => rfl))

theorem claimFound_shape (block : BlockPtr) (rx ry rz lowerLevel : Int)
    (st : ClaimState) (ix iy iz : Int) (nb : Nat) :
    SameShape st.helper (claimFound block rx ry rz lowerLevel st ix iy iz nb).helper := by
  unfold claimFound
  have h1 := clearBoundaryBits_shape st.helper block (lowerLevel.toNat, nb) ix iy iz
  simp only
  split
  · have h2 := h1.then_shape (SameShape.of_modifyBlock_shape _ (lowerLevel.toNat, nb)
      (fun b => b.setRegionBits (rx - ix - ix + 1) (ry - iy - iy + 1) (rz - iz - iz + 1) 0)
      (fun b => length_setRegionBits b _ _ _ _))
    split <;> exact h2
  · exact h1

theorem claimNeighbor_shape (block : BlockPtr) (bx by' bz rx ry rz lowerLevel : Int)
    (d : Nat) (st : ClaimState) (ix iy iz : Int) :
    SameShape st.helper
      (claimNeighbor block bx by' bz rx ry rz lowerLevel d st ix iy iz).helper := by
  unfold claimNeighbor
  split
  · simp only
    split
    · exact SameShape.rfl_shape _
    · exact claimFound_shape _ _ _ _ _ _ _ _ _ _
  · exact SameShape.rfl_shape _

theorem claimLevel_shape (block : BlockPtr) (blockLevel bx by' bz rx ry rz : Int)
    (st : ClaimState) (lowerLevel : Int) :
    SameShape st.helper
      (claimLevel block blockLevel bx by' bz rx ry rz st lowerLevel).helper := by
  unfold claimLevel
  simp only
  split
  · apply foldl_invariant (fun s : ClaimState => SameShape st.helper s.helper)
    · exact SameShape.rfl_shape _
    · intro s o _ hs
      exact hs.then_shape (claimNeighbor_shape _ _ _ _ _ _ _ _ _ _ _ _ _)
  · exact SameShape.rfl_shape _

theorem claimLevels_shape (h : vtkAMRDualGridHelper) (block : BlockPtr)
    (bx by' bz rx ry rz : Int) :
    SameShape h (claimLevels h block bx by' bz rx ry rz).helper := by
  unfold claimLevels
  simp only
  apply foldl_invariant (fun s : ClaimState => SameShape h s.helper)
  · exact SameShape.rfl_shape _
  · intro s o _ hs
    exact hs.then_shape (claimLevel_shape _ _ _ _ _ _ _ _ _ _)

theorem CopyDegenerateRegionBlockToBlock_shape (h : vtkAMRDualGridHelper)
    (rx ry rz : Int) (low high : BlockPtr) :
    SameShape h (h.CopyDegenerateRegionBlockToBlock rx ry rz low high) := by
  unfold vtkAMRDualGridHelper.CopyDegenerateRegionBlockToBlock
  simp only
  have h1 : SameShape h (h.modifyBlock high fun b => { b with CopyFlag := true }) :=
    SameShape.of_modifyBlock_shape h high _ (fun _ => rfl)
  split
  · exact SameShape.rfl_shape _
  split
  · exact SameShape.rfl_shape _
  split
  · split
    · split
      · exact h1
      · exact h1.then_shape (SameShape.of_modifyBlock_shape _ _ _ (fun _ => rfl))
    · exact h1
  · exact h1

/-- `ClaimBlockSharedRegion` adds and removes no block and resizes no
`RegionBits` array. -/
theorem ClaimBlockSharedRegion_shape (h : vtkAMRDualGridHelper) (block : BlockPtr)
    (bx by' bz rx ry rz : Int) :
    SameShape h (h.ClaimBlockSharedRegion block bx by' bz rx ry rz).1 := by
  have h1 := claimLevels_shape h block bx by' bz rx ry rz
  unfold vtkAMRDualGridHelper.ClaimBlockSharedRegion
  simp only
  split
  · split
    · split
      · exact h1
      · exact h1
    · exact h1.then_shape (CopyDegenerateRegionBlockToBlock_shape _ _ _ _ _ _)
  · exact h1

theorem regionBits_setRegionBits_same (b : vtkAMRDualGridHelperBlock) (x y z : Int) (v : Nat)
    (h0 : 0 ≤ regionBitsIndex x y z)
    (h1 : regionBitsIndex x y z < (b.RegionBits.length : Int)) :
    (b.setRegionBits x y z v).regionBits x y z = v := by
  unfold vtkAMRDualGridHelperBlock.setRegionBits vtkAMRDualGridHelperBlock.regionBits
  simp only
  rw [if_neg (by omega)]
  unfold writeAt
  rw [if_neg (by omega), List.getD_eq_getElem?_getD, List.getElem?_set_self (by omega)]
  rfl

/-- The iteration of the region loop of `AssignBlockSharedRegions`: the entry
it stores, when it stores one, is `regionBitsEntry`. -/
theorem assignRegion_entry (block : BlockPtr) (blockLevel bx by' bz : Int)
    (self : vtkAMRDualGridHelper) (r : Int × Int × Int) :
    assignRegion block blockLevel bx by' bz self r =
      if (r.1 ≠ 0 ∨ r.2.1 ≠ 0 ∨ r.2.2 ≠ 0) ∧
          ((self.blockAt block).regionBits (r.1 + 1) (r.2.1 + 1) (r.2.2 + 1) &&&
            vtkAMRRegionBitOwner) ≠ 0
      then
        if (self.ClaimBlockSharedRegion block bx by' bz r.1 r.2.1 r.2.2).1.EnableDegenerateCells ∧
            (self.ClaimBlockSharedRegion block bx by' bz r.1 r.2.1 r.2.2).2 < blockLevel
        then
          (self.ClaimBlockSharedRegion block bx by' bz r.1 r.2.1 r.2.2).1.modifyBlock block
            fun b => b.setRegionBits (r.1 + 1) (r.2.1 + 1) (r.2.2 + 1)
              (regionBitsEntry blockLevel
                (self.ClaimBlockSharedRegion block bx by' bz r.1 r.2.1 r.2.2).2)
        else (self.ClaimBlockSharedRegion block bx by' bz r.1 r.2.1 r.2.2).1
      else self := by
  rfl

theorem mask_and_byte (n : Nat) :
    vtkAMRRegionBitsDegenerateMask &&& n = n % 128 := by
  unfold vtkAMRRegionBitsDegenerateMask
  rw [Nat.and_comm]
  exact Nat.and_pow_two_sub_one_eq_mod n 7

/-- The entry stored for a degenerate region is the owner bit plus the level
difference modulo 128. -/
theorem regionBitsEntry_eq (blockLevel degeneracyLevel : Int) :
    regionBitsEntry blockLevel degeneracyLevel =
      128 + ((blockLevel - degeneracyLevel) % 128).toNat := by
  unfold regionBitsEntry
  rw [mask_and_byte]
  unfold levelDiffByte vtkAMRRegionBitOwner
  omega

theorem cannotEncode_iff (blockLevel degeneracyLevel : Int) :
    cannotEncode (levelDiffByte blockLevel degeneracyLevel) = true ↔
      128 ≤ (blockLevel - degeneracyLevel) % 256 := by
  unfold cannotEncode
  rw [mask_and_byte]
  unfold levelDiffByte
  simp only [decide_eq_true_eq]
  omega

theorem entry_owner_bit (d : Nat) (h : d < 128) :
    (128 + d) &&& 128 = 128 ∧ (128 + d) &&& 127 = d := by
  have h1 : ∀ x : Fin 128, (128 + x.val) &&& 128 = 128 ∧ (128 + x.val) &&& 127 = x.val := by
    decide
  exact h1 ⟨d, h⟩

/-- C21, counterexample: a block at level 129 that lies inside a block at level
0.  For its region `(-1,1,0)` `ClaimBlockSharedRegion` returns level 0, a level
difference of 129; the warning is issued, and the entry of the region, 128
before the iteration, is 129 after it: the entry is overwritten, with the
difference truncated to 1.  A difference of 256 is cast to 0: no warning, and
the entry is the plain 128. -/
theorem C21_entry_overwritten :
    (deepScenario.ClaimBlockSharedRegion (129, 0) 0 0 0 (-1) 1 0).2 = 0 ∧
    (deepScenario.blockAt (129, 0)).regionBits 0 2 1 = 128 ∧
    assignRegionWarns (129, 0) 129 0 0 0 deepScenario (-1, 1, 0) = true ∧
    ((assignRegion (129, 0) 129 0 0 0 deepScenario (-1, 1, 0)).blockAt (129, 0)).regionBits
      0 2 1 = 129 ∧
    cannotEncode (levelDiffByte 256 0) = false ∧ regionBitsEntry 256 0 = 128 := by
  decide!

/-- C21, amended.  When the iteration of the region loop of
`AssignBlockSharedRegions` for a region that the block still owns finds an
owner at a lower level (degenerate cells enabled), the entry of the region
afterwards is the owner bit, set as it was before, plus the low seven bits of
the level difference, whatever the difference; the warning "Could not encode
level difference." is issued exactly when the difference modulo 256 is 128 or
more, so for every difference from 128 to 255; and the loop goes on with the
remaining regions from the state the iteration leaves. -/
theorem C21_overflow_entry (self : vtkAMRDualGridHelper) (block : BlockPtr)
    (blockLevel bx by' bz rx ry rz : Int)
    (hv : self.validPtr block) (hlen : (self.blockAt block).RegionBits.length = 27)
    (hr : (rx, ry, rz) ∈ regionDirections) (hnz : rx ≠ 0 ∨ ry ≠ 0 ∨ rz ≠ 0)
    (hown : ((self.blockAt block).regionBits (rx + 1) (ry + 1) (rz + 1) &&&
      vtkAMRRegionBitOwner) ≠ 0)
    (hen : self.EnableDegenerateCells = true)
    (hlt : (self.ClaimBlockSharedRegion block bx by' bz rx ry rz).2 < blockLevel) :
    ((assignRegion block blockLevel bx by' bz self (rx, ry, rz)).blockAt block).regionBits
        (rx + 1) (ry + 1) (rz + 1) =
      128 + ((blockLevel -
        (self.ClaimBlockSharedRegion block bx by' bz rx ry rz).2) % 128).toNat ∧
    (((assignRegion block blockLevel bx by' bz self (rx, ry, rz)).blockAt block).regionBits
        (rx + 1) (ry + 1) (rz + 1) &&& vtkAMRRegionBitOwner) ≠ 0 ∧
    (assignRegionWarns block blockLevel bx by' bz self (rx, ry, rz) = true ↔
      128 ≤ (blockLevel -
        (self.ClaimBlockSharedRegion block bx by' bz rx ry rz).2) % 256) ∧
    (127 < blockLevel - (self.ClaimBlockSharedRegion block bx by' bz rx ry rz).2 →
      blockLevel - (self.ClaimBlockSharedRegion block bx by' bz rx ry rz).2 < 256 →
      assignRegionWarns block blockLevel bx by' bz self (rx, ry, rz) = true) ∧
    (∀ (s0 : vtkAMRDualGridHelper) (pre post : List (Int × Int × Int)),
      regionDirections = pre ++ (rx, ry, rz) :: post →
      pre.foldl (assignRegion block blockLevel bx by' bz) s0 = self →
      s0.AssignBlockSharedRegions block blockLevel bx by' bz =
        post.foldl (assignRegion block blockLevel bx by' bz)
          (assignRegion block blockLevel bx by' bz self (rx, ry, rz))) := by
  have hen' : (self.ClaimBlockSharedRegion block bx by' bz rx ry rz).1.EnableDegenerateCells
      = true := by
    rw [EnableDegenerateCells_Claim]
    exact hen
  have hsh := ClaimBlockSharedRegion_shape self block bx by' bz rx ry rz
  have hv' := hsh.valid_shape block hv
  have hb := (mem_regionDirections (rx, ry, rz)).1 hr
  simp only at hb
  have hidx : 0 ≤ regionBitsIndex (rx + 1) (ry + 1) (rz + 1) ∧
      regionBitsIndex (rx + 1) (ry + 1) (rz + 1) < 27 := by
    unfold regionBitsIndex
    omega
  have hwarn : assignRegionWarns block blockLevel bx by' bz self (rx, ry, rz) =
      cannotEncode (levelDiffByte blockLevel
        (self.ClaimBlockSharedRegion block bx by' bz rx ry rz).2) := by
    unfold assignRegionWarns
    simp only
    rw [if_pos ⟨hnz, hown⟩, if_pos ⟨hen', hlt⟩]
  have hentry : ((assignRegion block blockLevel bx by' bz self (rx, ry, rz)).blockAt
        block).regionBits (rx + 1) (ry + 1) (rz + 1) =
      128 + ((blockLevel -
        (self.ClaimBlockSharedRegion block bx by' bz rx ry rz).2) % 128).toNat := by
    rw [assignRegion_entry]
    simp only
    rw [if_pos ⟨hnz, hown⟩, if_pos ⟨hen', hlt⟩, blockAt_modifyBlock,
      if_pos ⟨rfl, hv'.2⟩, regionBits_setRegionBits_same _ _ _ _ _ hidx.1 (by
        rw [hsh.2.2 block, hlen]
        exact_mod_cast hidx.2), regionBitsEntry_eq]
  refine ⟨hentry, ?_, ?_, ?_, ?_⟩
  · rw [hentry]
    have hlt128 : ((blockLevel -
        (self.ClaimBlockSharedRegion block bx by' bz rx ry rz).2) % 128).toNat < 128 := by
      omega
    rw [show vtkAMRRegionBitOwner = 128 from rfl, (entry_owner_bit _ hlt128).1]
    decide
  · rw [hwarn]
    exact cannotEncode_iff _ _
  · intro h1 h2
    rw [hwarn, cannotEncode_iff]
    omega
  · intro s0 pre post hsplit hpre
    unfold vtkAMRDualGridHelper.AssignBlockSharedRegions
    rw [hsplit, List.foldl_append, List.foldl_cons, hpre]

/-- The amended C21 at the block of level 129 of `deepScenario` and its region
`(-1,1,0)`: the level difference is 129, the entry after the iteration is the
owner bit plus 129 modulo 128, and the warning is issued. -/
theorem C21_overflow_entry_witness :
    (deepScenario.ClaimBlockSharedRegion (129, 0) 0 0 0 (-1) 1 0).2 = 0 ∧
    ((assignRegion (129, 0) 129 0 0 0 deepScenario (-1, 1, 0)).blockAt (129, 0)).regionBits
        ((-1 : Int) + 1) ((1 : Int) + 1) ((0 : Int) + 1) =
      128 + (((129 : Int) -
        (deepScenario.ClaimBlockSharedRegion (129, 0) 0 0 0 (-1) 1 0).2) % 128).toNat ∧
    assignRegionWarns (129, 0) 129 0 0 0 deepScenario (-1, 1, 0) = true := by
  have hv : deepScenario.validPtr (129, 0) := by decide!
  have hlen : (deepScenario.blockAt (129, 0)).RegionBits.length = 27 := by decide!
  have hown : ((deepScenario.blockAt (129, 0)).regionBits ((-1 : Int) + 1) ((1 : Int) + 1)
      ((0 : Int) + 1) &&& vtkAMRRegionBitOwner) ≠ 0 := by decide!
  have hen : deepScenario.EnableDegenerateCells = true := by decide!
  have hres : (deepScenario.ClaimBlockSharedRegion (129, 0) 0 0 0 (-1) 1 0).2 = 0 := by
    decide!
  have hr : ((-1 : Int), (1 : Int), (0 : Int)) ∈ regionDirections := by decide!
  have h := C21_overflow_entry deepScenario (129, 0) 129 0 0 0 (-1) 1 0 hv hlen
    hr (by decide) hown hen (by rw [hres]; decide)
  exact ⟨hres, h.1, h.2.2.2.1 (by rw [hres]; decide) (by rw [hres]; decide)⟩

/-- C25. For a block level `L` and an owner level `l` with `1 ≤ L - l ≤ 127`,
the entry `regionBitsEntry L l` that `AssignBlockSharedRegions` stores has the
owner bit (128) set and its low seven bits (mask 127) are `L - l`; it is not
the plain self-owned value 128, and two level differences in `1..127` with the
same entry are equal.  The entry is the one the iteration of the region loop
stores: whenever the iteration runs `ClaimBlockSharedRegion` with degenerate
cells enabled and gets the level `l` back, the state afterwards is the state
`ClaimBlockSharedRegion` leaves with `RegionBits[rx+1][ry+1][rz+1]` of the
block set to `regionBitsEntry L l`. -/
theorem C25_level_difference_round_trip (L l : Int) (h1 : 1 ≤ L - l) (h127 : L - l ≤ 127) :
    regionBitsEntry L l &&& vtkAMRRegionBitOwner = vtkAMRRegionBitOwner ∧
    ((regionBitsEntry L l &&& vtkAMRRegionBitsDegenerateMask : Nat) : Int) = L - l ∧
    regionBitsEntry L l ≠ vtkAMRRegionBitOwner ∧
    (∀ L' l' : Int, 1 ≤ L' - l' → L' - l' ≤ 127 →
      regionBitsEntry L' l' = regionBitsEntry L l → L' - l' = L - l) ∧
    (∀ (self : vtkAMRDualGridHelper) (block : BlockPtr) (bx by' bz rx ry rz : Int),
      (rx ≠ 0 ∨ ry ≠ 0 ∨ rz ≠ 0) →
      ((self.blockAt block).regionBits (rx + 1) (ry + 1) (rz + 1) &&&
        vtkAMRRegionBitOwner) ≠ 0 →
      self.EnableDegenerateCells = true →
      (self.ClaimBlockSharedRegion block bx by' bz rx ry rz).2 = l →
      assignRegion block L bx by' bz self (rx, ry, rz) =
        (self.ClaimBlockSharedRegion block bx by' bz rx ry rz).1.modifyBlock block
          fun b => b.setRegionBits (rx + 1) (ry + 1) (rz + 1) (regionBitsEntry L l)) := by
  have hlt : ((L - l) % 128).toNat < 128 := by omega
  have hd : (((L - l) % 128).toNat : Int) = L - l := by omega
  refine ⟨?_, ?_, ?_, ?_, ?_⟩
  · rw [regionBitsEntry_eq, show vtkAMRRegionBitOwner = 128 from rfl]
    exact (entry_owner_bit _ hlt).1
  · rw [regionBitsEntry_eq, show vtkAMRRegionBitsDegenerateMask = 127 from rfl,
      (entry_owner_bit _ hlt).2]
    exact hd
  · rw [regionBitsEntry_eq, show vtkAMRRegionBitOwner = 128 from rfl]
    omega
  · intro L' l' a b e
    rw [regionBitsEntry_eq, regionBitsEntry_eq] at e
    omega
  · intro self block bx by' bz rx ry rz hnz hown hen hres
    have hen' : (self.ClaimBlockSharedRegion block bx by' bz rx ry rz).1.EnableDegenerateCells
        = true := by
      rw [EnableDegenerateCells_Claim]
      exact hen
    rw [assignRegion_entry]
    simp only
    rw [if_pos ⟨hnz, hown⟩, if_pos ⟨hen', by omega⟩, hres]

/-- C25 at `L = 5`, `l = 2`: the entry is 131, the owner bit plus 3. -/
theorem C25_level_difference_round_trip_witness :
    regionBitsEntry 5 2 = 131 ∧
    regionBitsEntry 5 2 &&& vtkAMRRegionBitOwner = vtkAMRRegionBitOwner ∧
    ((regionBitsEntry 5 2 &&& vtkAMRRegionBitsDegenerateMask : Nat) : Int) = 5 - 2 :=
  ⟨by decide, (C25_level_difference_round_trip 5 2 (by decide) (by decide)).1,
    (C25_level_difference_round_trip 5 2 (by decide) (by decide)).2.1⟩
/-! ## The neighbour cells looked up by `ClaimBlockSharedRegion` -/

theorem foldl_filter_if {σ α : Type} (p : α → Bool) (f : σ → α → σ) (l : List α) (s : σ) :
    (l.filter p).foldl f s = l.foldl (fun t a => if p a = true then f t a else t) s := by
  induction l generalizing s with
  | nil => rfl
  | cons a l ih =>
    rw [List.filter_cons, List.foldl_cons]
    by_cases h : p a = true
    · rw [if_pos h, if_pos h, List.foldl_cons]
      exact ih _
    · rw [if_neg h, if_neg h]
      exact ih _

/-- One iteration of the level loop of `ClaimBlockSharedRegion` calls
`GetGridBlock` once for each offset of `lookedUpOffsets`, in this order, when
the boundary test holds, and not at all otherwise. -/
theorem claimLevel_lookups (block : BlockPtr) (blockLevel bx by' bz rx ry rz : Int)
    (st : ClaimState) (lowerLevel : Int) :
    claimLevel block blockLevel bx by' bz rx ry rz st lowerLevel =
      if onLowerGridBoundary bx by' bz rx ry rz (blockLevel - lowerLevel).toNat then
        (lookedUpOffsets rx ry rz).foldl
          (fun s o =>
            match (s.helper.levelAt lowerLevel.toNat).GetGridBlock
                ((bx + o.1) >>> (blockLevel - lowerLevel).toNat)
                ((by' + o.2.1) >>> (blockLevel - lowerLevel).toNat)
                ((bz + o.2.2) >>> (blockLevel - lowerLevel).toNat) with
            | none => s
            | some nb => claimFound block rx ry rz lowerLevel s o.1 o.2.1 o.2.2 nb) st
      else st := by
  unfold claimLevel lookedUpOffsets
  simp only
  split
  · rw [foldl_filter_if]
    congr 1
    funext s o
    unfold claimNeighbor
    simp only [decide_eq_true_eq]
  · rfl

theorem regionDirections_counts :
    ∀ r ∈ regionDirections,
      (neighborOffsets r.1 r.2.1 r.2.2).length = 2 ^ nonZeroAxes r ∧
      (0, 0, 0) ∈ neighborOffsets r.1 r.2.1 r.2.2 ∧
      (lookedUpOffsets r.1 r.2.1 r.2.2).length = 2 ^ nonZeroAxes r - 1 := by
  decide!

/-- C24, counterexample: for the face region `(1,0,0)` of a block at the grid
index `(4,2,0)`, at the level of the block (level difference 0, where the
boundary test holds), the neighbour loops enumerate the two offsets `(0,0,0)`
and `(1,0,0)` and look up one grid cell, `(5,2,0)`, not `2^1 = 2`. -/
theorem C24_face_looks_up_one_cell :
    nonZeroAxes (1, 0, 0) = 1 ∧
    onLowerGridBoundary 4 2 0 1 0 0 0 ∧
    neighborOffsets 1 0 0 = [(0, 0, 0), (1, 0, 0)] ∧
    claimLevelLookups 4 2 0 1 0 0 0 = [(5, 2, 0)] ∧
    (claimLevelLookups 4 2 0 1 0 0 0).length ≠ 2 ^ nonZeroAxes (1, 0, 0) := by
  decide!

/-- C24, amended.  For every block position, every region direction with `n`
non-zero axes and every level difference at which the boundary test holds, the
neighbour loops of `ClaimBlockSharedRegion` enumerate `2^n` offsets, the block's
own cell (offset 0) among them, and look up the other `2^n - 1` grid cells:
`GetGridBlock` is called for the offsets other than 0 only. -/
theorem C24_neighbour_lookups (bx by' bz rx ry rz : Int) (d : Nat)
    (hr : (rx, ry, rz) ∈ regionDirections)
    (hb : onLowerGridBoundary bx by' bz rx ry rz d) :
    (neighborOffsets rx ry rz).length = 2 ^ nonZeroAxes (rx, ry, rz) ∧
    (0, 0, 0) ∈ neighborOffsets rx ry rz ∧
    (claimLevelLookups bx by' bz rx ry rz d).length = 2 ^ nonZeroAxes (rx, ry, rz) - 1 ∧
    (∀ (block : BlockPtr) (blockLevel lowerLevel : Int) (st : ClaimState),
      (blockLevel - lowerLevel).toNat = d →
      claimLevel block blockLevel bx by' bz rx ry rz st lowerLevel =
        (lookedUpOffsets rx ry rz).foldl
          (fun s o =>
            match (s.helper.levelAt lowerLevel.toNat).GetGridBlock
                ((bx + o.1) >>> d) ((by' + o.2.1) >>> d) ((bz + o.2.2) >>> d) with
            | none => s
            | some nb => claimFound block rx ry rz lowerLevel s o.1 o.2.1 o.2.2 nb) st) := by
  obtain ⟨h1, h2, h3⟩ := regionDirections_counts (rx, ry, rz) hr
  refine ⟨h1, h2, ?_, ?_⟩
  · unfold claimLevelLookups
    rw [if_pos hb, List.length_map]
    exact h3
  · intro block blockLevel lowerLevel st hd
    rw [claimLevel_lookups, hd, if_pos hb]

/-- The amended C24 at the corner region `(1,-1,1)` of a block at `(4,2,0)`,
level difference 0: eight offsets, seven cells looked up. -/
theorem C24_neighbour_lookups_witness :
    (neighborOffsets 1 (-1) 1).length = 8 ∧
    (claimLevelLookups 4 2 0 1 (-1) 1 0).length = 7 := by
  have h := C24_neighbour_lookups 4 2 0 1 (-1) 1 0 (by decide!) (by decide!)
  exact ⟨h.1, h.2.2.1⟩
/-! ## The accessor by position in the block list -/

theorem length_Blocks_AddGridBlock (l : vtkAMRDualGridHelperLevel) (x y z : Int)
    (volume : Option vtkImageData) (localProcessId : Int) :
    (l.AddGridBlock x y z volume localProcessId).1.Blocks.length = l.Blocks.length + 1 := by
  unfold vtkAMRDualGridHelperLevel.AddGridBlock
  simp only [List.length_append, List.length_singleton]
  split
  · rfl
  · rfl

theorem length_Blocks_addGridBlocks (l : vtkAMRDualGridHelperLevel) (localProcessId : Int)
    (calls : List ((Int × Int × Int) × Option vtkImageData)) :
    (addGridBlocks l localProcessId calls).Blocks.length = l.Blocks.length + calls.length := by
  induction calls generalizing l with
  | nil => rfl
  | cons c cs ih =>
    rw [addGridBlocks, ih, length_Blocks_AddGridBlock, List.length_cons]
    omega

theorem GetNumberOfBlocksInLevel_addBlockAt (h : vtkAMRDualGridHelper) (level : Nat)
    (hl : level < h.Levels.length) (x y z : Int) (volume : Option vtkImageData)
    (processId : Int) (originIndex : Int × Int × Int) (m : Int) :
    (h.addBlockAt level x y z volume processId originIndex).GetNumberOfBlocksInLevel m =
      h.GetNumberOfBlocksInLevel m + if m = (level : Int) then 1 else 0 := by
  unfold vtkAMRDualGridHelper.GetNumberOfBlocksInLevel
  rw [length_addBlockAt]
  by_cases hm : m < 0 ∨ m ≥ (h.Levels.length : Int)
  · rw [if_pos hm, if_pos hm, if_neg (by omega)]
    rfl
  · rw [if_neg hm, if_neg hm, levelAt_addBlockAt h level hl]
    by_cases e : level = m.toNat
    · rw [if_pos e, if_pos (by omega)]
      simp only [List.length_modify]
      rw [length_Blocks_AddGridBlock, ← e]
      push_cast
      rfl
    · rw [if_neg e, if_neg (by omega)]
      omega

/-- C29. `GetBlock(level, blockIdx)` and `GetNumberOfBlocksInLevel(level)` on
every helper state: for a level in range and `0 <= blockIdx <` the number of
blocks the accessor returns the block at that position; for a level out of
range both return null and 0; for a level in range and `blockIdx` not below the
number of blocks the accessor returns null; the number of blocks of a level
grows by one with each `AddGridBlock` call on it.  For a level in range and a
negative `blockIdx` the test `Blocks.size() <= blockIdx` does not hold and the
accessor reads `Blocks[blockIdx]` outside the list, as with index -1 on a
registry of one level and one block. -/
theorem C29_negative_index_reads_outside :
    (∀ (self : vtkAMRDualGridHelper) (level blockIdx : Int),
      0 ≤ level → level < self.GetNumberOfLevels →
      0 ≤ blockIdx → blockIdx < self.GetNumberOfBlocksInLevel level →
      self.GetBlockIdx level blockIdx = BlockRead.block (level.toNat, blockIdx.toNat)) ∧
    (∀ (self : vtkAMRDualGridHelper) (level blockIdx : Int),
      level < 0 ∨ self.GetNumberOfLevels ≤ level →
      self.GetBlockIdx level blockIdx = BlockRead.null ∧
        self.GetNumberOfBlocksInLevel level = 0) ∧
    (∀ (self : vtkAMRDualGridHelper) (level blockIdx : Int),
      0 ≤ level → level < self.GetNumberOfLevels →
      self.GetNumberOfBlocksInLevel level ≤ blockIdx →
      self.GetBlockIdx level blockIdx = BlockRead.null) ∧
    (∀ (self : vtkAMRDualGridHelper) (level blockIdx : Int),
      0 ≤ level → level < self.GetNumberOfLevels → blockIdx < 0 →
      self.GetBlockIdx level blockIdx = BlockRead.outsideList blockIdx) ∧
    (∀ (self : vtkAMRDualGridHelper) (level : Int),
      0 ≤ level → level < self.GetNumberOfLevels →
      self.GetNumberOfBlocksInLevel level =
        ((self.levelAt level.toNat).Blocks.length : Int)) ∧
    (∀ (l : vtkAMRDualGridHelperLevel) (localProcessId : Int)
      (calls : List ((Int × Int × Int) × Option vtkImageData)),
      (addGridBlocks l localProcessId calls).Blocks.length =
        l.Blocks.length + calls.length) ∧
    ((vtkAMRDualGridHelper.init 1 (2, 2, 2)).addBlockAt 0 0 0 0 none 0
        (-1, -1, -1)).GetNumberOfBlocksInLevel 0 = 1 ∧
    ((vtkAMRDualGridHelper.init 1 (2, 2, 2)).addBlockAt 0 0 0 0 none 0
        (-1, -1, -1)).GetBlockIdx 0 (-1) = BlockRead.outsideList (-1) := by
  refine ⟨?_, ?_, ?_, ?_, ?_, length_Blocks_addGridBlocks, by decide!, by decide!⟩
  · intro self level blockIdx h0 h1 h2 h3
    unfold vtkAMRDualGridHelper.GetNumberOfLevels at h1
    unfold vtkAMRDualGridHelper.GetNumberOfBlocksInLevel at h3
    rw [if_neg (by omega)] at h3
    unfold vtkAMRDualGridHelper.GetBlockIdx vtkAMRDualGridHelper.readBlocks
    rw [if_neg (by omega), if_neg (by omega), if_pos ⟨h2, h3⟩]
  · intro self level blockIdx h
    unfold vtkAMRDualGridHelper.GetNumberOfLevels at h
    unfold vtkAMRDualGridHelper.GetBlockIdx vtkAMRDualGridHelper.GetNumberOfBlocksInLevel
    rw [if_pos (by omega), if_pos (by omega)]
    exact ⟨rfl, rfl⟩
  · intro self level blockIdx h0 h1 h3
    unfold vtkAMRDualGridHelper.GetNumberOfLevels at h1
    unfold vtkAMRDualGridHelper.GetNumberOfBlocksInLevel at h3
    rw [if_neg (by omega)] at h3
    unfold vtkAMRDualGridHelper.GetBlockIdx
    rw [if_neg (by omega), if_pos h3]
  · intro self level blockIdx h0 h1 h2
    unfold vtkAMRDualGridHelper.GetNumberOfLevels at h1
    unfold vtkAMRDualGridHelper.GetBlockIdx vtkAMRDualGridHelper.readBlocks
    rw [if_neg (by omega), if_neg (by omega), if_neg (by omega)]
  · intro self level h0 h1
    unfold vtkAMRDualGridHelper.GetNumberOfLevels at h1
    unfold vtkAMRDualGridHelper.GetNumberOfBlocksInLevel
    rw [if_neg (by omega)]

/-! ## The strides of the degenerate copies -/

theorem degenerateCopyStrides_eq (dims : Int × Int × Int) :
    degenerateCopyStrides dims = (dims.1 + 2, (dims.1 + 2) * (dims.2.2 + 2)) := by
  unfold degenerateCopyStrides
  simp only [Prod.mk.injEq]
  constructor
  · ring
  · ring

theorem voxelOffset_eq (dims : Int × Int × Int) (x y z : Int) :
    voxelOffset dims x y z = x + y * (dims.1 + 2) + z * ((dims.1 + 2) * (dims.2.2 + 2)) := by
  unfold voxelOffset
  rw [degenerateCopyStrides_eq]

/-- The offsets are those of the `(Dx+2) x (Dy+2) x (Dz+2)` array when the y
and z dimensions are equal. -/
theorem voxelOffset_equal_dims (dims : Int × Int × Int) (hx : 1 ≤ dims.1)
    (hy : 1 ≤ dims.2.1) (hyz : dims.2.1 = dims.2.2) :
    (degenerateCopyStrides dims).2 = (dims.1 + 2) * (dims.2.1 + 2) ∧
    (∀ x y z : Int, 0 ≤ x → x ≤ dims.1 + 1 → 0 ≤ y → y ≤ dims.2.1 + 1 →
      0 ≤ z → z ≤ dims.2.2 + 1 →
      0 ≤ voxelOffset dims x y z ∧
      voxelOffset dims x y z < (dims.1 + 2) * (dims.2.1 + 2) * (dims.2.2 + 2)) ∧
    (∀ x y z x' y' z' : Int, 0 ≤ x → x ≤ dims.1 + 1 → 0 ≤ y → y ≤ dims.2.1 + 1 →
      0 ≤ x' → x' ≤ dims.1 + 1 → 0 ≤ y' → y' ≤ dims.2.1 + 1 →
      voxelOffset dims x y z = voxelOffset dims x' y' z' →
      x = x' ∧ y = y' ∧ z = z') := by
  obtain ⟨dx, dy, dz⟩ := dims
  simp only at hx hy hyz
  subst hyz
  refine ⟨?_, ?_, ?_⟩
  · rw [degenerateCopyStrides_eq]
  · intro x y z x0 x1 y0 y1 z0 z1
    rw [voxelOffset_eq]
    simp only
    have h1 : 0 ≤ y * (dx + 2) := by positivity
    have h2 : 0 ≤ z * ((dx + 2) * (dy + 2)) := by positivity
    refine ⟨by omega, ?_⟩
    have a : y * (dx + 2) ≤ (dy + 1) * (dx + 2) :=
      Int.mul_le_mul_of_nonneg_right y1 (by omega)
    have b : z * ((dx + 2) * (dy + 2)) ≤ (dy + 1) * ((dx + 2) * (dy + 2)) :=
      Int.mul_le_mul_of_nonneg_right z1 (by positivity)
    nlinarith
  · intro x y z x' y' z' x0 x1 y0 y1 x0' x1' y0' y1' e
    rw [voxelOffset_eq, voxelOffset_eq] at e
    simp only at e x1 y1 x1' y1'
    have e' : x + y * (dx + 2) + z * ((dy + 2) * (dx + 2)) =
        x' + y' * (dx + 2) + z' * ((dy + 2) * (dx + 2)) := by
      rw [mul_comm (dy + 2) (dx + 2)]
      exact e
    exact linearIndex_inj (dx + 2) (dy + 2) x y z x' y' z' ⟨x0, by omega⟩ ⟨y0, by omega⟩
      ⟨x0', by omega⟩ ⟨y0', by omega⟩ e'

theorem CopyDegenerateRegionBlockToMessage_strides (self : vtkAMRDualGridHelper)
    (regionX regionY regionZ : Int) (lowResBlock highResBlock : BlockPtr)
    (messagePtr : MessagePtr) (lImg : vtkImageData) (lowerPtr : List Int)
    (hd : 0 < (self.blockAt highResBlock).Level - (self.blockAt lowResBlock).Level)
    (hi : (self.blockAt lowResBlock).Image = some lImg)
    (hs : lImg.Scalars = some lowerPtr) :
    self.CopyDegenerateRegionBlockToMessage regionX regionY regionZ lowResBlock highResBlock
        messagePtr =
      vtkDualGridHelperCopyBlockToMessage messagePtr lowerPtr
        (lowResExtent
          (degenerateRegionExt self.StandardBlockDimensions regionX regionY regionZ)
          ((self.blockAt highResBlock).Level - (self.blockAt lowResBlock).Level).toNat
          (self.blockAt highResBlock).OriginIndex (self.blockAt lowResBlock).OriginIndex)
        (degenerateCopyStrides self.StandardBlockDimensions).1
        (degenerateCopyStrides self.StandardBlockDimensions).2 := by
  unfold vtkAMRDualGridHelper.CopyDegenerateRegionBlockToMessage
  simp only
  rw [if_neg (by omega), if_neg (by omega)]
  simp only [hi, hs]
  rfl

theorem CopyDegenerateRegionMessageToBlock_strides (self : vtkAMRDualGridHelper)
    (regionX regionY regionZ : Int) (lowResBlock highResBlock : BlockPtr)
    (messagePtr : MessagePtr) (hImg : vtkImageData) (ptr : List Int)
    (hd : 0 < (self.blockAt highResBlock).Level - (self.blockAt lowResBlock).Level)
    (hi : (self.blockAt highResBlock).Image = some hImg)
    (hs : hImg.Scalars = some ptr) :
    self.CopyDegenerateRegionMessageToBlock regionX regionY regionZ lowResBlock highResBlock
        messagePtr =
      (((self.modifyBlock highResBlock markCopied).modifyBlock highResBlock
        (storeScalars hImg
          (vtkDualGridHelperCopyMessageToBlock ptr messagePtr
            (degenerateRegionExt self.StandardBlockDimensions regionX regionY regionZ)
            (lowResExtent
              (degenerateRegionExt self.StandardBlockDimensions regionX regionY regionZ)
              ((self.blockAt highResBlock).Level - (self.blockAt lowResBlock).Level).toNat
              (self.blockAt highResBlock).OriginIndex (self.blockAt lowResBlock).OriginIndex)
            ((self.blockAt highResBlock).Level - (self.blockAt lowResBlock).Level).toNat
            (degenerateCopyStrides self.StandardBlockDimensions).1
            (degenerateCopyStrides self.StandardBlockDimensions).2
            (self.blockAt highResBlock).OriginIndex
            (self.blockAt lowResBlock).OriginIndex).1)),
       (vtkDualGridHelperCopyMessageToBlock ptr messagePtr
            (degenerateRegionExt self.StandardBlockDimensions regionX regionY regionZ)
            (lowResExtent
              (degenerateRegionExt self.StandardBlockDimensions regionX regionY regionZ)
              ((self.blockAt highResBlock).Level - (self.blockAt lowResBlock).Level).toNat
              (self.blockAt highResBlock).OriginIndex (self.blockAt lowResBlock).OriginIndex)
            ((self.blockAt highResBlock).Level - (self.blockAt lowResBlock).Level).toNat
            (degenerateCopyStrides self.StandardBlockDimensions).1
            (degenerateCopyStrides self.StandardBlockDimensions).2
            (self.blockAt highResBlock).OriginIndex
            (self.blockAt lowResBlock).OriginIndex).2) := by
  unfold vtkAMRDualGridHelper.CopyDegenerateRegionMessageToBlock
  simp only
  rw [if_neg (by omega), if_neg (by omega)]
  simp only [hi, hs]
  rfl

theorem CopyDegenerateRegionBlockToBlock_strides (self : vtkAMRDualGridHelper)
    (regionX regionY regionZ : Int) (lowResBlock highResBlock : BlockPtr)
    (hImg lImg : vtkImageData) (ptr lowerPtr : List Int)
    (hd : 0 < (self.blockAt highResBlock).Level - (self.blockAt lowResBlock).Level)
    (hi : (self.blockAt highResBlock).Image = some hImg)
    (li : (self.blockAt lowResBlock).Image = some lImg)
    (hs : hImg.Scalars = some ptr) (ls : lImg.Scalars = some lowerPtr)
    (ht : lImg.DataType = hImg.DataType) :
    self.CopyDegenerateRegionBlockToBlock regionX regionY regionZ lowResBlock highResBlock =
      (self.modifyBlock highResBlock markCopied).modifyBlock highResBlock
        (storeScalars hImg
          (vtkDualGridHelperCopyBlockToBlock ptr lowerPtr
            (degenerateRegionExt self.StandardBlockDimensions regionX regionY regionZ)
            ((self.blockAt highResBlock).Level - (self.blockAt lowResBlock).Level).toNat
            (degenerateCopyStrides self.StandardBlockDimensions).1
            (degenerateCopyStrides self.StandardBlockDimensions).2
            (self.blockAt highResBlock).OriginIndex
            (self.blockAt lowResBlock).OriginIndex)) := by
  unfold vtkAMRDualGridHelper.CopyDegenerateRegionBlockToBlock
  simp only
  rw [if_neg (by omega), if_neg (by omega)]
  simp only [hi, li, hs, ls]
  rw [if_neg (by rw [ht]; exact fun h => h rfl)]
  rfl

/-- C28. The strides the three degenerate copies use are
`yInc = Dx+2` and `zInc = (Dx+2)*(Dz+2)`: the z stride is built from the z
extent, not from the y extent.  Each of `CopyDegenerateRegionBlockToBlock`,
`CopyDegenerateRegionBlockToMessage` and `CopyDegenerateRegionMessageToBlock`
passes these two strides to its copy template.  With dimensions `(1,2,1)` the
voxels `(0,3,0)` and `(0,0,1)` of the `3 x 4 x 3` block are both addressed at
offset 9, and with dimensions `(1,1,2)` the voxel `(2,2,3)` of the `3 x 3 x 4`
block is addressed at offset 44, beyond its 36 cells.  When the y and z
dimensions are equal the z stride is `(Dx+2)*(Dy+2)`, the offsets are injective
on the index range of the block and stay below `(Dx+2)*(Dy+2)*(Dz+2)`. -/
theorem C28_z_stride_from_z_extent :
    (∀ dims : Int × Int × Int,
      degenerateCopyStrides dims = (dims.1 + 2, (dims.1 + 2) * (dims.2.2 + 2))) ∧
    (∀ (self : vtkAMRDualGridHelper) (regionX regionY regionZ : Int)
      (lowResBlock highResBlock : BlockPtr) (hImg lImg : vtkImageData)
      (ptr lowerPtr : List Int),
      0 < (self.blockAt highResBlock).Level - (self.blockAt lowResBlock).Level →
      (self.blockAt highResBlock).Image = some hImg →
      (self.blockAt lowResBlock).Image = some lImg →
      hImg.Scalars = some ptr → lImg.Scalars = some lowerPtr →
      lImg.DataType = hImg.DataType →
      self.CopyDegenerateRegionBlockToBlock regionX regionY regionZ lowResBlock highResBlock =
        (self.modifyBlock highResBlock markCopied).modifyBlock highResBlock
          (storeScalars hImg
            (vtkDualGridHelperCopyBlockToBlock ptr lowerPtr
              (degenerateRegionExt self.StandardBlockDimensions regionX regionY regionZ)
              ((self.blockAt highResBlock).Level - (self.blockAt lowResBlock).Level).toNat
              (degenerateCopyStrides self.StandardBlockDimensions).1
              (degenerateCopyStrides self.StandardBlockDimensions).2
              (self.blockAt highResBlock).OriginIndex
              (self.blockAt lowResBlock).OriginIndex))) ∧
    (∀ (self : vtkAMRDualGridHelper) (regionX regionY regionZ : Int)
      (lowResBlock highResBlock : BlockPtr) (messagePtr : MessagePtr) (lImg : vtkImageData)
      (lowerPtr : List Int),
      0 < (self.blockAt highResBlock).Level - (self.blockAt lowResBlock).Level →
      (self.blockAt lowResBlock).Image = some lImg →
      lImg.Scalars = some lowerPtr →
      self.CopyDegenerateRegionBlockToMessage regionX regionY regionZ lowResBlock highResBlock
          messagePtr =
        vtkDualGridHelperCopyBlockToMessage messagePtr lowerPtr
          (lowResExtent
            (degenerateRegionExt self.StandardBlockDimensions regionX regionY regionZ)
            ((self.blockAt highResBlock).Level - (self.blockAt lowResBlock).Level).toNat
            (self.blockAt highResBlock).OriginIndex (self.blockAt lowResBlock).OriginIndex)
          (degenerateCopyStrides self.StandardBlockDimensions).1
          (degenerateCopyStrides self.StandardBlockDimensions).2) ∧
    (∀ (self : vtkAMRDualGridHelper) (regionX regionY regionZ : Int)
      (lowResBlock highResBlock : BlockPtr) (messagePtr : MessagePtr) (hImg : vtkImageData)
      (ptr : List Int),
      0 < (self.blockAt highResBlock).Level - (self.blockAt lowResBlock).Level →
      (self.blockAt highResBlock).Image = some hImg →
      hImg.Scalars = some ptr →
      (self.CopyDegenerateRegionMessageToBlock regionX regionY regionZ lowResBlock
          highResBlock messagePtr).1 =
        (self.modifyBlock highResBlock markCopied).modifyBlock highResBlock
          (storeScalars hImg
            (vtkDualGridHelperCopyMessageToBlock ptr messagePtr
              (degenerateRegionExt self.StandardBlockDimensions regionX regionY regionZ)
              (lowResExtent
                (degenerateRegionExt self.StandardBlockDimensions regionX regionY regionZ)
                ((self.blockAt highResBlock).Level - (self.blockAt lowResBlock).Level).toNat
                (self.blockAt highResBlock).OriginIndex
                (self.blockAt lowResBlock).OriginIndex)
              ((self.blockAt highResBlock).Level - (self.blockAt lowResBlock).Level).toNat
              (degenerateCopyStrides self.StandardBlockDimensions).1
              (degenerateCopyStrides self.StandardBlockDimensions).2
              (self.blockAt highResBlock).OriginIndex
              (self.blockAt lowResBlock).OriginIndex).1)) ∧
    (degenerateCopyStrides (1, 2, 1) = (3, 9) ∧ (1 + 2) * (2 + 2) = (12 : Int) ∧
      voxelOffset (1, 2, 1) 0 3 0 = 9 ∧ voxelOffset (1, 2, 1) 0 0 1 = 9) ∧
    (degenerateCopyStrides (1, 1, 2) = (3, 12) ∧ (1 + 2) * (1 + 2) = (9 : Int) ∧
      voxelOffset (1, 1, 2) 2 2 3 = 44 ∧ (1 + 2) * (1 + 2) * (2 + 2) = (36 : Int)) ∧
    (∀ dims : Int × Int × Int, 1 ≤ dims.1 → 1 ≤ dims.2.1 → dims.2.1 = dims.2.2 →
      (degenerateCopyStrides dims).2 = (dims.1 + 2) * (dims.2.1 + 2) ∧
      (∀ x y z : Int, 0 ≤ x → x ≤ dims.1 + 1 → 0 ≤ y → y ≤ dims.2.1 + 1 →
        0 ≤ z → z ≤ dims.2.2 + 1 →
        0 ≤ voxelOffset dims x y z ∧
        voxelOffset dims x y z < (dims.1 + 2) * (dims.2.1 + 2) * (dims.2.2 + 2)) ∧
      (∀ x y z x' y' z' : Int, 0 ≤ x → x ≤ dims.1 + 1 → 0 ≤ y → y ≤ dims.2.1 + 1 →
        0 ≤ x' → x' ≤ dims.1 + 1 → 0 ≤ y' → y' ≤ dims.2.1 + 1 →
        voxelOffset dims x y z = voxelOffset dims x' y' z' →
        x = x' ∧ y = y' ∧ z = z')) := by
  refine ⟨degenerateCopyStrides_eq, ?_, ?_, ?_, by decide, by decide, voxelOffset_equal_dims⟩
  · intro self rx ry rz lo hi hImg lImg ptr lowerPtr a b c d e f
    exact CopyDegenerateRegionBlockToBlock_strides self rx ry rz lo hi hImg lImg ptr lowerPtr
      a b c d e f
  · intro self rx ry rz lo hi m lImg lowerPtr a b c
    exact CopyDegenerateRegionBlockToMessage_strides self rx ry rz lo hi m lImg lowerPtr a b c
  · intro self rx ry rz lo hi m hImg ptr a b c
    rw [CopyDegenerateRegionMessageToBlock_strides self rx ry rz lo hi m hImg ptr a b c]
/-! ## Restoring the ghost layers -/

theorem intRange_cons (a b : Int) (h : a ≤ b) : intRange a b = a :: intRange (a + 1) b := by
  unfold intRange
  have e : (b + 1 - a).toNat = (b + 1 - (a + 1)).toNat + 1 := by omega
  rw [e, List.range_succ_eq_map, List.map_cons, List.map_map]
  simp only [Nat.cast_zero, add_zero, List.cons.injEq, true_and]
  apply List.map_congr_left
  intro i _
  simp only [Function.comp, Nat.cast_succ]
  ring

theorem intRange_nil (a b : Int) (h : b < a) : intRange a b = [] := by
  unfold intRange
  have e : (b + 1 - a).toNat = 0 := by omega
  rw [e]
  rfl

theorem clampTo_succ (lo hi x : Int) (h : lo ≤ hi) :
    clampTo lo hi (x + 1) = if x ≥ lo ∧ x < hi then clampTo lo hi x + 1 else clampTo lo hi x := by
  unfold clampTo
  split_ifs <;> omega

theorem clampTo_of_le (lo hi x : Int) (h : x ≤ lo) (hh : lo ≤ hi) : clampTo lo hi x = lo := by
  unfold clampTo
  split_ifs <;> omega

theorem clampTo_of_mem (lo hi x : Int) (h : lo ≤ x) (hh : x ≤ hi) : clampTo lo hi x = x := by
  unfold clampTo
  split_ifs <;> omega

theorem clampTo_mem (lo hi x : Int) (hh : lo ≤ hi) :
    lo ≤ clampTo lo hi x ∧ clampTo lo hi x ≤ hi := by
  unfold clampTo
  split_ifs <;> omega

/-- A loop over `a..b` that carries a pointer advanced by `step` after the
iterations `lo <= x < hi` reads the pointer `p0 + step * (clamp x - lo)` in the
iteration `x`. -/
theorem foldl_walk_from {σ : Type} (g : σ → Int → Int → σ) (lo hi step p0 : Int)
    (hh : lo ≤ hi) (n : Nat) :
    ∀ (a b : Int) (s : σ), (b + 1 - a).toNat = n →
      ((intRange a b).foldl
        (fun (t : σ × Int) x => (g t.1 t.2 x, if x ≥ lo ∧ x < hi then t.2 + step else t.2))
        (s, p0 + step * (clampTo lo hi a - lo))).1 =
      (intRange a b).foldl (fun t x => g t (p0 + step * (clampTo lo hi x - lo)) x) s := by
  induction n with
  | zero =>
    intro a b s hn
    rw [intRange_nil a b (by omega)]
    rfl
  | succ n ih =>
    intro a b s hn
    rw [intRange_cons a b (by omega), List.foldl_cons, List.foldl_cons]
    have hp : (if a ≥ lo ∧ a < hi then p0 + step * (clampTo lo hi a - lo) + step
        else p0 + step * (clampTo lo hi a - lo)) =
        p0 + step * (clampTo lo hi (a + 1) - lo) := by
      rw [clampTo_succ lo hi a hh]
      split_ifs
      · ring
      · rfl
    simp only
    rw [hp]
    exact ih (a + 1) b _ (by omega)

theorem foldl_walk {σ : Type} (g : σ → Int → Int → σ) (lo hi step p0 : Int)
    (a b : Int) (s : σ) (ha : a ≤ lo) (hh : lo ≤ hi) :
    ((intRange a b).foldl
      (fun (t : σ × Int) x => (g t.1 t.2 x, if x ≥ lo ∧ x < hi then t.2 + step else t.2))
      (s, p0)).1 =
    (intRange a b).foldl (fun t x => g t (p0 + step * (clampTo lo hi x - lo)) x) s := by
  have h := foldl_walk_from g lo hi step p0 hh _ a b s rfl
  rw [clampTo_of_le lo hi a ha hh] at h
  simpa using h

/-- The loops of `vtkAMRDualGridHelperAddBackGhostValues` store, for the cells
of the output extent in the order of the visit, the input cell nearest to
each. -/
theorem AddBackGhostValues_eq (inPtr outPtr : List Int) (inDim outDim offset : Int × Int × Int)
    (hx : 1 ≤ inDim.1) (hy : 1 ≤ inDim.2.1) (hz : 1 ≤ inDim.2.2)
    (ox : 0 ≤ offset.1) (oy : 0 ≤ offset.2.1) (oz : 0 ≤ offset.2.2) :
    vtkAMRDualGridHelperAddBackGhostValues inPtr inDim outPtr outDim offset =
      (((extentCoords ⟨-1, outDim.1 - 2, -1, outDim.2.1 - 2, -1, outDim.2.2 - 2⟩).map
        fun c => cellAt inPtr inDim.1 inDim.2.1
          (-1 + offset.1, -1 + offset.2.1, -1 + offset.2.2)
          (clampTo (-1 + offset.1) (-1 + offset.1 + inDim.1 - 1) c.1)
          (clampTo (-1 + offset.2.1) (-1 + offset.2.1 + inDim.2.1 - 1) c.2.1)
          (clampTo (-1 + offset.2.2) (-1 + offset.2.2 + inDim.2.2 - 1) c.2.2)).foldl
        (fun (m : MessagePtr) v => (writeAt m.1 m.2 v, m.2 + 1)) (outPtr, 0)).1 := by
  unfold vtkAMRDualGridHelperAddBackGhostValues
  simp only
  have e1 : (-1 : Int) + outDim.1 - 1 = outDim.1 - 2 := by ring
  have e2 : (-1 : Int) + outDim.2.1 - 1 = outDim.2.1 - 2 := by ring
  have e3 : (-1 : Int) + outDim.2.2 - 1 = outDim.2.2 - 2 := by ring
  rw [e1, e2, e3]
  rw [foldl_walk (fun (t : MessagePtr) p zz =>
      ((intRange (-1) (outDim.2.1 - 2)).foldl (fun (sy : MessagePtr × Int) yy =>
        (((intRange (-1) (outDim.1 - 2)).foldl (fun (sx : MessagePtr × Int) xx =>
          ((writeAt sx.1.1 sx.1.2 (readCell inPtr sx.2), sx.1.2 + 1),
            if xx ≥ -1 + offset.1 ∧ xx < -1 + offset.1 + inDim.1 - 1 then sx.2 + 1 else sx.2))
          (sy.1, sy.2)).1,
          if yy ≥ -1 + offset.2.1 ∧ yy < -1 + offset.2.1 + inDim.2.1 - 1 then sy.2 + inDim.1
          else sy.2)) (t, p)).1)
    (-1 + offset.2.2) (-1 + offset.2.2 + inDim.2.2 - 1) (inDim.1 * inDim.2.1) 0
    (-1) (outDim.2.2 - 2) (outPtr, 0) (by omega) (by omega)]
  rw [List.foldl_map]
  unfold extentCoords
  simp only
  rw [foldl_flatMap_eq]
  congr 1
  apply foldl_congr_mem
  intro t zz _
  rw [foldl_walk (fun (t : MessagePtr) p yy =>
      ((intRange (-1) (outDim.1 - 2)).foldl (fun (sx : MessagePtr × Int) xx =>
          ((writeAt sx.1.1 sx.1.2 (readCell inPtr sx.2), sx.1.2 + 1),
            if xx ≥ -1 + offset.1 ∧ xx < -1 + offset.1 + inDim.1 - 1 then sx.2 + 1 else sx.2))
          (t, p)).1)
    (-1 + offset.2.1) (-1 + offset.2.1 + inDim.2.1 - 1) inDim.1 _
    (-1) (outDim.2.1 - 2) t (by omega) (by omega)]
  rw [foldl_flatMap_eq]
  apply foldl_congr_mem
  intro t yy _
  rw [foldl_walk (fun (t : MessagePtr) p _ => (writeAt t.1 t.2 (readCell inPtr p), t.2 + 1))
    (-1 + offset.1) (-1 + offset.1 + inDim.1 - 1) 1 _
    (-1) (outDim.1 - 2) t (by omega) (by omega)]
  rw [List.foldl_map]
  apply foldl_congr_mem
  intro t xx _
  unfold cellAt
  simp only
  congr 3
  ring

theorem AddBackGhostValues_spec (inPtr outPtr : List Int) (inDim outDim offset : Int × Int × Int)
    (hx : 1 ≤ inDim.1) (hy : 1 ≤ inDim.2.1) (hz : 1 ≤ inDim.2.2)
    (ox : 0 ≤ offset.1) (oy : 0 ≤ offset.2.1) (oz : 0 ≤ offset.2.2)
    (dx : 0 ≤ outDim.1) (dy : 0 ≤ outDim.2.1) (dz : 0 ≤ outDim.2.2)
    (hout : (outPtr.length : Int) = outDim.1 * outDim.2.1 * outDim.2.2) :
    (vtkAMRDualGridHelperAddBackGhostValues inPtr inDim outPtr outDim offset).length =
        outPtr.length ∧
      ∀ x y z : Int, -1 ≤ x → x ≤ outDim.1 - 2 → -1 ≤ y → y ≤ outDim.2.1 - 2 →
        -1 ≤ z → z ≤ outDim.2.2 - 2 →
        cellAt (vtkAMRDualGridHelperAddBackGhostValues inPtr inDim outPtr outDim offset)
            outDim.1 outDim.2.1 (-1, -1, -1) x y z =
          cellAt inPtr inDim.1 inDim.2.1 (-1 + offset.1, -1 + offset.2.1, -1 + offset.2.2)
            (clampTo (-1 + offset.1) (-1 + offset.1 + inDim.1 - 1) x)
            (clampTo (-1 + offset.2.1) (-1 + offset.2.1 + inDim.2.1 - 1) y)
            (clampTo (-1 + offset.2.2) (-1 + offset.2.2 + inDim.2.2 - 1) z) := by
  rw [AddBackGhostValues_eq inPtr outPtr inDim outDim offset hx hy hz ox oy oz]
  obtain ⟨_, w2, _, w4⟩ := writeSeq_spec
    ((extentCoords ⟨-1, outDim.1 - 2, -1, outDim.2.1 - 2, -1, outDim.2.2 - 2⟩).map
      fun c => cellAt inPtr inDim.1 inDim.2.1
        (-1 + offset.1, -1 + offset.2.1, -1 + offset.2.2)
        (clampTo (-1 + offset.1) (-1 + offset.1 + inDim.1 - 1) c.1)
        (clampTo (-1 + offset.2.1) (-1 + offset.2.1 + inDim.2.1 - 1) c.2.1)
        (clampTo (-1 + offset.2.2) (-1 + offset.2.2 + inDim.2.2 - 1) c.2.2)) outPtr 0
  rw [List.length_map] at w4
  refine ⟨w2, ?_⟩
  intro x y z x0 x1 y0 y1 z0 z1
  have hX : (((outDim.1 - 2 + 1 - -1).toNat : Nat) : Int) = outDim.1 := by omega
  have hY : (((outDim.2.1 - 2 + 1 - -1).toNat : Nat) : Int) = outDim.2.1 := by omega
  have hZ : (((outDim.2.2 - 2 + 1 - -1).toNat : Nat) : Int) = outDim.2.2 := by omega
  have hlen := length_extentCoords_shift
    ⟨-1, outDim.1 - 2, -1, outDim.2.1 - 2, -1, outDim.2.2 - 2⟩
  simp only at hlen
  have hlenZ : (((extentCoords
      ⟨-1, outDim.1 - 2, -1, outDim.2.1 - 2, -1, outDim.2.2 - 2⟩).length : Nat) : Int) =
      outDim.1 * outDim.2.1 * outDim.2.2 := by
    rw [hlen]
    push_cast
    rw [hX, hY, hZ]
    ring
  have hc : (x, y, z) ∈ extentCoords
      ⟨-1, outDim.1 - 2, -1, outDim.2.1 - 2, -1, outDim.2.2 - 2⟩ := by
    rw [mem_extentCoords]
    exact ⟨⟨x0, x1⟩, ⟨y0, y1⟩, z0, z1⟩
  obtain ⟨k, hk, hkc⟩ := List.getElem_of_mem hc
  have hidx := extentCoords_index_shift
    ⟨-1, outDim.1 - 2, -1, outDim.2.1 - 2, -1, outDim.2.2 - 2⟩
  have e2 := congrArg (fun l => l[k]?) hidx
  have hk2 : k < (outDim.2.2 - 2 + 1 - -1).toNat *
      ((outDim.2.1 - 2 + 1 - -1).toNat * (outDim.1 - 2 + 1 - -1).toNat) := by
    rw [← hlen]; exact hk
  simp only [List.getElem?_map, List.getElem?_eq_getElem hk, Option.map_some',
    List.getElem?_range hk2, Option.some.injEq, hkc] at e2
  rw [hX, hY] at e2
  have hw := w4 (le_refl 0) (by rw [hlenZ, hout]; omega) k hk
  rw [List.getD_eq_getElem?_getD, List.getElem?_map, List.getElem?_eq_getElem hk, hkc] at hw
  simp only [Option.map_some', Option.getD_some] at hw
  rw [← hw]
  unfold cellAt
  simp only
  congr 1
  rw [← e2]
  ring

theorem ghostAxis_stripped (d g : Int) (lowStripped highStripped : Bool) (origin spacing : ℚ)
    (hd : 2 ≤ d) :
    ghostAxis (strippedAxis d g lowStripped highStripped).1
        (strippedAxis d g lowStripped highStripped).2 origin spacing d =
      { OriginIndex := d * g - 1
        origin := if lowStripped then origin - spacing else origin
        offset := if lowStripped then 1 else 0
        inDim := d + 2 - (if lowStripped then 1 else 0) - (if highStripped then 1 else 0)
        outDim := d + 2
        needToCopy := lowStripped || highStripped } := by
  have hnd1 : ¬ d ∣ 1 := by
    intro h
    have := Int.le_of_dvd (by omega) h
    omega
  have hnd : ¬ d ∣ -1 := by
    intro h
    exact hnd1 ((Int.dvd_neg).mp h)
  have n0 : Int.tmod (d * g - 1 + 1) d = 0 :=
    Int.dvd_iff_tmod_eq_zero.mp ⟨g, by ring⟩
  have n1 : Int.tmod (d * g - 1 + 0) d ≠ 0 := by
    intro h
    have h2 := Int.dvd_of_tmod_eq_zero h
    have h3 : d ∣ d * g - 1 + 0 - d * g := Int.dvd_sub h2 ⟨g, rfl⟩
    have e : d * g - 1 + 0 - d * g = -1 := by ring
    rw [e] at h3
    exact hnd h3
  have p0 : ∀ a : Int, a = d * (g + 1) → Int.tmod a d = 0 := by
    intro a ha
    exact Int.dvd_iff_tmod_eq_zero.mp ⟨g + 1, ha⟩
  have p1 : ∀ a : Int, a = d * (g + 1) + 1 → Int.tmod a d ≠ 0 := by
    intro a ha h
    have h2 := Int.dvd_of_tmod_eq_zero h
    have h3 : d ∣ a - d * (g + 1) := Int.dvd_sub h2 ⟨g + 1, rfl⟩
    have e : a - d * (g + 1) = 1 := by rw [ha]; ring
    rw [e] at h3
    exact hnd1 h3
  unfold ghostAxis strippedAxis
  cases lowStripped <;> cases highStripped <;>
    simp only [Bool.false_eq_true, if_false, if_true, Bool.or_false, Bool.or_true, Bool.or_self]
  · rw [if_neg n1, if_neg (p1 _ (by ring))]
    simp only [GhostAxis.mk.injEq, and_true, true_and]
    refine ⟨by ring, by ring, by ring⟩
  · rw [if_neg n1, if_pos (p0 _ (by ring))]
    simp only [GhostAxis.mk.injEq, and_true, true_and]
    refine ⟨by ring, by ring, by ring⟩
  · rw [if_pos n0, if_neg (p1 _ (by ring))]
    simp only [GhostAxis.mk.injEq, and_true, true_and]
    refine ⟨by ring, by ring, by ring⟩
  · rw [if_pos n0, if_pos (p0 _ (by ring))]
    simp only [GhostAxis.mk.injEq, and_true, true_and]
    refine ⟨by ring, by ring, by ring⟩

theorem receiveBlock_skeleton (remoteProc : Int) (message : List Int) (levelIdx : Nat)
    (st : ReceiveState) (blockIdx : Nat) :
    (receiveBlock remoteProc message levelIdx st blockIdx).helper =
      st.helper.addBlockAt levelIdx (readCell message st.messagePtr)
        (readCell message (st.messagePtr + 1)) (readCell message (st.messagePtr + 2)) none
        (if remoteProc = 0 then readCell message (st.messagePtr + 3) else st.blockProc)
        (skeletonOriginIndex st.helper.StandardBlockDimensions
          (readCell message st.messagePtr) (readCell message (st.messagePtr + 1))
          (readCell message (st.messagePtr + 2))) := rfl

/-- C30. For standard block dimensions with entries `>= 2` and a block of the
standard size at the grid index `g` whose ghost layer was stripped on the sides
`low` (negative side of each axis) and `high` (positive side), with a cell
array: `AddBackGhostLevels` returns; afterwards the image has
`StandardBlockDimensions + 2` cells (one more point) on every axis, the
`OriginIndex` of the block is `StandardBlockDimensions * g - 1`, the value
`ReceiveBlocks` assigns to a skeleton with this grid index, and every cell
`(x,y,z)` of the padded block, `-1 <= x <= StandardBlockDimensions[0]` and so
on, holds the value of the input cell nearest to it, which is the cell itself
when it was present.  The array has the size of the padded block when the
input array had the size of the input block.  A block with all its ghost
layers is returned as it was. -/
theorem C30_ghost_layers_restored (sbd g : Int × Int × Int) (low high : Bool × Bool × Bool)
    (b : vtkAMRDualGridHelperBlock) (grid : ImageGrid) (image : vtkImageData)
    (cells : List Int)
    (hd : 2 ≤ sbd.1 ∧ 2 ≤ sbd.2.1 ∧ 2 ≤ sbd.2.2)
    (hO : b.OriginIndex =
      ((strippedAxis sbd.1 g.1 low.1 high.1).1, (strippedAxis sbd.2.1 g.2.1 low.2.1 high.2.1).1,
        (strippedAxis sbd.2.2 g.2.2 low.2.2 high.2.2).1))
    (hdim : grid.Dimensions =
      ((strippedAxis sbd.1 g.1 low.1 high.1).2, (strippedAxis sbd.2.1 g.2.1 low.2.1 high.2.1).2,
        (strippedAxis sbd.2.2 g.2.2 low.2.2 high.2.2).2))
    (hI : b.Image = some image) (hS : image.Scalars = some cells) :
    ∃ (b' : vtkAMRDualGridHelperBlock) (grid' : ImageGrid) (image' : vtkImageData)
      (out : List Int),
      b.AddBackGhostLevels grid sbd = some (b', grid') ∧
      grid'.Dimensions = (sbd.1 + 2 + 1, sbd.2.1 + 2 + 1, sbd.2.2 + 2 + 1) ∧
      b'.OriginIndex = skeletonOriginIndex sbd g.1 g.2.1 g.2.2 ∧
      b'.Image = some image' ∧ image'.Scalars = some out ∧
      (∀ x y z : Int, -1 ≤ x → x ≤ sbd.1 → -1 ≤ y → y ≤ sbd.2.1 → -1 ≤ z → z ≤ sbd.2.2 →
        cellAt out (sbd.1 + 2) (sbd.2.1 + 2) (-1, -1, -1) x y z =
          cellAt cells (presentHi sbd.1 high.1 - presentLo low.1 + 1)
            (presentHi sbd.2.1 high.2.1 - presentLo low.2.1 + 1)
            (presentLo low.1, presentLo low.2.1, presentLo low.2.2)
            (clampTo (presentLo low.1) (presentHi sbd.1 high.1) x)
            (clampTo (presentLo low.2.1) (presentHi sbd.2.1 high.2.1) y)
            (clampTo (presentLo low.2.2) (presentHi sbd.2.2 high.2.2) z)) ∧
      (∀ x y z : Int, presentLo low.1 ≤ x → x ≤ presentHi sbd.1 high.1 →
        presentLo low.2.1 ≤ y → y ≤ presentHi sbd.2.1 high.2.1 →
        presentLo low.2.2 ≤ z → z ≤ presentHi sbd.2.2 high.2.2 →
        cellAt out (sbd.1 + 2) (sbd.2.1 + 2) (-1, -1, -1) x y z =
          cellAt cells (presentHi sbd.1 high.1 - presentLo low.1 + 1)
            (presentHi sbd.2.1 high.2.1 - presentLo low.2.1 + 1)
            (presentLo low.1, presentLo low.2.1, presentLo low.2.2) x y z) ∧
      ((cells.length : Int) = (presentHi sbd.1 high.1 - presentLo low.1 + 1) *
          (presentHi sbd.2.1 high.2.1 - presentLo low.2.1 + 1) *
          (presentHi sbd.2.2 high.2.2 - presentLo low.2.2 + 1) →
        (out.length : Int) = (sbd.1 + 2) * (sbd.2.1 + 2) * (sbd.2.2 + 2)) ∧
      (low = (false, false, false) → high = (false, false, false) → b' = b ∧ grid' = grid) ∧
      (∀ (remoteProc : Int) (message : List Int) (levelIdx : Nat) (st : ReceiveState)
        (blockIdx : Nat),
        (receiveBlock remoteProc message levelIdx st blockIdx).helper =
          st.helper.addBlockAt levelIdx (readCell message st.messagePtr)
            (readCell message (st.messagePtr + 1)) (readCell message (st.messagePtr + 2)) none
            (if remoteProc = 0 then readCell message (st.messagePtr + 3) else st.blockProc)
            (skeletonOriginIndex st.helper.StandardBlockDimensions
              (readCell message st.messagePtr) (readCell message (st.messagePtr + 1))
              (readCell message (st.messagePtr + 2)))) := by
  obtain ⟨dx, dy, dz⟩ := sbd
  obtain ⟨gx, gy, gz⟩ := g
  obtain ⟨lx, ly, lz⟩ := low
  obtain ⟨ux, uy, uz⟩ := high
  obtain ⟨hdx, hdy, hdz⟩ := hd
  simp only at hdx hdy hdz hO hdim ⊢
  have hlo : ∀ s : Bool, -1 ≤ presentLo s ∧ presentLo s ≤ 0 ∧
      presentLo s = -1 + (if s then 1 else 0) := by
    intro s; cases s <;> simp [presentLo]
  have hhi : ∀ (d : Int) (s : Bool), d - 1 ≤ presentHi d s ∧ presentHi d s ≤ d ∧
      presentHi d s = d - (if s then 1 else 0) := by
    intro d s; cases s <;> simp [presentHi]
  have key : b.AddBackGhostLevels grid (dx, dy, dz) =
      if ¬ ((lx || ux) = true ∨ (ly || uy) = true ∨ (lz || uz) = true) then some (b, grid)
      else some
        ({ b with
            OriginIndex := (dx * gx - 1, dy * gy - 1, dz * gz - 1)
            Image := some
              { image with
                Scalars := some (vtkAMRDualGridHelperAddBackGhostValues cells
                  (presentHi dx ux - presentLo lx + 1, presentHi dy uy - presentLo ly + 1,
                    presentHi dz uz - presentLo lz + 1)
                  (List.replicate ((dx + 2) * (dy + 2) * (dz + 2)).toNat 0)
                  (dx + 2, dy + 2, dz + 2)
                  (if lx then 1 else 0, if ly then 1 else 0, if lz then 1 else 0)) }
            CopyFlag := true },
          { Dimensions := (dx + 2 + 1, dy + 2 + 1, dz + 2 + 1)
            Origin := (if lx then grid.Origin.1 - grid.Spacing.1 else grid.Origin.1,
              if ly then grid.Origin.2.1 - grid.Spacing.2.1 else grid.Origin.2.1,
              if lz then grid.Origin.2.2 - grid.Spacing.2.2 else grid.Origin.2.2)
            Spacing := grid.Spacing }) := by
    unfold vtkAMRDualGridHelperBlock.AddBackGhostLevels
    rw [hI]
    simp only
    rw [if_neg (by omega), hO, hdim]
    simp only
    rw [ghostAxis_stripped dx gx lx ux _ _ hdx, ghostAxis_stripped dy gy ly uy _ _ hdy,
      ghostAxis_stripped dz gz lz uz _ _ hdz]
    simp only [hS, Option.map_some']
    have ex : dx + 2 - (if lx then 1 else 0) - (if ux then 1 else 0) =
        presentHi dx ux - presentLo lx + 1 := by
      rw [(hlo lx).2.2, (hhi dx ux).2.2]; ring
    have ey : dy + 2 - (if ly then 1 else 0) - (if uy then 1 else 0) =
        presentHi dy uy - presentLo ly + 1 := by
      rw [(hlo ly).2.2, (hhi dy uy).2.2]; ring
    have ez : dz + 2 - (if lz then 1 else 0) - (if uz then 1 else 0) =
        presentHi dz uz - presentLo lz + 1 := by
      rw [(hlo lz).2.2, (hhi dz uz).2.2]; ring
    rw [ex, ey, ez]
  by_cases hn : (lx || ux) = true ∨ (ly || uy) = true ∨ (lz || uz) = true
  · rw [if_neg (not_not.mpr hn)] at key
    have hspec := AddBackGhostValues_spec cells
      (List.replicate ((dx + 2) * (dy + 2) * (dz + 2)).toNat 0)
      (presentHi dx ux - presentLo lx + 1, presentHi dy uy - presentLo ly + 1,
        presentHi dz uz - presentLo lz + 1)
      (dx + 2, dy + 2, dz + 2)
      (if lx then 1 else 0, if ly then 1 else 0, if lz then 1 else 0)
      (by have := hlo lx; have := hhi dx ux; simp only; omega)
      (by have := hlo ly; have := hhi dy uy; simp only; omega)
      (by have := hlo lz; have := hhi dz uz; simp only; omega)
      (by simp only; split <;> omega) (by simp only; split <;> omega)
      (by simp only; split <;> omega)
      (by simp only; omega) (by simp only; omega) (by simp only; omega)
      (by
        simp only [List.length_replicate]
        have : 0 ≤ (dx + 2) * (dy + 2) * (dz + 2) := by positivity
        omega)
    simp only at hspec
    have cl : ∀ (d : Int) (l u : Bool) (x : Int),
        clampTo (-1 + if l = true then 1 else 0)
          (-1 + (if l = true then 1 else 0) + (presentHi d u - presentLo l + 1) - 1) x =
        clampTo (presentLo l) (presentHi d u) x := by
      intro d l u x
      rw [← (hlo l).2.2]
      congr 1
      ring
    refine ⟨_, _, _, _, key, rfl, rfl, rfl, rfl, ?_, ?_, ?_, ?_, receiveBlock_skeleton⟩
    · intro x y z x0 x1 y0 y1 z0 z1
      have h := hspec.2 x y z x0 (by omega) y0 (by omega) z0 (by omega)
      rw [cl, cl, cl, ← (hlo lx).2.2, ← (hlo ly).2.2, ← (hlo lz).2.2] at h
      exact h
    · intro x y z x0 x1 y0 y1 z0 z1
      have h := hspec.2 x y z (by have := hlo lx; omega) (by have := hhi dx ux; omega)
        (by have := hlo ly; omega) (by have := hhi dy uy; omega)
        (by have := hlo lz; omega) (by have := hhi dz uz; omega)
      rw [cl, cl, cl, ← (hlo lx).2.2, ← (hlo ly).2.2, ← (hlo lz).2.2,
        clampTo_of_mem _ _ x x0 x1, clampTo_of_mem _ _ y y0 y1, clampTo_of_mem _ _ z z0 z1] at h
      exact h
    · intro _
      rw [hspec.1, List.length_replicate]
      have : 0 ≤ (dx + 2) * (dy + 2) * (dz + 2) := by positivity
      omega
    · intro hl hu
      simp only [Prod.mk.injEq] at hl hu
      obtain ⟨rfl, rfl, rfl⟩ := hl
      obtain ⟨rfl, rfl, rfl⟩ := hu
      simp at hn
  · rw [if_pos hn] at key
    have hf : lx = false ∧ ux = false ∧ ly = false ∧ uy = false ∧ lz = false ∧ uz = false := by
      revert hn
      cases lx <;> cases ux <;> cases ly <;> cases uy <;> cases lz <;> cases uz <;> simp
    obtain ⟨rfl, rfl, rfl, rfl, rfl, rfl⟩ := hf
    have d1 : grid.Dimensions = (dx + 2 + 1, dy + 2 + 1, dz + 2 + 1) := by
      rw [hdim]
      simp [strippedAxis]
    have o1 : b.OriginIndex = skeletonOriginIndex (dx, dy, dz) gx gy gz := by
      rw [hO]
      simp [strippedAxis, skeletonOriginIndex]
    have pl : presentLo false = -1 := rfl
    have ph : ∀ d : Int, presentHi d false = d := by
      intro d; simp [presentHi]
    refine ⟨b, grid, image, cells, key, d1, o1, hI, hS, ?_, ?_, ?_,
      fun _ _ => ⟨rfl, rfl⟩, receiveBlock_skeleton⟩
    · intro x y z x0 x1 y0 y1 z0 z1
      rw [pl, ph, ph, ph, clampTo_of_mem _ _ x x0 x1, clampTo_of_mem _ _ y y0 y1,
        clampTo_of_mem _ _ z z0 z1]
      congr 1 <;> ring
    · intro x y z _ _ _ _ _ _
      rw [pl, ph, ph]
      congr 1 <;> ring
    · intro h
      rw [h, pl, ph, ph, ph]
      ring

/-- C30 on `ghostStrippedBlock`, a 2x2x2 block at (1,0,0) stripped on the negative
x side and on the positive z side: the call returns a block with 5x5x5 points
and the first cell at (1,-1,-1). -/
theorem C30_ghost_layers_restored_witness :
    ∃ (b' : vtkAMRDualGridHelperBlock) (grid' : ImageGrid),
      ghostStrippedBlock.AddBackGhostLevels ghostStrippedGrid (2, 2, 2) = some (b', grid') ∧
      grid'.Dimensions = (5, 5, 5) ∧ b'.OriginIndex = (1, -1, -1) := by
  obtain ⟨b', grid', _, _, h1, h2, h3, _⟩ :=
    C30_ghost_layers_restored (2, 2, 2) (1, 0, 0) (true, false, false) (false, false, true)
      ghostStrippedBlock ghostStrippedGrid
      { DataType := 11, Scalars := some ((List.range 36).map fun (i : Nat) => (100 + i : Int)) }
      ((List.range 36).map fun (i : Nat) => (100 + i : Int))
      (by decide) rfl rfl rfl rfl
  exact ⟨b', grid', h1, h2, h3⟩
/-! ## Adding a block -/

theorem GetNumberOfBlocksInLevel_modifyBlock (h : vtkAMRDualGridHelper) (p : BlockPtr)
    (f : vtkAMRDualGridHelperBlock → vtkAMRDualGridHelperBlock) (m : Int) :
    (h.modifyBlock p f).GetNumberOfBlocksInLevel m = h.GetNumberOfBlocksInLevel m := by
  unfold vtkAMRDualGridHelper.GetNumberOfBlocksInLevel
  rw [length_modifyBlock, levelAt_modifyBlock]
  split
  · rfl
  · split
    · simp only [List.length_modify]
    · rfl

theorem AddBackGhostLevels_some (b : vtkAMRDualGridHelperBlock) (grid : ImageGrid)
    (sbd : Int × Int × Int) (hd : sbd.1 ≠ 0 ∧ sbd.2.1 ≠ 0 ∧ sbd.2.2 ≠ 0) :
    ∃ r, b.AddBackGhostLevels grid sbd = some r := by
  unfold vtkAMRDualGridHelperBlock.AddBackGhostLevels
  split
  · exact ⟨_, rfl⟩
  · rw [if_neg (by omega)]
    simp only
    split
    · exact ⟨_, rfl⟩
    · exact ⟨_, rfl⟩

theorem AddBackGhostLevels_none (b : vtkAMRDualGridHelperBlock) (grid : ImageGrid)
    (sbd : Int × Int × Int) (image : vtkImageData) (hI : b.Image = some image)
    (hd : sbd.1 = 0 ∨ sbd.2.1 = 0 ∨ sbd.2.2 = 0) :
    b.AddBackGhostLevels grid sbd = none := by
  unfold vtkAMRDualGridHelperBlock.AddBackGhostLevels
  rw [hI]
  simp only
  rw [if_pos hd]

/-- C22, amended.  `AddBlock` makes no test of the metadata.  When the metadata
is initialised (no component of `RootSpacing` or `StandardBlockDimensions` is
0) every call on a level of the registry returns and registers exactly one
block, at the requested level: the number of blocks of that level grows by one,
the other levels keep theirs, and the new block is the last one of its level.
The call reports an error exactly when the volume has no cell array of the
configured name, and registers the block in this case as well. -/
theorem C22_add_block_registers (self : vtkAMRDualGridHelper)
    (RootSpacing GlobalOrigin : ℚ × ℚ × ℚ) (localProcessId level : Int)
    (volume : vtkImageData) (geometry : vtkImageGeometry) (dataTypeSize : Int)
    (hl : 0 ≤ level ∧ level < self.GetNumberOfLevels)
    (hs : RootSpacing.1 ≠ 0 ∧ RootSpacing.2.1 ≠ 0 ∧ RootSpacing.2.2 ≠ 0)
    (hd : self.StandardBlockDimensions.1 ≠ 0 ∧ self.StandardBlockDimensions.2.1 ≠ 0 ∧
      self.StandardBlockDimensions.2.2 ≠ 0) :
    ∃ r : AddBlockState,
      (self.AddBlock RootSpacing GlobalOrigin localProcessId level volume geometry
        dataTypeSize).2 = some r ∧
      ((self.AddBlock RootSpacing GlobalOrigin localProcessId level volume geometry
        dataTypeSize).1 = true ↔ volume.Scalars = none) ∧
      r.helper.GetNumberOfLevels = self.GetNumberOfLevels ∧
      (∀ m : Int, r.helper.GetNumberOfBlocksInLevel m =
        self.GetNumberOfBlocksInLevel m + if m = level then 1 else 0) ∧
      r.block = (level.toNat, (self.GetNumberOfBlocksInLevel level).toNat) := by
  obtain ⟨hl0, hl1⟩ := hl
  unfold vtkAMRDualGridHelper.GetNumberOfLevels at hl1
  have hself1 : ∀ s1 : vtkAMRDualGridHelper,
      s1 = (if volume.Scalars = none then self else { self with DataTypeSize := dataTypeSize }) →
      s1.Levels = self.Levels := by
    intro s1 h
    rw [h]
    split <;> rfl
  have hL := hself1 _ rfl
  have hscale : (((2 ^ level.toNat : Int) : ℚ)) ≠ 0 := by
    have : (0 : Int) < 2 ^ level.toNat := by positivity
    exact_mod_cast (ne_of_gt this)
  have hbs : ∀ (a : ℚ) (d : Int), a ≠ 0 → d ≠ 0 →
      a * (d : ℚ) / ((2 ^ level.toNat : Int) : ℚ) ≠ 0 := by
    intro a d ha hd
    have : (d : ℚ) ≠ 0 := by exact_mod_cast hd
    exact div_ne_zero (mul_ne_zero ha this) hscale
  have hnb : ¬ (RootSpacing.1 * (self.StandardBlockDimensions.1 : ℚ) /
        ((2 ^ level.toNat : Int) : ℚ) = 0 ∨
      RootSpacing.2.1 * (self.StandardBlockDimensions.2.1 : ℚ) /
        ((2 ^ level.toNat : Int) : ℚ) = 0 ∨
      RootSpacing.2.2 * (self.StandardBlockDimensions.2.2 : ℚ) /
        ((2 ^ level.toNat : Int) : ℚ) = 0) := by
    intro h
    rcases h with h | h | h
    · exact hbs _ _ hs.1 hd.1 h
    · exact hbs _ _ hs.2.1 hd.2.1 h
    · exact hbs _ _ hs.2.2 hd.2.2 h
  unfold vtkAMRDualGridHelper.AddBlock
  simp only
  rw [if_neg (by omega), if_neg hnb]
  generalize hs1 : (if volume.Scalars = none then self
    else { self with DataTypeSize := dataTypeSize }) = self1 at hL ⊢
  have hlev : self1.levelAt level.toNat = self.levelAt level.toNat := by
    unfold vtkAMRDualGridHelper.levelAt
    rw [hL]
  have hcnt : ∀ m, self1.GetNumberOfBlocksInLevel m = self.GetNumberOfBlocksInLevel m := by
    intro m
    unfold vtkAMRDualGridHelper.GetNumberOfBlocksInLevel vtkAMRDualGridHelper.levelAt
    rw [hL]
  obtain ⟨r, hr⟩ := AddBackGhostLevels_some
    ((self1.addBlockAt level.toNat
      (truncInt ((((geometry.Bounds.b0 + geometry.Bounds.b1) * (1 / 2)) - GlobalOrigin.1) /
        (RootSpacing.1 * (self.StandardBlockDimensions.1 : ℚ) / ((2 ^ level.toNat : Int) : ℚ))))
      (truncInt ((((geometry.Bounds.b2 + geometry.Bounds.b3) * (1 / 2)) - GlobalOrigin.2.1) /
        (RootSpacing.2.1 * (self.StandardBlockDimensions.2.1 : ℚ) /
          ((2 ^ level.toNat : Int) : ℚ))))
      (truncInt ((((geometry.Bounds.b4 + geometry.Bounds.b5) * (1 / 2)) - GlobalOrigin.2.2) /
        (RootSpacing.2.2 * (self.StandardBlockDimensions.2.2 : ℚ) /
          ((2 ^ level.toNat : Int) : ℚ))))
      (some volume) localProcessId
      (truncInt (1 / 2 + (geometry.Origin.1 + geometry.Spacing.1 * (geometry.Extent.e0 : ℚ) -
          GlobalOrigin.1) * ((2 ^ level.toNat : Int) : ℚ) / RootSpacing.1),
        truncInt (1 / 2 + (geometry.Origin.2.1 +
          geometry.Spacing.2.1 * (geometry.Extent.e2 : ℚ) -
          GlobalOrigin.2.1) * ((2 ^ level.toNat : Int) : ℚ) / RootSpacing.2.1),
        truncInt (1 / 2 + (geometry.Origin.2.2 +
          geometry.Spacing.2.2 * (geometry.Extent.e4 : ℚ) -
          GlobalOrigin.2.2) * ((2 ^ level.toNat : Int) : ℚ) / RootSpacing.2.2))).blockAt
      (level.toNat, (self1.levelAt level.toNat).Blocks.length))
    { Dimensions := (geometry.Extent.e1 - geometry.Extent.e0 + 1,
        geometry.Extent.e3 - geometry.Extent.e2 + 1, geometry.Extent.e5 - geometry.Extent.e4 + 1)
      Origin := geometry.Origin
      Spacing := geometry.Spacing }
    self.StandardBlockDimensions hd
  rw [hr]
  simp only
  refine ⟨_, rfl, ?_, ?_, ?_, ?_⟩
  · simp
  · unfold vtkAMRDualGridHelper.GetNumberOfLevels
    rw [length_modifyBlock, length_addBlockAt, hL]
  · intro m
    rw [GetNumberOfBlocksInLevel_modifyBlock,
      GetNumberOfBlocksInLevel_addBlockAt _ _ (by rw [hL]; omega), hcnt]
    congr 1
    by_cases e : m = level
    · rw [if_pos e, if_pos (by omega)]
    · rw [if_neg e, if_neg (by omega)]
  · rw [hlev]
    unfold vtkAMRDualGridHelper.GetNumberOfBlocksInLevel
    rw [if_neg (by omega)]
    simp

/-- C22 at a registry of one level with standard block dimensions 2x2x2, root
spacing 1 and global origin 0, for the padded block at (1,1,1) with its cell
array: the call returns, reports no error and the level has one block. -/
theorem C22_add_block_registers_witness :
    ∃ r : AddBlockState,
      ((vtkAMRDualGridHelper.init 1 (2, 2, 2)).AddBlock (1, 1, 1) (0, 0, 0) 0 0
        (constImage (2, 2, 2) 0) paddedGeometry 8).2 = some r ∧
      ((vtkAMRDualGridHelper.init 1 (2, 2, 2)).AddBlock (1, 1, 1) (0, 0, 0) 0 0
        (constImage (2, 2, 2) 0) paddedGeometry 8).1 = false ∧
      r.helper.GetNumberOfBlocksInLevel 0 = 1 := by
  obtain ⟨r, h1, h2, _, h4, _⟩ := C22_add_block_registers (vtkAMRDualGridHelper.init 1 (2, 2, 2))
    (1, 1, 1) (0, 0, 0) 0 0 (constImage (2, 2, 2) 0) paddedGeometry 8
    (by decide) (by decide) (by decide)
  refine ⟨r, h1, ?_, ?_⟩
  · cases hb : ((vtkAMRDualGridHelper.init 1 (2, 2, 2)).AddBlock (1, 1, 1) (0, 0, 0) 0 0
        (constImage (2, 2, 2) 0) paddedGeometry 8).1 with
    | false => rfl
    | true => exact absurd (h2.mp hb) (by decide)
  · rw [h4 0]
    decide

/-- C22, counterexample.  On a registry of one level with initialised metadata
(standard block dimensions 2x2x2, root spacing 1, global origin 0) the call for
the padded block at (1,1,1) whose image has no cell array of the configured
name reports an error and registers the block all the same: the level has one
block afterwards, at the grid index (1,1,1).  With the metadata not initialised
(standard block dimensions still 0, as the constructor leaves them) the call
for the same block with its cell array reports no error; the block size is 0
and the computation of the grid index divides by it.  This holds for every
call with a standard block dimension of 0 on a level of the registry. -/
theorem C22_error_only_for_missing_array :
    ((vtkAMRDualGridHelper.init 1 (2, 2, 2)).AddBlock (1, 1, 1) (0, 0, 0) 0 0
      { DataType := 11, Scalars := none } paddedGeometry 8).1 = true ∧
    (((vtkAMRDualGridHelper.init 1 (2, 2, 2)).AddBlock (1, 1, 1) (0, 0, 0) 0 0
      { DataType := 11, Scalars := none } paddedGeometry 8).2.map fun r =>
        (r.helper.GetNumberOfBlocksInLevel 0, r.block,
          (r.helper.blockAt r.block).GridIndex)) = some (1, (0, 0), (1, 1, 1)) ∧
    ((vtkAMRDualGridHelper.init 1 (0, 0, 0)).AddBlock (1, 1, 1) (0, 0, 0) 0 0
      (constImage (2, 2, 2) 0) paddedGeometry 8).1 = false ∧
    ((vtkAMRDualGridHelper.init 1 (0, 0, 0)).AddBlock (1, 1, 1) (0, 0, 0) 0 0
      (constImage (2, 2, 2) 0) paddedGeometry 8).2.isNone = true ∧
    (∀ (self : vtkAMRDualGridHelper) (RootSpacing GlobalOrigin : ℚ × ℚ × ℚ)
      (localProcessId level : Int) (volume : vtkImageData) (geometry : vtkImageGeometry)
      (dataTypeSize : Int),
      0 ≤ level → level < self.GetNumberOfLevels →
      (self.StandardBlockDimensions.1 = 0 ∨ self.StandardBlockDimensions.2.1 = 0 ∨
        self.StandardBlockDimensions.2.2 = 0) →
      ((self.AddBlock RootSpacing GlobalOrigin localProcessId level volume geometry
        dataTypeSize).1 = true ↔ volume.Scalars = none) ∧
      (self.AddBlock RootSpacing GlobalOrigin localProcessId level volume geometry
        dataTypeSize).2 = none) := by
  refine ⟨by decide!, by decide!, by decide!, by decide!, ?_⟩
  intro self RootSpacing GlobalOrigin localProcessId level volume geometry dataTypeSize h0 h1 hz
  unfold vtkAMRDualGridHelper.GetNumberOfLevels at h1
  unfold vtkAMRDualGridHelper.AddBlock
  simp only
  refine ⟨by simp, ?_⟩
  rw [if_neg (by omega), if_pos]
  rcases hz with h | h | h
  · left; rw [h]; simp
  · right; left; rw [h]; simp
  · right; right; rw [h]; simp
/-! ## The size reserved for a region against the values packed for it -/

theorem ediv_add_le (n j m : Int) (hj : 0 ≤ j) (hm : 1 ≤ m) : (n + j) / m ≤ n / m + j := by
  have h1 : n + j ≤ n + j * m := by nlinarith
  have h2 := Int.ediv_le_ediv (by omega : (0 : Int) < m) h1
  rwa [Int.add_mul_ediv_right _ _ (by omega : m ≠ 0)] at h2

/-- The number of coarse cells under an aligned run of `2k` fine cells is at
most `k`, for every level difference `d >= 1`. -/
theorem halved_count (k t : Int) (d : Nat) (hk : 1 ≤ k) (hd : 1 ≤ d) :
    ((2 * t + 2 * k - 1) >>> d) - ((2 * t) >>> d) + 1 ≤ k := by
  obtain ⟨e, rfl⟩ : ∃ e, d = e + 1 := ⟨d - 1, by omega⟩
  rw [Int.shiftRight_eq_div_pow, Int.shiftRight_eq_div_pow]
  have hm : (1 : Int) ≤ ((2 ^ e : Nat) : Int) := by
    have : 0 < 2 ^ e := by positivity
    omega
  have hp : (((2 ^ (e + 1) : Nat)) : Int) = 2 * ((2 ^ e : Nat) : Int) := by
    push_cast
    ring
  rw [hp]
  generalize ((2 ^ e : Nat) : Int) = m at hm ⊢
  have h2m : 0 < 2 * m := by omega
  have hq := Int.ediv_add_emod (2 * t) (2 * m)
  have hr0 := Int.emod_nonneg (2 * t) (ne_of_gt h2m)
  have hr1 := Int.emod_lt_of_pos (2 * t) h2m
  generalize (2 * t) / (2 * m) = q at hq ⊢
  generalize (2 * t) % (2 * m) = r at hq hr0 hr1
  have hs : r = 2 * (t - m * q) := by linarith
  have hw : t - m * q ≤ m - 1 := by
    generalize m * q = w at hs
    omega
  have hlt : (2 * t + 2 * k - 1) / (2 * m) < q + k := by
    rw [Int.ediv_lt_iff_lt_mul h2m]
    nlinarith [mul_nonneg (by omega : (0 : Int) ≤ k - 1) (by omega : (0 : Int) ≤ m - 1)]
  omega

theorem shiftRight_one_int (x : Int) : x >>> (1 : Int) = x / 2 := by
  cases x with
  | ofNat m =>
    have h := Int.shiftRight_coe_nat m 1
    simp only [Nat.cast_one] at h
    rw [Int.ofNat_eq_coe, h, Nat.shiftRight_eq_div_pow]
    norm_num
  | negSucc m =>
    have h := Int.shiftRight_negSucc m 1
    simp only [Nat.cast_one] at h
    rw [h, Nat.shiftRight_eq_div_pow]
    simp only [Int.negSucc_eq, pow_one]
    push_cast
    omega

/-- The number of values of the low-resolution block that belong to a region,
on one axis: 1 on an axis where the region direction is `-1` or `1`, and at
most half the dimension on an axis where it is 0, for an even dimension and an
origin index `dim * g - 1`. -/
theorem axis_count_le (dim g region : Int) (d : Nat) (k : Int) (hk : 1 ≤ k)
    (hdim : dim = 2 * k) (hd : 1 ≤ d) (hr : region = -1 ∨ region = 0 ∨ region = 1) :
    (((regionAxisExt 0 (dim + 1) region).2 + (dim * g - 1)) >>> d) -
        (((regionAxisExt 0 (dim + 1) region).1 + (dim * g - 1)) >>> d) + 1 ≤
      (if region = 0 then dim >>> (1 : Int) else 1) := by
  subst hdim
  unfold regionAxisExt
  rcases hr with h | h | h
  · subst h
    simp
  · subst h
    simp only [show ¬ ((0 : Int) = -1) by decide, if_false, if_true]
    have e1 : 2 * k + 1 - 1 + (2 * k * g - 1) = 2 * (k * g) + 2 * k - 1 := by ring
    have e2 : 0 + 1 + (2 * k * g - 1) = 2 * (k * g) := by ring
    have e3 : (2 * k) >>> (1 : Int) = k := by
      rw [shiftRight_one_int]
      omega
    rw [e1, e2, e3]
    exact halved_count k (k * g) d hk hd
  · subst h
    simp

theorem regionSize_eq (dims : Int × Int × Int) (rx ry rz : Int) :
    regionSize dims (rx, ry, rz) =
      (if rx = 0 then dims.1 >>> 1 else 1) * (if ry = 0 then dims.2.1 >>> 1 else 1) *
        (if rz = 0 then dims.2.2 >>> 1 else 1) := by
  unfold regionSize
  simp only
  split_ifs <;> ring

/-- For even standard block dimensions the values packed for a region are at
most the region size reserved for it. -/
theorem packed_le_reserved (dims g lo : Int × Int × Int) (rx ry rz : Int) (d : Nat)
    (kx ky kz : Int) (hkx : 1 ≤ kx) (hky : 1 ≤ ky) (hkz : 1 ≤ kz)
    (hx : dims.1 = 2 * kx) (hy : dims.2.1 = 2 * ky) (hz : dims.2.2 = 2 * kz)
    (hd : 1 ≤ d)
    (hrx : rx = -1 ∨ rx = 0 ∨ rx = 1) (hry : ry = -1 ∨ ry = 0 ∨ ry = 1)
    (hrz : rz = -1 ∨ rz = 0 ∨ rz = 1) :
    ((extentCoords (lowResExtent (degenerateRegionExt dims rx ry rz) d
        (skeletonOriginIndex dims g.1 g.2.1 g.2.2) lo)).length : Int) ≤
      regionSize dims (rx, ry, rz) := by
  rw [length_extentCoords_shift, regionSize_eq]
  have hsz := lowResExtent_size (degenerateRegionExt dims rx ry rz) d
    (skeletonOriginIndex dims g.1 g.2.1 g.2.2) lo
    (degenerateRegionExt_size dims rx ry rz ⟨by omega, by omega, by omega⟩).1
    (degenerateRegionExt_size dims rx ry rz ⟨by omega, by omega, by omega⟩).2.1
    (degenerateRegionExt_size dims rx ry rz ⟨by omega, by omega, by omega⟩).2.2
  have ax := axis_count_le dims.1 g.1 rx d kx hkx hx hd hrx
  have ay := axis_count_le dims.2.1 g.2.1 ry d ky hky hy hd hry
  have az := axis_count_le dims.2.2 g.2.2 rz d kz hkz hz hd hrz
  unfold lowResExtent degenerateRegionExt skeletonOriginIndex at hsz ⊢
  simp only at hsz ⊢
  push_cast
  rw [Int.toNat_of_nonneg hsz.1, Int.toNat_of_nonneg hsz.2.1, Int.toNat_of_nonneg hsz.2.2]
  have bx : (((regionAxisExt 0 (dims.1 + 1) rx).2 + (dims.1 * g.1 - 1)) >>> d) - lo.1 + 1 -
      ((((regionAxisExt 0 (dims.1 + 1) rx).1 + (dims.1 * g.1 - 1)) >>> d) - lo.1) ≤
      (if rx = 0 then dims.1 >>> (1 : Int) else 1) := by omega
  have by' : (((regionAxisExt 0 (dims.2.1 + 1) ry).2 + (dims.2.1 * g.2.1 - 1)) >>> d) - lo.2.1 +
      1 - ((((regionAxisExt 0 (dims.2.1 + 1) ry).1 + (dims.2.1 * g.2.1 - 1)) >>> d) - lo.2.1) ≤
      (if ry = 0 then dims.2.1 >>> (1 : Int) else 1) := by omega
  have bz : (((regionAxisExt 0 (dims.2.2 + 1) rz).2 + (dims.2.2 * g.2.2 - 1)) >>> d) - lo.2.2 +
      1 - ((((regionAxisExt 0 (dims.2.2 + 1) rz).1 + (dims.2.2 * g.2.2 - 1)) >>> d) - lo.2.2) ≤
      (if rz = 0 then dims.2.2 >>> (1 : Int) else 1) := by omega
  calc _ ≤ (if rz = 0 then dims.2.2 >>> 1 else 1) *
        ((if ry = 0 then dims.2.1 >>> 1 else 1) * (if rx = 0 then dims.1 >>> 1 else 1)) := by
        apply mul_le_mul bz _ (mul_nonneg hsz.2.1 hsz.1) (le_trans hsz.2.2 bz)
        exact mul_le_mul by' bx hsz.1 (le_trans hsz.2.1 by')
    _ = _ := by ring

/-- `CopyDegenerateRegionBlockToMessage` leaves the message pointer where it
was or advances it by the number of cells of the low-resolution extent. -/
theorem CopyDegenerateRegionBlockToMessage_advance (self : vtkAMRDualGridHelper)
    (rx ry rz : Int) (low high : BlockPtr) (m : MessagePtr) :
    (self.CopyDegenerateRegionBlockToMessage rx ry rz low high m).2 = m.2 ∨
    (0 < (self.blockAt high).Level - (self.blockAt low).Level ∧
      (self.CopyDegenerateRegionBlockToMessage rx ry rz low high m).2 =
        m.2 + ((extentCoords (lowResExtent
          (degenerateRegionExt self.StandardBlockDimensions rx ry rz)
          ((self.blockAt high).Level - (self.blockAt low).Level).toNat
          (self.blockAt high).OriginIndex (self.blockAt low).OriginIndex)).length : Int)) := by
  by_cases hd : 0 < (self.blockAt high).Level - (self.blockAt low).Level
  · cases hi : (self.blockAt low).Image with
    | none =>
      left
      unfold vtkAMRDualGridHelper.CopyDegenerateRegionBlockToMessage
      simp only [hi]
      split_ifs <;> rfl
    | some lImg =>
      cases hs : lImg.Scalars with
      | none =>
        left
        unfold vtkAMRDualGridHelper.CopyDegenerateRegionBlockToMessage
        simp only [hi, hs]
        split_ifs <;> rfl
      | some lowerPtr =>
        right
        refine ⟨hd, ?_⟩
        rw [CopyDegenerateRegionBlockToMessage_strides self rx ry rz low high m lImg lowerPtr
          hd hi hs]
        exact (CopyBlockToMessage_spec m.1 m.2 lowerPtr _ _ _).1
  · left
    unfold vtkAMRDualGridHelper.CopyDegenerateRegionBlockToMessage
    simp only
    by_cases h0 : (self.blockAt high).Level - (self.blockAt low).Level = 0
    · rw [if_pos h0]
    · rw [if_neg h0, if_pos (by omega)]

theorem pack_fold_le (self : vtkAMRDualGridHelper)
    (kx ky kz : Int) (hkx : 1 ≤ kx) (hky : 1 ≤ ky) (hkz : 1 ≤ kz)
    (hx : self.StandardBlockDimensions.1 = 2 * kx)
    (hy : self.StandardBlockDimensions.2.1 = 2 * ky)
    (hz : self.StandardBlockDimensions.2.2 = 2 * kz)
    (l : List vtkAMRDualGridHelperDegenerateRegion)
    (hl : ∀ region ∈ l,
      (region.ReceivingRegion.1 = -1 ∨ region.ReceivingRegion.1 = 0 ∨
        region.ReceivingRegion.1 = 1) ∧
      (region.ReceivingRegion.2.1 = -1 ∨ region.ReceivingRegion.2.1 = 0 ∨
        region.ReceivingRegion.2.1 = 1) ∧
      (region.ReceivingRegion.2.2 = -1 ∨ region.ReceivingRegion.2.2 = 0 ∨
        region.ReceivingRegion.2.2 = 1) ∧
      ∃ g : Int × Int × Int, (self.blockAt region.ReceivingBlock).OriginIndex =
        skeletonOriginIndex self.StandardBlockDimensions g.1 g.2.1 g.2.2)
    (m : MessagePtr) :
    (l.foldl (fun m region =>
        self.CopyDegenerateRegionBlockToMessage region.ReceivingRegion.1
          region.ReceivingRegion.2.1 region.ReceivingRegion.2.2 region.SourceBlock
          region.ReceivingBlock m) m).2 ≤
      m.2 + (l.map fun region =>
        regionSize self.StandardBlockDimensions region.ReceivingRegion).sum := by
  induction l generalizing m with
  | nil => simp
  | cons region t ih =>
    rw [List.foldl_cons, List.map_cons, List.sum_cons]
    obtain ⟨h1, h2, h3, g, hg⟩ := hl region (List.mem_cons_self _ _)
    have ht := ih (fun r hr => hl r (List.mem_cons_of_mem _ hr))
      (self.CopyDegenerateRegionBlockToMessage region.ReceivingRegion.1
          region.ReceivingRegion.2.1 region.ReceivingRegion.2.2 region.SourceBlock
          region.ReceivingBlock m)
    have hsize : ∀ d : Nat, 1 ≤ d →
        ((extentCoords (lowResExtent
          (degenerateRegionExt self.StandardBlockDimensions region.ReceivingRegion.1
            region.ReceivingRegion.2.1 region.ReceivingRegion.2.2) d
          (self.blockAt region.ReceivingBlock).OriginIndex
          (self.blockAt region.SourceBlock).OriginIndex)).length : Int) ≤
        regionSize self.StandardBlockDimensions region.ReceivingRegion := by
      intro d hd
      rw [hg]
      exact packed_le_reserved self.StandardBlockDimensions g _ _ _ _ d kx ky kz hkx hky hkz
        hx hy hz hd h1 h2 h3
    have h0 : 0 ≤ regionSize self.StandardBlockDimensions region.ReceivingRegion :=
      le_trans (Int.ofNat_nonneg _) (hsize 1 (le_refl 1))
    rcases CopyDegenerateRegionBlockToMessage_advance self region.ReceivingRegion.1
      region.ReceivingRegion.2.1 region.ReceivingRegion.2.2 region.SourceBlock
      region.ReceivingBlock m with h | ⟨hd, h⟩
    · rw [h] at ht
      omega
    · rw [h] at ht
      have := hsize ((self.blockAt region.ReceivingBlock).Level -
        (self.blockAt region.SourceBlock).Level).toNat (by omega)
      omega

/-- For even standard block dimensions the second loop of
`SendDegenerateRegionsFromQueue` writes no more than the first loop
reserved. -/
theorem packSentRegions_le (self : vtkAMRDualGridHelper) (remoteProc localProc : Int)
    (m : MessagePtr) (kx ky kz : Int) (hkx : 1 ≤ kx) (hky : 1 ≤ ky) (hkz : 1 ≤ kz)
    (hx : self.StandardBlockDimensions.1 = 2 * kx)
    (hy : self.StandardBlockDimensions.2.1 = 2 * ky)
    (hz : self.StandardBlockDimensions.2.2 = 2 * kz)
    (hds : 0 ≤ self.DataTypeSize)
    (hl : ∀ region ∈ self.DegenerateRegionQueue,
      (region.ReceivingRegion.1 = -1 ∨ region.ReceivingRegion.1 = 0 ∨
        region.ReceivingRegion.1 = 1) ∧
      (region.ReceivingRegion.2.1 = -1 ∨ region.ReceivingRegion.2.1 = 0 ∨
        region.ReceivingRegion.2.1 = 1) ∧
      (region.ReceivingRegion.2.2 = -1 ∨ region.ReceivingRegion.2.2 = 0 ∨
        region.ReceivingRegion.2.2 = 1) ∧
      ∃ g : Int × Int × Int, (self.blockAt region.ReceivingBlock).OriginIndex =
        skeletonOriginIndex self.StandardBlockDimensions g.1 g.2.1 g.2.2) :
    ((self.packSentRegions remoteProc localProc m).2 - m.2) * self.DataTypeSize ≤
      self.sendMessageLength remoteProc localProc := by
  unfold vtkAMRDualGridHelper.packSentRegions vtkAMRDualGridHelper.sendMessageLength
  rw [foldl_if_add (self.sendsRegion remoteProc localProc)
    (fun region => regionSize self.StandardBlockDimensions region.ReceivingRegion *
      self.DataTypeSize)]
  rw [← foldl_filter_if (self.sendsRegion remoteProc localProc)
    (fun m region => self.CopyDegenerateRegionBlockToMessage region.ReceivingRegion.1
      region.ReceivingRegion.2.1 region.ReceivingRegion.2.2 region.SourceBlock
      region.ReceivingBlock m)]
  have h := pack_fold_le self kx ky kz hkx hky hkz hx hy hz
    (self.DegenerateRegionQueue.filter (self.sendsRegion remoteProc localProc))
    (fun r hr => hl r (List.mem_of_mem_filter hr)) m
  have hsum : ((self.DegenerateRegionQueue.filter (self.sendsRegion remoteProc localProc)).map
      fun region => regionSize self.StandardBlockDimensions region.ReceivingRegion *
        self.DataTypeSize).sum =
      ((self.DegenerateRegionQueue.filter (self.sendsRegion remoteProc localProc)).map
        fun region => regionSize self.StandardBlockDimensions region.ReceivingRegion).sum *
        self.DataTypeSize := by
    rw [← List.sum_map_mul_right]
  rw [hsum, zero_add]
  exact Int.mul_le_mul_of_nonneg_right (by omega) hds

/-- C26.  On `oddDimsScenario` (standard block dimensions 3x3x3, a coarse block
at level 0 on rank 0 and a fine block at level 1 on rank 1, both with
`OriginIndex = StandardBlockDimensions * gridIndex - 1`) the first loop of
`SendDegenerateRegionsFromQueue(1, 0)` reserves 72 bytes, 9 values of 8 bytes
for the 9 regions it sends, and the second loop packs 16 values: the region
`(-1,0,0)` has the region size `(3 >> 1) * (3 >> 1) = 1` and
`CopyDegenerateRegionBlockToMessage` writes 4 values for it.

For even standard block dimensions, every region direction, every level
difference `d >= 1` and an `OriginIndex` of `StandardBlockDimensions *
gridIndex - 1`, the number of cells of the low-resolution extent is at most the
region size; `CopyDegenerateRegionBlockToMessage` advances the message pointer
by that number when it copies and not at all otherwise; and what the second
loop writes, in bytes, is at most the message length the first loop
computed. -/
theorem C26_odd_dimensions_under_reserved :
    (oddDimsScenario.StandardBlockDimensions = (3, 3, 3) ∧
      oddDimsScenario.DataTypeSize = 8 ∧
      (oddDimsScenario.blockAt (0, 0)).OriginIndex = skeletonOriginIndex (3, 3, 3) 0 0 0 ∧
      (oddDimsScenario.blockAt (1, 0)).OriginIndex = skeletonOriginIndex (3, 3, 3) 2 0 0 ∧
      (oddDimsScenario.sentRegions 1 0).length = 9 ∧
      oddDimsScenario.sendMessageLength 1 0 = 72 ∧
      (oddDimsScenario.packSentRegions 1 0 (List.replicate 9 0, 0)).2 = 16 ∧
      regionSize (3, 3, 3) (-1, 0, 0) = 1 ∧
      (oddDimsScenario.CopyDegenerateRegionBlockToMessage (-1) 0 0 (0, 0) (1, 0)
        (List.replicate 9 0, 0)).2 = 4) ∧
    (∀ (dims g lo : Int × Int × Int) (rx ry rz : Int) (d : Nat) (kx ky kz : Int),
      1 ≤ kx → 1 ≤ ky → 1 ≤ kz →
      dims.1 = 2 * kx → dims.2.1 = 2 * ky → dims.2.2 = 2 * kz → 1 ≤ d →
      (rx = -1 ∨ rx = 0 ∨ rx = 1) → (ry = -1 ∨ ry = 0 ∨ ry = 1) →
      (rz = -1 ∨ rz = 0 ∨ rz = 1) →
      ((extentCoords (lowResExtent (degenerateRegionExt dims rx ry rz) d
          (skeletonOriginIndex dims g.1 g.2.1 g.2.2) lo)).length : Int) ≤
        regionSize dims (rx, ry, rz)) ∧
    (∀ (self : vtkAMRDualGridHelper) (rx ry rz : Int) (low high : BlockPtr) (m : MessagePtr),
      (self.CopyDegenerateRegionBlockToMessage rx ry rz low high m).2 = m.2 ∨
      (0 < (self.blockAt high).Level - (self.blockAt low).Level ∧
        (self.CopyDegenerateRegionBlockToMessage rx ry rz low high m).2 =
          m.2 + ((extentCoords (lowResExtent
            (degenerateRegionExt self.StandardBlockDimensions rx ry rz)
            ((self.blockAt high).Level - (self.blockAt low).Level).toNat
            (self.blockAt high).OriginIndex (self.blockAt low).OriginIndex)).length : Int))) ∧
    (∀ (self : vtkAMRDualGridHelper) (remoteProc localProc : Int) (m : MessagePtr)
      (kx ky kz : Int), 1 ≤ kx → 1 ≤ ky → 1 ≤ kz →
      self.StandardBlockDimensions.1 = 2 * kx →
      self.StandardBlockDimensions.2.1 = 2 * ky →
      self.StandardBlockDimensions.2.2 = 2 * kz →
      0 ≤ self.DataTypeSize →
      (∀ region ∈ self.DegenerateRegionQueue,
        (region.ReceivingRegion.1 = -1 ∨ region.ReceivingRegion.1 = 0 ∨
          region.ReceivingRegion.1 = 1) ∧
        (region.ReceivingRegion.2.1 = -1 ∨ region.ReceivingRegion.2.1 = 0 ∨
          region.ReceivingRegion.2.1 = 1) ∧
        (region.ReceivingRegion.2.2 = -1 ∨ region.ReceivingRegion.2.2 = 0 ∨
          region.ReceivingRegion.2.2 = 1) ∧
        ∃ g : Int × Int × Int, (self.blockAt region.ReceivingBlock).OriginIndex =
          skeletonOriginIndex self.StandardBlockDimensions g.1 g.2.1 g.2.2) →
      ((self.packSentRegions remoteProc localProc m).2 - m.2) * self.DataTypeSize ≤
        self.sendMessageLength remoteProc localProc) := by
  refine ⟨by decide!, ?_, CopyDegenerateRegionBlockToMessage_advance, ?_⟩
  · intro dims g lo rx ry rz d kx ky kz a b c e f h i j k l
    exact packed_le_reserved dims g lo rx ry rz d kx ky kz a b c e f h i j k l
  · intro self remoteProc localProc m kx ky kz a b c e f h i j
    exact packSentRegions_le self remoteProc localProc m kx ky kz a b c e f h i j
/-! ## The candidate owners of a region -/

theorem foldl_sim {σ τ α : Type} (R : σ → τ → Prop) (f : σ → α → σ) (g : τ → α → τ)
    (l : List α) (hstep : ∀ s t a, R s t → R (f s a) (g t a)) (s : σ) (t : τ) (h : R s t) :
    R (l.foldl f s) (l.foldl g t) := by
  induction l generalizing s t with
  | nil => exact h
  | cons a l ih => exact ih _ _ (hstep s t a h)

theorem foldl_filterMap_eq {σ α β : Type} (f : α → Option β) (g : σ → β → σ) (l : List α)
    (s : σ) :
    (l.filterMap f).foldl g s = l.foldl (fun t a => (f a).elim t (g t)) s := by
  induction l generalizing s with
  | nil => rfl
  | cons a l ih =>
    rw [List.filterMap_cons, List.foldl_cons]
    cases h : f a with
    | none => exact ih s
    | some b =>
      simp only [Option.elim]
      rw [List.foldl_cons]
      exact ih _

theorem replaceBest_eq (best c : Candidate) :
    replaceBest best c = if c.dist < best.dist then c else best := rfl

/-- The fold that replaces the best candidate on a strictly smaller distance
returns the first candidate of minimal distance. -/
theorem foldl_replaceBest_spec (cs : List Candidate) (c0 : Candidate) :
    ∃ pre post, c0 :: cs = pre ++ cs.foldl replaceBest c0 :: post ∧
      (∀ c ∈ pre, (cs.foldl replaceBest c0).dist < c.dist) ∧
      (∀ c ∈ post, (cs.foldl replaceBest c0).dist ≤ c.dist) := by
  induction cs using List.reverseRecOn with
  | nil => exact ⟨[], [], rfl, by simp, by simp⟩
  | append_singleton cs x ih =>
    obtain ⟨pre, post, e, hpre, hpost⟩ := ih
    rw [List.foldl_append, List.foldl_cons, List.foldl_nil]
    by_cases hx : x.dist < (cs.foldl replaceBest c0).dist
    · have hb : replaceBest (cs.foldl replaceBest c0) x = x := by
        rw [replaceBest_eq, if_pos hx]
      rw [hb]
      refine ⟨pre ++ cs.foldl replaceBest c0 :: post, [], ?_, ?_, by simp⟩
      · rw [← List.cons_append, e]
      · intro c hc
        rcases List.mem_append.mp hc with h | h
        · exact lt_trans hx (hpre c h)
        · rcases List.mem_cons.mp h with h | h
          · rw [h]; exact hx
          · exact lt_of_lt_of_le hx (hpost c h)
    · have hb : replaceBest (cs.foldl replaceBest c0) x = cs.foldl replaceBest c0 := by
        rw [replaceBest_eq, if_neg hx]
      rw [hb]
      refine ⟨pre, post ++ [x], ?_, hpre, ?_⟩
      · rw [← List.cons_append, e]
        simp
      · intro c hc
        rcases List.mem_append.mp hc with h | h
        · exact hpost c h
        · rw [List.mem_singleton] at h
          rw [h]
          omega

theorem claimNeighbor_candidate (self : vtkAMRDualGridHelper) (block : BlockPtr)
    (bx by' bz rx ry rz lowerLevel : Int) (d : Nat) (st : ClaimState) (o : Int × Int × Int)
    (hen : self.EnableDegenerateCells = true) (hs : SameGrids self st.helper) :
    SameGrids self
        (claimNeighbor block bx by' bz rx ry rz lowerLevel d st o.1 o.2.1 o.2.2).helper ∧
      (claimNeighbor block bx by' bz rx ry rz lowerLevel d st o.1 o.2.1 o.2.2).best =
        (offsetCandidate self bx by' bz rx ry rz lowerLevel d o).elim st.best
          (replaceBest st.best) := by
  refine ⟨hs.then_grids (claimNeighbor_SameGrids _ _ _ _ _ _ _ _ _ _ _ _ _), ?_⟩
  unfold claimNeighbor offsetCandidate
  by_cases h0 : o.1 ≠ 0 ∨ o.2.1 ≠ 0 ∨ o.2.2 ≠ 0
  · rw [if_pos h0, if_pos h0]
    simp only
    rw [hs.getGridBlock_eq]
    cases hg : (self.levelAt lowerLevel.toNat).GetGridBlock ((bx + o.1) >>> d)
        ((by' + o.2.1) >>> d) ((bz + o.2.2) >>> d) with
    | none => rfl
    | some nb =>
      simp only [Option.map_some', Option.elim]
      have hflag : (clearBoundaryBits st.helper block (lowerLevel.toNat, nb)
          o.1 o.2.1 o.2.2).EnableDegenerateCells = true := by
        rw [(clearBoundaryBits_SameGrids st.helper block (lowerLevel.toNat, nb)
          o.1 o.2.1 o.2.2).2.1, hs.2.1, hen]
      unfold claimFound
      simp only
      rw [if_pos hflag, replaceBest_eq]
      unfold ClaimState.best
      simp only
      split <;> rfl
  · rw [if_neg h0, if_neg h0]
    rfl

theorem claimLevel_candidates (self : vtkAMRDualGridHelper) (block : BlockPtr)
    (blockLevel bx by' bz rx ry rz : Int) (st : ClaimState) (lowerLevel : Int)
    (hen : self.EnableDegenerateCells = true) (hs : SameGrids self st.helper) :
    SameGrids self (claimLevel block blockLevel bx by' bz rx ry rz st lowerLevel).helper ∧
      (claimLevel block blockLevel bx by' bz rx ry rz st lowerLevel).best =
        (levelCandidates self blockLevel bx by' bz rx ry rz lowerLevel).foldl replaceBest
          st.best := by
  unfold claimLevel levelCandidates
  simp only
  split
  · rw [foldl_filterMap_eq]
    have X := foldl_sim
      (fun (s : ClaimState) (c : Candidate) => SameGrids self s.helper ∧ s.best = c)
      (fun s o => claimNeighbor block bx by' bz rx ry rz lowerLevel
        (blockLevel - lowerLevel).toNat s o.1 o.2.1 o.2.2)
      (fun t a => (offsetCandidate self bx by' bz rx ry rz lowerLevel
          (blockLevel - lowerLevel).toNat a).elim t (replaceBest t))
      (neighborOffsets rx ry rz)
    refine X ?_ st st.best ⟨hs, rfl⟩
    intro s t o hst
    have h := claimNeighbor_candidate self block bx by' bz rx ry rz lowerLevel
      (blockLevel - lowerLevel).toNat s o hen hst.1
    refine ⟨h.1, ?_⟩
    rw [h.2, hst.2]
  · exact ⟨hs, rfl⟩

theorem claimLevels_candidates (self : vtkAMRDualGridHelper) (block : BlockPtr)
    (bx by' bz rx ry rz : Int) (hen : self.EnableDegenerateCells = true) :
    claimCandidates self block bx by' bz rx ry rz =
        { Level := (self.blockAt block).Level, Block := block,
          dist := rx * rx + ry * ry + rz * rz } ::
          (intRange 0 (self.blockAt block).Level).reverse.flatMap
            (levelCandidates self (self.blockAt block).Level bx by' bz rx ry rz) ∧
      (claimLevels self block bx by' bz rx ry rz).best =
        ((intRange 0 (self.blockAt block).Level).reverse.flatMap
          (levelCandidates self (self.blockAt block).Level bx by' bz rx ry rz)).foldl
          replaceBest
          { Level := (self.blockAt block).Level, Block := block,
            dist := rx * rx + ry * ry + rz * rz } := by
  refine ⟨rfl, ?_⟩
  unfold claimLevels
  simp only
  rw [foldl_flatMap_eq]
  have X := foldl_sim
    (fun (s : ClaimState) (c : Candidate) => SameGrids self s.helper ∧ s.best = c)
    (claimLevel block (self.blockAt block).Level bx by' bz rx ry rz)
    (fun s a => (levelCandidates self (self.blockAt block).Level bx by' bz rx ry rz a).foldl
      replaceBest s)
    (intRange 0 (self.blockAt block).Level).reverse
  refine (X ?_ _ _ ⟨SameGrids.rfl_grids self, rfl⟩).2
  intro s t a hst
  have h := claimLevel_candidates self block (self.blockAt block).Level bx by' bz rx ry rz s a
    hen hst.1
  refine ⟨h.1, ?_⟩
  rw [h.2, hst.2]

/-- C23. With degenerate cells enabled, for every block and region: the
candidates of `ClaimBlockSharedRegion`, in the order in which it meets them,
are the block itself (distance `rx*rx + ry*ry + rz*rz`, the number of non-zero
axes of a region direction) followed, for the levels from the level of the
block down to 0 and the offsets with `iz` outermost and `ix` innermost, by the
blocks found in the grid, each with the squared distance of the region to the
offset.  The block the loops end with (`bestBlock`, at the returned level
`bestLevel`, distance `bestDist`) is a candidate, no candidate has a smaller
distance, and every candidate met before it has a strictly larger distance: it
is the first candidate of minimal distance. -/
theorem C23_first_minimum_wins (self : vtkAMRDualGridHelper) (block : BlockPtr)
    (bx by' bz rx ry rz : Int) (hen : self.EnableDegenerateCells = true) :
    (∃ pre post,
      claimCandidates self block bx by' bz rx ry rz =
        pre ++ (claimLevels self block bx by' bz rx ry rz).best :: post ∧
      (∀ c ∈ pre, (claimLevels self block bx by' bz rx ry rz).bestDist < c.dist) ∧
      (∀ c ∈ post, (claimLevels self block bx by' bz rx ry rz).bestDist ≤ c.dist)) ∧
    (∀ c ∈ claimCandidates self block bx by' bz rx ry rz,
      (claimLevels self block bx by' bz rx ry rz).bestDist ≤ c.dist) ∧
    (self.ClaimBlockSharedRegion block bx by' bz rx ry rz).2 =
      (claimLevels self block bx by' bz rx ry rz).bestLevel ∧
    (claimCandidates self block bx by' bz rx ry rz).head? =
      some { Level := (self.blockAt block).Level, Block := block,
             dist := rx * rx + ry * ry + rz * rz } ∧
    ((rx, ry, rz) ∈ regionDirections →
      rx * rx + ry * ry + rz * rz = (nonZeroAxes (rx, ry, rz) : Int)) := by
  obtain ⟨e1, e2⟩ := claimLevels_candidates self block bx by' bz rx ry rz hen
  obtain ⟨pre, post, e, hpre, hpost⟩ := foldl_replaceBest_spec
    ((intRange 0 (self.blockAt block).Level).reverse.flatMap
      (levelCandidates self (self.blockAt block).Level bx by' bz rx ry rz))
    { Level := (self.blockAt block).Level, Block := block,
      dist := rx * rx + ry * ry + rz * rz }
  rw [← e2] at e hpre hpost
  rw [← e1] at e
  have hd : (claimLevels self block bx by' bz rx ry rz).best.dist =
      (claimLevels self block bx by' bz rx ry rz).bestDist := rfl
  rw [hd] at hpre hpost
  refine ⟨⟨pre, post, e, hpre, hpost⟩, ?_, ClaimBlockSharedRegion_snd _ _ _ _ _ _ _ _, ?_, ?_⟩
  · intro c hc
    rw [e] at hc
    rcases List.mem_append.mp hc with h | h
    · exact le_of_lt (hpre c h)
    · rcases List.mem_cons.mp h with h | h
      · rw [h, hd]
      · exact hpost c h
  · rw [e1]
    rfl
  · intro hr
    have hall : ∀ r ∈ regionDirections,
        r.1 * r.1 + r.2.1 * r.2.1 + r.2.2 * r.2.2 = (nonZeroAxes r : Int) := by decide!
    exact hall (rx, ry, rz) hr

/-- C23 on `tieScenario`, for the edge region (1,1,0) of the block at
(0,0,0): the candidates are the block itself at distance 2, the block at
(1,0,0) at distance 1 and the block at (0,1,0) at distance 1, met in this
order, and the first of the two at distance 1 is selected. -/
theorem C23_first_minimum_wins_witness :
    tieScenario.EnableDegenerateCells = true ∧
    claimCandidates tieScenario (0, 0) 0 0 0 1 1 0 =
      [{ Level := 0, Block := (0, 0), dist := 2 }, { Level := 0, Block := (0, 1), dist := 1 },
        { Level := 0, Block := (0, 2), dist := 1 }] ∧
    (claimLevels tieScenario (0, 0) 0 0 0 1 1 0).best =
      { Level := 0, Block := (0, 1), dist := 1 } ∧
    (∀ c ∈ claimCandidates tieScenario (0, 0) 0 0 0 1 1 0,
      (claimLevels tieScenario (0, 0) 0 0 0 1 1 0).bestDist ≤ c.dist) := by
  have h1 : tieScenario.EnableDegenerateCells = true := by decide!
  have h2 : claimCandidates tieScenario (0, 0) 0 0 0 1 1 0 =
      [{ Level := 0, Block := (0, 0), dist := 2 }, { Level := 0, Block := (0, 1), dist := 1 },
        { Level := 0, Block := (0, 2), dist := 1 }] := by decide!
  have h3 : (claimLevels tieScenario (0, 0) 0 0 0 1 1 0).best =
      { Level := 0, Block := (0, 1), dist := 1 } := by decide!
  exact ⟨h1, h2, h3, (C23_first_minimum_wins tieScenario (0, 0) 0 0 0 1 1 0 h1).2.1⟩
/-! ## Registries that hold the same blocks in a different order -/

theorem GridWF_modifyBlock (h : vtkAMRDualGridHelper) (p : BlockPtr)
    (f : vtkAMRDualGridHelperBlock → vtkAMRDualGridHelperBlock) (n : Nat) :
    ((h.modifyBlock p f).levelAt n).GridWF ↔ (h.levelAt n).GridWF := by
  rw [levelAt_modifyBlock]
  split
  · exact Iff.rfl
  · exact Iff.rfl

theorem levelAt_modifyBlock_fields (h : vtkAMRDualGridHelper) (p : BlockPtr)
    (f : vtkAMRDualGridHelperBlock → vtkAMRDualGridHelperBlock) (n : Nat) :
    ((h.modifyBlock p f).levelAt n).GridExtent = (h.levelAt n).GridExtent ∧
    ((h.modifyBlock p f).levelAt n).Blocks.length = (h.levelAt n).Blocks.length ∧
    ((h.modifyBlock p f).levelAt n).Level = (h.levelAt n).Level := by
  rw [levelAt_modifyBlock]
  split
  · exact ⟨rfl, by simp, rfl⟩
  · exact ⟨rfl, rfl, rfl⟩

/-- Assigning through corresponding pointers keeps two registries
corresponding. -/
theorem Relabel.modify {π : Nat → Nat → Nat} {h h' : vtkAMRDualGridHelper}
    (r : Relabel π h h') (p : BlockPtr) (hp : p.2 < (h.levelAt p.1).Blocks.length)
    (f : vtkAMRDualGridHelperBlock → vtkAMRDualGridHelperBlock) :
    Relabel π (h.modifyBlock p f) (h'.modifyBlock (relabelPtr π p) f) := by
  obtain ⟨r1, r2, r3, r4, r5, r6, r7, r8, r9, r10, r11, r12⟩ := r
  refine ⟨?_, r2, r3, r4, r5, ?_, ?_, ?_, ?_, ?_, r11, ?_⟩
  · rw [length_modifyBlock, length_modifyBlock, r1]
  · intro n
    obtain ⟨a, b, c, d, e⟩ := r6 n
    obtain ⟨x1, x2, x3⟩ := levelAt_modifyBlock_fields h p f n
    obtain ⟨y1, y2, y3⟩ := levelAt_modifyBlock_fields h' (relabelPtr π p) f n
    exact ⟨(GridWF_modifyBlock h p f n).2 a, (GridWF_modifyBlock h' _ f n).2 b,
      by rw [x1, y1, c], by rw [x2, y2, d], by rw [x3, y3, e]⟩
  · intro n x y z
    rw [GetGridBlock_modifyBlock, GetGridBlock_modifyBlock]
    exact r7 n x y z
  · intro n x y z i hi
    rw [GetGridBlock_modifyBlock] at hi
    rw [(levelAt_modifyBlock_fields h p f n).2.1]
    exact r8 n x y z i hi
  · intro n i hi
    rw [(levelAt_modifyBlock_fields h p f n).2.1] at hi ⊢
    refine ⟨(r9 n i hi).1, ?_⟩
    rw [blockAt_modifyBlock, blockAt_modifyBlock]
    simp only [relabelPtr]
    have hlen : (h'.levelAt n).Blocks.length = (h.levelAt n).Blocks.length := (r6 n).2.2.2.1
    by_cases hc : p = (n, i)
    · subst hc
      rw [if_pos ⟨rfl, by rw [hlen]; exact (r9 n i hi).1⟩, if_pos ⟨rfl, hi⟩, (r9 n i hi).2]
    · have hc' : ¬ ((p.1, π p.1 p.2) = (n, π n i) ∧ π n i < (h'.levelAt n).Blocks.length) := by
        rintro ⟨e, _⟩
        have e1 : p.1 = n := (Prod.mk.inj e).1
        have e2 : π p.1 p.2 = π n i := (Prod.mk.inj e).2
        apply hc
        have hp' : p.2 < (h.levelAt n).Blocks.length := by rw [← e1]; exact hp
        rw [e1] at e2
        exact Prod.ext e1 (r10 n p.2 i hp' hi e2)
      rw [if_neg hc', if_neg (fun hh => hc hh.1), (r9 n i hi).2]
  · intro n i j hi hj
    rw [(levelAt_modifyBlock_fields h p f n).2.1] at hi hj
    exact r10 n i j hi hj
  · intro e he
    rw [(levelAt_modifyBlock_fields h p f _).2.1, (levelAt_modifyBlock_fields h p f _).2.1]
    exact r12 e he

/-- Appending corresponding entries to the queues keeps two registries
corresponding. -/
theorem Relabel.push {π : Nat → Nat → Nat} {h h' : vtkAMRDualGridHelper}
    (r : Relabel π h h') (dreg : vtkAMRDualGridHelperDegenerateRegion)
    (h1 : dreg.ReceivingBlock.2 < (h.levelAt dreg.ReceivingBlock.1).Blocks.length)
    (h2 : dreg.SourceBlock.2 < (h.levelAt dreg.SourceBlock.1).Blocks.length) :
    Relabel π { h with DegenerateRegionQueue := h.DegenerateRegionQueue ++ [dreg] }
      { h' with DegenerateRegionQueue := h'.DegenerateRegionQueue ++ [relabelRegion π dreg] } := by
  obtain ⟨r1, r2, r3, r4, r5, r6, r7, r8, r9, r10, r11, r12⟩ := r
  refine ⟨r1, r2, r3, r4, r5, r6, r7, r8, r9, r10, ?_, ?_⟩
  · simp only [List.map_append, List.map_cons, List.map_nil]
    rw [r11]
  · intro e he
    simp only [List.mem_append, List.mem_singleton] at he
    rcases he with he | he
    · exact r12 e he
    · rw [he]
      exact ⟨h1, h2⟩

theorem Relabel.valid_ptr {π : Nat → Nat → Nat} {h h' : vtkAMRDualGridHelper}
    (r : Relabel π h h') (p : BlockPtr) (hp : p.2 < (h.levelAt p.1).Blocks.length) :
    h'.blockAt (relabelPtr π p) = h.blockAt p :=
  (r.2.2.2.2.2.2.2.2.1 p.1 p.2 hp).2

theorem SameShape.valid_idx {h s : vtkAMRDualGridHelper} (a : SameShape h s) (p : BlockPtr)
    (hp : p.2 < (h.levelAt p.1).Blocks.length) : p.2 < (s.levelAt p.1).Blocks.length := by
  rw [a.2.1]
  exact hp

theorem clearBoundaryBits_relabel {π : Nat → Nat → Nat} {h h' : vtkAMRDualGridHelper}
    (r : Relabel π h h') (block nb : BlockPtr)
    (hb : block.2 < (h.levelAt block.1).Blocks.length)
    (hn : nb.2 < (h.levelAt nb.1).Blocks.length) (ix iy iz : Int) :
    Relabel π (clearBoundaryBits h block nb ix iy iz)
      (clearBoundaryBits h' (relabelPtr π block) (relabelPtr π nb) ix iy iz) := by
  unfold clearBoundaryBits
  cases boundaryMasks ix iy iz with
  | none => exact r
  | some m =>
    exact (r.modify block hb _).modify nb
      (by rw [(levelAt_modifyBlock_fields h block _ nb.1).2.1]; exact hn) _

theorem claimFound_relabel {π : Nat → Nat → Nat} {st st' : ClaimState}
    (r : RelabelState π st st') (block : BlockPtr) (rx ry rz lowerLevel : Int)
    (ix iy iz : Int) (nb : Nat)
    (hb : block.2 < (st.helper.levelAt block.1).Blocks.length)
    (hn : nb < (st.helper.levelAt lowerLevel.toNat).Blocks.length) :
    RelabelState π (claimFound block rx ry rz lowerLevel st ix iy iz nb)
      (claimFound (relabelPtr π block) rx ry rz lowerLevel st' ix iy iz
        (π lowerLevel.toNat nb)) := by
  obtain ⟨r1, r2, r3, r4, r5⟩ := r
  have hshape := claimFound_shape block rx ry rz lowerLevel st ix iy iz nb
  have c1 := clearBoundaryBits_relabel r1 block (lowerLevel.toNat, nb) hb hn ix iy iz
  have s1 := clearBoundaryBits_shape st.helper block (lowerLevel.toNat, nb) ix iy iz
  have hv : ∀ p : BlockPtr, p.2 < (st.helper.levelAt p.1).Blocks.length →
      p.2 < ((claimFound block rx ry rz lowerLevel st ix iy iz nb).helper.levelAt
        p.1).Blocks.length := fun p hp => hshape.valid_idx p hp
  have c2 := c1.modify (lowerLevel.toNat, nb) (s1.valid_idx (lowerLevel.toNat, nb) hn)
    (fun b => b.setRegionBits (rx - ix - ix + 1) (ry - iy - iy + 1) (rz - iz - iz + 1) 0)
  have hnb : relabelPtr π (lowerLevel.toNat, nb) = (lowerLevel.toNat, π lowerLevel.toNat nb) :=
    rfl
  rw [hnb] at c1 c2
  have hflag := c1.2.1
  revert hv
  unfold claimFound
  simp only
  intro hv
  by_cases he : (clearBoundaryBits st.helper block (lowerLevel.toNat, nb)
      ix iy iz).EnableDegenerateCells = true
  · rw [if_pos he] at hv ⊢
    rw [if_pos (hflag.trans he), r3]
    by_cases hd : (rx - ix) * (rx - ix) + (ry - iy) * (ry - iy) + (rz - iz) * (rz - iz) <
        st.bestDist
    · rw [if_pos hd] at hv ⊢
      rw [if_pos hd]
      exact ⟨c2, rfl, rfl, rfl, hv (lowerLevel.toNat, nb) hn⟩
    · rw [if_neg hd] at hv ⊢
      rw [if_neg hd]
      exact ⟨c2, r2, rfl, r4, hv st.bestBlock r5⟩
  · rw [if_neg he] at hv ⊢
    rw [if_neg (fun hh => he (hflag.symm.trans hh))]
    exact ⟨c1, r2, r3, r4, hv st.bestBlock r5⟩

theorem claimNeighbor_relabel {π : Nat → Nat → Nat} {st st' : ClaimState}
    (r : RelabelState π st st') (block : BlockPtr) (bx by' bz rx ry rz lowerLevel : Int)
    (d : Nat) (ix iy iz : Int)
    (hb : block.2 < (st.helper.levelAt block.1).Blocks.length) :
    RelabelState π (claimNeighbor block bx by' bz rx ry rz lowerLevel d st ix iy iz)
      (claimNeighbor (relabelPtr π block) bx by' bz rx ry rz lowerLevel d st' ix iy iz) := by
  unfold claimNeighbor
  by_cases h0 : ix ≠ 0 ∨ iy ≠ 0 ∨ iz ≠ 0
  · rw [if_pos h0, if_pos h0]
    simp only
    rw [r.1.2.2.2.2.2.2.1 lowerLevel.toNat]
    cases hg : (st.helper.levelAt lowerLevel.toNat).GetGridBlock ((bx + ix) >>> d)
        ((by' + iy) >>> d) ((bz + iz) >>> d) with
    | none => exact r
    | some nb =>
      simp only [Option.map_some']
      exact claimFound_relabel r block rx ry rz lowerLevel ix iy iz nb hb
        (r.1.2.2.2.2.2.2.2.1 lowerLevel.toNat _ _ _ nb hg)
  · rw [if_neg h0, if_neg h0]
    exact r

theorem claimLevel_relabel {π : Nat → Nat → Nat} {st st' : ClaimState}
    (r : RelabelState π st st') (block : BlockPtr) (blockLevel bx by' bz rx ry rz : Int)
    (lowerLevel : Int) (hb : block.2 < (st.helper.levelAt block.1).Blocks.length) :
    RelabelState π (claimLevel block blockLevel bx by' bz rx ry rz st lowerLevel)
      (claimLevel (relabelPtr π block) blockLevel bx by' bz rx ry rz st' lowerLevel) := by
  unfold claimLevel
  simp only
  split
  · have X := foldl_sim
      (fun (s s' : ClaimState) => RelabelState π s s' ∧
        block.2 < (s.helper.levelAt block.1).Blocks.length)
      (fun s o => claimNeighbor block bx by' bz rx ry rz lowerLevel
        (blockLevel - lowerLevel).toNat s o.1 o.2.1 o.2.2)
      (fun s o => claimNeighbor (relabelPtr π block) bx by' bz rx ry rz lowerLevel
        (blockLevel - lowerLevel).toNat s o.1 o.2.1 o.2.2)
      (neighborOffsets rx ry rz)
    refine (X ?_ st st' ⟨r, hb⟩).1
    intro s s' o hs
    exact ⟨claimNeighbor_relabel hs.1 block bx by' bz rx ry rz lowerLevel _ _ _ _ hs.2,
      (claimNeighbor_shape block bx by' bz rx ry rz lowerLevel _ s _ _ _).valid_idx block hs.2⟩
  · exact r

theorem claimLevels_relabel {π : Nat → Nat → Nat} {h h' : vtkAMRDualGridHelper}
    (r : Relabel π h h') (block : BlockPtr) (bx by' bz rx ry rz : Int)
    (hb : block.2 < (h.levelAt block.1).Blocks.length) :
    RelabelState π (claimLevels h block bx by' bz rx ry rz)
      (claimLevels h' (relabelPtr π block) bx by' bz rx ry rz) := by
  unfold claimLevels
  simp only
  rw [r.valid_ptr block hb]
  have X := foldl_sim
    (fun (s s' : ClaimState) => RelabelState π s s' ∧
      block.2 < (s.helper.levelAt block.1).Blocks.length)
    (claimLevel block (h.blockAt block).Level bx by' bz rx ry rz)
    (claimLevel (relabelPtr π block) (h.blockAt block).Level bx by' bz rx ry rz)
    (intRange 0 (h.blockAt block).Level).reverse
  refine (X ?_
    { helper := h, bestLevel := (h.blockAt block).Level,
      bestDist := rx * rx + ry * ry + rz * rz, bestBlock := block }
    { helper := h', bestLevel := (h.blockAt block).Level,
      bestDist := rx * rx + ry * ry + rz * rz, bestBlock := relabelPtr π block }
    ⟨⟨r, rfl, rfl, rfl, hb⟩, hb⟩).1
  intro s s' l hs
  exact ⟨claimLevel_relabel hs.1 block _ bx by' bz rx ry rz l hs.2,
    (claimLevel_shape block _ bx by' bz rx ry rz s l).valid_idx block hs.2⟩

theorem CopyDegenerateRegionBlockToBlock_relabel {π : Nat → Nat → Nat}
    {h h' : vtkAMRDualGridHelper} (r : Relabel π h h') (rx ry rz : Int) (low high : BlockPtr)
    (hl : low.2 < (h.levelAt low.1).Blocks.length)
    (hh : high.2 < (h.levelAt high.1).Blocks.length) :
    Relabel π (h.CopyDegenerateRegionBlockToBlock rx ry rz low high)
      (h'.CopyDegenerateRegionBlockToBlock rx ry rz (relabelPtr π low) (relabelPtr π high)) := by
  rw [CopyDegenerateRegionBlockToBlock_eq, CopyDegenerateRegionBlockToBlock_eq,
    r.valid_ptr low hl, r.valid_ptr high hh, r.2.2.2.1]
  split
  · exact r
  · exact r.modify high hh _

theorem ClaimBlockSharedRegion_relabel {π : Nat → Nat → Nat} {h h' : vtkAMRDualGridHelper}
    (r : Relabel π h h') (block : BlockPtr) (bx by' bz rx ry rz : Int)
    (hb : block.2 < (h.levelAt block.1).Blocks.length) :
    Relabel π (h.ClaimBlockSharedRegion block bx by' bz rx ry rz).1
        (h'.ClaimBlockSharedRegion (relabelPtr π block) bx by' bz rx ry rz).1 ∧
      (h'.ClaimBlockSharedRegion (relabelPtr π block) bx by' bz rx ry rz).2 =
        (h.ClaimBlockSharedRegion block bx by' bz rx ry rz).2 := by
  obtain ⟨s1, s2, _, s4, s5⟩ := claimLevels_relabel r block bx by' bz rx ry rz hb
  have hv := (claimLevels_shape h block bx by' bz rx ry rz).valid_idx block hb
  have e1 := r.valid_ptr block hb
  have e2 := s1.valid_ptr block hv
  have e3 := s1.valid_ptr _ s5
  have e4 := s1.2.1
  have e5 := s1.2.2.1
  unfold vtkAMRDualGridHelper.ClaimBlockSharedRegion
  simp only
  generalize hst : claimLevels h block bx by' bz rx ry rz = st at *
  generalize hst' : claimLevels h' (relabelPtr π block) bx by' bz rx ry rz = st' at *
  rw [s4]
  by_cases c1 : st.helper.EnableDegenerateCells = true ∧ st.bestLevel < (h.blockAt block).Level
  · have c1' : st'.helper.EnableDegenerateCells = true ∧
        st'.bestLevel < (h'.blockAt (relabelPtr π block)).Level := by
      rw [e4, s2, e1]
      exact c1
    rw [if_pos c1, if_pos c1']
    by_cases c2 : (st.helper.blockAt block).Image = none ∨
        (st.helper.blockAt st.bestBlock).Image = none
    · have c2' : (st'.helper.blockAt (relabelPtr π block)).Image = none ∨
          (st'.helper.blockAt (relabelPtr π st.bestBlock)).Image = none := by
        rw [e2, e3]
        exact c2
      rw [if_pos c2, if_pos c2']
      by_cases c3 : ¬ st.helper.SkipGhostCopy = true
      · have c3' : ¬ st'.helper.SkipGhostCopy = true := by
          rw [e5]
          exact c3
        rw [if_pos c3, if_pos c3']
        exact ⟨s1.push _ hv s5, s2⟩
      · have c3' : ¬ ¬ st'.helper.SkipGhostCopy = true := by
          rw [e5]
          exact c3
        rw [if_neg c3, if_neg c3']
        exact ⟨s1, s2⟩
    · have c2' : ¬ ((st'.helper.blockAt (relabelPtr π block)).Image = none ∨
          (st'.helper.blockAt (relabelPtr π st.bestBlock)).Image = none) := by
        rw [e2, e3]
        exact c2
      rw [if_neg c2, if_neg c2']
      exact ⟨CopyDegenerateRegionBlockToBlock_relabel s1 rx ry rz _ block s5 hv, s2⟩
  · have c1' : ¬ (st'.helper.EnableDegenerateCells = true ∧
        st'.bestLevel < (h'.blockAt (relabelPtr π block)).Level) := by
      rw [e4, s2, e1]
      exact c1
    rw [if_neg c1, if_neg c1']
    exact ⟨s1, s2⟩

theorem assignRegion_relabel {π : Nat → Nat → Nat} {h h' : vtkAMRDualGridHelper}
    (r : Relabel π h h') (block : BlockPtr) (blockLevel bx by' bz : Int)
    (reg : Int × Int × Int) (hb : block.2 < (h.levelAt block.1).Blocks.length) :
    Relabel π (assignRegion block blockLevel bx by' bz h reg)
      (assignRegion (relabelPtr π block) blockLevel bx by' bz h' reg) := by
  obtain ⟨c1, c2⟩ := ClaimBlockSharedRegion_relabel r block bx by' bz reg.1 reg.2.1 reg.2.2 hb
  have hv := (ClaimBlockSharedRegion_shape h block bx by' bz reg.1 reg.2.1 reg.2.2).valid_idx
    block hb
  rw [assignRegion_entry, assignRegion_entry, r.valid_ptr block hb, c2, c1.2.1]
  by_cases a1 : (reg.1 ≠ 0 ∨ reg.2.1 ≠ 0 ∨ reg.2.2 ≠ 0) ∧
      ((h.blockAt block).regionBits (reg.1 + 1) (reg.2.1 + 1) (reg.2.2 + 1) &&&
        vtkAMRRegionBitOwner) ≠ 0
  · rw [if_pos a1, if_pos a1]
    by_cases a2 : (h.ClaimBlockSharedRegion block bx by' bz reg.1 reg.2.1
        reg.2.2).1.EnableDegenerateCells = true ∧
        (h.ClaimBlockSharedRegion block bx by' bz reg.1 reg.2.1 reg.2.2).2 < blockLevel
    · rw [if_pos a2, if_pos a2]
      exact c1.modify block hv _
    · rw [if_neg a2, if_neg a2]
      exact c1
  · rw [if_neg a1, if_neg a1]
    exact r

theorem assignRegion_shape (block : BlockPtr) (blockLevel bx by' bz : Int)
    (h : vtkAMRDualGridHelper) (reg : Int × Int × Int) :
    SameShape h (assignRegion block blockLevel bx by' bz h reg) := by
  rw [assignRegion_entry]
  have c := ClaimBlockSharedRegion_shape h block bx by' bz reg.1 reg.2.1 reg.2.2
  split
  · split
    · exact c.then_shape (SameShape.of_modifyBlock_shape _ block _
        (fun b => length_setRegionBits b _ _ _ _))
    · exact c
  · exact SameShape.rfl_shape _

theorem AssignBlockSharedRegions_shape (h : vtkAMRDualGridHelper) (block : BlockPtr)
    (blockLevel bx by' bz : Int) :
    SameShape h (h.AssignBlockSharedRegions block blockLevel bx by' bz) := by
  unfold vtkAMRDualGridHelper.AssignBlockSharedRegions
  apply foldl_invariant (fun s => SameShape h s)
  · exact SameShape.rfl_shape _
  · intro s reg _ hs
    exact hs.then_shape (assignRegion_shape block blockLevel bx by' bz s reg)

theorem AssignBlockSharedRegions_relabel {π : Nat → Nat → Nat} {h h' : vtkAMRDualGridHelper}
    (r : Relabel π h h') (block : BlockPtr) (blockLevel bx by' bz : Int)
    (hb : block.2 < (h.levelAt block.1).Blocks.length) :
    Relabel π (h.AssignBlockSharedRegions block blockLevel bx by' bz)
      (h'.AssignBlockSharedRegions (relabelPtr π block) blockLevel bx by' bz) := by
  unfold vtkAMRDualGridHelper.AssignBlockSharedRegions
  have X := foldl_sim
    (fun (s s' : vtkAMRDualGridHelper) => Relabel π s s' ∧ SameShape h s)
    (assignRegion block blockLevel bx by' bz)
    (assignRegion (relabelPtr π block) blockLevel bx by' bz)
    regionDirections
  refine (X ?_ h h' ⟨r, SameShape.rfl_shape h⟩).1
  intro s s' reg hs
  exact ⟨assignRegion_relabel hs.1 block blockLevel bx by' bz reg (hs.2.valid_idx block hb),
    hs.2.then_shape (assignRegion_shape block blockLevel bx by' bz s reg)⟩

/-- The traversal of the grid of a well-formed level pairs every coordinate of
the extent with what `GetGridBlock` returns there. -/
theorem zip_extentCoords_eq_map (l : vtkAMRDualGridHelperLevel) (hwf : l.GridWF) :
    (extentCoords l.GridExtent).zip (l.Grid.getD []) =
      (extentCoords l.GridExtent).map fun c => (c, l.GetGridBlock c.1 c.2.1 c.2.2) := by
  obtain ⟨hext, hlen, _, _, _⟩ := GridWF_length l hwf
  have hle : (extentCoords l.GridExtent).length ≤ (l.Grid.getD []).length := by
    rw [hlen, length_extentCoords_shift, hwf.1, hwf.2.1, hwf.2.2.1]
    simp only [sub_zero, le_refl]
  have h1 : (extentCoords l.GridExtent).zip (l.Grid.getD []) =
      ((extentCoords l.GridExtent).zip (l.Grid.getD [])).map
        fun p => (p.1, l.GetGridBlock p.1.1 p.1.2.1 p.1.2.2) := by
    conv_lhs => rw [← List.map_id ((extentCoords l.GridExtent).zip (l.Grid.getD []))]
    apply List.map_congr_left
    intro p hp
    rw [← zip_extentCoords_GetGridBlock l hwf p hp]
    rfl
  rw [h1]
  have h2 : (fun p : (Int × Int × Int) × Option Nat =>
      (p.1, l.GetGridBlock p.1.1 p.1.2.1 p.1.2.2)) =
      (fun c : Int × Int × Int => (c, l.GetGridBlock c.1 c.2.1 c.2.2)) ∘ Prod.fst := rfl
  rw [h2, ← List.map_map, List.map_fst_zip _ _ hle]

theorem assignLevel_eq (h : vtkAMRDualGridHelper) (level : Nat)
    (hwf : (h.levelAt level).GridWF) :
    assignLevel h level =
      (extentCoords (h.levelAt level).GridExtent).foldl
        (fun s c => assignSlot level s (c, (h.levelAt level).GetGridBlock c.1 c.2.1 c.2.2)) h := by
  unfold assignLevel
  simp only
  rw [zip_extentCoords_eq_map _ hwf, List.foldl_map]

theorem assignLevel_relabel {π : Nat → Nat → Nat} {h h' : vtkAMRDualGridHelper}
    (r : Relabel π h h') (level : Nat) :
    Relabel π (assignLevel h level) (assignLevel h' level) := by
  rw [assignLevel_eq h level (r.2.2.2.2.2.1 level).1,
    assignLevel_eq h' level (r.2.2.2.2.2.1 level).2.1, (r.2.2.2.2.2.1 level).2.2.1]
  have X := foldl_sim
    (fun (s s' : vtkAMRDualGridHelper) => Relabel π s s' ∧ SameShape h s)
    (fun s c => assignSlot level s (c, (h.levelAt level).GetGridBlock c.1 c.2.1 c.2.2))
    (fun s c => assignSlot level s (c, (h'.levelAt level).GetGridBlock c.1 c.2.1 c.2.2))
    (extentCoords (h.levelAt level).GridExtent)
  refine (X ?_ h h' ⟨r, SameShape.rfl_shape h⟩).1
  intro s s' c hs
  rw [r.2.2.2.2.2.2.1 level]
  unfold assignSlot
  simp only
  cases hg : (h.levelAt level).GetGridBlock c.1 c.2.1 c.2.2 with
  | none => exact hs
  | some b =>
    simp only [Option.map_some']
    have hb := r.2.2.2.2.2.2.2.1 level _ _ _ b hg
    exact ⟨AssignBlockSharedRegions_relabel hs.1 (level, b) level c.1 c.2.1 c.2.2
        (hs.2.valid_idx (level, b) hb),
      hs.2.then_shape (AssignBlockSharedRegions_shape s (level, b) level c.1 c.2.1 c.2.2)⟩

theorem AssignSharedRegions_relabel {π : Nat → Nat → Nat} {h h' : vtkAMRDualGridHelper}
    (r : Relabel π h h') : Relabel π h.AssignSharedRegions h'.AssignSharedRegions := by
  unfold vtkAMRDualGridHelper.AssignSharedRegions
  rw [r.1]
  have X := foldl_sim (fun (s s' : vtkAMRDualGridHelper) => Relabel π s s')
    assignLevel assignLevel (List.range h.Levels.length).reverse
  exact X (fun s s' n hs => assignLevel_relabel hs n) h h' r
/-! ## What two corresponding registries have in common -/

theorem Relabel.blockInSlot_eq {π : Nat → Nat → Nat} {h h' : vtkAMRDualGridHelper}
    (r : Relabel π h h') (n : Nat) (x y z : Int) :
    h'.blockInSlot n x y z = h.blockInSlot n x y z := by
  unfold vtkAMRDualGridHelper.blockInSlot
  rw [r.2.2.2.2.2.2.1 n]
  cases hg : (h.levelAt n).GetGridBlock x y z with
  | none => rfl
  | some i =>
    simp only [Option.map_some']
    rw [(r.2.2.2.2.2.2.2.2.1 n i (r.2.2.2.2.2.2.2.1 n x y z i hg)).2]

theorem Relabel.queueBlocks_eq {π : Nat → Nat → Nat} {h h' : vtkAMRDualGridHelper}
    (r : Relabel π h h') : h'.queueBlocks = h.queueBlocks := by
  unfold vtkAMRDualGridHelper.queueBlocks
  rw [r.2.2.2.2.2.2.2.2.2.2.1, List.map_map]
  apply List.map_congr_left
  intro e he
  obtain ⟨v1, v2⟩ := r.2.2.2.2.2.2.2.2.2.2.2 e he
  simp only [Function.comp, relabelRegion]
  rw [r.valid_ptr e.ReceivingBlock v1, r.valid_ptr e.SourceBlock v2]
  rfl

theorem Relabel.visitedSlots_eq {π : Nat → Nat → Nat} {h h' : vtkAMRDualGridHelper}
    (r : Relabel π h h') : h'.visitedSlots = h.visitedSlots := by
  unfold vtkAMRDualGridHelper.visitedSlots
  rw [r.1]
  congr 1
  funext n
  rw [(r.2.2.2.2.2.1 n).2.2.1]
  congr 2
  funext c
  rw [r.2.2.2.2.2.2.1 n]
  cases (h.levelAt n).GetGridBlock c.1 c.2.1 c.2.2 <;> rfl

/-! ## The order of the visit -/

theorem SameFrame.rfl_frame (h : vtkAMRDualGridHelper) : SameFrame h h :=
  ⟨rfl, fun _ => ⟨rfl, Iff.rfl, fun _ _ _ => rfl⟩⟩

theorem SameFrame.then_frame {h1 h2 h3 : vtkAMRDualGridHelper} (a : SameFrame h1 h2)
    (b : SameFrame h2 h3) : SameFrame h1 h3 :=
  ⟨b.1.trans a.1, fun n => ⟨(b.2 n).1.trans (a.2 n).1, (b.2 n).2.1.trans (a.2 n).2.1,
    fun x y z => ((b.2 n).2.2 x y z).trans ((a.2 n).2.2 x y z)⟩⟩

theorem SameFrame.of_modifyBlock_frame (h : vtkAMRDualGridHelper) (p : BlockPtr)
    (f : vtkAMRDualGridHelperBlock → vtkAMRDualGridHelperBlock) :
    SameFrame h (h.modifyBlock p f) :=
  ⟨length_modifyBlock h p f, fun n => ⟨(levelAt_modifyBlock_fields h p f n).1,
    GridWF_modifyBlock h p f n, fun x y z => GetGridBlock_modifyBlock h p f n x y z⟩⟩

theorem SameFrame.of_grids {h s : vtkAMRDualGridHelper} (a : SameGrids h s) :
    SameFrame h s := by
  refine ⟨a.1, fun n => ?_⟩
  obtain ⟨x1, x2, x3, x4, _, _⟩ := a.2.2.2.2.1 n
  refine ⟨x2, ?_, fun x y z => a.getGridBlock_eq n x y z⟩
  unfold vtkAMRDualGridHelperLevel.GridWF
  rw [x1, x2, x3, x4]

theorem ClaimBlockSharedRegion_frame (h : vtkAMRDualGridHelper) (block : BlockPtr)
    (bx by' bz rx ry rz : Int) :
    SameFrame h (h.ClaimBlockSharedRegion block bx by' bz rx ry rz).1 := by
  have h1 := SameFrame.of_grids (claimLevels_inv h block bx by' bz rx ry rz).1
  unfold vtkAMRDualGridHelper.ClaimBlockSharedRegion
  simp only
  split
  · split
    · split
      · exact h1.then_frame ⟨rfl, fun _ => ⟨rfl, Iff.rfl, fun _ _ _ => rfl⟩⟩
      · exact h1
    · refine h1.then_frame ?_
      rw [CopyDegenerateRegionBlockToBlock_eq]
      split
      · exact SameFrame.rfl_frame _
      · exact SameFrame.of_modifyBlock_frame _ _ _
  · exact h1

theorem assignRegion_frame (block : BlockPtr) (blockLevel bx by' bz : Int)
    (h : vtkAMRDualGridHelper) (reg : Int × Int × Int) :
    SameFrame h (assignRegion block blockLevel bx by' bz h reg) := by
  rw [assignRegion_entry]
  have c := ClaimBlockSharedRegion_frame h block bx by' bz reg.1 reg.2.1 reg.2.2
  split
  · split
    · exact c.then_frame (SameFrame.of_modifyBlock_frame _ _ _)
    · exact c
  · exact SameFrame.rfl_frame _

theorem AssignBlockSharedRegions_frame (h : vtkAMRDualGridHelper) (block : BlockPtr)
    (blockLevel bx by' bz : Int) :
    SameFrame h (h.AssignBlockSharedRegions block blockLevel bx by' bz) := by
  unfold vtkAMRDualGridHelper.AssignBlockSharedRegions
  apply foldl_invariant (fun s => SameFrame h s)
  · exact SameFrame.rfl_frame _
  · intro s reg _ hs
    exact hs.then_frame (assignRegion_frame block blockLevel bx by' bz s reg)

theorem visitSlot_frame (h : vtkAMRDualGridHelper) (v : Nat × (Int × Int × Int)) :
    SameFrame h (visitSlot h v) := by
  unfold visitSlot
  split
  · exact SameFrame.rfl_frame _
  · exact AssignBlockSharedRegions_frame _ _ _ _ _ _

theorem foldl_congr_inv {σ α : Type} (P : σ → Prop) (f g : σ → α → σ) (l : List α) (s : σ)
    (h0 : P s) (hstep : ∀ t a, P t → f t a = g t a ∧ P (f t a)) :
    l.foldl f s = l.foldl g s ∧ P (l.foldl f s) := by
  induction l generalizing s with
  | nil => exact ⟨rfl, h0⟩
  | cons a l ih =>
    rw [List.foldl_cons, List.foldl_cons, ← (hstep s a h0).1]
    exact ih _ (hstep s a h0).2

/-- One iteration of the loop over the levels of `AssignSharedRegions` visits
the slots of the level that hold a block, in the order of the grid. -/
theorem assignLevel_visits (h s : vtkAMRDualGridHelper) (n : Nat) (hf : SameFrame h s)
    (hwf : (h.levelAt n).GridWF) :
    assignLevel s n =
      (((extentCoords (h.levelAt n).GridExtent).filter fun c =>
        ((h.levelAt n).GetGridBlock c.1 c.2.1 c.2.2).isSome).map fun c => (n, c)).foldl
        visitSlot s ∧
      SameFrame h (assignLevel s n) := by
  rw [assignLevel_eq s n ((hf.2 n).2.1.2 hwf), (hf.2 n).1, List.foldl_map, foldl_filter_if]
  apply foldl_congr_inv (fun t => SameFrame h t)
  · exact hf
  · intro t c ht
    have e1 : (s.levelAt n).GetGridBlock c.1 c.2.1 c.2.2 =
        (h.levelAt n).GetGridBlock c.1 c.2.1 c.2.2 := (hf.2 n).2.2 _ _ _
    have e2 : (t.levelAt n).GetGridBlock c.1 c.2.1 c.2.2 =
        (h.levelAt n).GetGridBlock c.1 c.2.1 c.2.2 := (ht.2 n).2.2 _ _ _
    unfold assignSlot visitSlot
    simp only
    rw [e1, e2]
    cases hg : (h.levelAt n).GetGridBlock c.1 c.2.1 c.2.2 with
    | none => exact ⟨rfl, ht⟩
    | some b =>
      exact ⟨rfl, ht.then_frame (AssignBlockSharedRegions_frame t (n, b) n c.1 c.2.1 c.2.2)⟩

/-- `AssignSharedRegions` calls `AssignBlockSharedRegions` for the slots of
`visitedSlots`, in this order. -/
theorem AssignSharedRegions_visits (h : vtkAMRDualGridHelper)
    (hwf : ∀ n, (h.levelAt n).GridWF) :
    h.AssignSharedRegions = h.visitedSlots.foldl visitSlot h := by
  unfold vtkAMRDualGridHelper.AssignSharedRegions vtkAMRDualGridHelper.visitedSlots
  rw [foldl_flatMap_eq]
  refine (foldl_congr_inv (fun t => SameFrame h t) assignLevel _ _ h
    (SameFrame.rfl_frame h) ?_).1
  intro t n ht
  exact assignLevel_visits h t n ht (hwf n)
/-! ## Registries built from the same blocks -/

theorem AddGridBlock_extent (l : vtkAMRDualGridHelperLevel) (hwf : l.GridWF) (x y z : Int)
    (volume : Option vtkImageData) (localProcessId : Int) :
    (l.GridExtent.e1 ≤ (l.AddGridBlock x y z volume localProcessId).1.GridExtent.e1 ∧
      x ≤ (l.AddGridBlock x y z volume localProcessId).1.GridExtent.e1 ∧
      ((l.AddGridBlock x y z volume localProcessId).1.GridExtent.e1 = l.GridExtent.e1 ∨
        (l.AddGridBlock x y z volume localProcessId).1.GridExtent.e1 = x)) ∧
    (l.GridExtent.e3 ≤ (l.AddGridBlock x y z volume localProcessId).1.GridExtent.e3 ∧
      y ≤ (l.AddGridBlock x y z volume localProcessId).1.GridExtent.e3 ∧
      ((l.AddGridBlock x y z volume localProcessId).1.GridExtent.e3 = l.GridExtent.e3 ∨
        (l.AddGridBlock x y z volume localProcessId).1.GridExtent.e3 = y)) ∧
    (l.GridExtent.e5 ≤ (l.AddGridBlock x y z volume localProcessId).1.GridExtent.e5 ∧
      z ≤ (l.AddGridBlock x y z volume localProcessId).1.GridExtent.e5 ∧
      ((l.AddGridBlock x y z volume localProcessId).1.GridExtent.e5 = l.GridExtent.e5 ∨
        (l.AddGridBlock x y z volume localProcessId).1.GridExtent.e5 = z)) := by
  have h0 := hwf.1
  have h2 := hwf.2.1
  have h4 := hwf.2.2.1
  unfold vtkAMRDualGridHelperLevel.AddGridBlock
  simp only
  by_cases hc : l.Grid = none ∨ x < l.GridExtent.e0 ∨ x > l.GridExtent.e1 ∨
      y < l.GridExtent.e2 ∨ y > l.GridExtent.e3 ∨ z < l.GridExtent.e4 ∨ z > l.GridExtent.e5
  · rw [if_pos hc]
    unfold vtkAMRDualGridHelperLevel.grow
    simp only
    refine ⟨⟨?_, ?_, ?_⟩, ⟨?_, ?_, ?_⟩, ⟨?_, ?_, ?_⟩⟩ <;> split_ifs <;> omega
  · rw [if_neg hc]
    simp only
    refine ⟨⟨le_refl _, ?_, Or.inl trivial⟩, ⟨le_refl _, ?_, Or.inl trivial⟩,
      ⟨le_refl _, ?_, Or.inl trivial⟩⟩ <;> omega

theorem extentOf_snoc (e e' x : Int) (ks : List Int) (h : extentOf e ks)
    (h1 : e ≤ e') (h2 : x ≤ e') (h3 : e' = e ∨ e' = x) : extentOf e' (ks ++ [x]) := by
  obtain ⟨a, b, c⟩ := h
  refine ⟨?_, ?_, by omega⟩
  · intro k hk
    rcases List.mem_append.mp hk with hk | hk
    · exact le_trans (a k hk) h1
    · rw [List.mem_singleton] at hk
      omega
  · rcases h3 with h3 | h3
    · rcases b with b | b
      · left; omega
      · right; rw [h3]; exact List.mem_append_left _ b
    · right; rw [h3]; exact List.mem_append_right _ (List.mem_singleton_self _)

theorem extentOf_unique (e e' : Int) (ks ks' : List Int) (h : extentOf e ks)
    (h' : extentOf e' ks') (hm : ∀ k, k ∈ ks ↔ k ∈ ks') : e' = e := by
  obtain ⟨a, b, c⟩ := h
  obtain ⟨a', b', c'⟩ := h'
  have h1 : e ≤ e' := by
    rcases b with b | b
    · omega
    · exact a' e ((hm e).1 b)
  have h2 : e' ≤ e := by
    rcases b' with b' | b'
    · omega
    · exact a e' ((hm e').2 b')
  omega

theorem levelSpecs_append (L : List BlockSpec) (b : BlockSpec) (n : Nat) :
    levelSpecs (L ++ [b]) n = levelSpecs L n ++ (if b.level = n then [b] else []) := by
  unfold levelSpecs
  rw [List.filter_append]
  congr 1
  by_cases h : b.level = n
  · simp [h]
  · simp [h]

theorem levelKeys_append (L : List BlockSpec) (b : BlockSpec) (n : Nat) :
    levelKeys (L ++ [b]) n = levelKeys L n ++ (if b.level = n then [b.key] else []) := by
  unfold levelKeys
  rw [levelSpecs_append, List.map_append]
  congr 1
  split <;> rfl

theorem levelKeys_nodup (L : List BlockSpec)
    (hn : (L.map fun b => (b.level, b.key)).Nodup) (n : Nat) : (levelKeys L n).Nodup := by
  unfold levelKeys levelSpecs
  have h1 : ((L.filter fun b => decide (b.level = n)).map fun b => (b.level, b.key)).Nodup :=
    (List.Nodup.sublist (List.Sublist.map _ (List.filter_sublist L)) hn)
  have h2 : ((L.filter fun b => decide (b.level = n)).map fun b => (b.level, b.key)) =
      ((L.filter fun b => decide (b.level = n)).map BlockSpec.key).map fun k => (n, k) := by
    rw [List.map_map]
    apply List.map_congr_left
    intro b hb
    have := (List.mem_filter.mp hb).2
    simp only [decide_eq_true_eq] at this
    simp only [Function.comp, this]
  rw [h2] at h1
  exact List.Nodup.of_map _ h1

theorem BuiltFrom_init (numLevels : Nat) (dims : Int × Int × Int) :
    BuiltFrom numLevels dims [] (vtkAMRDualGridHelper.init numLevels dims) := by
  refine ⟨by simp [vtkAMRDualGridHelper.init], rfl, rfl, rfl, rfl, rfl, fun n => ?_⟩
  have hl := levelAt_init numLevels dims n
  have hcases : (vtkAMRDualGridHelper.init numLevels dims).levelAt n =
      vtkAMRDualGridHelperLevel.newAt (n : Int) ∨
      (vtkAMRDualGridHelper.init numLevels dims).levelAt n = vtkAMRDualGridHelperLevel.new := by
    rw [hl]
    split
    · exact Or.inl rfl
    · exact Or.inr rfl
  have hwf : ((vtkAMRDualGridHelper.init numLevels dims).levelAt n).GridWF := by
    rcases hcases with h | h
    · rw [h]; exact GridWF_new _
    · rw [h]; exact GridWF_new 0
  have hb : ((vtkAMRDualGridHelper.init numLevels dims).levelAt n).Blocks = [] := by
    rcases hcases with h | h <;> rw [h] <;> rfl
  have he : ((vtkAMRDualGridHelper.init numLevels dims).levelAt n).GridExtent =
      ⟨0, -1, 0, -1, 0, -1⟩ := by
    rcases hcases with h | h <;> rw [h] <;> rfl
  refine ⟨hwf, rfl, ?_, ?_, ?_, ?_, ?_⟩
  · rw [hb]; rfl
  · intro c
    have : levelKeys [] n = [] := rfl
    rw [this, if_neg (List.not_mem_nil _)]
    unfold vtkAMRDualGridHelperLevel.GetGridBlock
    rw [he]
    simp only
    by_cases h1 : c.1 < 0 ∨ c.1 > -1
    · rw [if_pos h1]
    · omega
  · rw [he]; exact ⟨by simp [levelKeys, levelSpecs], Or.inl rfl, le_refl _⟩
  · rw [he]; exact ⟨by simp [levelKeys, levelSpecs], Or.inl rfl, le_refl _⟩
  · rw [he]; exact ⟨by simp [levelKeys, levelSpecs], Or.inl rfl, le_refl _⟩

theorem indexIn_append_of_mem (c : Int × Int × Int) (l l' : List (Int × Int × Int))
    (h : c ∈ l) : indexIn c (l ++ l') = indexIn c l := by
  induction l with
  | nil => exact absurd h (List.not_mem_nil _)
  | cons k ks ih =>
    rw [List.cons_append, indexIn, indexIn]
    by_cases hk : k = c
    · rw [if_pos hk, if_pos hk]
    · rw [if_neg hk, if_neg hk, ih]
      rcases List.mem_cons.mp h with h | h
      · exact absurd h.symm hk
      · exact h

theorem indexIn_append_of_not_mem (c : Int × Int × Int) (l l' : List (Int × Int × Int))
    (h : c ∉ l) : indexIn c (l ++ l') = l.length + indexIn c l' := by
  induction l with
  | nil => simp
  | cons k ks ih =>
    rw [List.cons_append, indexIn]
    have hk : ¬ k = c := fun e => h (e ▸ List.mem_cons_self _ _)
    rw [if_neg hk, ih (fun hm => h (List.mem_cons_of_mem _ hm)), List.length_cons]
    omega

theorem indexIn_getElem? (c : Int × Int × Int) (l : List (Int × Int × Int)) (h : c ∈ l) :
    indexIn c l < l.length ∧ l[indexIn c l]? = some c := by
  induction l with
  | nil => exact absurd h (List.not_mem_nil _)
  | cons k ks ih =>
    rw [indexIn]
    by_cases hk : k = c
    · rw [if_pos hk, hk]
      exact ⟨by simp, by simp⟩
    · rw [if_neg hk]
      rcases List.mem_cons.mp h with h | h
      · exact absurd h.symm hk
      · obtain ⟨a, b⟩ := ih h
        exact ⟨by simp; omega, by simpa using b⟩

theorem indexIn_of_getElem? (l : List (Int × Int × Int)) (hn : l.Nodup) (i : Nat)
    (c : Int × Int × Int) (h : l[i]? = some c) : indexIn c l = i := by
  induction l generalizing i with
  | nil => simp at h
  | cons k ks ih =>
    rw [indexIn]
    cases i with
    | zero =>
      simp only [List.getElem?_cons_zero, Option.some.injEq] at h
      rw [if_pos h]
    | succ i =>
      simp only [List.getElem?_cons_succ] at h
      have hmem : c ∈ ks := List.getElem?_mem h
      have hk : ¬ k = c := by
        intro e
        rw [e] at hn
        exact (List.nodup_cons.mp hn).1 hmem
      rw [if_neg hk, ih (List.nodup_cons.mp hn).2 i h]

theorem modify_append_last {α : Type} (l : List α) (a : α) (f : α → α) :
    (l ++ [a]).modify f l.length = l ++ [f a] := by
  induction l with
  | nil => rfl
  | cons x t ih =>
    simp only [List.cons_append, List.length_cons, List.modify_succ_cons, ih]

theorem BuiltFrom_add (numLevels : Nat) (dims : Int × Int × Int) (L : List BlockSpec)
    (b : BlockSpec) (h : vtkAMRDualGridHelper) (hb : BuiltFrom numLevels dims L h)
    (hl : b.level < numLevels) (hx : 0 ≤ b.x) (hy : 0 ≤ b.y) (hz : 0 ≤ b.z)
    (hn : ((L ++ [b]).map fun s => (s.level, s.key)).Nodup) :
    BuiltFrom numLevels dims (L ++ [b])
      (h.addBlockAt b.level b.x b.y b.z b.volume b.processId b.originIndex) := by
  obtain ⟨b1, b2, b3, b4, b5, b6, b7⟩ := hb
  refine ⟨by rw [length_addBlockAt, b1], b2, b3, b4, b5, b6, fun n => ?_⟩
  obtain ⟨c1, c2, c3, c4, c5, c6, c7⟩ := b7 n
  rw [levelAt_addBlockAt h b.level (by rw [b1]; exact hl)]
  by_cases hln : b.level = n
  · subst hln
    rw [if_pos rfl, levelSpecs_append, levelKeys_append, if_pos rfl, if_pos rfl]
    obtain ⟨a1, a2, a3, a4, a5, a6⟩ := AddGridBlock_spec (h.levelAt b.level) c1 b.x b.y b.z
      b.volume b.processId hx hy hz
    obtain ⟨e1, e3, e5⟩ := AddGridBlock_extent (h.levelAt b.level) c1 b.x b.y b.z
      b.volume b.processId
    have hlen : (h.levelAt b.level).Blocks.length = (levelKeys L b.level).length := by
      rw [c3]
      simp [levelKeys]
    have hnod := levelKeys_nodup (L ++ [b]) hn b.level
    rw [levelKeys_append, if_pos rfl] at hnod
    have hnot : b.key ∉ levelKeys L b.level := by
      intro hm
      have := List.nodup_append.mp hnod
      exact this.2.2 hm (List.mem_singleton_self _)
    refine ⟨?_, ?_, ?_, ?_, ?_, ?_, ?_⟩
    · exact a1
    · exact a4.trans c2
    · simp only
      rw [a2, a3, modify_append_last, c3, List.map_append, c2]
      rfl
    · intro c
      have hg : ∀ x y z, vtkAMRDualGridHelperLevel.GetGridBlock
          { ((h.levelAt b.level).AddGridBlock b.x b.y b.z b.volume b.processId).1 with
            Blocks := ((h.levelAt b.level).AddGridBlock b.x b.y b.z b.volume
              b.processId).1.Blocks.modify
              (fun s => { s with ProcessId := b.processId, OriginIndex := b.originIndex })
              ((h.levelAt b.level).AddGridBlock b.x b.y b.z b.volume b.processId).2 } x y z =
          ((h.levelAt b.level).AddGridBlock b.x b.y b.z b.volume b.processId).1.GetGridBlock
            x y z := fun _ _ _ => rfl
      rw [hg]
      by_cases hc : c = b.key
      · subst hc
        have : (b.key.1, b.key.2.1, b.key.2.2) = (b.x, b.y, b.z) := rfl
        have e : ((h.levelAt b.level).AddGridBlock b.x b.y b.z b.volume
            b.processId).1.GetGridBlock b.key.1 b.key.2.1 b.key.2.2 =
            some (h.levelAt b.level).Blocks.length := a5
        rw [e, if_pos (List.mem_append_right _ (List.mem_singleton_self _)),
          indexIn_append_of_not_mem _ _ _ hnot, hlen]
        simp [indexIn]
      · have hne : (c.1, c.2.1, c.2.2) ≠ (b.x, b.y, b.z) := fun hh => hc hh
        rw [a6 c.1 c.2.1 c.2.2 hne, c4 c]
        by_cases hm : c ∈ levelKeys L b.level
        · rw [if_pos hm, if_pos (List.mem_append_left _ hm), indexIn_append_of_mem _ _ _ hm]
        · rw [if_neg hm, if_neg]
          intro hh
          rcases List.mem_append.mp hh with hh | hh
          · exact hm hh
          · exact hc (List.mem_singleton.mp hh)
    · rw [List.map_append]
      exact extentOf_snoc _ _ _ _ c5 e1.1 e1.2.1 e1.2.2
    · rw [List.map_append]
      exact extentOf_snoc _ _ _ _ c6 e3.1 e3.2.1 e3.2.2
    · rw [List.map_append]
      exact extentOf_snoc _ _ _ _ c7 e5.1 e5.2.1 e5.2.2
  · rw [if_neg hln, levelSpecs_append, levelKeys_append, if_neg hln, if_neg hln,
      List.append_nil, List.append_nil]
    exact ⟨c1, c2, c3, c4, c5, c6, c7⟩

theorem buildRegistry_built (numLevels : Nat) (dims : Int × Int × Int) (L : List BlockSpec)
    (hv : ∀ b ∈ L, b.level < numLevels ∧ 0 ≤ b.x ∧ 0 ≤ b.y ∧ 0 ≤ b.z)
    (hn : (L.map fun s => (s.level, s.key)).Nodup) :
    BuiltFrom numLevels dims L (buildRegistry numLevels dims L) := by
  induction L using List.reverseRecOn with
  | nil => exact BuiltFrom_init numLevels dims
  | append_singleton L b ih =>
    have hb := hv b (List.mem_append_right _ (List.mem_singleton_self _))
    have hL : (L.map fun s => (s.level, s.key)).Nodup := by
      rw [List.map_append] at hn
      exact (List.nodup_append.mp hn).1
    have := ih (fun s hs => hv s (List.mem_append_left _ hs)) hL
    unfold buildRegistry at this ⊢
    rw [List.foldl_append, List.foldl_cons, List.foldl_nil]
    exact BuiltFrom_add numLevels dims L b _ this hb.1 hb.2.1 hb.2.2.1 hb.2.2.2 hn

theorem positionMap_of_getElem? (L1 L2 : List BlockSpec) (n i : Nat) (k : Int × Int × Int)
    (h : (levelKeys L1 n)[i]? = some k) :
    positionMap L1 L2 n i = indexIn k (levelKeys L2 n) := by
  unfold positionMap
  rw [h]

theorem blockAt_of_built (numLevels : Nat) (dims : Int × Int × Int) (L : List BlockSpec)
    (h : vtkAMRDualGridHelper) (hb : BuiltFrom numLevels dims L h) (n i : Nat) (s : BlockSpec)
    (hs : (levelSpecs L n)[i]? = some s) :
    h.blockAt (n, i) =
      s.toBlock ((vtkAMRDualGridHelper.init numLevels dims).levelAt n).Level := by
  unfold vtkAMRDualGridHelper.blockAt
  simp only
  rw [(hb.2.2.2.2.2.2 n).2.2.1, List.getD_eq_getElem?_getD, List.getElem?_map, hs]
  rfl

/-- Two registries built from the same blocks in a different order hold the
same blocks at the positions that `positionMap` relates. -/
theorem Relabel_of_built (numLevels : Nat) (dims : Int × Int × Int) (L1 L2 : List BlockSpec)
    (h1 h2 : vtkAMRDualGridHelper) (b1 : BuiltFrom numLevels dims L1 h1)
    (b2 : BuiltFrom numLevels dims L2 h2) (hp : L1.Perm L2)
    (hn : (L1.map fun s => (s.level, s.key)).Nodup) :
    Relabel (positionMap L1 L2) h1 h2 := by
  have hn2 : (L2.map fun s => (s.level, s.key)).Nodup :=
    (List.Perm.nodup_iff (hp.map _)).1 hn
  have hS : ∀ n, (levelSpecs L1 n).Perm (levelSpecs L2 n) := fun n => hp.filter _
  have hK : ∀ n, (levelKeys L1 n).Perm (levelKeys L2 n) := fun n => (hS n).map _
  have hN1 := levelKeys_nodup L1 hn
  have hN2 := levelKeys_nodup L2 hn2
  have hlen1 : ∀ n, (h1.levelAt n).Blocks.length = (levelKeys L1 n).length := by
    intro n
    rw [(b1.2.2.2.2.2.2 n).2.2.1]
    simp [levelKeys]
  have hlen2 : ∀ n, (h2.levelAt n).Blocks.length = (levelKeys L2 n).length := by
    intro n
    rw [(b2.2.2.2.2.2.2 n).2.2.1]
    simp [levelKeys]
  have hkey : ∀ (L : List BlockSpec) (n i : Nat) (k : Int × Int × Int),
      (levelKeys L n)[i]? = some k → ∃ s, (levelSpecs L n)[i]? = some s ∧ s.key = k := by
    intro L n i k h
    unfold levelKeys at h
    rw [List.getElem?_map] at h
    cases hs : (levelSpecs L n)[i]? with
    | none => rw [hs] at h; simp at h
    | some s =>
      rw [hs] at h
      simp only [Option.map_some', Option.some.injEq] at h
      exact ⟨s, rfl, h⟩
  refine ⟨b2.1.trans b1.1.symm, b2.2.1.trans b1.2.1.symm, b2.2.2.1.trans b1.2.2.1.symm,
    b2.2.2.2.1.trans b1.2.2.2.1.symm, b2.2.2.2.2.1.trans b1.2.2.2.2.1.symm, ?_, ?_, ?_, ?_, ?_,
    ?_, ?_⟩
  · intro n
    obtain ⟨c1, c2, _, _, c5, c6, c7⟩ := b1.2.2.2.2.2.2 n
    obtain ⟨d1, d2, _, _, d5, d6, d7⟩ := b2.2.2.2.2.2.2 n
    refine ⟨c1, d1, ?_, ?_, d2.trans c2.symm⟩
    · have m1 := extentOf_unique _ _ _ _ c5 d5 (fun k => ((hK n).map _).mem_iff)
      have m3 := extentOf_unique _ _ _ _ c6 d6 (fun k => ((hK n).map _).mem_iff)
      have m5 := extentOf_unique _ _ _ _ c7 d7 (fun k => ((hK n).map _).mem_iff)
      have p0 := c1.1
      have p2 := c1.2.1
      have p4 := c1.2.2.1
      have q0 := d1.1
      have q2 := d1.2.1
      have q4 := d1.2.2.1
      cases e1 : (h1.levelAt n).GridExtent
      cases e2 : (h2.levelAt n).GridExtent
      rw [e1] at m1 m3 m5 p0 p2 p4
      rw [e2] at m1 m3 m5 q0 q2 q4
      simp only at m1 m3 m5 p0 p2 p4 q0 q2 q4
      rw [m1, m3, m5, p0, p2, p4, q0, q2, q4]
    · rw [hlen1, hlen2, (hK n).length_eq]
  · intro n x y z
    rw [(b2.2.2.2.2.2.2 n).2.2.2.1 (x, y, z), (b1.2.2.2.2.2.2 n).2.2.2.1 (x, y, z)]
    by_cases hm : (x, y, z) ∈ levelKeys L1 n
    · rw [if_pos hm, if_pos ((hK n).mem_iff.1 hm)]
      simp only [Option.map_some']
      rw [positionMap_of_getElem? L1 L2 n _ _ (indexIn_getElem? _ _ hm).2]
    · rw [if_neg hm, if_neg (fun hh => hm ((hK n).mem_iff.2 hh))]
      rfl
  · intro n x y z i hi
    rw [(b1.2.2.2.2.2.2 n).2.2.2.1 (x, y, z)] at hi
    by_cases hm : (x, y, z) ∈ levelKeys L1 n
    · rw [if_pos hm] at hi
      rw [hlen1, ← Option.some.inj hi]
      exact (indexIn_getElem? _ _ hm).1
    · rw [if_neg hm] at hi
      exact absurd hi (by simp)
  · intro n i hi
    rw [hlen1] at hi ⊢
    have hk : (levelKeys L1 n)[i]? = some ((levelKeys L1 n)[i]) := List.getElem?_eq_getElem hi
    have hmem2 : (levelKeys L1 n)[i] ∈ levelKeys L2 n :=
      (hK n).mem_iff.1 (List.getElem_mem hi)
    obtain ⟨j1, j2⟩ := indexIn_getElem? _ _ hmem2
    rw [positionMap_of_getElem? L1 L2 n i _ hk]
    refine ⟨by rw [(hK n).length_eq]; exact j1, ?_⟩
    obtain ⟨s1, hs1, hk1⟩ := hkey L1 n i _ hk
    obtain ⟨s2, hs2, hk2⟩ := hkey L2 n _ _ j2
    have hs1m : s1 ∈ levelSpecs L2 n := (hS n).mem_iff.1 (List.getElem?_mem hs1)
    have hs2m : s2 ∈ levelSpecs L2 n := List.getElem?_mem hs2
    have hinj := List.inj_on_of_nodup_map (hN2 n) hs2m hs1m (hk2.trans hk1.symm)
    rw [blockAt_of_built numLevels dims L2 h2 b2 n _ s2 hs2,
      blockAt_of_built numLevels dims L1 h1 b1 n i s1 hs1, hinj]
  · intro n i j hi hj e
    rw [hlen1] at hi hj
    have hki : (levelKeys L1 n)[i]? = some ((levelKeys L1 n)[i]) := List.getElem?_eq_getElem hi
    have hkj : (levelKeys L1 n)[j]? = some ((levelKeys L1 n)[j]) := List.getElem?_eq_getElem hj
    rw [positionMap_of_getElem? L1 L2 n i _ hki, positionMap_of_getElem? L1 L2 n j _ hkj] at e
    have mi := (indexIn_getElem? _ _ ((hK n).mem_iff.1 (List.getElem_mem hi))).2
    have mj := (indexIn_getElem? _ _ ((hK n).mem_iff.1 (List.getElem_mem hj))).2
    rw [e, mj] at mi
    have hkk : (levelKeys L1 n)[j] = (levelKeys L1 n)[i] := Option.some.inj mi
    rw [← indexIn_of_getElem? _ (hN1 n) i _ hki, ← indexIn_of_getElem? _ (hN1 n) j _ hkj, hkk]
  · rw [b2.2.2.2.2.2.1, b1.2.2.2.2.2.1]
    rfl
  · intro e he
    rw [b1.2.2.2.2.2.1] at he
    exact absurd he (List.not_mem_nil _)
/-! ## Insertion-order independence -/

/-- C27. Two registries built from the same blocks (distinct, non-negative
grid indices per level) added in different orders: each level has the same
`GridExtent` and the same block, with all its fields, in every grid slot;
`AssignSharedRegions` calls `AssignBlockSharedRegions` for the slots of
`visitedSlots` in the order of that list (the levels from the highest down
to 0, in a level the coordinates with z outermost and x innermost), which is
the same list for both; and after `AssignSharedRegions` every block of the
first registry is equal, `RegionBits` and `BoundaryBits` included, to the block
of the second at the position `positionMap` gives, every grid slot holds the
same block in both, and the two queues hold the same entries in the same
order, each entry naming its two blocks by level and `GridIndex`. -/
theorem C27_insertion_order_independent (numLevels : Nat) (dims : Int × Int × Int)
    (blocks1 blocks2 : List BlockSpec) (hp : blocks1.Perm blocks2)
    (hv : ∀ b ∈ blocks1, b.level < numLevels ∧ 0 ≤ b.x ∧ 0 ≤ b.y ∧ 0 ≤ b.z)
    (hn : (blocks1.map fun s => (s.level, s.key)).Nodup) :
    (∀ n, ((buildRegistry numLevels dims blocks2).levelAt n).GridExtent =
      ((buildRegistry numLevels dims blocks1).levelAt n).GridExtent) ∧
    (∀ n x y z, (buildRegistry numLevels dims blocks2).blockInSlot n x y z =
      (buildRegistry numLevels dims blocks1).blockInSlot n x y z) ∧
    (buildRegistry numLevels dims blocks2).visitedSlots =
      (buildRegistry numLevels dims blocks1).visitedSlots ∧
    (buildRegistry numLevels dims blocks1).AssignSharedRegions =
      (buildRegistry numLevels dims blocks1).visitedSlots.foldl visitSlot
        (buildRegistry numLevels dims blocks1) ∧
    (buildRegistry numLevels dims blocks2).AssignSharedRegions =
      (buildRegistry numLevels dims blocks2).visitedSlots.foldl visitSlot
        (buildRegistry numLevels dims blocks2) ∧
    (∀ n i, i < ((buildRegistry numLevels dims blocks1).levelAt n).Blocks.length →
      (buildRegistry numLevels dims blocks2).AssignSharedRegions.blockAt
          (n, positionMap blocks1 blocks2 n i) =
        (buildRegistry numLevels dims blocks1).AssignSharedRegions.blockAt (n, i)) ∧
    (∀ n x y z, (buildRegistry numLevels dims blocks2).AssignSharedRegions.blockInSlot n x y z =
      (buildRegistry numLevels dims blocks1).AssignSharedRegions.blockInSlot n x y z) ∧
    (buildRegistry numLevels dims blocks2).AssignSharedRegions.queueBlocks =
      (buildRegistry numLevels dims blocks1).AssignSharedRegions.queueBlocks := by
  have hv2 : ∀ b ∈ blocks2, b.level < numLevels ∧ 0 ≤ b.x ∧ 0 ≤ b.y ∧ 0 ≤ b.z :=
    fun b hb => hv b (hp.mem_iff.2 hb)
  have hn2 : (blocks2.map fun s => (s.level, s.key)).Nodup :=
    (List.Perm.nodup_iff (hp.map _)).1 hn
  have b1 := buildRegistry_built numLevels dims blocks1 hv hn
  have b2 := buildRegistry_built numLevels dims blocks2 hv2 hn2
  have r := Relabel_of_built numLevels dims blocks1 blocks2 _ _ b1 b2 hp hn
  have r' := AssignSharedRegions_relabel r
  have hshape : ∀ n, ((buildRegistry numLevels dims blocks1).AssignSharedRegions.levelAt
      n).Blocks.length = ((buildRegistry numLevels dims blocks1).levelAt n).Blocks.length := by
    intro n
    have hs : SameShape (buildRegistry numLevels dims blocks1)
        (buildRegistry numLevels dims blocks1).AssignSharedRegions := by
      unfold vtkAMRDualGridHelper.AssignSharedRegions
      apply foldl_invariant (fun s => SameShape (buildRegistry numLevels dims blocks1) s)
      · exact SameShape.rfl_shape _
      · intro s lvl _ hs
        refine hs.then_shape ?_
        unfold assignLevel
        simp only
        apply foldl_invariant (fun t => SameShape s t)
        · exact SameShape.rfl_shape _
        · intro t p _ ht
          refine ht.then_shape ?_
          unfold assignSlot
          split
          · exact SameShape.rfl_shape _
          · exact AssignBlockSharedRegions_shape _ _ _ _ _ _
    exact hs.2.1 n
  refine ⟨fun n => (r.2.2.2.2.2.1 n).2.2.1, r.blockInSlot_eq, r.visitedSlots_eq,
    AssignSharedRegions_visits _ (fun n => (b1.2.2.2.2.2.2 n).1),
    AssignSharedRegions_visits _ (fun n => (b2.2.2.2.2.2.2 n).1), ?_, r'.blockInSlot_eq,
    r'.queueBlocks_eq⟩
  intro n i hi
  rw [← hshape n] at hi
  exact (r'.2.2.2.2.2.2.2.2.1 n i hi).2

/-- C27 on `orderBlocks` and `orderBlocksPermuted`, a coarse block and two
fine blocks added in two orders: after `AssignSharedRegions` the two
registries have the same queue, fifteen entries that name their blocks by
level and grid index (nine for the fine block at (2,0,0) followed by six for
the one at (2,1,0)), and the same block in the slot (2,1,0) of level 1; the
slots are visited in the order (2,0,0), (2,1,0) of level 1, then (0,0,0) of
level 0. -/
theorem C27_insertion_order_independent_witness :
    (buildRegistry 2 (2, 2, 2) orderBlocksPermuted).AssignSharedRegions.queueBlocks =
      (buildRegistry 2 (2, 2, 2) orderBlocks).AssignSharedRegions.queueBlocks ∧
    (buildRegistry 2 (2, 2, 2) orderBlocksPermuted).AssignSharedRegions.blockInSlot 1 2 1 0 =
      (buildRegistry 2 (2, 2, 2) orderBlocks).AssignSharedRegions.blockInSlot 1 2 1 0 ∧
    (buildRegistry 2 (2, 2, 2) orderBlocks).AssignSharedRegions.queueBlocks.length = 15 ∧
    (buildRegistry 2 (2, 2, 2) orderBlocks).visitedSlots =
      [(1, (2, 0, 0)), (1, (2, 1, 0)), (0, (0, 0, 0))] := by
  have hp : orderBlocks.Perm orderBlocksPermuted := by decide!
  have h := C27_insertion_order_independent 2 (2, 2, 2) orderBlocks orderBlocksPermuted hp
    (by decide!) (by decide!)
  exact ⟨h.2.2.2.2.2.2.2, h.2.2.2.2.2.2.1 1 2 1 0, by decide!, by decide!⟩
